import Mathlib

/-!
# GUI-Creator editor window: snapping engine, transform calculators, handlers

A shallow embedding of `src/src/editor_window.cpp`: the geometry code
(`EditorWindow::snapXCoord`, `snapYCoord`, `getGridSpacing`, `calcTranslation`,
`calcScale`, `selectGameObjects` and the `STATE_MOVE`, `STATE_RESIZE`,
`STATE_ROTATE` branches of `mouseMoveEvent`), the mouse handlers
(`mousePressEvent`, `mouseMoveEvent`, `mouseReleaseEvent`, `wheelEvent`), the
camera (`setZoom`, `worldToWindow`, `windowToWorld`), the selection commands
(`selectAll`, `deselectAll`, `paste`, `clear`, `cut`,
`canDeleteSelectedObjects`) and the depth-order commands (`bringToFront`,
`sendToBack`, `moveUp`, `moveDown`).

Modelling conventions.

* `qreal` is an arbitrary linearly ordered field `α` with a floor function, and
  the definitions that carry the names of the source compute in it exactly.  All
  of them are computable and can be evaluated at `α = ℚ`; statements about
  `qAcos`, `qCos`, `qSin` are made at `α = ℝ`.
* The roundings of `double`, and of the `float` components of `QVector2D`, are
  modelled where a claim depends on them, by the definitions whose names end in
  `Fl` (`worldToWindowFl`, `windowToWorldFl`, `setZoomFl`, `floorScaleFl`,
  `calcTranslationFl`): the rounding of the result of an operation is a
  parameter (with the identity the camera functions and the floor are the exact
  definitions), and `binary64` and `binary32` round to the nearest number with
  53 and 24 significant bits, ties to even.  Overflow and subnormal numbers are not modelled: the bounds are
  proved under the hypothesis `Accurate` that a rounding has a relative error of
  at most the unit roundoff.
* `int` is `Int`; the `int` products of the grid code (`getGridSpacing`, the grid
  rounding) wrap around modulo 2^32 (`wrapInt`), and `qFloor` converts to the
  range of `int`.
* The C library functions used by the source are collected in `Libm`; `qPow` is
  a parameter of `wheelEvent`.
* By-reference output parameters become components of the returned value.
* Code the sources call but do not contain (`Utils`, `Scene`, `Layer`,
  `GameObject`, `Options`, `Project`) is either a parameter or a definition
  marked `Modelled from the spec`.
* A handler that emits `sceneChanged` returns the emitted command names next to
  the new editor value; other signals and the mouse cursor are not modelled.
* Division is the total division of the field, so a division by zero is not
  visible in the model.
-/

namespace GuiCreator

/-! ## Qt value types -/

/-- Integer window point, `QPoint`. -/
structure QPoint where
  x : Int
  y : Int
deriving DecidableEq, Repr

/-- Point with `qreal` coordinates, `QPointF`. -/
structure QPointF (α : Type) where
  x : α
  y : α
deriving DecidableEq, Repr

/-- Size with `qreal` extents, `QSizeF`. -/
structure QSizeF (α : Type) where
  width : α
  height : α
deriving DecidableEq, Repr

/-- Two-dimensional vector, `QVector2D`. -/
structure QVector2D (α : Type) where
  x : α
  y : α
deriving DecidableEq, Repr

/-- Line segment, `QLineF`. -/
structure QLineF (α : Type) where
  x1 : α
  y1 : α
  x2 : α
  y2 : α
deriving DecidableEq, Repr

/-- Rectangle stored as origin and extent, `QRectF`. -/
structure QRectF (α : Type) where
  xp : α
  yp : α
  w : α
  h : α
deriving DecidableEq, Repr

/-- The numeric environment of the editor: the constants `Utils::PI` and
`Utils::EPS`, whose values are not among the sources, and the library functions
`qSqrt`, `qAcos` (with `none` for a NaN result), `qCos` and `qSin`. -/
structure Libm (α : Type) where
  PI : α
  EPS : α
  sqrt : α → α
  acos : α → Option α
  cos : α → α
  sin : α → α

section Generic

variable {α : Type} [LinearOrderedField α] [FloorRing α]

namespace QPointF

/-- Sum of points, `operator+`. -/
def add (p q : QPointF α) : QPointF α := ⟨p.x + q.x, p.y + q.y⟩

/-- Difference of points, `operator-`. -/
def sub (p q : QPointF α) : QPointF α := ⟨p.x - q.x, p.y - q.y⟩

/-- Division of a point by a scalar, `operator/`. -/
def divScalar (p : QPointF α) (c : α) : QPointF α := ⟨p.x / c, p.y / c⟩

end QPointF

namespace QLineF

/-- The default-constructed line `QLineF()`. -/
def null : QLineF α := ⟨0, 0, 0, 0⟩

end QLineF

namespace QVector2D

/-- Conversion `QVector2D(const QPointF &)`. -/
def ofPoint (p : QPointF α) : QVector2D α := ⟨p.x, p.y⟩

/-- Method `QVector2D::normalized`: the zero vector stays zero.  Qt tests the
squared length against zero and one with a tolerance; here the tests are exact. -/
def normalized (m : Libm α) (v : QVector2D α) : QVector2D α :=
  let len := v.x * v.x + v.y * v.y
  if len = 0 then ⟨0, 0⟩ else ⟨v.x / m.sqrt len, v.y / m.sqrt len⟩

/-- Function `QVector2D::dotProduct`. -/
def dotProduct (u v : QVector2D α) : α := u.x * v.x + u.y * v.y

/-- Scalar multiple `factor * vector`. -/
def smul (c : α) (v : QVector2D α) : QVector2D α := ⟨c * v.x, c * v.y⟩

/-- Method `QVector2D::toPointF`. -/
def toPointF (v : QVector2D α) : QPointF α := ⟨v.x, v.y⟩

end QVector2D

namespace QRectF

/-- Left edge. -/
def left (r : QRectF α) : α := r.xp

/-- Top edge. -/
def top (r : QRectF α) : α := r.yp

/-- Right edge. -/
def right (r : QRectF α) : α := r.xp + r.w

/-- Bottom edge. -/
def bottom (r : QRectF α) : α := r.yp + r.h

/-- Width. -/
def width (r : QRectF α) : α := r.w

/-- Height. -/
def height (r : QRectF α) : α := r.h

/-- Center point. -/
def center (r : QRectF α) : QPointF α := ⟨r.xp + r.w / 2, r.yp + r.h / 2⟩

/-- Top-left corner. -/
def topLeft (r : QRectF α) : QPointF α := ⟨r.xp, r.yp⟩

/-- Top-right corner. -/
def topRight (r : QRectF α) : QPointF α := ⟨r.xp + r.w, r.yp⟩

/-- Bottom-left corner. -/
def bottomLeft (r : QRectF α) : QPointF α := ⟨r.xp, r.yp + r.h⟩

/-- Bottom-right corner. -/
def bottomRight (r : QRectF α) : QPointF α := ⟨r.xp + r.w, r.yp + r.h⟩

/-- Method `QRectF::translated`. -/
def translated (r : QRectF α) (p : QPointF α) : QRectF α := ⟨r.xp + p.x, r.yp + p.y, r.w, r.h⟩

/-- Method `QRectF::isNull`: both extents are zero. -/
def isNull (r : QRectF α) : Bool := decide (r.w = 0) && decide (r.h = 0)

/-- Bounding rectangle of two rectangles, `QRectF::operator|`. -/
def united (a b : QRectF α) : QRectF α :=
  if a.isNull then b
  else if b.isNull then a
  else
    let l0 := if a.w < 0 then a.xp + a.w else a.xp
    let r0 := if a.w < 0 then a.xp else a.xp + a.w
    let l := if b.w < 0 then min l0 (b.xp + b.w) else min l0 b.xp
    let r := if b.w < 0 then max r0 b.xp else max r0 (b.xp + b.w)
    let t0 := if a.h < 0 then a.yp + a.h else a.yp
    let b0 := if a.h < 0 then a.yp else a.yp + a.h
    let t := if b.h < 0 then min t0 (b.yp + b.h) else min t0 b.yp
    let bt := if b.h < 0 then max b0 b.yp else max b0 (b.yp + b.h)
    ⟨l, t, r - l, bt - t⟩

end QRectF

/-! ## Utils -/

namespace Utils

/-- Modelled from the spec: `Utils::sign` is declared in `utils.h` ("returns the
value of the function y = sign(x)") but its body is not among the sources. -/
def sign (x : α) : α := if 0 < x then 1 else if x < 0 then -1 else 0

/-- Modelled from the spec: `Utils::isEqual` ("comparison of fractional numbers
with the required precision") is declared in `utils.h` only; the two values are
equal when they differ by less than `eps`. -/
def isEqual (value1 value2 eps : α) : Bool := decide (|value1 - value2| < eps)

/-- Modelled from the spec: `Utils::round` ("rounds the coordinates of a point")
is declared in `utils.h` only; each coordinate goes to the nearest integer. -/
def round (pt : QPointF α) : QPointF α :=
  ⟨((⌊pt.x + 1 / 2⌋ : Int) : α), ((⌊pt.y + 1 / 2⌋ : Int) : α)⟩

/-- Modelled from the spec: `Utils::isNull` ("checks that all coordinates of the
line are zero") is declared in `utils.h` only. -/
def isNull (line : QLineF α) : Bool :=
  decide (line.x1 = 0) && decide (line.y1 = 0) && decide (line.x2 = 0) && decide (line.y2 = 0)

end Utils

/-! ## Editor state -/

/-- The option flags read through `Options::getSingleton()`. -/
structure Options where
  snapToGuides : Bool
  enableSmartGuides : Bool
  snapToGrid : Bool
  snapToVisibleLines : Bool
  gridSpacing : Int
deriving DecidableEq, Repr

/-- A scene object as the editor sees it through its getters; `ident` stands for
the pointer identity and `boundingRect` for the value of `getBoundingRect()`. -/
structure GameObject (α : Type) where
  ident : Nat
  position : QPointF α
  size : QSizeF α
  angle : α
  rotationCenter : QPointF α
  boundingRect : QRectF α

/-- The in/out triple of a snapping query: snapped coordinate, snap distance and
snap line. -/
structure Snap (α : Type) where
  coord : α
  distance : α
  line : QLineF α

/-- Constants of `editor_window.h`. -/
def MIN_GRID_SPACING : Int := 10

/-- Multiplier of the dynamic grid step. -/
def GRID_SPACING_COEFF : Int := 4

/-- Snap distance in pixels. -/
def SNAP_DISTANCE : Int := 4

/-- Selection markers, `enum SelectionMarker`. -/
inductive SelectionMarker where
  | MARKER_NONE
  | MARKER_TOP_LEFT
  | MARKER_CENTER_LEFT
  | MARKER_BOTTOM_LEFT
  | MARKER_BOTTOM_CENTER
  | MARKER_BOTTOM_RIGHT
  | MARKER_CENTER_RIGHT
  | MARKER_TOP_RIGHT
  | MARKER_TOP_CENTER
deriving DecidableEq, Repr

/-- Interaction states, `enum EditorState`. -/
inductive EditorState where
  | STATE_IDLE
  | STATE_SELECT
  | STATE_MOVE
  | STATE_RESIZE
  | STATE_ROTATE
  | STATE_MOVE_CENTER
  | STATE_HORZ_GUIDE
  | STATE_VERT_GUIDE
deriving DecidableEq, Repr

/-- Mouse buttons, `Qt::MouseButton`. -/
inductive MouseButton where
  | NoButton
  | LeftButton
  | RightButton
  | MidButton
deriving DecidableEq, Repr

/-- What the handlers read from a `QMouseEvent`: the window position, the button
that caused the event, the tests `buttons() & Qt::LeftButton` and
`buttons() & Qt::RightButton`, and the tests of `modifiers()` against
`Qt::ControlModifier` and `Qt::ShiftModifier`. -/
structure QMouseEvent where
  pos : QPoint
  button : MouseButton
  leftDown : Bool
  rightDown : Bool
  control : Bool
  shift : Bool
deriving DecidableEq, Repr

/-- What `wheelEvent` reads from a `QWheelEvent`: the window position, the wheel
rotation `delta()`, the test `orientation() == Qt::Horizontal`, and the tests of
`modifiers()` against `Qt::AltModifier` and `Qt::ControlModifier`. -/
structure QWheelEvent where
  pos : QPoint
  delta : Int
  horizontal : Bool
  alt : Bool
  control : Bool
deriving DecidableEq, Repr

/-- The undo-command names passed to `sceneChanged`, in the order of their first
use in `editor_window.cpp`: cut, paste, delete, bring to front, send to back,
move up, move down, move objects, resize objects, rotate objects, move the
rotation center, create a guide, move a guide, delete a guide. -/
inductive Command where
  | cutObjects
  | pasteObjects
  | deleteObjects
  | bringToFront
  | sendToBack
  | moveUp
  | moveDown
  | moveObjects
  | resizeObjects
  | rotateObjects
  | moveCenter
  | createGuide
  | moveGuide
  | deleteGuide
deriving DecidableEq, Repr

/-- The fields of `EditorWindow` used by the geometry code and by the event
handlers, together with the collaborators it queries: the option flags, the
guides of the scene, and the smart-guide queries `BaseLayer::snapXCoord` and
`BaseLayer::snapYCoord` of the root layer, which update the triple passed to
them by reference.

The second group of fields is the rest of the environment.  `showGuides` is
`Options::isShowGuides()`, `width` and `height` the widget size,
`defaultLanguage` the test of the current language of the project against its
default language, `isSizeLocked` the test `Sprite::isSizeLocked` (false for an
object that is not a sprite) and `isLocalized` the test
`GameObject::isLocalized`, both by object identity.  The layer tree is
`children` (for every layer, the identities of its objects in child order) and
`parentLayer` (`GameObject::getParentLayer`).  The queries of the scene whose
code is not among the sources are parameters: `sortGameObjects` (the depth sort
of the root layer, which reads the current child lists), the hit tests
`findGameObjectByPoint` and `findGameObjectsByRect`, and
`findUsedGameObjects`. -/
structure EditorWindow (α : Type) where
  options : Options
  horzGuides : List α
  vertGuides : List α
  layerSnapX : α → α → α → List Nat → Snap α → Snap α
  layerSnapY : α → α → α → List Nat → Snap α → Snap α
  mZoom : α
  mFirstPos : QPoint
  mLastPos : QPoint
  mSelectedObjects : List (GameObject α)
  mOriginalPositions : List (QPointF α)
  mOriginalSizes : List (QSizeF α)
  mOriginalAngles : List α
  mKeepProportions : Bool
  mSelectionMarker : SelectionMarker
  mOriginalRect : QRectF α
  mSnappedRect : QRectF α
  mOriginalCenter : QPointF α
  mSnappedCenter : QPointF α
  mHorzSnapLine : QLineF α
  mVertSnapLine : QLineF α
  showGuides : Bool
  width : Int
  height : Int
  defaultLanguage : Bool
  isSizeLocked : Nat → Bool
  isLocalized : Nat → Bool
  children : Nat → List Nat
  parentLayer : Nat → Nat
  sortGameObjects : (Nat → List Nat) → List (GameObject α) → List (GameObject α)
  findGameObjectByPoint : QPointF α → Option (GameObject α)
  findGameObjectsByRect : QRectF α → List (GameObject α)
  findUsedGameObjects : List Nat → List Nat
  mUntitled : Bool
  mEditorState : EditorState
  mEditEnabled : Bool
  mMoveEnabled : Bool
  mResizeEnabled : Bool
  mRotationEnabled : Bool
  mMoveCenterEnabled : Bool
  mCameraPos : QPointF α
  mSelectionRect : QRectF α
  mRotationVector : QVector2D α
  mGuideIndex : Int

/-- The editor as its constructor leaves it (zoom `1.0`, nothing selected, idle,
untitled, every edit action allowed), over an empty scene without guides whose
root layer offers no smart-guide candidate, with rulers and guides hidden, in
an 800 x 600 widget. -/
def EditorWindow.init (options : Options) : EditorWindow α where
  options := options
  horzGuides := []
  vertGuides := []
  layerSnapX := fun _ _ _ _ s => s
  layerSnapY := fun _ _ _ _ s => s
  mZoom := 1
  mFirstPos := ⟨0, 0⟩
  mLastPos := ⟨0, 0⟩
  mSelectedObjects := []
  mOriginalPositions := []
  mOriginalSizes := []
  mOriginalAngles := []
  mKeepProportions := false
  mSelectionMarker := .MARKER_NONE
  mOriginalRect := ⟨0, 0, 0, 0⟩
  mSnappedRect := ⟨0, 0, 0, 0⟩
  mOriginalCenter := ⟨0, 0⟩
  mSnappedCenter := ⟨0, 0⟩
  mHorzSnapLine := QLineF.null
  mVertSnapLine := QLineF.null
  showGuides := false
  width := 800
  height := 600
  defaultLanguage := true
  isSizeLocked := fun _ => false
  isLocalized := fun _ => true
  children := fun _ => []
  parentLayer := fun _ => 0
  sortGameObjects := fun _ objects => objects
  findGameObjectByPoint := fun _ => none
  findGameObjectsByRect := fun _ => []
  findUsedGameObjects := fun _ => []
  mUntitled := true
  mEditorState := .STATE_IDLE
  mEditEnabled := false
  mMoveEnabled := true
  mResizeEnabled := true
  mRotationEnabled := true
  mMoveCenterEnabled := true
  mCameraPos := ⟨0, 0⟩
  mSelectionRect := ⟨0, 0, 0, 0⟩
  mRotationVector := ⟨0, 0⟩
  mGuideIndex := -1

/-! ## Snapping engine -/

/-- The value an `int` operation of the source leaves when its mathematical
result is `z`: the result reduced modulo 2^32 into the range of `int`, from
-2147483648 to 2147483647. -/
def wrapInt (z : Int) : Int := (z + 2147483648) % 4294967296 - 2147483648

/-- Function `qFloor` of Qt, `int(floor(v))`.  C++ leaves the conversion of a
value outside the range of `int` undefined; it is given the result of the x86
conversion instruction, the smallest `int`. -/
def qFloor (v : α) : Int :=
  if -2147483648 ≤ ⌊v⌋ ∧ ⌊v⌋ ≤ 2147483647 then ⌊v⌋ else -2147483648

/-- The loop of `getGridSpacing`; `fuel` bounds the number of loop tests.  The
variable `gridSpacing` is an `int`, so the product wraps around. -/
def gridSpacingLoop (zoom : α) : Nat → Int → Option Int
  | 0, _ => none
  | fuel + 1, gridSpacing =>
    if (gridSpacing : α) * zoom < (MIN_GRID_SPACING : α) then
      gridSpacingLoop zoom fuel (wrapInt (gridSpacing * GRID_SPACING_COEFF))
    else some gridSpacing

/-- Method `EditorWindow::getGridSpacing`. -/
def getGridSpacing (fuel : Nat) (e : EditorWindow α) : Option Int :=
  if e.options.snapToVisibleLines then gridSpacingLoop e.mZoom fuel e.options.gridSpacing
  else some e.options.gridSpacing

/-- The grid rounding `qFloor((x + gridSpacing / 2.0) / gridSpacing) * gridSpacing`:
the product of two `int` values, converted to `qreal` when it is assigned. -/
def gridRound (gridSpacing : Int) (x : α) : α :=
  ((wrapInt (qFloor ((x + (gridSpacing : α) / 2) / (gridSpacing : α)) * gridSpacing) : Int) : α)

/-- The grid rounding of `x` does not leave the range of `int`: the multiples of
the grid spacing next to `x` lie between -2147483648 and 2147483647. -/
def GridInRange (gridSpacing : Int) (x : α) : Prop :=
  (-2147483648 : α) ≤ x - (gridSpacing : α) / 2 ∧ x + (gridSpacing : α) / 2 ≤ 2147483647

namespace Scene

/-- Scan of the guide list: index and distance of the nearest guide seen so far. -/
def findGuideAux (coord : α) : List α → Nat → Int → α → Int × α
  | [], _, index, distance => (index, distance)
  | g :: gs, i, index, distance =>
    if |g - coord| < distance then findGuideAux coord gs (i + 1) (i : Int) |g - coord|
    else findGuideAux coord gs (i + 1) index distance

/-- Modelled from the spec: `Scene::findGuide` is not among the sources.  It is
the find-nearest query of the guide collection: the index of the guide nearest
to `coord` among those closer than `distance` (or `-1`), the by-reference
`distance` being lowered to the distance of that guide.  Its callers pass a
local variable for `distance` and afterwards compare it with the initial snap
distance to learn whether a snap fired. -/
def findGuide (guides : List α) (coord distance : α) : Int × α :=
  findGuideAux coord guides 0 (-1) distance

/-- Modelled from the spec: `Scene::getGuide`, the coordinate of a guide. -/
def getGuide (guides : List α) (index : Int) : α := guides.getD index.toNat 0

end Scene

/-- The identities of the objects a smart-guide query leaves out. -/
def excludedObjects (e : EditorWindow α) (excludeSelection : Bool) : List Nat :=
  if excludeSelection then e.mSelectedObjects.map (fun o => o.ident) else []

/-- Guide and origin part of a snap query on one axis. -/
def snapToGuidesStep (guides : List α) (c : α) (mkLine : α → QLineF α) (s : Snap α) : Snap α :=
  let found := Scene.findGuide guides c s.distance
  let s1 : Snap α :=
    if found.1 ≠ -1 then ⟨Scene.getGuide guides found.1, found.2, mkLine (Scene.getGuide guides found.1)⟩
    else ⟨s.coord, found.2, s.line⟩
  if |c| < s1.distance then ⟨0, |c|, mkLine 0⟩ else s1

/-- No guide of the list and no coordinate axis lies within the snap distance of
`c`, so far as snapping to guides is enabled. -/
def GuideFree (e : EditorWindow α) (guides : List α) (c : α) : Prop :=
  e.options.snapToGuides = true →
    (∀ g ∈ guides, ¬ |g - c| < (SNAP_DISTANCE : α) / e.mZoom) ∧
      ¬ |c| < (SNAP_DISTANCE : α) / e.mZoom

/-- The smart-guide query of the root layer, so far as it is enabled, finds no
candidate: it leaves the triple passed to it as it is. -/
def SmartFree (e : EditorWindow α) (layerSnap : List Nat → Snap α → Snap α)
    (excludeSelection : Bool) : Prop :=
  e.options.enableSmartGuides = true →
    ∀ s, layerSnap (excludedObjects e excludeSelection) s = s

/-- Method `EditorWindow::snapXCoord`; the result carries the returned
coordinate, `*linePtr` and `*distancePtr`. -/
def snapXCoord (fuel : Nat) (e : EditorWindow α) (x y1 y2 : α) (excludeSelection : Bool) :
    Option (Snap α) :=
  let s0 : Snap α := ⟨x, (SNAP_DISTANCE : α) / e.mZoom, QLineF.null⟩
  let s1 := if e.options.snapToGuides then
      snapToGuidesStep e.vertGuides x (fun g => ⟨g, y1, g, y2⟩) s0
    else s0
  let s2 := if e.options.enableSmartGuides then
      e.layerSnapX x y1 y2 (excludedObjects e excludeSelection) s1
    else s1
  if e.options.snapToGrid = true ∧ s2.distance = (SNAP_DISTANCE : α) / e.mZoom then
    (getGridSpacing fuel e).map (fun gridSpacing => ⟨gridRound gridSpacing x, s2.distance, s2.line⟩)
  else some s2

/-- Method `EditorWindow::snapYCoord`. -/
def snapYCoord (fuel : Nat) (e : EditorWindow α) (y x1 x2 : α) (excludeSelection : Bool) :
    Option (Snap α) :=
  let s0 : Snap α := ⟨y, (SNAP_DISTANCE : α) / e.mZoom, QLineF.null⟩
  let s1 := if e.options.snapToGuides then
      snapToGuidesStep e.horzGuides y (fun g => ⟨x1, g, x2, g⟩) s0
    else s0
  let s2 := if e.options.enableSmartGuides then
      e.layerSnapY y x1 x2 (excludedObjects e excludeSelection) s1
    else s1
  if e.options.snapToGrid = true ∧ s2.distance = (SNAP_DISTANCE : α) / e.mZoom then
    (getGridSpacing fuel e).map (fun gridSpacing => ⟨gridRound gridSpacing y, s2.distance, s2.line⟩)
  else some s2

/-! ## Translation -/

/-- Method `EditorWindow::calcTranslation`; the result is the returned vector
paired with the by-reference `axis`. -/
def calcTranslation (m : Libm α) (direction : QPointF α) (shift : Bool) :
    QPointF α × QVector2D α :=
  if shift then
    let vector := QVector2D.ofPoint direction
    let angle0 : α :=
      match m.acos (vector.normalized m).x with
      | none => 0
      | some a => if Utils.isEqual a 0 m.EPS then 0 else a
    let angle1 := if vector.y < 0 then -angle0 else angle0
    let angle := ((⌊(angle1 + m.PI / 8) / (m.PI / 4)⌋ : Int) : α) * (m.PI / 4)
    let axis : QVector2D α := ⟨m.cos angle, m.sin angle⟩
    ((QVector2D.smul (QVector2D.dotProduct vector axis) axis).toPointF, axis)
  else
    (direction, (QVector2D.ofPoint direction).normalized m)

/-! ## The Move state -/

/-- Outcome of snapping the moved rectangle on one axis: the corrected offset,
the snap line and the snap-on-center flag. -/
structure AxisSnap (α : Type) where
  offset : QPointF α
  line : QLineF α
  onCenter : Bool

/-- The X-axis block of the `STATE_MOVE` branch of `mouseMoveEvent`. -/
def moveSnapX (fuel : Nat) (e : EditorWindow α) (rect : QRectF α) (offset : QPointF α) :
    Option (AxisSnap α) :=
  (snapXCoord fuel e rect.left rect.top rect.bottom true).bind fun l =>
  (snapXCoord fuel e rect.center.x rect.center.y rect.center.y true).bind fun c =>
  (snapXCoord fuel e rect.right rect.top rect.bottom true).bind fun r =>
  let t : α := (SNAP_DISTANCE : α) / e.mZoom
  if c.distance < t ∧ c.distance ≤ l.distance ∧ c.distance ≤ r.distance then
    some ⟨⟨offset.x + (c.coord - rect.center.x), offset.y⟩, c.line, true⟩
  else if l.distance < t ∧ l.distance ≤ c.distance ∧ l.distance ≤ r.distance then
    some ⟨⟨offset.x + (l.coord - rect.left), offset.y⟩, l.line, false⟩
  else if r.distance < t ∧ r.distance ≤ l.distance ∧ r.distance ≤ c.distance then
    some ⟨⟨offset.x + (r.coord - rect.right), offset.y⟩, r.line, false⟩
  else
    some ⟨⟨offset.x + (l.coord - rect.left), offset.y⟩, QLineF.null, false⟩

/-- The Y-axis block of the `STATE_MOVE` branch of `mouseMoveEvent`. -/
def moveSnapY (fuel : Nat) (e : EditorWindow α) (rect : QRectF α) (offset : QPointF α) :
    Option (AxisSnap α) :=
  (snapYCoord fuel e rect.top rect.left rect.right true).bind fun tp =>
  (snapYCoord fuel e rect.center.y rect.center.x rect.center.x true).bind fun c =>
  (snapYCoord fuel e rect.bottom rect.left rect.right true).bind fun b =>
  let t : α := (SNAP_DISTANCE : α) / e.mZoom
  if c.distance < t ∧ c.distance ≤ tp.distance ∧ c.distance ≤ b.distance then
    some ⟨⟨offset.x, offset.y + (c.coord - rect.center.y)⟩, c.line, true⟩
  else if tp.distance < t ∧ tp.distance ≤ c.distance ∧ tp.distance ≤ b.distance then
    some ⟨⟨offset.x, offset.y + (tp.coord - rect.top)⟩, tp.line, false⟩
  else if b.distance < t ∧ b.distance ≤ tp.distance ∧ b.distance ≤ c.distance then
    some ⟨⟨offset.x, offset.y + (b.coord - rect.bottom)⟩, b.line, false⟩
  else
    some ⟨⟨offset.x, offset.y + (tp.coord - rect.top)⟩, QLineF.null, false⟩

/-- The pointer displacement `QPointF(mLastPos - mFirstPos) / mZoom`. -/
def pointerDelta (e : EditorWindow α) : QPointF α :=
  QPointF.divScalar ⟨((e.mLastPos.x - e.mFirstPos.x : Int) : α),
    ((e.mLastPos.y - e.mFirstPos.y : Int) : α)⟩ e.mZoom

/-- The rounded translation of the `STATE_MOVE` branch, before snapping:
`Utils::round(mOriginalRect.topLeft() + offset) - mOriginalRect.topLeft()`. -/
def moveRawOffset (m : Libm α) (e : EditorWindow α) (shift : Bool) : QPointF α :=
  (Utils.round (e.mOriginalRect.topLeft.add (calcTranslation m (pointerDelta e) shift).1)).sub
    e.mOriginalRect.topLeft

/-- The rectangle `rect` of the `STATE_MOVE` branch: the original rectangle
translated by the rounded offset, before snapping. -/
def moveRawRect (m : Libm α) (e : EditorWindow α) (shift : Bool) : QRectF α :=
  e.mOriginalRect.translated (moveRawOffset m e shift)

/-- No guide, axis or smart-guide candidate for the three X probes of `rect`. -/
def MoveFreeX (e : EditorWindow α) (rect : QRectF α) : Prop :=
  GuideFree e e.vertGuides rect.left ∧ GuideFree e e.vertGuides rect.center.x ∧
  GuideFree e e.vertGuides rect.right ∧
  SmartFree e (e.layerSnapX rect.left rect.top rect.bottom) true ∧
  SmartFree e (e.layerSnapX rect.center.x rect.center.y rect.center.y) true ∧
  SmartFree e (e.layerSnapX rect.right rect.top rect.bottom) true

/-- No guide, axis or smart-guide candidate for the three Y probes of `rect`. -/
def MoveFreeY (e : EditorWindow α) (rect : QRectF α) : Prop :=
  GuideFree e e.horzGuides rect.top ∧ GuideFree e e.horzGuides rect.center.y ∧
  GuideFree e e.horzGuides rect.bottom ∧
  SmartFree e (e.layerSnapY rect.top rect.left rect.right) true ∧
  SmartFree e (e.layerSnapY rect.center.y rect.center.x rect.center.x) true ∧
  SmartFree e (e.layerSnapY rect.bottom rect.left rect.right) true

/-- What the `STATE_MOVE` branch computes before it touches the objects: the
final offset, the two snap lines and the two snap-on-center flags. -/
structure MoveResult (α : Type) where
  offset : QPointF α
  vertSnapLine : QLineF α
  horzSnapLine : QLineF α
  vertSnapOnCenter : Bool
  horzSnapOnCenter : Bool

/-- The offset computation of the `STATE_MOVE` branch of `mouseMoveEvent`. -/
def moveOffset (m : Libm α) (fuel : Nat) (e : EditorWindow α) (shift : Bool) :
    Option (MoveResult α) :=
  let axis := (calcTranslation m (pointerDelta e) shift).2
  let offset := moveRawOffset m e shift
  let rect := moveRawRect m e shift
  (if !shift || Utils.isEqual axis.y 0 m.EPS then moveSnapX fuel e rect offset
    else some ⟨offset, QLineF.null, false⟩).bind fun sx =>
  (if !shift || Utils.isEqual axis.x 0 m.EPS then moveSnapY fuel e rect sx.offset
    else some ⟨sx.offset, QLineF.null, false⟩).bind fun sy =>
  some ⟨sy.offset, sx.line, sy.line, sx.onCenter, sy.onCenter⟩

/-- The loop `mSelectedObjects[i]->setPosition(mOriginalPositions[i] + offset)`. -/
def moveObjects (e : EditorWindow α) (offset : QPointF α) : List (GameObject α) :=
  List.zipWith (fun o p => { o with position := p.add offset }) e.mSelectedObjects
    e.mOriginalPositions

/-! ## Scaling -/

/-- What a scale computation leaves behind: the scale factors and the contents
of `mVertSnapLine` and `mHorzSnapLine`. -/
structure ScaleResult (α : Type) where
  scale : QPointF α
  vertSnapLine : QLineF α
  horzSnapLine : QLineF α

/-- The factors `calcScale` computes before it looks at `keepProportions`. -/
def rawScale (e : EditorWindow α) (snappedX snappedY : α) (pivot : QPointF α) (sx sy : α) :
    QPointF α :=
  ⟨(snappedX - pivot.x) * sx / e.mOriginalRect.width,
    (snappedY - pivot.y) * sy / e.mOriginalRect.height⟩

/-- Method `EditorWindow::calcScale`. -/
def calcScale (fuel : Nat) (e : EditorWindow α) (pos pivot : QPointF α) (sx sy : α)
    (keepProportions : Bool) : Option (ScaleResult α) :=
  (snapXCoord fuel e pos.x (min pos.y pivot.y) (max pos.y pivot.y) true).bind fun rx =>
  (snapYCoord fuel e pos.y (min pos.x pivot.x) (max pos.x pivot.x) true).bind fun ry =>
  let scale := rawScale e rx.coord ry.coord pivot sx sy
  if keepProportions then
    if |scale.x| < |scale.y| then
      let scaleY := Utils.sign scale.y * |scale.x|
      let y := e.mOriginalRect.height * scaleY * sy + pivot.y
      (snapXCoord fuel e rx.coord (min y pivot.y) (max y pivot.y) true).bind fun v =>
      some ⟨⟨scale.x, scaleY⟩, v.line, QLineF.null⟩
    else
      let scaleX := Utils.sign scale.x * |scale.y|
      let x := e.mOriginalRect.width * scaleX * sx + pivot.x
      (snapYCoord fuel e ry.coord (min x pivot.x) (max x pivot.x) true).bind fun hz =>
      some ⟨⟨scaleX, scale.y⟩, QLineF.null, hz.line⟩
  else
    (if !Utils.isNull rx.line then
        (snapXCoord fuel e rx.coord (min ry.coord pivot.y) (max ry.coord pivot.y) true).map
          fun v => v.line
      else some rx.line).bind fun vertLine =>
    (if !Utils.isNull ry.line then
        (snapYCoord fuel e ry.coord (min rx.coord pivot.x) (max rx.coord pivot.x) true).map
          fun hz => hz.line
      else some ry.line).bind fun horzLine =>
    some ⟨scale, vertLine, horzLine⟩

/-- The point `Utils::round(pos - pivot) + pivot`. -/
def roundPos (pos pivot : QPointF α) : QPointF α := (Utils.round (pos.sub pivot)).add pivot

/-- The pivot each marker scales about, as assigned in the `switch` of the
`STATE_RESIZE` branch. -/
def resizePivot (e : EditorWindow α) : QPointF α :=
  match e.mSelectionMarker with
  | .MARKER_TOP_LEFT => e.mOriginalRect.bottomRight
  | .MARKER_CENTER_LEFT => ⟨e.mOriginalRect.right, e.mOriginalRect.center.y⟩
  | .MARKER_BOTTOM_LEFT => e.mOriginalRect.topRight
  | .MARKER_BOTTOM_CENTER => ⟨e.mOriginalRect.center.x, e.mOriginalRect.top⟩
  | .MARKER_BOTTOM_RIGHT => e.mOriginalRect.topLeft
  | .MARKER_CENTER_RIGHT => ⟨e.mOriginalRect.left, e.mOriginalRect.center.y⟩
  | .MARKER_TOP_RIGHT => e.mOriginalRect.bottomLeft
  | .MARKER_TOP_CENTER => ⟨e.mOriginalRect.center.x, e.mOriginalRect.bottom⟩
  | .MARKER_NONE => ⟨0, 0⟩

/-- The two cases of the `switch` that drag a vertical edge: `dir` is `-1` for
`MARKER_CENTER_LEFT` and `1` for `MARKER_CENTER_RIGHT`. -/
def edgeScaleX (fuel : Nat) (e : EditorWindow α) (pos : QPointF α) (dir : α)
    (keepProportions : Bool) : Option (ScaleResult α) :=
  let pivot := resizePivot e
  let rp := roundPos pos pivot
  (snapXCoord fuel e rp.x e.mOriginalRect.top e.mOriginalRect.bottom true).bind fun s =>
  let scaleX := dir * (s.coord - pivot.x) / e.mOriginalRect.width
  let scaleY := if keepProportions then |scaleX| else 1
  (snapXCoord fuel e rp.x (pivot.y - e.mOriginalRect.height / 2 * scaleY)
    (pivot.y + e.mOriginalRect.height / 2 * scaleY) true).bind fun v =>
  some ⟨⟨scaleX, scaleY⟩, v.line, QLineF.null⟩

/-- The two cases of the `switch` that drag a horizontal edge: `dir` is `-1` for
`MARKER_TOP_CENTER` and `1` for `MARKER_BOTTOM_CENTER`. -/
def edgeScaleY (fuel : Nat) (e : EditorWindow α) (pos : QPointF α) (dir : α)
    (keepProportions : Bool) : Option (ScaleResult α) :=
  let pivot := resizePivot e
  let rp := roundPos pos pivot
  (snapYCoord fuel e rp.y e.mOriginalRect.left e.mOriginalRect.right true).bind fun s =>
  let scaleY := dir * (s.coord - pivot.y) / e.mOriginalRect.height
  let scaleX := if keepProportions then |scaleY| else 1
  (snapYCoord fuel e rp.y (pivot.x - e.mOriginalRect.width / 2 * scaleX)
    (pivot.x + e.mOriginalRect.width / 2 * scaleX) true).bind fun hz =>
  some ⟨⟨scaleX, scaleY⟩, QLineF.null, hz.line⟩

/-- The `switch (mSelectionMarker)` of the `STATE_RESIZE` branch: the scale
factors and snap lines for the marker being dragged. -/
def markerScale (fuel : Nat) (e : EditorWindow α) (pos : QPointF α) (keepProportions : Bool) :
    Option (ScaleResult α) :=
  let pivot := resizePivot e
  match e.mSelectionMarker with
  | .MARKER_TOP_LEFT => calcScale fuel e (roundPos pos pivot) pivot (-1) (-1) keepProportions
  | .MARKER_CENTER_LEFT => edgeScaleX fuel e pos (-1) keepProportions
  | .MARKER_BOTTOM_LEFT => calcScale fuel e (roundPos pos pivot) pivot (-1) 1 keepProportions
  | .MARKER_BOTTOM_CENTER => edgeScaleY fuel e pos 1 keepProportions
  | .MARKER_BOTTOM_RIGHT => calcScale fuel e (roundPos pos pivot) pivot 1 1 keepProportions
  | .MARKER_CENTER_RIGHT => edgeScaleX fuel e pos 1 keepProportions
  | .MARKER_TOP_RIGHT => calcScale fuel e (roundPos pos pivot) pivot 1 (-1) keepProportions
  | .MARKER_TOP_CENTER => edgeScaleY fuel e pos (-1) keepProportions
  | .MARKER_NONE => some ⟨⟨0, 0⟩, QLineF.null, QLineF.null⟩

/-- The one-unit floor of the `STATE_RESIZE` branch on the selection frame. -/
def floorScale (rect : QRectF α) (scale : QPointF α) : QPointF α :=
  ⟨if |rect.width * scale.x| < 1 then (if scale.x ≥ 0 then 1 else -1) / rect.width else scale.x,
    if |rect.height * scale.y| < 1 then (if scale.y ≥ 0 then 1 else -1) / rect.height
    else scale.y⟩

/-- The body of the loop that repositions and resizes one selected object. -/
def resizeObject (pivot scale : QPointF α) (keepProportions : Bool) (o : GameObject α)
    (originalPosition : QPointF α) (originalSize : QSizeF α) (originalAngle : α) :
    GameObject α :=
  { o with
    position := ⟨(originalPosition.x - pivot.x) * scale.x + pivot.x,
      (originalPosition.y - pivot.y) * scale.y + pivot.y⟩
    size :=
      if keepProportions || decide (originalAngle = 0) || decide (originalAngle = 180) then
        ⟨originalSize.width * scale.x, originalSize.height * scale.y⟩
      else ⟨originalSize.width * scale.y, originalSize.height * scale.x⟩ }

/-- The loop over `mSelectedObjects` of the `STATE_RESIZE` branch. -/
def resizeObjects (e : EditorWindow α) (pivot scale : QPointF α) (keepProportions : Bool) :
    List (GameObject α) :=
  List.zipWith (fun o (t : QPointF α × QSizeF α × α) =>
      resizeObject pivot scale keepProportions o t.1 t.2.1 t.2.2)
    e.mSelectedObjects (List.zip e.mOriginalPositions (List.zip e.mOriginalSizes e.mOriginalAngles))

/-- What the `STATE_RESIZE` branch computes: the effective proportion flag, the
pivot, the scale factors applied to the objects, the snap lines and the resized
objects. -/
structure ResizeResult (α : Type) where
  keepProportions : Bool
  pivot : QPointF α
  scale : QPointF α
  vertSnapLine : QLineF α
  horzSnapLine : QLineF α
  objects : List (GameObject α)

/-- The `STATE_RESIZE` branch of `mouseMoveEvent`: `pos` is the pointer in world
coordinates and `shift` the state of the Shift modifier. -/
def mouseMoveStateResize (fuel : Nat) (e : EditorWindow α) (pos : QPointF α) (shift : Bool) :
    Option (ResizeResult α) :=
  let keepProportions := shift || e.mKeepProportions
  (markerScale fuel e pos keepProportions).map fun r =>
    let scale := floorScale e.mOriginalRect r.scale
    ⟨keepProportions, resizePivot e, scale, r.vertSnapLine, r.horzSnapLine,
      resizeObjects e (resizePivot e) scale keepProportions⟩

/-! ## Selection -/

/-- The test `angle != 0.0 && angle != 90.0 && angle != 180.0 && angle != 270.0`. -/
def isSkewAngle (angle : α) : Bool :=
  decide (angle ≠ 0) && decide (angle ≠ 90) && decide (angle ≠ 180) && decide (angle ≠ 270)

/-- Method `EditorWindow::updateAllowedEditorActions`. -/
def updateAllowedEditorActions (e : EditorWindow α) : EditorWindow α :=
  let sizeLocked := e.mSelectedObjects.any (fun o => e.isSizeLocked o.ident)
  if e.defaultLanguage then
    { e with
      mMoveEnabled := true
      mResizeEnabled := !sizeLocked
      mRotationEnabled := true
      mMoveCenterEnabled := true }
  else
    let allLocalized := e.mSelectedObjects.all (fun o => e.isLocalized o.ident)
    { e with
      mRotationEnabled := false
      mMoveCenterEnabled := false
      mMoveEnabled := allLocalized
      mResizeEnabled := allLocalized && !sizeLocked }

/-- Method `EditorWindow::selectGameObjects`; the comparison of the two pointer
lists is the comparison of the object identities. -/
def selectGameObjects (e : EditorWindow α) (objects : List (GameObject α)) : EditorWindow α :=
  let e1 : EditorWindow α :=
    match objects with
    | [] => e
    | front :: _ =>
      let rect := objects.foldl (fun r o => r.united o.boundingRect) front.boundingRect
      { e with
        mOriginalPositions := objects.map (fun o => o.position)
        mOriginalSizes := objects.map (fun o => o.size)
        mOriginalAngles := objects.map (fun o => o.angle)
        mKeepProportions := objects.any (fun o => isSkewAngle o.angle)
        mOriginalRect := rect
        mSnappedRect := rect }
  if objects.map (fun o => o.ident) ≠ e.mSelectedObjects.map (fun o => o.ident) then
    updateAllowedEditorActions
      (match objects with
      | [] => { e1 with mSelectedObjects := objects }
      | [single] =>
        { e1 with
          mSelectedObjects := objects
          mOriginalCenter := single.rotationCenter
          mSnappedCenter := single.rotationCenter }
      | _ :: _ :: _ =>
        { e1 with
          mSelectedObjects := objects
          mOriginalCenter := e1.mOriginalRect.center
          mSnappedCenter := e1.mOriginalRect.center })
  else { e1 with mSelectedObjects := objects }

/-! ## Rotation -/

/-- The C function `fmod`: the remainder of `x / y` whose quotient is truncated
toward zero. -/
def fmod (x y : α) : α :=
  x - (((if 0 ≤ x / y then ⌊x / y⌋ else ⌈x / y⌉ : Int)) : α) * y

/-- The rotation angle of the `STATE_ROTATE` branch of `mouseMoveEvent` before
the Shift test: the angle between the pointer direction `pos - mOriginalCenter`
and `mRotationVector`, negated when the pointer is on the negative side of the
normal vector `(-mRotationVector.y, mRotationVector.x)`. -/
def rotateRawAngle (m : Libm α) (e : EditorWindow α) (pos : QPointF α) : α :=
  let currVector := (QVector2D.ofPoint (pos.sub e.mOriginalCenter)).normalized m
  let angle0 : α :=
    match m.acos (QVector2D.dotProduct currVector e.mRotationVector) with
    | none => 0
    | some a => if Utils.isEqual a 0 m.EPS then 0 else a
  let normalVector : QVector2D α := ⟨-e.mRotationVector.y, e.mRotationVector.x⟩
  if QVector2D.dotProduct currVector normalVector < 0 then -angle0 else angle0

/-- The rotation angle of the `STATE_ROTATE` branch, in radians, as the loop over
the selected objects receives it: with Shift it is
`qFloor((angle + Utils::PI / 8.0) / (Utils::PI / 4.0)) * (Utils::PI / 4.0)`. -/
def rotateAngle (m : Libm α) (e : EditorWindow α) (pos : QPointF α) (shift : Bool) : α :=
  let angle := rotateRawAngle m e pos
  if shift then ((⌊(angle + m.PI / 8) / (m.PI / 4)⌋ : Int) : α) * (m.PI / 4) else angle

/-- The absolute angle the `STATE_ROTATE` branch stores on an object with
original angle `originalAngle`, where `deltaDeg` is `Utils::radToDeg(angle)`. -/
def rotateAbsAngle (originalAngle deltaDeg : α) : α :=
  let a0 := fmod (originalAngle + deltaDeg) 360
  let absAngle := if a0 < 0 then a0 + 360 else a0
  if Utils.isEqual absAngle 0 (1 / 2) || Utils.isEqual absAngle 360 (1 / 2) then 0
  else if Utils.isEqual absAngle 90 (1 / 2) then 90
  else if Utils.isEqual absAngle 180 (1 / 2) then 180
  else if Utils.isEqual absAngle 270 (1 / 2) then 270
  else absAngle

namespace Utils

/-- Modelled from the spec: `Utils::radToDeg` is not among the sources; it
converts an angle from radians to degrees. -/
def radToDeg (m : Libm α) (angle : α) : α := angle * 180 / m.PI

/-- Modelled from the spec: `Utils::degToRad` is not among the sources; it
converts an angle from degrees to radians. -/
def degToRad (m : Libm α) (angle : α) : α := angle * m.PI / 180

end Utils

/-- The angle, in degrees, by which the loop of the `STATE_ROTATE` branch turns an
object whose original angle is `originalAngle`: `absAngle - mOriginalAngles[i]`,
the argument of `Utils::degToRad`; `angle` is the rotation angle in radians. -/
def rotateTurn (m : Libm α) (originalAngle angle : α) : α :=
  rotateAbsAngle originalAngle (Utils.radToDeg m angle) - originalAngle

/-- The body of the loop of the `STATE_ROTATE` branch for one selected object: the
object gets the absolute angle and is turned about `center` by the difference to
its original angle; at a right angle its position is rounded. -/
def rotateObject (m : Libm α) (center : QPointF α) (angle : α) (o : GameObject α)
    (originalPosition : QPointF α) (originalAngle : α) : GameObject α :=
  let absAngle := rotateAbsAngle originalAngle (Utils.radToDeg m angle)
  let newAngle := Utils.degToRad m (rotateTurn m originalAngle angle)
  let vec := originalPosition.sub center
  let position : QPointF α :=
    ⟨vec.x * m.cos newAngle - vec.y * m.sin newAngle + center.x,
      vec.x * m.sin newAngle + vec.y * m.cos newAngle + center.y⟩
  { o with
    position :=
      if absAngle = 0 ∨ absAngle = 90 ∨ absAngle = 180 ∨ absAngle = 270 then
        Utils.round position
      else position
    angle := absAngle }

/-- The loop over `mSelectedObjects` of the `STATE_ROTATE` branch of
`mouseMoveEvent`: `pos` is the pointer in world coordinates and `shift` the state
of the Shift modifier. -/
def mouseMoveStateRotate (m : Libm α) (e : EditorWindow α) (pos : QPointF α) (shift : Bool) :
    List (GameObject α) :=
  List.zipWith (fun o (t : QPointF α × α) =>
      rotateObject m e.mOriginalCenter (rotateAngle m e pos shift) o t.1 t.2)
    e.mSelectedObjects (List.zip e.mOriginalPositions e.mOriginalAngles)

/-! ## Mouse handlers -/

/-- Size of the rulers in pixels, `editor_window.h`. -/
def RULER_SIZE : Int := 20

/-- Distance to a guide, in pixels, within which a press grabs it. -/
def GUIDE_DISTANCE : Int := 3

/-- Size of a selection marker in pixels. -/
def MARKER_SIZE : Int := 9

/-- Size of a rotation marker in pixels. -/
def ROTATE_SIZE : Int := 15

/-- Size of the rotation-center cross in pixels. -/
def CENTER_SIZE : Int := 13

namespace QRectF

/-- The constructor `QRectF(topLeft, bottomRight)`. -/
def ofCorners (topLeft bottomRight : QPointF α) : QRectF α :=
  ⟨topLeft.x, topLeft.y, bottomRight.x - topLeft.x, bottomRight.y - topLeft.y⟩

/-- The setter `QRectF::setBottomRight`. -/
def setBottomRight (r : QRectF α) (p : QPointF α) : QRectF α :=
  ⟨r.xp, r.yp, p.x - r.xp, p.y - r.yp⟩

/-- The rectangle `QRectF::normalized()`, with non-negative width and height. -/
def normalized (r : QRectF α) : QRectF α :=
  let r1 : QRectF α := if r.w < 0 then ⟨r.xp + r.w, r.yp, -r.w, r.h⟩ else r
  if r1.h < 0 then ⟨r1.xp, r1.yp + r1.h, r1.w, -r1.h⟩ else r1

/-- The test `QRectF::contains(const QPointF &)`: false for a rectangle of zero
width or height, edges included otherwise. -/
def contains (r : QRectF α) (p : QPointF α) : Bool :=
  let l := if r.w < 0 then r.xp + r.w else r.xp
  let rt := if r.w < 0 then r.xp else r.xp + r.w
  let t := if r.h < 0 then r.yp + r.h else r.yp
  let b := if r.h < 0 then r.yp else r.yp + r.h
  if l = rt then false
  else if p.x < l ∨ rt < p.x then false
  else if t = b then false
  else if p.y < t ∨ b < p.y then false
  else true

end QRectF

/-- The function `qRound` of Qt 4, `floor(d + 0.5)`. -/
def qRound (d : α) : Int := ⌊d + 1 / 2⌋

namespace Scene

/-- Modelled from the spec: `Scene::addGuide` is not among the sources.  The
new guide goes to the end of the guide list of its orientation and its index is
returned. -/
def addGuide (guides : List α) (coord : α) : Int × List α :=
  ((guides.length : Int), guides ++ [coord])

/-- Modelled from the spec: `Scene::removeGuide` is not among the sources.  The
guide with the given index leaves the list. -/
def removeGuide (guides : List α) (index : Int) : List α :=
  if 0 ≤ index then guides.eraseIdx index.toNat else guides

/-- Modelled from the spec: `Scene::setGuide` is not among the sources.  The
guide with the given index gets a new coordinate. -/
def setGuide (guides : List α) (index : Int) (coord : α) : List α :=
  if 0 ≤ index then guides.set index.toNat coord else guides

end Scene

/-- Method `EditorWindow::windowToWorld`, applied to a window point. -/
def windowToWorld (e : EditorWindow α) (pt : QPoint) : QPointF α :=
  e.mCameraPos.add (QPointF.divScalar ⟨(pt.x : α), (pt.y : α)⟩ e.mZoom)

/-- Method `EditorWindow::deselectAll`. -/
def deselectAll (e : EditorWindow α) : EditorWindow α :=
  if e.mEditorState = .STATE_IDLE ∧ e.mSelectedObjects.isEmpty = false then
    selectGameObjects e []
  else e

/-- The test `QList::contains` on a list of object pointers. -/
def containsObject (objects : List (GameObject α)) (object : GameObject α) : Bool :=
  objects.any (fun o => decide (o.ident = object.ident))

/-- Method `QList::removeOne` on a list of object pointers: the first occurrence
leaves the list. -/
def removeOne : List (GameObject α) → GameObject α → List (GameObject α)
  | [], _ => []
  | o :: os, object => if o.ident = object.ident then os else o :: removeOne os object

/-- Method `EditorWindow::findSelectionMarker`. -/
def findSelectionMarker (e : EditorWindow α) (pos : QPointF α) (size : α) : SelectionMarker :=
  if e.mSelectedObjects.isEmpty = false then
    let offset := size / 2
    let center := e.mSnappedRect.center
    let box (x y : α) : Bool := QRectF.contains ⟨x - offset, y - offset, size, size⟩ pos
    if box e.mSnappedRect.left e.mSnappedRect.top then .MARKER_TOP_LEFT
    else if box e.mSnappedRect.left center.y then .MARKER_CENTER_LEFT
    else if box e.mSnappedRect.left e.mSnappedRect.bottom then .MARKER_BOTTOM_LEFT
    else if box center.x e.mSnappedRect.bottom then .MARKER_BOTTOM_CENTER
    else if box e.mSnappedRect.right e.mSnappedRect.bottom then .MARKER_BOTTOM_RIGHT
    else if box e.mSnappedRect.right center.y then .MARKER_CENTER_RIGHT
    else if box e.mSnappedRect.right e.mSnappedRect.top then .MARKER_TOP_RIGHT
    else if box center.x e.mSnappedRect.top then .MARKER_TOP_CENTER
    else .MARKER_NONE
  else .MARKER_NONE

/-- The object rule of `mousePressEvent`: the press hit `object`.  With Ctrl the
membership of the object in the selection is toggled; without it the object is
selected unless it already is, and the Move state is entered if `mMoveEnabled`. -/
def pressObject (e : EditorWindow α) (event : QMouseEvent) (object : GameObject α) :
    EditorWindow α :=
  if event.control then
    let e1 : EditorWindow α := { e with mEditorState := .STATE_IDLE }
    let objects :=
      if containsObject e1.mSelectedObjects object then removeOne e1.mSelectedObjects object
      else e1.mSelectedObjects ++ [object]
    selectGameObjects e1 objects
  else
    let e1 := if containsObject e.mSelectedObjects object then e else selectGameObjects e [object]
    if e1.mMoveEnabled then { e1 with mEditorState := .STATE_MOVE } else e1

/-- The last rule of `mousePressEvent`: nothing was hit, the selection is dropped
and the selection frame starts. -/
def pressNothing (e : EditorWindow α) (pos : QPointF α) : EditorWindow α :=
  let e1 := deselectAll e
  { e1 with mEditorState := .STATE_SELECT, mSelectionRect := QRectF.ofCorners pos pos }

/-- The assignment made inside the condition of the resize rule of
`mousePressEvent`: `mSelectionMarker = findSelectionMarker(pos, MARKER_SIZE / mZoom)`
is evaluated when `mResizeEnabled` holds, whether or not the rule then fires. -/
def pressMarker (e : EditorWindow α) (pos : QPointF α) : EditorWindow α :=
  if e.mResizeEnabled then
    { e with mSelectionMarker := findSelectionMarker e pos ((MARKER_SIZE : α) / e.mZoom) }
  else e

/-- The rules of `mousePressEvent` that follow the guide rules: rotation center,
resize marker, rotation marker, object, nothing. -/
def pressSelection (m : Libm α) (e : EditorWindow α) (event : QMouseEvent) (pos : QPointF α) :
    EditorWindow α :=
  let size : α := (CENTER_SIZE : α) / e.mZoom
  let offset : α := size / 2
  if e.mMoveCenterEnabled = true ∧ e.mSelectedObjects.isEmpty = false ∧
      QRectF.contains ⟨e.mSnappedCenter.x - offset, e.mSnappedCenter.y - offset, size, size⟩
        pos = true then
    { e with mEditorState := .STATE_MOVE_CENTER }
  else if (pressMarker e pos).mResizeEnabled = true ∧
      (pressMarker e pos).mSelectionMarker ≠ .MARKER_NONE then
    { pressMarker e pos with mEditorState := .STATE_RESIZE }
  else if (pressMarker e pos).mRotationEnabled = true ∧
      findSelectionMarker (pressMarker e pos) pos ((ROTATE_SIZE : α) / e.mZoom) ≠ .MARKER_NONE ∧
      findSelectionMarker (pressMarker e pos) pos ((MARKER_SIZE : α) / e.mZoom) = .MARKER_NONE then
    { pressMarker e pos with
      mEditorState := .STATE_ROTATE
      mRotationVector := (QVector2D.ofPoint (pos.sub e.mOriginalCenter)).normalized m }
  else
    match e.findGameObjectByPoint pos with
    | some object => pressObject (pressMarker e pos) event object
    | none => pressNothing (pressMarker e pos) pos

/-- The guide rules of `mousePressEvent`, followed by the remaining rules.  The
assignments `mGuideIndex = mScene->findGuide(...)` made inside the conditions
are kept when the rule fails, as in the source. -/
def pressGuides (m : Libm α) (e : EditorWindow α) (event : QMouseEvent) (pos : QPointF α) :
    EditorWindow α :=
  let distance : α := (GUIDE_DISTANCE : α) / e.mZoom
  if e.showGuides = true ∧ event.pos.y < RULER_SIZE then
    let g := Scene.addGuide e.horzGuides ((qRound pos.y : Int) : α)
    { e with mEditorState := .STATE_HORZ_GUIDE, mGuideIndex := g.1, horzGuides := g.2 }
  else if e.showGuides = true ∧ event.pos.x < RULER_SIZE then
    let g := Scene.addGuide e.vertGuides ((qRound pos.x : Int) : α)
    { e with mEditorState := .STATE_VERT_GUIDE, mGuideIndex := g.1, vertGuides := g.2 }
  else if e.showGuides = true then
    if (Scene.findGuide e.horzGuides pos.y distance).1 ≠ -1 then
      { e with
        mGuideIndex := (Scene.findGuide e.horzGuides pos.y distance).1
        mEditorState := .STATE_HORZ_GUIDE }
    else if (Scene.findGuide e.vertGuides pos.x distance).1 ≠ -1 then
      { e with
        mGuideIndex := (Scene.findGuide e.vertGuides pos.x distance).1
        mEditorState := .STATE_VERT_GUIDE }
    else
      pressSelection m { e with mGuideIndex := (Scene.findGuide e.vertGuides pos.x distance).1 }
        event pos
  else pressSelection m e event pos

/-- The assignments at the head of the left-button branch of `mousePressEvent`. -/
def pressBegin (e : EditorWindow α) (event : QMouseEvent) : EditorWindow α :=
  { e with
    mLastPos := event.pos
    mFirstPos := event.pos
    mEditEnabled := false
    mHorzSnapLine := QLineF.null
    mVertSnapLine := QLineF.null }

/-- Method `EditorWindow::mousePressEvent`. -/
def mousePressEvent (m : Libm α) (e : EditorWindow α) (event : QMouseEvent) : EditorWindow α :=
  if event.button = .LeftButton then
    pressGuides m (pressBegin e event) event (windowToWorld e event.pos)
  else { e with mLastPos := event.pos }

/-- A left press that none of the rules before the object rule of
`mousePressEvent` matches: it is not on a ruler and not near a guide (so far as
guides are shown), not on the rotation center, not on a resize marker and not on
a rotation marker. -/
def ReachesObjectRule (e : EditorWindow α) (event : QMouseEvent) : Prop :=
  let pos := windowToWorld e event.pos
  let size : α := (CENTER_SIZE : α) / e.mZoom
  event.button = .LeftButton ∧
  (e.showGuides = true →
    ¬ event.pos.y < RULER_SIZE ∧ ¬ event.pos.x < RULER_SIZE ∧
    (Scene.findGuide e.horzGuides pos.y ((GUIDE_DISTANCE : α) / e.mZoom)).1 = -1 ∧
    (Scene.findGuide e.vertGuides pos.x ((GUIDE_DISTANCE : α) / e.mZoom)).1 = -1) ∧
  ¬ (e.mMoveCenterEnabled = true ∧ e.mSelectedObjects.isEmpty = false ∧
    QRectF.contains ⟨e.mSnappedCenter.x - size / 2, e.mSnappedCenter.y - size / 2, size, size⟩
      pos = true) ∧
  (e.mResizeEnabled = true →
    findSelectionMarker e pos ((MARKER_SIZE : α) / e.mZoom) = .MARKER_NONE) ∧
  ¬ (e.mRotationEnabled = true ∧
    findSelectionMarker e pos ((ROTATE_SIZE : α) / e.mZoom) ≠ .MARKER_NONE ∧
    findSelectionMarker e pos ((MARKER_SIZE : α) / e.mZoom) = .MARKER_NONE)

/-- The pointer position of `event` is within 2 pixels of `p` along both axes. -/
def WithinThreshold (p : QPoint) (event : QMouseEvent) : Prop :=
  |event.pos.x - p.x| ≤ 2 ∧ |event.pos.y - p.y| ≤ 2

/-- The constant `MAX_COORD` of the guide branches of `mouseMoveEvent`. -/
def MAX_COORD : α := 100000000

/-- Method `EditorWindow::mouseMoveEvent`.  The branches of the Move, Resize,
Rotate and MoveCenter states, which run only once editing is enabled, are the
parameter `edit`; their calculations are `moveOffset`, `mouseMoveStateResize`,
`rotateAngle` and `rotateAbsAngle`. -/
def mouseMoveEvent (edit : EditorWindow α → QMouseEvent → EditorWindow α) (e : EditorWindow α)
    (event : QMouseEvent) : EditorWindow α :=
  let delta : QPointF α :=
    QPointF.divScalar ⟨((event.pos.x - e.mLastPos.x : Int) : α),
      ((event.pos.y - e.mLastPos.y : Int) : α)⟩ e.mZoom
  let e1 : EditorWindow α := { e with mLastPos := event.pos }
  let e2 : EditorWindow α :=
    if event.leftDown = true ∧
        (|e1.mLastPos.x - e1.mFirstPos.x| > 2 ∨ |e1.mLastPos.y - e1.mFirstPos.y| > 2) then
      { e1 with mEditEnabled := true }
    else e1
  let e3 : EditorWindow α :=
    if event.rightDown then { e2 with mCameraPos := e2.mCameraPos.sub delta } else e2
  let pos := windowToWorld e3 event.pos
  if e3.mEditEnabled then
    match e3.mEditorState with
    | .STATE_IDLE => e3
    | .STATE_SELECT => { e3 with mSelectionRect := e3.mSelectionRect.setBottomRight pos }
    | .STATE_HORZ_GUIDE =>
      if e3.options.enableSmartGuides then
        let s := e3.layerSnapY pos.y MAX_COORD (-MAX_COORD) []
          ⟨pos.y, (SNAP_DISTANCE : α) / e3.mZoom, QLineF.null⟩
        { e3 with
          mVertSnapLine := QLineF.null
          mHorzSnapLine := s.line
          horzGuides := Scene.setGuide e3.horzGuides e3.mGuideIndex ((qRound s.coord : Int) : α) }
      else
        { e3 with
          horzGuides := Scene.setGuide e3.horzGuides e3.mGuideIndex ((qRound pos.y : Int) : α) }
    | .STATE_VERT_GUIDE =>
      if e3.options.enableSmartGuides then
        let s := e3.layerSnapX pos.x MAX_COORD (-MAX_COORD) []
          ⟨pos.x, (SNAP_DISTANCE : α) / e3.mZoom, QLineF.null⟩
        { e3 with
          mHorzSnapLine := QLineF.null
          mVertSnapLine := s.line
          vertGuides := Scene.setGuide e3.vertGuides e3.mGuideIndex ((qRound s.coord : Int) : α) }
      else
        { e3 with
          vertGuides := Scene.setGuide e3.vertGuides e3.mGuideIndex ((qRound pos.x : Int) : α) }
    | _ => edit e3 event
  else e3

/-- The assignment `mOriginalCenter = mSnappedCenter = mSelectedObjects.size() == 1
? mSelectedObjects.front()->getRotationCenter() : mSnappedCenter` of
`mouseReleaseEvent`. -/
def updateRotationCenter (e : EditorWindow α) : EditorWindow α :=
  let c := match e.mSelectedObjects with
    | [single] => single.rotationCenter
    | _ => e.mSnappedCenter
  { e with mOriginalCenter := c, mSnappedCenter := c }

/-- The commit of the current state on a left-button release with editing
enabled, paired with the names passed to `sceneChanged`. -/
def releaseCommit (e : EditorWindow α) (event : QMouseEvent) : EditorWindow α × List Command :=
  match e.mEditorState with
  | .STATE_IDLE => (e, [])
  | .STATE_SELECT =>
    (selectGameObjects e (e.findGameObjectsByRect e.mSelectionRect.normalized), [])
  | .STATE_MOVE =>
    (updateRotationCenter (selectGameObjects e e.mSelectedObjects), [.moveObjects])
  | .STATE_RESIZE =>
    (updateRotationCenter (selectGameObjects e e.mSelectedObjects), [.resizeObjects])
  | .STATE_ROTATE =>
    (updateRotationCenter (selectGameObjects e e.mSelectedObjects), [.rotateObjects])
  | .STATE_MOVE_CENTER => (updateRotationCenter e, [.moveCenter])
  | .STATE_HORZ_GUIDE =>
    if event.pos.y ≥ RULER_SIZE ∧ event.pos.y < e.height then
      (e, [if e.mFirstPos.y < RULER_SIZE then .createGuide else .moveGuide])
    else
      ({ e with horzGuides := Scene.removeGuide e.horzGuides e.mGuideIndex },
        if e.mFirstPos.y ≥ RULER_SIZE then [.deleteGuide] else [])
  | .STATE_VERT_GUIDE =>
    if event.pos.x ≥ RULER_SIZE ∧ event.pos.x < e.width then
      (e, [if e.mFirstPos.x < RULER_SIZE then .createGuide else .moveGuide])
    else
      ({ e with vertGuides := Scene.removeGuide e.vertGuides e.mGuideIndex },
        if e.mFirstPos.x ≥ RULER_SIZE then [.deleteGuide] else [])

/-- The branch of `mouseReleaseEvent` for a left-button release without editing
enabled: a guide created by a click on a ruler is removed. -/
def releaseClick (e : EditorWindow α) : EditorWindow α :=
  if e.mEditorState = .STATE_HORZ_GUIDE ∨ e.mEditorState = .STATE_VERT_GUIDE then
    if e.mFirstPos.x < RULER_SIZE ∨ e.mFirstPos.y < RULER_SIZE then
      if e.mEditorState = .STATE_HORZ_GUIDE then
        { e with horzGuides := Scene.removeGuide e.horzGuides e.mGuideIndex }
      else
        { e with vertGuides := Scene.removeGuide e.vertGuides e.mGuideIndex }
    else e
  else e

/-- Method `EditorWindow::mouseReleaseEvent`; the second component lists the
names passed to `sceneChanged`. -/
def mouseReleaseEvent (e : EditorWindow α) (event : QMouseEvent) :
    EditorWindow α × List Command :=
  if event.button = .LeftButton then
    let r : EditorWindow α × List Command :=
      if e.mEditEnabled then releaseCommit e event else (releaseClick e, [])
    ({ r.1 with mEditorState := .STATE_IDLE }, r.2)
  else (e, [])

/-- A press, the moves that follow it and the release that ends the gesture. -/
def gesture (m : Libm α) (edit : EditorWindow α → QMouseEvent → EditorWindow α)
    (e : EditorWindow α) (press : QMouseEvent) (moves : List QMouseEvent)
    (release : QMouseEvent) : EditorWindow α × List Command :=
  mouseReleaseEvent (moves.foldl (mouseMoveEvent edit) (mousePressEvent m e press)) release

/-! ## Deleting objects -/

/-- Method `EditorWindow::canDeleteSelectedObjects`; the lookup
`Scene::findUsedGameObjects` is asked only for a scene that has a file. -/
def canDeleteSelectedObjects (e : EditorWindow α) : Bool :=
  if e.mSelectedObjects.isEmpty = false ∧ e.mUntitled = false then
    let usedObjects := e.findUsedGameObjects (e.mSelectedObjects.map (fun o => o.ident))
    if usedObjects.isEmpty = false then false else true
  else true

/-- Method `EditorWindow::sortSelectedGameObjects`. -/
def sortSelectedGameObjects (e : EditorWindow α) : EditorWindow α :=
  if e.mSelectedObjects.isEmpty = false then
    let sorted := e.sortGameObjects e.children e.mSelectedObjects
    { e with
      mSelectedObjects := sorted
      mOriginalPositions := sorted.map (fun o => o.position)
      mOriginalSizes := sorted.map (fun o => o.size)
      mOriginalAngles := sorted.map (fun o => o.angle) }
  else e

/-- Method `EditorWindow::copy`, so far as it changes the editor: the selection
is sorted by depth (the clipboard is not modelled). -/
def copy (e : EditorWindow α) : EditorWindow α :=
  if e.mEditorState = .STATE_IDLE ∧ e.mSelectedObjects.isEmpty = false then
    sortSelectedGameObjects e
  else e

/-- Modelled from the spec: the destructor of `GameObject` is not among the
sources.  `qDeleteAll(mSelectedObjects)` takes the deleted objects out of the
child list of their layers. -/
def deleteObjects (children : Nat → List Nat) (objects : List Nat) : Nat → List Nat :=
  fun layer => (children layer).filter (fun o => !objects.contains o)

/-- Method `EditorWindow::clear`; the second component lists the names passed to
`sceneChanged`. -/
def clear (e : EditorWindow α) : EditorWindow α × List Command :=
  if e.mEditorState = .STATE_IDLE ∧ e.mSelectedObjects.isEmpty = false ∧
      canDeleteSelectedObjects e = true then
    let e1 : EditorWindow α :=
      { e with children := deleteObjects e.children (e.mSelectedObjects.map (fun o => o.ident)) }
    (deselectAll e1, [.deleteObjects])
  else (e, [])

/-- Method `EditorWindow::cut`. -/
def cut (e : EditorWindow α) : EditorWindow α × List Command :=
  if e.mEditorState = .STATE_IDLE ∧ e.mSelectedObjects.isEmpty = false ∧
      canDeleteSelectedObjects e = true then
    let e0 := copy e
    let e1 : EditorWindow α :=
      { e0 with children := deleteObjects e0.children (e0.mSelectedObjects.map (fun o => o.ident)) }
    (deselectAll e1, [.cutObjects])
  else (e, [])

/-! ## Depth order -/

namespace Layer

/-- Modelled from the spec: the class `Layer` is not among the sources.  The
children of a layer form a sequence (the spec's "child list"), here the list of
their identities; `Layer::indexOfGameObject` is the position of an object in it,
`-1` if it is absent. -/
def indexOfGameObject (objects : List Nat) (object : Nat) : Int :=
  if object ∈ objects then (objects.indexOf object : Int) else -1

/-- Modelled from the spec: `Layer::removeGameObject`, the child at `index`
leaves the list. -/
def removeGameObject (objects : List Nat) (index : Int) : List Nat :=
  if 0 ≤ index then objects.eraseIdx index.toNat else objects

/-- Modelled from the spec: `Layer::insertGameObject`, the object becomes the
child at `index`. -/
def insertGameObject (objects : List Nat) (index : Int) (object : Nat) : List Nat :=
  objects.insertIdx index.toNat object

/-- Modelled from the spec: `Layer::getNumGameObjects`. -/
def getNumGameObjects (objects : List Nat) : Int := (objects.length : Int)

end Layer

/-- The loop shared by `bringToFront` and `moveUp`: `i` counts up over the
selection, `first` is the index at which the run of the current parent began,
and an object whose index exceeds `i - first` is taken out and put back at
`target index (i - first)`: `i - first` for `bringToFront`, `index - 1` for
`moveUp`.  The result is the flag `moved` and the child lists. -/
def raiseLoop (parentLayer : Nat → Nat) (target : Int → Int → Int) :
    List Nat → Int → Option Nat → Int → Bool → (Nat → List Nat) → Bool × (Nat → List Nat)
  | [], _, _, _, moved, children => (moved, children)
  | object :: rest, i, parent, first, moved, children =>
    let layer := parentLayer object
    let first1 := if parent ≠ some layer then i else first
    let index := Layer.indexOfGameObject (children layer) object
    if index > i - first1 then
      raiseLoop parentLayer target rest (i + 1) (some layer) first1 true
        (Function.update children layer
          (Layer.insertGameObject (Layer.removeGameObject (children layer) index)
            (target index (i - first1)) object))
    else raiseLoop parentLayer target rest (i + 1) (some layer) first1 moved children

/-- The loop shared by `sendToBack` and `moveDown`, over the selection from its
last object to its first: `i` counts down, `last` is the index at which the run
of the current parent began, and an object whose index is below
`getNumGameObjects() - 1 - (last - i)` is taken out and put back at
`target index` of that bound: the bound for `sendToBack`, `index + 1` for
`moveDown`. -/
def lowerLoop (parentLayer : Nat → Nat) (target : Int → Int → Int) :
    List Nat → Int → Option Nat → Int → Bool → (Nat → List Nat) → Bool × (Nat → List Nat)
  | [], _, _, _, moved, children => (moved, children)
  | object :: rest, i, parent, last, moved, children =>
    let layer := parentLayer object
    let last1 := if parent ≠ some layer then i else last
    let index := Layer.indexOfGameObject (children layer) object
    let bound := Layer.getNumGameObjects (children layer) - 1 - (last1 - i)
    if index < bound then
      lowerLoop parentLayer target rest (i - 1) (some layer) last1 true
        (Function.update children layer
          (Layer.insertGameObject (Layer.removeGameObject (children layer) index)
            (target index bound) object))
    else lowerLoop parentLayer target rest (i - 1) (some layer) last1 moved children

/-- The identities of the selected objects. -/
def selectedIds (e : EditorWindow α) : List Nat := e.mSelectedObjects.map (fun o => o.ident)

/-- Method `EditorWindow::bringToFront`; the second component lists the names
passed to `sceneChanged`, which is emitted when `moved` is set. -/
def bringToFront (e : EditorWindow α) : EditorWindow α × List Command :=
  if e.mEditorState = .STATE_IDLE ∧ e.mSelectedObjects.isEmpty = false then
    let e1 := sortSelectedGameObjects e
    let r := raiseLoop e1.parentLayer (fun _ insertIndex => insertIndex) (selectedIds e1)
      0 none 0 false e1.children
    ({ e1 with children := r.2 }, if r.1 then [.bringToFront] else [])
  else (e, [])

/-- Method `EditorWindow::sendToBack`. -/
def sendToBack (e : EditorWindow α) : EditorWindow α × List Command :=
  if e.mEditorState = .STATE_IDLE ∧ e.mSelectedObjects.isEmpty = false then
    let e1 := sortSelectedGameObjects e
    let r := lowerLoop e1.parentLayer (fun _ insertIndex => insertIndex) (selectedIds e1).reverse
      ((selectedIds e1).length - 1) none 0 false e1.children
    ({ e1 with children := r.2 }, if r.1 then [.sendToBack] else [])
  else (e, [])

/-- Method `EditorWindow::moveUp`. -/
def moveUp (e : EditorWindow α) : EditorWindow α × List Command :=
  if e.mEditorState = .STATE_IDLE ∧ e.mSelectedObjects.isEmpty = false then
    let e1 := sortSelectedGameObjects e
    let r := raiseLoop e1.parentLayer (fun index _ => index - 1) (selectedIds e1)
      0 none 0 false e1.children
    ({ e1 with children := r.2 }, if r.1 then [.moveUp] else [])
  else (e, [])

/-- Method `EditorWindow::moveDown`. -/
def moveDown (e : EditorWindow α) : EditorWindow α × List Command :=
  if e.mEditorState = .STATE_IDLE ∧ e.mSelectedObjects.isEmpty = false then
    let e1 := sortSelectedGameObjects e
    let r := lowerLoop e1.parentLayer (fun index _ => index + 1) (selectedIds e1).reverse
      ((selectedIds e1).length - 1) none 0 false e1.children
    ({ e1 with children := r.2 }, if r.1 then [.moveDown] else [])
  else (e, [])

/-- The objects of a list of identities are listed parent by parent: between
two objects of one parent there are only objects of that parent. -/
def Contiguous (parentLayer : Nat → Nat) (objects : List Nat) : Prop :=
  ∀ l1 a l2 b l3, objects = l1 ++ a :: (l2 ++ b :: l3) → parentLayer a = parentLayer b →
    ∀ y ∈ l2, parentLayer y = parentLayer a

/-- The check that a list of objects is listed parent by parent: behind the run
of objects of the parent of the head no object of that parent follows, and so
on for the tail. -/
def isContiguous (parentLayer : Nat → Nat) : List Nat → Bool
  | [] => true
  | o :: rest =>
    (rest.dropWhile (fun x => parentLayer x == parentLayer o)).all
      (fun x => parentLayer x != parentLayer o) && isContiguous parentLayer rest

/-- The layer tree is well formed: no layer lists a child twice, and every
listed child has the layer that lists it as its parent. -/
def SceneWellFormed (e : EditorWindow α) : Prop :=
  (∀ layer, (e.children layer).Nodup) ∧ ∀ layer, ∀ o ∈ e.children layer, e.parentLayer o = layer

/-- The identities of the selected objects in the order `sortGameObjects`
returns them. -/
def sortedIds (e : EditorWindow α) : List Nat :=
  (e.sortGameObjects e.children e.mSelectedObjects).map (fun o => o.ident)

/-- The selected objects of one layer, in sorted order. -/
def layerGroup (e : EditorWindow α) (layer : Nat) : List Nat :=
  (sortedIds e).filter (fun o => decide (e.parentLayer o = layer))

/-- The contract of the depth sort at the editor `e`: `sortGameObjects` returns
the selected objects, listed parent by parent, the objects of one parent in
ascending child index (as a sublist of the child list of that parent). -/
def DepthSorted (e : EditorWindow α) : Prop :=
  (sortedIds e).Perm (selectedIds e) ∧ Contiguous e.parentLayer (sortedIds e) ∧
  ∀ layer, (layerGroup e layer).Sublist (e.children layer)

/-- The loop of `raiseLoop` for the objects of a single layer: `k` is the number
of objects of the layer handled so far. -/
def raise1 (target : Int → Int → Int) : List Nat → Int → List Nat → Bool × List Nat
  | [], _, objects => (false, objects)
  | object :: rest, k, objects =>
    if Layer.indexOfGameObject objects object > k then
      (true, (raise1 target rest (k + 1)
        (Layer.insertGameObject
          (Layer.removeGameObject objects (Layer.indexOfGameObject objects object))
          (target (Layer.indexOfGameObject objects object) k) object)).2)
    else raise1 target rest (k + 1) objects

/-- The loop of `lowerLoop` for the objects of a single layer: `k` is the number
of objects of the layer handled so far. -/
def lower1 (target : Int → Int → Int) : List Nat → Int → List Nat → Bool × List Nat
  | [], _, objects => (false, objects)
  | object :: rest, k, objects =>
    if Layer.indexOfGameObject objects object < Layer.getNumGameObjects objects - 1 - k then
      (true, (lower1 target rest (k + 1)
        (Layer.insertGameObject
          (Layer.removeGameObject objects (Layer.indexOfGameObject objects object))
          (target (Layer.indexOfGameObject objects object)
            (Layer.getNumGameObjects objects - 1 - k)) object)).2)
    else lower1 target rest (k + 1) objects

/-! ## Camera -/

/-- Method `EditorWindow::worldToWindow`. -/
def worldToWindow (e : EditorWindow α) (pt : QPointF α) : QPointF α :=
  ⟨(pt.x - e.mCameraPos.x) * e.mZoom, (pt.y - e.mCameraPos.y) * e.mZoom⟩

/-- Method `EditorWindow::windowToWorld` on its `QPointF` argument; `windowToWorld`
is this method behind the conversion of a `QPoint`. -/
def windowToWorldF (e : EditorWindow α) (pt : QPointF α) : QPointF α :=
  e.mCameraPos.add (pt.divScalar e.mZoom)

/-- Method `EditorWindow::setZoom`, so far as it changes the editor (the mouse
cursor and the signal `mouseMoved` are not modelled). -/
def setZoom (e : EditorWindow α) (zoom : α) : EditorWindow α :=
  if Utils.isEqual zoom e.mZoom (5 / 1000) then e
  else
    let size : QPointF α := ⟨(e.width : α), (e.height : α)⟩
    { e with
      mCameraPos := (e.mCameraPos.add ((size.divScalar 2).divScalar e.mZoom)).sub
        ((size.divScalar 2).divScalar zoom)
      mZoom := zoom }

/-- The function `qBound(min, val, max)` of Qt, `qMax(min, qMin(max, val))`. -/
def qBound (mn val mx : α) : α := max mn (min mx val)

/-- Method `EditorWindow::wheelEvent`, so far as it changes the editor; `qPow` is
the power function of the C library.  With Alt the wheel zooms about the pointer,
otherwise it scrolls the camera by `SCROLL_SPEED = 16` pixels per notch. -/
def wheelEvent (qPow : α → α → α) (e : EditorWindow α) (event : QWheelEvent) : EditorWindow α :=
  if event.alt then
    let zoom := qBound (1 / 10) (e.mZoom * qPow (11 / 10) ((event.delta : α) / 120)) 32
    let mousePos : QPointF α := ⟨(event.pos.x : α), (event.pos.y : α)⟩
    { e with
      mCameraPos := (e.mCameraPos.add (mousePos.divScalar e.mZoom)).sub (mousePos.divScalar zoom)
      mZoom := zoom }
  else
    let horizontal := if event.control then !event.horizontal else event.horizontal
    let step : α := (event.delta : α) / 120 * 16 / e.mZoom
    if horizontal then { e with mCameraPos := ⟨e.mCameraPos.x - step, e.mCameraPos.y⟩ }
    else { e with mCameraPos := ⟨e.mCameraPos.x, e.mCameraPos.y - step⟩ }

/-! ## Selecting and pasting -/

/-- Method `EditorWindow::selectAll`; `active` is the value of
`findActiveGameObjects()` of the root layer. -/
def selectAll (e : EditorWindow α) (active : List (GameObject α)) : EditorWindow α :=
  if e.mEditorState = .STATE_IDLE then selectGameObjects e active else e

/-- The loading loop of `paste`: the objects in the order of their records, or
`none` as soon as `loadGameObject` returns `NULL` for a record. -/
def loadAll : List (Option (GameObject α)) → Option (List (GameObject α))
  | [] => some []
  | none :: _ => none
  | some object :: rest => (loadAll rest).map (fun objects => object :: objects)

/-- Method `EditorWindow::paste`.  `layer` is `getAvailableLayer()` (`none` for
`NULL`) and `records` lists, for every record of the clipboard data, what
`loadGameObject` returns for it (`none` for `NULL`); empty data has no record.
The loaded objects become the first children of the layer, in their order; the
new names and identifiers are not modelled. -/
def paste (e : EditorWindow α) (layer : Option Nat) (records : List (Option (GameObject α))) :
    EditorWindow α × List Command :=
  match layer with
  | none => (e, [])
  | some layer =>
    if e.mEditorState = .STATE_IDLE then
      if records.isEmpty then (e, [])
      else
        match loadAll records with
        | none => (e, [])
        | some objects =>
          let ids := objects.map (fun o => o.ident)
          let e1 : EditorWindow α :=
            { e with
              children := Function.update e.children layer (ids ++ e.children layer)
              parentLayer := fun o => if o ∈ ids then layer else e.parentLayer o }
          (selectGameObjects e1 objects, [.pasteObjects])
    else (e, [])

/-- The three snapshot lists (original positions, sizes and angles) are as long
as the list of selected objects. -/
def SnapshotMatches (e : EditorWindow α) : Prop :=
  e.mOriginalPositions.length = e.mSelectedObjects.length ∧
  e.mOriginalSizes.length = e.mSelectedObjects.length ∧
  e.mOriginalAngles.length = e.mSelectedObjects.length

/-- The snapshot lists are as long as the list of selected objects whenever
something is selected. -/
def SnapshotInv (e : EditorWindow α) : Prop :=
  e.mSelectedObjects.isEmpty = false → SnapshotMatches e

/-! ## Which snap fired -/

/-- The triple of `snapXCoord` after its guide block. -/
def snapXGuides (e : EditorWindow α) (x y1 y2 : α) : Snap α :=
  if e.options.snapToGuides then
    snapToGuidesStep e.vertGuides x (fun g => ⟨g, y1, g, y2⟩)
      ⟨x, (SNAP_DISTANCE : α) / e.mZoom, QLineF.null⟩
  else ⟨x, (SNAP_DISTANCE : α) / e.mZoom, QLineF.null⟩

/-- The triple of `snapYCoord` after its guide block. -/
def snapYGuides (e : EditorWindow α) (y x1 x2 : α) : Snap α :=
  if e.options.snapToGuides then
    snapToGuidesStep e.horzGuides y (fun g => ⟨x1, g, x2, g⟩)
      ⟨y, (SNAP_DISTANCE : α) / e.mZoom, QLineF.null⟩
  else ⟨y, (SNAP_DISTANCE : α) / e.mZoom, QLineF.null⟩

/-- A guide or origin snap fired in a snap query for `c`: snapping to guides is
enabled and `findGuide` found a guide or the test `qAbs(c) < distance` held. -/
def GuideFired (e : EditorWindow α) (guides : List α) (c : α) : Prop :=
  e.options.snapToGuides = true ∧
    ((Scene.findGuide guides c ((SNAP_DISTANCE : α) / e.mZoom)).1 ≠ -1 ∨
      |c| < (Scene.findGuide guides c ((SNAP_DISTANCE : α) / e.mZoom)).2)

/-- A guide, origin or smart-guide snap fired in `snapXCoord`: the smart-guide
query of the root layer fired when it changed the triple passed to it. -/
def SnapFiredX (e : EditorWindow α) (x y1 y2 : α) (excludeSelection : Bool) : Prop :=
  GuideFired e e.vertGuides x ∨
    (e.options.enableSmartGuides = true ∧
      e.layerSnapX x y1 y2 (excludedObjects e excludeSelection) (snapXGuides e x y1 y2)
        ≠ snapXGuides e x y1 y2)

/-- A guide, origin or smart-guide snap fired in `snapYCoord`. -/
def SnapFiredY (e : EditorWindow α) (y x1 x2 : α) (excludeSelection : Bool) : Prop :=
  GuideFired e e.horzGuides y ∨
    (e.options.enableSmartGuides = true ∧
      e.layerSnapY y x1 x2 (excludedObjects e excludeSelection) (snapYGuides e y x1 x2)
        ≠ snapYGuides e y x1 x2)

/-- The contract of the smart-guide queries of the root layer on the distance
passed by reference: a query either leaves the triple as it is or lowers the
distance. -/
def SmartLowers (e : EditorWindow α) : Prop :=
  (∀ x y1 y2 excluded s, e.layerSnapX x y1 y2 excluded s = s ∨
    (e.layerSnapX x y1 y2 excluded s).distance < s.distance) ∧
  (∀ y x1 x2 excluded s, e.layerSnapY y x1 x2 excluded s = s ∨
    (e.layerSnapY y x1 x2 excluded s).distance < s.distance)

end Generic

/-! ## The arithmetic of the program -/

section RoundedDefs

variable {α : Type} [LinearOrderedField α]

/-- The rounding `fl` of an operation with the exact result `x` has a relative
error of at most `u`: the operation neither overflows nor underflows. -/
def Accurate (fl : α → α) (u x : α) : Prop := |fl x - x| ≤ u * |x|

/-- Method `EditorWindow::worldToWindow` in the arithmetic of `double`: `fl` is
the rounding of the result of an operation. -/
def worldToWindowFl (fl : α → α) (e : EditorWindow α) (pt : QPointF α) : QPointF α :=
  ⟨fl (fl (pt.x - e.mCameraPos.x) * e.mZoom), fl (fl (pt.y - e.mCameraPos.y) * e.mZoom)⟩

/-- Method `EditorWindow::windowToWorld` in the arithmetic of `double`. -/
def windowToWorldFl (fl : α → α) (e : EditorWindow α) (pt : QPointF α) : QPointF α :=
  ⟨fl (e.mCameraPos.x + fl (pt.x / e.mZoom)), fl (e.mCameraPos.y + fl (pt.y / e.mZoom))⟩

/-- The operations of `worldToWindow` on `pt` neither overflow nor underflow. -/
def worldToWindowAccurate (fl : α → α) (u : α) (e : EditorWindow α) (pt : QPointF α) : Prop :=
  Accurate fl u (pt.x - e.mCameraPos.x) ∧ Accurate fl u (fl (pt.x - e.mCameraPos.x) * e.mZoom) ∧
  Accurate fl u (pt.y - e.mCameraPos.y) ∧ Accurate fl u (fl (pt.y - e.mCameraPos.y) * e.mZoom)

/-- The operations of `windowToWorld` on `pt` neither overflow nor underflow. -/
def windowToWorldAccurate (fl : α → α) (u : α) (e : EditorWindow α) (pt : QPointF α) : Prop :=
  Accurate fl u (pt.x / e.mZoom) ∧ Accurate fl u (e.mCameraPos.x + fl (pt.x / e.mZoom)) ∧
  Accurate fl u (pt.y / e.mZoom) ∧ Accurate fl u (e.mCameraPos.y + fl (pt.y / e.mZoom))

/-- Modelled from the spec: `Utils::isEqual` in the arithmetic of `double`, the
difference being rounded before it is compared. -/
def Utils.isEqualFl (fl : α → α) (value1 value2 eps : α) : Bool :=
  decide (|fl (value1 - value2)| < eps)

/-- The window point (width / 2, height / 2), the viewport center. -/
def viewportCenterFl (fl : α → α) (e : EditorWindow α) : QPointF α :=
  ⟨fl ((e.width : α) / 2), fl ((e.height : α) / 2)⟩

/-- Method `EditorWindow::setZoom` in the arithmetic of `double`, so far as it
changes the editor; the literal `0.005` is the rounding of 5 / 1000. -/
def setZoomFl (fl : α → α) (e : EditorWindow α) (zoom : α) : EditorWindow α :=
  if Utils.isEqualFl fl zoom e.mZoom (fl (5 / 1000)) then e
  else
    let size : QPointF α := ⟨(e.width : α), (e.height : α)⟩
    { e with
      mCameraPos :=
        ⟨fl (fl (e.mCameraPos.x + fl (fl (size.x / 2) / e.mZoom)) - fl (fl (size.x / 2) / zoom)),
          fl (fl (e.mCameraPos.y + fl (fl (size.y / 2) / e.mZoom)) - fl (fl (size.y / 2) / zoom))⟩
      mZoom := zoom }

/-- The subtraction of `setZoom` and the addition of the `windowToWorld` that
follows it neither overflow nor underflow, on the coordinate with the camera
coordinate `camera` and the window coordinate `half` of the viewport center. -/
def setZoomAccurate (fl : α → α) (u camera half oldZoom zoom : α) : Prop :=
  Accurate fl u (fl (camera + fl (half / oldZoom)) - fl (half / zoom)) ∧
  Accurate fl u (fl (fl (camera + fl (half / oldZoom)) - fl (half / zoom)) + fl (half / zoom))

/-- The one-unit floor of the `STATE_RESIZE` branch in the arithmetic of
`double`. -/
def floorScaleFl (fl : α → α) (rect : QRectF α) (scale : QPointF α) : QPointF α :=
  ⟨if |fl (rect.width * scale.x)| < 1 then fl ((if scale.x ≥ 0 then 1 else -1) / rect.width)
    else scale.x,
    if |fl (rect.height * scale.y)| < 1 then fl ((if scale.y ≥ 0 then 1 else -1) / rect.height)
    else scale.y⟩

/-- The operations of the floor on one axis neither overflow nor underflow: the
product of the extent and the computed factor, the quotient that replaces the
factor, and the product of the extent and that quotient. -/
def floorAccurate (fl : α → α) (u extent factor : α) : Prop :=
  Accurate fl u (extent * factor) ∧
  Accurate fl u ((if factor ≥ 0 then 1 else -1) / extent) ∧
  Accurate fl u (extent * fl ((if factor ≥ 0 then 1 else -1) / extent))

end RoundedDefs

section RoundingDefs

variable {α : Type} [LinearOrderedField α] [FloorRing α]

/-- The integer nearest to `x`, a tie going to the even neighbour. -/
def roundHalfEven (x : α) : Int :=
  if x - ⌊x⌋ < 1 / 2 then ⌊x⌋
  else if 1 / 2 < x - ⌊x⌋ then ⌊x⌋ + 1
  else if ⌊x⌋ % 2 = 0 then ⌊x⌋ else ⌊x⌋ + 1

/-- Rounding to a binary floating-point format with `t` fraction bits: to
nearest, ties to even, the exponent range unbounded. -/
def roundBits (t : Int) (x : α) : α :=
  if x = 0 then 0
  else ((roundHalfEven (x / 2 ^ (Int.log 2 |x| - t)) : Int) : α) * 2 ^ (Int.log 2 |x| - t)

/-- The rounding of `double`, IEEE 754 binary64, on results in its normal range. -/
def binary64 (x : α) : α := roundBits 52 x

end RoundingDefs

section LockDefs

variable {α : Type} [LinearOrderedField α] [FloorRing α]

namespace QVector2D

end QVector2D

end LockDefs

/-! ## Concrete editors used as examples -/

/-- An editor at zoom `1.0` with every snapping feature enabled, grid spacing
`10`, and one guide at `102` on each axis. -/
def guideEditor : EditorWindow ℚ :=
  { EditorWindow.init ⟨true, true, true, true, 10⟩ with
    horzGuides := [102]
    vertGuides := [102] }

/-- An editor at zoom `1.0` with snap-to-grid as the only snapping feature, grid
spacing `10`, selection rectangle (100,100)-(200,150), and the pointer dragged 53
pixels to the right. -/
def gridMoveEditor : EditorWindow ℚ :=
  { EditorWindow.init ⟨false, false, true, false, 10⟩ with
    mOriginalRect := ⟨100, 100, 100, 50⟩
    mSnappedRect := ⟨100, 100, 100, 50⟩
    mFirstPos := ⟨200, 200⟩
    mLastPos := ⟨253, 200⟩ }

/-- An editor at zoom `1.0` with no snapping feature enabled, one unrotated object
of size 100 x 50 selected, and the bottom-right marker being dragged. -/
def resizeEditor : EditorWindow ℚ :=
  { EditorWindow.init ⟨false, false, false, false, 10⟩ with
    mSelectionMarker := .MARKER_BOTTOM_RIGHT
    mSelectedObjects := [⟨1, ⟨0, 0⟩, ⟨100, 50⟩, 0, ⟨50, 25⟩, ⟨0, 0, 100, 50⟩⟩]
    mOriginalPositions := [⟨0, 0⟩]
    mOriginalSizes := [⟨100, 50⟩]
    mOriginalAngles := [0]
    mOriginalRect := ⟨0, 0, 100, 50⟩
    mSnappedRect := ⟨0, 0, 100, 50⟩ }

/-- Two objects, one at 0 degrees and one, a 40 x 40 square, at 45 degrees; the
bounding rectangle of the second is the value of `getBoundingRect()` rounded to
integers. -/
def twoObjects : List (GameObject ℚ) :=
  [⟨1, ⟨0, 0⟩, ⟨100, 50⟩, 0, ⟨50, 25⟩, ⟨0, 0, 100, 50⟩⟩,
    ⟨2, ⟨120, 20⟩, ⟨40, 40⟩, 45, ⟨140, 40⟩, ⟨112, 12, 56, 56⟩⟩]

/-- The editor after `selectGameObjects` on `twoObjects`, with no snapping
feature enabled and the bottom-right marker being dragged. -/
def twoObjectEditor : EditorWindow ℚ :=
  selectGameObjects
    { EditorWindow.init ⟨false, false, false, false, 10⟩ with
      mSelectionMarker := .MARKER_BOTTOM_RIGHT }
    twoObjects

/-! ## Editors and events used as examples of the handlers -/

section Examples

variable {α : Type} [LinearOrderedField α]

/-- A 100 x 50 object at the origin, unrotated. -/
def firstObject : GameObject α := ⟨1, ⟨0, 0⟩, ⟨100, 50⟩, 0, ⟨50, 25⟩, ⟨0, 0, 100, 50⟩⟩

/-- A 100 x 50 object at (200, 0), unrotated. -/
def secondObject : GameObject α := ⟨2, ⟨200, 0⟩, ⟨100, 50⟩, 0, ⟨250, 25⟩, ⟨200, 0, 100, 50⟩⟩

/-- An idle editor over a scene of `firstObject` and `secondObject` in layer 0,
with `firstObject` selected, the camera at the origin and guides hidden. -/
def clickEditor : EditorWindow α :=
  { EditorWindow.init ⟨false, false, false, false, 10⟩ with
    children := fun layer => if layer = 0 then [1, 2] else []
    findGameObjectByPoint := fun p =>
      if 0 ≤ p.x ∧ p.x ≤ 100 ∧ 0 ≤ p.y ∧ p.y ≤ 50 then some firstObject
      else if 200 ≤ p.x ∧ p.x ≤ 300 ∧ 0 ≤ p.y ∧ p.y ≤ 50 then some secondObject
      else none
    mSelectedObjects := [firstObject]
    mOriginalPositions := [⟨0, 0⟩]
    mOriginalSizes := [⟨100, 50⟩]
    mOriginalAngles := [0]
    mOriginalRect := ⟨0, 0, 100, 50⟩
    mSnappedRect := ⟨0, 0, 100, 50⟩
    mOriginalCenter := ⟨50, 25⟩
    mSnappedCenter := ⟨50, 25⟩ }

/-- A left press at window point (250, 25), on `secondObject`. -/
def pressOnSecond : QMouseEvent := ⟨⟨250, 25⟩, .LeftButton, true, false, false, false⟩

/-- A left press at window point (500, 400), on empty canvas. -/
def pressOnCanvas : QMouseEvent := ⟨⟨500, 400⟩, .LeftButton, true, false, false, false⟩

/-- The release of the left button at window point (500, 400). -/
def releaseOnCanvas : QMouseEvent := ⟨⟨500, 400⟩, .LeftButton, false, false, false, false⟩

/-- The editor in the Move state: `firstObject` has been dragged 30 pixels to the
right with the left button. -/
def moveStateEditor : EditorWindow α :=
  { (clickEditor : EditorWindow α) with
    mEditorState := .STATE_MOVE
    mEditEnabled := true
    mFirstPos := ⟨50, 25⟩
    mLastPos := ⟨80, 25⟩
    mSelectedObjects := [⟨1, ⟨30, 0⟩, ⟨100, 50⟩, 0, ⟨80, 25⟩, ⟨30, 0, 100, 50⟩⟩]
    mSnappedRect := ⟨30, 0, 100, 50⟩
    mSnappedCenter := ⟨80, 25⟩ }

/-- The release of the right button at window point (80, 25) while the left
button is still held. -/
def rightRelease : QMouseEvent := ⟨⟨80, 25⟩, .RightButton, true, false, false, false⟩

/-- The release of the left button at window point (80, 25). -/
def leftRelease : QMouseEvent := ⟨⟨80, 25⟩, .LeftButton, false, false, false, false⟩

/-- An editor with guides shown in an 800 x 600 widget, dragging the horizontal
guide at 50, which existed before the press at window point (100, 70), with
editing enabled. -/
def guideDragEditor : EditorWindow α :=
  { EditorWindow.init ⟨false, false, false, false, 10⟩ with
    showGuides := true
    mCameraPos := ⟨-20, -20⟩
    horzGuides := [50]
    mEditorState := .STATE_HORZ_GUIDE
    mEditEnabled := true
    mFirstPos := ⟨100, 70⟩
    mLastPos := ⟨900, 70⟩
    mGuideIndex := 0 }

/-- The release of the left button at window point (900, 70): to the right of
the 800 pixel wide widget, at the height of the guide. -/
def sideRelease : QMouseEvent := ⟨⟨900, 70⟩, .LeftButton, false, false, false, false⟩

/-- A left press at window point (100, 5), on the horizontal ruler. -/
def pressOnRuler : QMouseEvent := ⟨⟨100, 5⟩, .LeftButton, true, false, false, false⟩

/-- An idle editor with guides shown in an 800 x 600 widget, the camera at
(-20, -20) and one horizontal guide at 50. -/
def guideIdleEditor : EditorWindow α :=
  { EditorWindow.init ⟨false, false, false, false, 10⟩ with
    showGuides := true
    mCameraPos := ⟨-20, -20⟩
    horzGuides := [50] }

/-- A left press at window point (100, 70), on the guide of `guideIdleEditor`. -/
def pressOnGuide : QMouseEvent := ⟨⟨100, 70⟩, .LeftButton, true, false, false, false⟩

/-- A move to window point (900, 90) with the left button down. -/
def dragToSide : QMouseEvent := ⟨⟨900, 90⟩, .NoButton, true, false, false, false⟩

/-- The release of the left button at window point (900, 90): to the right of
the 800 pixel wide widget, 90 pixels below its top. -/
def sideReleaseLow : QMouseEvent := ⟨⟨900, 90⟩, .LeftButton, false, false, false, false⟩

/-- An idle editor of a saved scene whose names file uses object 1, with
`firstObject` selected. -/
def usedEditor : EditorWindow α :=
  { (clickEditor : EditorWindow α) with
    mUntitled := false
    findUsedGameObjects := fun objects => objects.filter (fun o => decide (o = 1)) }

/-- A 100 x 50 object at (400, 0), unrotated. -/
def thirdObject : GameObject α := ⟨3, ⟨400, 0⟩, ⟨100, 50⟩, 0, ⟨450, 25⟩, ⟨400, 0, 100, 50⟩⟩

/-- The depth sort of a scene whose objects all lie in layer 0: the objects of
the list in the order of the child list of that layer. -/
def flatDepthSort (children : Nat → List Nat) (objects : List (GameObject α)) :
    List (GameObject α) :=
  (children 0).filterMap (fun i => objects.find? (fun o => o.ident == i))

/-- An idle editor over a scene of three objects in layer 0, in the child order
1, 2, 3, with objects 3 and 2 selected in that order. -/
def orderEditor : EditorWindow α :=
  { EditorWindow.init ⟨false, false, false, false, 10⟩ with
    children := fun layer => if layer = 0 then [1, 2, 3] else []
    sortGameObjects := flatDepthSort
    mSelectedObjects := [thirdObject, secondObject] }

/-- A 100 x 50 object at (0, 100), unrotated. -/
def fourthObject : GameObject α := ⟨4, ⟨0, 100⟩, ⟨100, 50⟩, 0, ⟨50, 125⟩, ⟨0, 100, 100, 50⟩⟩

/-- A 100 x 50 object at (200, 100), unrotated. -/
def fifthObject : GameObject α := ⟨5, ⟨200, 100⟩, ⟨100, 50⟩, 0, ⟨250, 125⟩, ⟨200, 100, 100, 50⟩⟩

/-- The depth sort of a scene with the layers 0 and 1: the objects of the list in
the order of the child list of layer 0 followed by the child list of layer 1. -/
def twoLayerDepthSort (children : Nat → List Nat) (objects : List (GameObject α)) :
    List (GameObject α) :=
  (children 0 ++ children 1).filterMap (fun i => objects.find? (fun o => o.ident == i))

/-- An idle editor over a scene of two layers, layer 0 with the children 1, 2, 3
and layer 1 with the children 4, 5, with objects 5, 2 and 3 selected in that
order. -/
def twoLayerEditor : EditorWindow α :=
  { EditorWindow.init ⟨false, false, false, false, 10⟩ with
    children := fun layer => if layer = 0 then [1, 2, 3] else if layer = 1 then [4, 5] else []
    parentLayer := fun o => if o ≤ 3 then 0 else 1
    sortGameObjects := twoLayerDepthSort
    mSelectedObjects := [fifthObject, secondObject, thirdObject] }

/-- An editor at zoom `1.0` with snap-to-grid and "snap to visible lines"
enabled and a base grid spacing of 5. -/
def coarseGridEditor : EditorWindow α := EditorWindow.init ⟨false, false, true, true, 5⟩

/-- The editor `coarseGridEditor` at the zoom `2 ^ -34`. -/
def tinyZoomEditor : EditorWindow α :=
  { (coarseGridEditor : EditorWindow α) with mZoom := 1 / 2 ^ 34 }

/-- An editor at zoom `2.0` whose camera is at (10, 20), in an 800 x 600 widget. -/
def zoomedEditor : EditorWindow α :=
  { EditorWindow.init ⟨false, false, false, false, 10⟩ with
    mCameraPos := ⟨10, 20⟩
    mZoom := 2 }

/-- One notch of the wheel away from the user with Alt held, at window point
(400, 300). -/
def wheelNotch : QWheelEvent := ⟨⟨400, 300⟩, 120, false, true, false⟩

/-- The power function on exponents that are whole numbers of notches. -/
def notchPow [FloorRing α] (base exponent : α) : α := base ^ ⌊exponent⌋

/-- An editor at zoom `1.0` with snap-to-guides as the only snapping feature and
one vertical guide at 52. -/
def oneGuideEditor : EditorWindow α :=
  { EditorWindow.init ⟨true, false, false, false, 10⟩ with vertGuides := [52] }

/-- An editor at zoom `1.0` with snap-to-guides as the only snapping feature and
one guide at 3 on each axis. -/
def originEditor : EditorWindow α :=
  { EditorWindow.init ⟨true, false, false, false, 10⟩ with
    horzGuides := [3]
    vertGuides := [3] }

/-- An editor at zoom `1.0` with snap-to-guides as the only snapping feature and
no guide in the scene. -/
def axisEditor : EditorWindow α := EditorWindow.init ⟨true, false, false, false, 10⟩

/-- The editor as its constructor leaves it, at zoom `1.0`, with no snapping
feature enabled. -/
def plainEditor : EditorWindow α := EditorWindow.init ⟨false, false, false, false, 10⟩

end Examples

section RoundedExamples

variable {α : Type} [LinearOrderedField α]

/-- An editor at zoom `7.0` with the camera at the origin. -/
def sevenfoldEditor : EditorWindow α :=
  { EditorWindow.init ⟨false, false, false, false, 10⟩ with mZoom := 7 }

/-- An editor at zoom `3.0` with the camera at the origin, in an 800 x 600
widget. -/
def tripleZoomEditor : EditorWindow α :=
  { EditorWindow.init ⟨false, false, false, false, 10⟩ with mZoom := 3 }

/-- A selection frame 49 units wide and 50 units high. -/
def narrowRect : QRectF α := ⟨0, 0, 49, 50⟩

end RoundedExamples

/-! ## The real-number instance -/

/-- The numeric environment over the real numbers: `Utils::PI` is π, `qAcos` is
the arc cosine and is NaN outside `[-1, 1]`. -/
noncomputable def Libm.real (eps : ℝ) : Libm ℝ where
  PI := Real.pi
  EPS := eps
  sqrt := Real.sqrt
  acos := fun v => if |v| ≤ 1 then some (Real.arccos v) else none
  cos := Real.cos
  sin := Real.sin

/-- The angle of the vector `d` from the positive X axis, signed and in
`[-π, π]`: the arc cosine of the normalised X component, negated below the axis. -/
noncomputable def angleFromXAxis (d : QPointF ℝ) : ℝ :=
  if d.y < 0 then -Real.arccos (d.x / Real.sqrt (d.x * d.x + d.y * d.y))
  else Real.arccos (d.x / Real.sqrt (d.x * d.x + d.y * d.y))

/-- The multiple of 45 degrees (π/4) obtained from the angle of `d` by
`floor((angle + π/8) / (π/4)) * (π/4)`. -/
noncomputable def lockedAngle (d : QPointF ℝ) : ℝ :=
  ((⌊(angleFromXAxis d + Real.pi / 8) / (Real.pi / 4)⌋ : Int) : ℝ) * (Real.pi / 4)

/-- An editor over the reals at zoom `1.0` with snap-to-grid as the only snapping
feature, grid spacing `10`, selection rectangle (103,100)-(203,150), and the
pointer dragged 53 pixels straight down. -/
noncomputable def lockedMoveEditor : EditorWindow ℝ :=
  { EditorWindow.init ⟨false, false, true, false, 10⟩ with
    mOriginalRect := ⟨103, 100, 100, 50⟩
    mSnappedRect := ⟨103, 100, 100, 50⟩
    mFirstPos := ⟨200, 200⟩
    mLastPos := ⟨200, 253⟩ }

/-- An editor over the reals in the Rotate state: one selected object at 89.75
degrees, placed at (10, 0), turning about the origin, the rotation having
started with the pointer on the positive X axis. -/
noncomputable def rotateEditor : EditorWindow ℝ :=
  { EditorWindow.init ⟨false, false, false, false, 10⟩ with
    mEditorState := .STATE_ROTATE
    mSelectedObjects := [⟨1, ⟨10, 0⟩, ⟨20, 20⟩, 359 / 4, ⟨0, 0⟩, ⟨0, -10, 20, 20⟩⟩]
    mOriginalPositions := [⟨10, 0⟩]
    mOriginalAngles := [359 / 4]
    mOriginalCenter := ⟨0, 0⟩
    mRotationVector := ⟨1, 0⟩ }

/-- A numeric environment of `double`: `Utils::PI` is the `double` nearest to π
and the library functions return the correctly rounded values of the square
root, the arc cosine (NaN outside `[-1, 1]`), the cosine and the sine. -/
noncomputable def Libm.double (eps : ℝ) : Libm ℝ where
  PI := 884279719003555 / 281474976710656
  EPS := eps
  sqrt := fun v => binary64 (Real.sqrt v)
  acos := fun v => if |v| ≤ 1 then some (binary64 (Real.arccos v)) else none
  cos := fun v => binary64 (Real.cos v)
  sin := fun v => binary64 (Real.sin v)

section SnapFacts

variable {α : Type} [LinearOrderedField α]

theorem findGuideAux_spec (coord : α) (gs : List α) :
    ∀ (i : Nat) (idx : Int) (d0 : α),
      (Scene.findGuideAux coord gs i idx d0).2 ≤ d0 ∧
      (∀ g ∈ gs, (Scene.findGuideAux coord gs i idx d0).2 ≤ |g - coord|) ∧
      (((Scene.findGuideAux coord gs i idx d0).1 = idx ∧
          (Scene.findGuideAux coord gs i idx d0).2 = d0) ∨
        ∃ k, k < gs.length ∧ (Scene.findGuideAux coord gs i idx d0).1 = ((i + k : Nat) : Int) ∧
          (Scene.findGuideAux coord gs i idx d0).2 = |gs.getD k 0 - coord| ∧
          (Scene.findGuideAux coord gs i idx d0).2 < d0) := by
  induction gs with
  | nil => intro i idx d0; simp [Scene.findGuideAux]
  | cons g gs ih =>
    intro i idx d0
    by_cases hlt : |g - coord| < d0
    · have h := ih (i + 1) (i : Int) |g - coord|
      simp only [Scene.findGuideAux, if_pos hlt]
      obtain ⟨h1, h2, h3⟩ := h
      refine ⟨le_trans h1 (le_of_lt hlt), ?_, ?_⟩
      · intro g1 hg1
        rcases List.mem_cons.mp hg1 with rfl | hmem
        · exact h1
        · exact h2 g1 hmem
      · right
        rcases h3 with ⟨ha, hb⟩ | ⟨k, hk, ha, hb, hc⟩
        · exact ⟨0, by simp, by simpa using ha, by simpa using hb, by rw [hb]; exact hlt⟩
        · refine ⟨k + 1, by simpa using hk, ?_, by simpa using hb, lt_trans hc hlt⟩
          rw [ha]; push_cast; ring
    · have h := ih (i + 1) idx d0
      simp only [Scene.findGuideAux, if_neg hlt]
      obtain ⟨h1, h2, h3⟩ := h
      refine ⟨h1, ?_, ?_⟩
      · intro g1 hg1
        rcases List.mem_cons.mp hg1 with rfl | hmem
        · exact le_trans h1 (not_lt.mp hlt)
        · exact h2 g1 hmem
      · rcases h3 with ⟨ha, hb⟩ | ⟨k, hk, ha, hb, hc⟩
        · exact Or.inl ⟨ha, hb⟩
        · right
          refine ⟨k + 1, by simpa using hk, ?_, by simpa using hb, hc⟩
          rw [ha]; push_cast; ring

/-- With no guide closer than `distance`, `findGuide` reports `-1` and leaves the
distance as it was. -/
theorem findGuide_none (guides : List α) (coord distance : α)
    (h : ∀ g ∈ guides, ¬ |g - coord| < distance) :
    Scene.findGuide guides coord distance = (-1, distance) := by
  obtain ⟨_, h2, h3⟩ := findGuideAux_spec coord guides 0 (-1) distance
  rcases h3 with ⟨ha, hb⟩ | ⟨k, hk, _, hb, hc⟩
  · exact Prod.ext ha hb
  · exfalso
    have hmem : guides.getD k 0 ∈ guides := by
      rw [List.getD_eq_getElem _ _ hk]; exact List.getElem_mem _
    exact h _ hmem (by rw [← hb]; exact hc)

/-- With a guide closer than `distance`, `findGuide` reports the index of a
nearest guide and lowers the distance to the distance of that guide. -/
theorem findGuide_some (guides : List α) (coord distance : α)
    (h : ∃ g ∈ guides, |g - coord| < distance) :
    (Scene.findGuide guides coord distance).1 ≠ -1 ∧
    Scene.getGuide guides (Scene.findGuide guides coord distance).1 ∈ guides ∧
    (Scene.findGuide guides coord distance).2 =
      |Scene.getGuide guides (Scene.findGuide guides coord distance).1 - coord| ∧
    (Scene.findGuide guides coord distance).2 < distance ∧
    ∀ g ∈ guides, (Scene.findGuide guides coord distance).2 ≤ |g - coord| := by
  obtain ⟨g, hg, hgd⟩ := h
  obtain ⟨_, h2, h3⟩ := findGuideAux_spec coord guides 0 (-1) distance
  rcases h3 with ⟨_, hb⟩ | ⟨k, hk, ha, hb, hc⟩
  · exfalso
    have := h2 g hg
    rw [hb] at this
    exact absurd hgd (not_lt.mpr this)
  · have hidx : (Scene.findGuide guides coord distance).1 = (k : Int) := by
      simpa [Scene.findGuide] using ha
    have hget : Scene.getGuide guides (Scene.findGuide guides coord distance).1
        = guides.getD k 0 := by
      rw [hidx]; simp [Scene.getGuide]
    refine ⟨?_, ?_, ?_, hc, h2⟩
    · rw [hidx]; omega
    · rw [hget, List.getD_eq_getElem _ _ hk]; exact List.getElem_mem _
    · rw [hget]; exact hb

theorem snapToGuidesStep_free (guides : List α) (c : α) (mkLine : α → QLineF α) (s : Snap α)
    (hg : ∀ g ∈ guides, ¬ |g - c| < s.distance) (ho : ¬ |c| < s.distance) :
    snapToGuidesStep guides c mkLine s = s := by
  simp [snapToGuidesStep, findGuide_none guides c s.distance hg, ho]

theorem snapToGuidesStep_guide (guides : List α) (c : α) (mkLine : α → QLineF α) (s : Snap α)
    (hg : ∃ g ∈ guides, |g - c| < s.distance) (ho : ¬ |c| < s.distance) :
    (snapToGuidesStep guides c mkLine s).coord ∈ guides ∧
    (snapToGuidesStep guides c mkLine s).distance
      = |(snapToGuidesStep guides c mkLine s).coord - c| ∧
    (snapToGuidesStep guides c mkLine s).distance < s.distance ∧
    ∀ g ∈ guides, (snapToGuidesStep guides c mkLine s).distance ≤ |g - c| := by
  obtain ⟨h1, h2, h3, h4, h5⟩ := findGuide_some guides c s.distance hg
  have ho2 : ¬ |c| < (Scene.findGuide guides c s.distance).2 :=
    fun hc => ho (lt_trans hc h4)
  simp only [snapToGuidesStep, if_pos h1, if_neg ho2]
  exact ⟨h2, h3, h4, h5⟩

end SnapFacts

section GridFacts

variable {α : Type} [LinearOrderedField α] [FloorRing α]

theorem wrapInt_of_range (z : Int) (h1 : -2147483648 ≤ z) (h2 : z ≤ 2147483647) :
    wrapInt z = z := by
  unfold wrapInt
  omega

theorem wrapInt_range (z : Int) : -2147483648 ≤ wrapInt z ∧ wrapInt z ≤ 2147483647 := by
  unfold wrapInt
  omega

theorem qFloor_of_range (v : α) (h1 : -2147483648 ≤ ⌊v⌋) (h2 : ⌊v⌋ ≤ 2147483647) :
    qFloor v = ⌊v⌋ := by
  simp [qFloor, h1, h2]

theorem factor_in_range (f g : Int) (hg : 0 < g) (h1 : -2147483648 ≤ f * g)
    (h2 : f * g ≤ 2147483647) : -2147483648 ≤ f ∧ f ≤ 2147483647 := by
  constructor
  · rcases le_or_lt 0 f with hf | hf
    · omega
    · nlinarith
  · rcases le_or_lt 0 f with hf | hf
    · nlinarith
    · omega

theorem gridRound_of_range (g : Int) (hg : 0 < g) (x : α)
    (h1 : -2147483648 ≤ ⌊(x + (g : α) / 2) / (g : α)⌋ * g)
    (h2 : ⌊(x + (g : α) / 2) / (g : α)⌋ * g ≤ 2147483647) :
    gridRound g x = ((⌊(x + (g : α) / 2) / (g : α)⌋ * g : Int) : α) := by
  obtain ⟨f1, f2⟩ := factor_in_range _ g hg h1 h2
  simp only [gridRound, qFloor_of_range _ f1 f2, wrapInt_of_range _ h1 h2]

theorem gridRound_exact (g : Int) (hg : 0 < g) (x : α) (hr : GridInRange g x) :
    gridRound g x = ((⌊(x + (g : α) / 2) / (g : α)⌋ * g : Int) : α) := by
  have hgα : (0 : α) < (g : α) := by exact_mod_cast hg
  have h1 := Int.floor_le ((x + (g : α) / 2) / (g : α))
  have h2 := Int.lt_floor_add_one ((x + (g : α) / 2) / (g : α))
  rw [le_div_iff₀ hgα] at h1
  rw [div_lt_iff₀ hgα] at h2
  obtain ⟨r1, r2⟩ := hr
  apply gridRound_of_range g hg
  · have h3 : ((-2147483649 : Int) : α)
        < ((⌊(x + (g : α) / 2) / (g : α)⌋ * g : Int) : α) := by
      push_cast
      nlinarith
    have h4 := Int.cast_lt.mp h3
    omega
  · have h3 : ((⌊(x + (g : α) / 2) / (g : α)⌋ * g : Int) : α) ≤ ((2147483647 : Int) : α) := by
      push_cast
      linarith
    exact Int.cast_le.mp h3

theorem gridRound_mul (g : Int) (hg : 0 < g) (k : Int) (h1 : -2147483648 ≤ k * g)
    (h2 : k * g ≤ 2147483647) :
    gridRound g (((k * g : Int)) : α) = (((k * g : Int)) : α) := by
  have hgα : (0 : α) < (g : α) := by exact_mod_cast hg
  have hfl : ⌊((((k * g : Int)) : α) + (g : α) / 2) / (g : α)⌋ = k := by
    rw [Int.floor_eq_iff]
    have he : ((((k * g : Int)) : α) + (g : α) / 2) / (g : α) = (k : α) + 1 / 2 := by
      push_cast; field_simp; ring
    rw [he]
    constructor <;> linarith
  rw [gridRound_of_range g hg _ (by rw [hfl]; exact h1) (by rw [hfl]; exact h2), hfl]

theorem gridRound_near (g : Int) (hg : 0 < g) (x : α) (hr : GridInRange g x) :
    |gridRound g x - x| ≤ (g : α) / 2 := by
  have hgα : (0 : α) < (g : α) := by exact_mod_cast hg
  have h1 := Int.floor_le ((x + (g : α) / 2) / (g : α))
  have h2 := Int.lt_floor_add_one ((x + (g : α) / 2) / (g : α))
  rw [le_div_iff₀ hgα] at h1
  rw [div_lt_iff₀ hgα] at h2
  rw [gridRound_exact g hg x hr]
  push_cast
  rw [abs_le]
  constructor <;> nlinarith

theorem gridRound_multiple (g : Int) (hg : 0 < g) (x : α) (hr : GridInRange g x) :
    ∃ k : Int, gridRound g x = (k : α) * (g : α) :=
  ⟨⌊(x + (g : α) / 2) / (g : α)⌋, by rw [gridRound_exact g hg x hr]; push_cast; rfl⟩

/-- The grid rounding of a value in range is a multiple of the spacing that is
itself in the range of `int`. -/
theorem gridRound_idem (g : Int) (hg : 0 < g) (x : α) (hr : GridInRange g x) :
    gridRound g (gridRound g x) = gridRound g x := by
  have hgα : (0 : α) < (g : α) := by exact_mod_cast hg
  have h1 := Int.floor_le ((x + (g : α) / 2) / (g : α))
  have h2 := Int.lt_floor_add_one ((x + (g : α) / 2) / (g : α))
  rw [le_div_iff₀ hgα] at h1
  rw [div_lt_iff₀ hgα] at h2
  obtain ⟨r1, r2⟩ := hr
  rw [gridRound_exact g hg x ⟨r1, r2⟩]
  apply gridRound_mul g hg
  · have h3 : ((-2147483649 : Int) : α)
        < ((⌊(x + (g : α) / 2) / (g : α)⌋ * g : Int) : α) := by
      push_cast
      nlinarith
    have h4 := Int.cast_lt.mp h3
    omega
  · have h3 : ((⌊(x + (g : α) / 2) / (g : α)⌋ * g : Int) : α) ≤ ((2147483647 : Int) : α) := by
      push_cast
      linarith
    exact Int.cast_le.mp h3

theorem snapXCoord_free (fuel : Nat) (e : EditorWindow α) (x y1 y2 : α) (excl : Bool)
    (hg : GuideFree e e.vertGuides x) (hs : SmartFree e (e.layerSnapX x y1 y2) excl) :
    snapXCoord fuel e x y1 y2 excl =
      if e.options.snapToGrid = true then
        (getGridSpacing fuel e).map
          (fun g => ⟨gridRound g x, (SNAP_DISTANCE : α) / e.mZoom, QLineF.null⟩)
      else some ⟨x, (SNAP_DISTANCE : α) / e.mZoom, QLineF.null⟩ := by
  have h1 : (if e.options.snapToGuides = true then
      snapToGuidesStep e.vertGuides x (fun g => (⟨g, y1, g, y2⟩ : QLineF α))
        ⟨x, (SNAP_DISTANCE : α) / e.mZoom, QLineF.null⟩
      else ⟨x, (SNAP_DISTANCE : α) / e.mZoom, QLineF.null⟩)
      = (⟨x, (SNAP_DISTANCE : α) / e.mZoom, QLineF.null⟩ : Snap α) := by
    by_cases hgd : e.options.snapToGuides = true
    · rw [if_pos hgd]
      exact snapToGuidesStep_free _ _ _ _ (hg hgd).1 (hg hgd).2
    · rw [if_neg hgd]
  have h2 : (if e.options.enableSmartGuides = true then
      e.layerSnapX x y1 y2 (excludedObjects e excl)
        (⟨x, (SNAP_DISTANCE : α) / e.mZoom, QLineF.null⟩ : Snap α)
      else ⟨x, (SNAP_DISTANCE : α) / e.mZoom, QLineF.null⟩)
      = (⟨x, (SNAP_DISTANCE : α) / e.mZoom, QLineF.null⟩ : Snap α) := by
    by_cases hsd : e.options.enableSmartGuides = true
    · rw [if_pos hsd]; exact hs hsd _
    · rw [if_neg hsd]
  simp only [snapXCoord, h1, h2]
  by_cases hgr : e.options.snapToGrid = true <;> simp [hgr]

theorem snapYCoord_free (fuel : Nat) (e : EditorWindow α) (y x1 x2 : α) (excl : Bool)
    (hg : GuideFree e e.horzGuides y) (hs : SmartFree e (e.layerSnapY y x1 x2) excl) :
    snapYCoord fuel e y x1 x2 excl =
      if e.options.snapToGrid = true then
        (getGridSpacing fuel e).map
          (fun g => ⟨gridRound g y, (SNAP_DISTANCE : α) / e.mZoom, QLineF.null⟩)
      else some ⟨y, (SNAP_DISTANCE : α) / e.mZoom, QLineF.null⟩ := by
  have h1 : (if e.options.snapToGuides = true then
      snapToGuidesStep e.horzGuides y (fun g => (⟨x1, g, x2, g⟩ : QLineF α))
        ⟨y, (SNAP_DISTANCE : α) / e.mZoom, QLineF.null⟩
      else ⟨y, (SNAP_DISTANCE : α) / e.mZoom, QLineF.null⟩)
      = (⟨y, (SNAP_DISTANCE : α) / e.mZoom, QLineF.null⟩ : Snap α) := by
    by_cases hgd : e.options.snapToGuides = true
    · rw [if_pos hgd]
      exact snapToGuidesStep_free _ _ _ _ (hg hgd).1 (hg hgd).2
    · rw [if_neg hgd]
  have h2 : (if e.options.enableSmartGuides = true then
      e.layerSnapY y x1 x2 (excludedObjects e excl)
        (⟨y, (SNAP_DISTANCE : α) / e.mZoom, QLineF.null⟩ : Snap α)
      else ⟨y, (SNAP_DISTANCE : α) / e.mZoom, QLineF.null⟩)
      = (⟨y, (SNAP_DISTANCE : α) / e.mZoom, QLineF.null⟩ : Snap α) := by
    by_cases hsd : e.options.enableSmartGuides = true
    · rw [if_pos hsd]; exact hs hsd _
    · rw [if_neg hsd]
  simp only [snapYCoord, h1, h2]
  by_cases hgr : e.options.snapToGrid = true <;> simp [hgr]

theorem snapXCoord_guide (fuel : Nat) (e : EditorWindow α) (x y1 y2 : α) (excl : Bool)
    (hon : e.options.snapToGuides = true)
    (hg : ∃ g ∈ e.vertGuides, |g - x| < (SNAP_DISTANCE : α) / e.mZoom)
    (ho : ¬ |x| < (SNAP_DISTANCE : α) / e.mZoom)
    (hs : SmartFree e (e.layerSnapX x y1 y2) excl) :
    ∃ r, snapXCoord fuel e x y1 y2 excl = some r ∧ r.coord ∈ e.vertGuides ∧
      |r.coord - x| < (SNAP_DISTANCE : α) / e.mZoom ∧
      ∀ g ∈ e.vertGuides, |r.coord - x| ≤ |g - x| := by
  obtain ⟨h1, h2, h3, h4⟩ := snapToGuidesStep_guide e.vertGuides x
    (fun g => (⟨g, y1, g, y2⟩ : QLineF α)) ⟨x, (SNAP_DISTANCE : α) / e.mZoom, QLineF.null⟩ hg ho
  refine ⟨snapToGuidesStep e.vertGuides x (fun g => (⟨g, y1, g, y2⟩ : QLineF α))
    ⟨x, (SNAP_DISTANCE : α) / e.mZoom, QLineF.null⟩, ?_, h1, by rw [← h2]; exact h3,
    fun g hgm => by rw [← h2]; exact h4 g hgm⟩
  have hsm : ∀ s : Snap α, (if e.options.enableSmartGuides = true then
      e.layerSnapX x y1 y2 (excludedObjects e excl) s else s) = s := by
    intro s
    by_cases hsd : e.options.enableSmartGuides = true
    · rw [if_pos hsd]; exact hs hsd _
    · rw [if_neg hsd]
  simp only [snapXCoord, if_pos hon, hsm]
  rw [if_neg]
  intro hc
  exact absurd hc.2 (ne_of_lt h3)

theorem snapYCoord_guide (fuel : Nat) (e : EditorWindow α) (y x1 x2 : α) (excl : Bool)
    (hon : e.options.snapToGuides = true)
    (hg : ∃ g ∈ e.horzGuides, |g - y| < (SNAP_DISTANCE : α) / e.mZoom)
    (ho : ¬ |y| < (SNAP_DISTANCE : α) / e.mZoom)
    (hs : SmartFree e (e.layerSnapY y x1 x2) excl) :
    ∃ r, snapYCoord fuel e y x1 x2 excl = some r ∧ r.coord ∈ e.horzGuides ∧
      |r.coord - y| < (SNAP_DISTANCE : α) / e.mZoom ∧
      ∀ g ∈ e.horzGuides, |r.coord - y| ≤ |g - y| := by
  obtain ⟨h1, h2, h3, h4⟩ := snapToGuidesStep_guide e.horzGuides y
    (fun g => (⟨x1, g, x2, g⟩ : QLineF α)) ⟨y, (SNAP_DISTANCE : α) / e.mZoom, QLineF.null⟩ hg ho
  refine ⟨snapToGuidesStep e.horzGuides y (fun g => (⟨x1, g, x2, g⟩ : QLineF α))
    ⟨y, (SNAP_DISTANCE : α) / e.mZoom, QLineF.null⟩, ?_, h1, by rw [← h2]; exact h3,
    fun g hgm => by rw [← h2]; exact h4 g hgm⟩
  have hsm : ∀ s : Snap α, (if e.options.enableSmartGuides = true then
      e.layerSnapY y x1 x2 (excludedObjects e excl) s else s) = s := by
    intro s
    by_cases hsd : e.options.enableSmartGuides = true
    · rw [if_pos hsd]; exact hs hsd _
    · rw [if_neg hsd]
  simp only [snapYCoord, if_pos hon, hsm]
  rw [if_neg]
  intro hc
  exact absurd hc.2 (ne_of_lt h3)

end GridFacts

/-! ## Facts about the Move state -/

section MoveFacts

variable {α : Type} [LinearOrderedField α] [FloorRing α]

theorem snapXCoord_isSome (fuel : Nat) (e : EditorWindow α) (g : Int)
    (hgs : getGridSpacing fuel e = some g) (x y1 y2 : α) (excl : Bool) :
    ∃ s, snapXCoord fuel e x y1 y2 excl = some s := by
  simp only [snapXCoord, hgs, Option.map_some']
  split_ifs <;> exact ⟨_, rfl⟩

theorem snapYCoord_isSome (fuel : Nat) (e : EditorWindow α) (g : Int)
    (hgs : getGridSpacing fuel e = some g) (y x1 x2 : α) (excl : Bool) :
    ∃ s, snapYCoord fuel e y x1 x2 excl = some s := by
  simp only [snapYCoord, hgs, Option.map_some']
  split_ifs <;> exact ⟨_, rfl⟩

theorem moveSnapX_choice (fuel : Nat) (e : EditorWindow α) (rect : QRectF α)
    (offset : QPointF α) (l c r : Snap α)
    (hl : snapXCoord fuel e rect.left rect.top rect.bottom true = some l)
    (hc : snapXCoord fuel e rect.center.x rect.center.y rect.center.y true = some c)
    (hr : snapXCoord fuel e rect.right rect.top rect.bottom true = some r) :
    ∃ res, moveSnapX fuel e rect offset = some res ∧ res.offset.y = offset.y ∧
      ((l.distance < (SNAP_DISTANCE : α) / e.mZoom ∨ c.distance < (SNAP_DISTANCE : α) / e.mZoom ∨
          r.distance < (SNAP_DISTANCE : α) / e.mZoom) →
        (res.offset.x = offset.x + (c.coord - rect.center.x) ∧ res.line = c.line ∧
            c.distance ≤ l.distance ∧ c.distance ≤ r.distance) ∨
          (res.offset.x = offset.x + (l.coord - rect.left) ∧ res.line = l.line ∧
            l.distance ≤ c.distance ∧ l.distance ≤ r.distance) ∨
          (res.offset.x = offset.x + (r.coord - rect.right) ∧ res.line = r.line ∧
            r.distance ≤ l.distance ∧ r.distance ≤ c.distance)) ∧
      ((¬ l.distance < (SNAP_DISTANCE : α) / e.mZoom ∧
          ¬ c.distance < (SNAP_DISTANCE : α) / e.mZoom ∧
          ¬ r.distance < (SNAP_DISTANCE : α) / e.mZoom) →
        res.offset.x = offset.x + (l.coord - rect.left) ∧ res.line = QLineF.null) := by
  simp only [moveSnapX, hl, hc, hr, Option.some_bind]
  by_cases h1 : c.distance < (SNAP_DISTANCE : α) / e.mZoom ∧ c.distance ≤ l.distance ∧
      c.distance ≤ r.distance
  · rw [if_pos h1]
    exact ⟨_, rfl, rfl, fun _ => Or.inl ⟨rfl, rfl, h1.2.1, h1.2.2⟩,
      fun hn => absurd h1.1 hn.2.1⟩
  · rw [if_neg h1]
    by_cases h2 : l.distance < (SNAP_DISTANCE : α) / e.mZoom ∧ l.distance ≤ c.distance ∧
        l.distance ≤ r.distance
    · rw [if_pos h2]
      exact ⟨_, rfl, rfl, fun _ => Or.inr (Or.inl ⟨rfl, rfl, h2.2.1, h2.2.2⟩),
        fun hn => absurd h2.1 hn.1⟩
    · rw [if_neg h2]
      by_cases h3 : r.distance < (SNAP_DISTANCE : α) / e.mZoom ∧ r.distance ≤ l.distance ∧
          r.distance ≤ c.distance
      · rw [if_pos h3]
        exact ⟨_, rfl, rfl, fun _ => Or.inr (Or.inr ⟨rfl, rfl, h3.2.1, h3.2.2⟩),
          fun hn => absurd h3.1 hn.2.2⟩
      · rw [if_neg h3]
        refine ⟨_, rfl, rfl, fun hsome => ?_, fun _ => ⟨rfl, rfl⟩⟩
        exfalso
        rcases le_total c.distance l.distance with hcl | hlc
        · rcases le_total c.distance r.distance with hcr | hrc
          · rcases hsome with h | h | h
            · exact h1 ⟨lt_of_le_of_lt hcl h, hcl, hcr⟩
            · exact h1 ⟨h, hcl, hcr⟩
            · exact h1 ⟨lt_of_le_of_lt hcr h, hcl, hcr⟩
          · rcases hsome with h | h | h
            · exact h3 ⟨lt_of_le_of_lt (le_trans hrc hcl) h, le_trans hrc hcl, hrc⟩
            · exact h3 ⟨lt_of_le_of_lt hrc h, le_trans hrc hcl, hrc⟩
            · exact h3 ⟨h, le_trans hrc hcl, hrc⟩
        · rcases le_total l.distance r.distance with hlr | hrl
          · rcases hsome with h | h | h
            · exact h2 ⟨h, hlc, hlr⟩
            · exact h2 ⟨lt_of_le_of_lt hlc h, hlc, hlr⟩
            · exact h2 ⟨lt_of_le_of_lt hlr h, hlc, hlr⟩
          · rcases hsome with h | h | h
            · exact h3 ⟨lt_of_le_of_lt hrl h, hrl, le_trans hrl hlc⟩
            · exact h3 ⟨lt_of_le_of_lt (le_trans hrl hlc) h, hrl, le_trans hrl hlc⟩
            · exact h3 ⟨h, hrl, le_trans hrl hlc⟩

theorem moveSnapY_choice (fuel : Nat) (e : EditorWindow α) (rect : QRectF α)
    (offset : QPointF α) (l c r : Snap α)
    (hl : snapYCoord fuel e rect.top rect.left rect.right true = some l)
    (hc : snapYCoord fuel e rect.center.y rect.center.x rect.center.x true = some c)
    (hr : snapYCoord fuel e rect.bottom rect.left rect.right true = some r) :
    ∃ res, moveSnapY fuel e rect offset = some res ∧ res.offset.x = offset.x ∧
      ((l.distance < (SNAP_DISTANCE : α) / e.mZoom ∨ c.distance < (SNAP_DISTANCE : α) / e.mZoom ∨
          r.distance < (SNAP_DISTANCE : α) / e.mZoom) →
        (res.offset.y = offset.y + (c.coord - rect.center.y) ∧ res.line = c.line ∧
            c.distance ≤ l.distance ∧ c.distance ≤ r.distance) ∨
          (res.offset.y = offset.y + (l.coord - rect.top) ∧ res.line = l.line ∧
            l.distance ≤ c.distance ∧ l.distance ≤ r.distance) ∨
          (res.offset.y = offset.y + (r.coord - rect.bottom) ∧ res.line = r.line ∧
            r.distance ≤ l.distance ∧ r.distance ≤ c.distance)) ∧
      ((¬ l.distance < (SNAP_DISTANCE : α) / e.mZoom ∧
          ¬ c.distance < (SNAP_DISTANCE : α) / e.mZoom ∧
          ¬ r.distance < (SNAP_DISTANCE : α) / e.mZoom) →
        res.offset.y = offset.y + (l.coord - rect.top) ∧ res.line = QLineF.null) := by
  simp only [moveSnapY, hl, hc, hr, Option.some_bind]
  by_cases h1 : c.distance < (SNAP_DISTANCE : α) / e.mZoom ∧ c.distance ≤ l.distance ∧
      c.distance ≤ r.distance
  · rw [if_pos h1]
    exact ⟨_, rfl, rfl, fun _ => Or.inl ⟨rfl, rfl, h1.2.1, h1.2.2⟩,
      fun hn => absurd h1.1 hn.2.1⟩
  · rw [if_neg h1]
    by_cases h2 : l.distance < (SNAP_DISTANCE : α) / e.mZoom ∧ l.distance ≤ c.distance ∧
        l.distance ≤ r.distance
    · rw [if_pos h2]
      exact ⟨_, rfl, rfl, fun _ => Or.inr (Or.inl ⟨rfl, rfl, h2.2.1, h2.2.2⟩),
        fun hn => absurd h2.1 hn.1⟩
    · rw [if_neg h2]
      by_cases h3 : r.distance < (SNAP_DISTANCE : α) / e.mZoom ∧ r.distance ≤ l.distance ∧
          r.distance ≤ c.distance
      · rw [if_pos h3]
        exact ⟨_, rfl, rfl, fun _ => Or.inr (Or.inr ⟨rfl, rfl, h3.2.1, h3.2.2⟩),
          fun hn => absurd h3.1 hn.2.2⟩
      · rw [if_neg h3]
        refine ⟨_, rfl, rfl, fun hsome => ?_, fun _ => ⟨rfl, rfl⟩⟩
        exfalso
        rcases le_total c.distance l.distance with hcl | hlc
        · rcases le_total c.distance r.distance with hcr | hrc
          · rcases hsome with h | h | h
            · exact h1 ⟨lt_of_le_of_lt hcl h, hcl, hcr⟩
            · exact h1 ⟨h, hcl, hcr⟩
            · exact h1 ⟨lt_of_le_of_lt hcr h, hcl, hcr⟩
          · rcases hsome with h | h | h
            · exact h3 ⟨lt_of_le_of_lt (le_trans hrc hcl) h, le_trans hrc hcl, hrc⟩
            · exact h3 ⟨lt_of_le_of_lt hrc h, le_trans hrc hcl, hrc⟩
            · exact h3 ⟨h, le_trans hrc hcl, hrc⟩
        · rcases le_total l.distance r.distance with hlr | hrl
          · rcases hsome with h | h | h
            · exact h2 ⟨h, hlc, hlr⟩
            · exact h2 ⟨lt_of_le_of_lt hlc h, hlc, hlr⟩
            · exact h2 ⟨lt_of_le_of_lt hlr h, hlc, hlr⟩
          · rcases hsome with h | h | h
            · exact h3 ⟨lt_of_le_of_lt hrl h, hrl, le_trans hrl hlc⟩
            · exact h3 ⟨lt_of_le_of_lt (le_trans hrl hlc) h, hrl, le_trans hrl hlc⟩
            · exact h3 ⟨h, hrl, le_trans hrl hlc⟩

theorem moveSnapX_grid (fuel : Nat) (e : EditorWindow α) (rect : QRectF α)
    (offset : QPointF α) (g : Int) (hgs : getGridSpacing fuel e = some g)
    (hgrid : e.options.snapToGrid = true) (hfree : MoveFreeX e rect) :
    moveSnapX fuel e rect offset =
      some ⟨⟨offset.x + (gridRound g rect.left - rect.left), offset.y⟩, QLineF.null, false⟩ := by
  obtain ⟨g1, g2, g3, s1, s2, s3⟩ := hfree
  simp only [moveSnapX, snapXCoord_free fuel e _ _ _ true g1 s1,
    snapXCoord_free fuel e _ _ _ true g2 s2, snapXCoord_free fuel e _ _ _ true g3 s3,
    if_pos hgrid, hgs, Option.map_some', Option.some_bind, lt_irrefl, false_and, if_false]

theorem moveSnapY_grid (fuel : Nat) (e : EditorWindow α) (rect : QRectF α)
    (offset : QPointF α) (g : Int) (hgs : getGridSpacing fuel e = some g)
    (hgrid : e.options.snapToGrid = true) (hfree : MoveFreeY e rect) :
    moveSnapY fuel e rect offset =
      some ⟨⟨offset.x, offset.y + (gridRound g rect.top - rect.top)⟩, QLineF.null, false⟩ := by
  obtain ⟨g1, g2, g3, s1, s2, s3⟩ := hfree
  simp only [moveSnapY, snapYCoord_free fuel e _ _ _ true g1 s1,
    snapYCoord_free fuel e _ _ _ true g2 s2, snapYCoord_free fuel e _ _ _ true g3 s3,
    if_pos hgrid, hgs, Option.map_some', Option.some_bind, lt_irrefl, false_and, if_false]

theorem moveSnapX_isSome (fuel : Nat) (e : EditorWindow α) (g : Int)
    (hgs : getGridSpacing fuel e = some g) (rect : QRectF α) (offset : QPointF α) :
    ∃ res, moveSnapX fuel e rect offset = some res ∧ res.offset.y = offset.y := by
  obtain ⟨l, hl⟩ := snapXCoord_isSome fuel e g hgs rect.left rect.top rect.bottom true
  obtain ⟨c, hc⟩ := snapXCoord_isSome fuel e g hgs rect.center.x rect.center.y rect.center.y true
  obtain ⟨r, hr⟩ := snapXCoord_isSome fuel e g hgs rect.right rect.top rect.bottom true
  obtain ⟨res, h1, h2, _⟩ := moveSnapX_choice fuel e rect offset l c r hl hc hr
  exact ⟨res, h1, h2⟩

theorem moveSnapY_isSome (fuel : Nat) (e : EditorWindow α) (g : Int)
    (hgs : getGridSpacing fuel e = some g) (rect : QRectF α) (offset : QPointF α) :
    ∃ res, moveSnapY fuel e rect offset = some res ∧ res.offset.x = offset.x := by
  obtain ⟨l, hl⟩ := snapYCoord_isSome fuel e g hgs rect.top rect.left rect.right true
  obtain ⟨c, hc⟩ := snapYCoord_isSome fuel e g hgs rect.center.y rect.center.x rect.center.x true
  obtain ⟨r, hr⟩ := snapYCoord_isSome fuel e g hgs rect.bottom rect.left rect.right true
  obtain ⟨res, h1, h2, _⟩ := moveSnapY_choice fuel e rect offset l c r hl hc hr
  exact ⟨res, h1, h2⟩

/-- The left edge after the X block of the Move branch ran on candidate-free
probes: the grid rounding of the unsnapped left edge. -/
theorem moveOffset_left_grid (m : Libm α) (fuel : Nat) (e : EditorWindow α) (shift : Bool)
    (g : Int) (hgs : getGridSpacing fuel e = some g) (hgrid : e.options.snapToGrid = true)
    (hguard : shift = false ∨
      Utils.isEqual (calcTranslation m (pointerDelta e) shift).2.y 0 m.EPS = true)
    (hfree : MoveFreeX e (moveRawRect m e shift)) :
    ∃ r, moveOffset m fuel e shift = some r ∧
      (e.mOriginalRect.translated r.offset).left = gridRound g (moveRawRect m e shift).left := by
  have hcond : (!shift || Utils.isEqual (calcTranslation m (pointerDelta e) shift).2.y 0 m.EPS)
      = true := by
    rcases hguard with h | h
    · simp [h]
    · simp [h]
  by_cases hy : (!shift || Utils.isEqual (calcTranslation m (pointerDelta e) shift).2.x 0 m.EPS)
      = true
  · obtain ⟨sy, hsy, hsyx⟩ := moveSnapY_isSome fuel e g hgs (moveRawRect m e shift)
      ⟨(moveRawOffset m e shift).x + (gridRound g (moveRawRect m e shift).left
        - (moveRawRect m e shift).left), (moveRawOffset m e shift).y⟩
    refine ⟨⟨sy.offset, QLineF.null, sy.line, false, sy.onCenter⟩, ?_, ?_⟩
    · simp only [moveOffset, hcond, hy, if_true,
        moveSnapX_grid fuel e _ _ g hgs hgrid hfree, Option.some_bind, hsy]
    · simp only [QRectF.translated, QRectF.left, hsyx, moveRawRect]
      ring
  · refine ⟨⟨⟨(moveRawOffset m e shift).x + (gridRound g (moveRawRect m e shift).left
        - (moveRawRect m e shift).left), (moveRawOffset m e shift).y⟩, QLineF.null, QLineF.null,
        false, false⟩, ?_, ?_⟩
    · simp only [moveOffset, hcond, hy, if_true,
        moveSnapX_grid fuel e _ _ g hgs hgrid hfree, Option.some_bind]
      simp
    · simp only [QRectF.translated, QRectF.left, moveRawRect]
      ring

/-- The top edge after the Y block of the Move branch ran on candidate-free
probes: the grid rounding of the unsnapped top edge. -/
theorem moveOffset_top_grid (m : Libm α) (fuel : Nat) (e : EditorWindow α) (shift : Bool)
    (g : Int) (hgs : getGridSpacing fuel e = some g) (hgrid : e.options.snapToGrid = true)
    (hguard : shift = false ∨
      Utils.isEqual (calcTranslation m (pointerDelta e) shift).2.x 0 m.EPS = true)
    (hfree : MoveFreeY e (moveRawRect m e shift)) :
    ∃ r, moveOffset m fuel e shift = some r ∧
      (e.mOriginalRect.translated r.offset).top = gridRound g (moveRawRect m e shift).top := by
  have hcond : (!shift || Utils.isEqual (calcTranslation m (pointerDelta e) shift).2.x 0 m.EPS)
      = true := by
    rcases hguard with h | h
    · simp [h]
    · simp [h]
  by_cases hx : (!shift || Utils.isEqual (calcTranslation m (pointerDelta e) shift).2.y 0 m.EPS)
      = true
  · obtain ⟨sx, hsx, hsxy⟩ := moveSnapX_isSome fuel e g hgs (moveRawRect m e shift)
      (moveRawOffset m e shift)
    refine ⟨⟨⟨sx.offset.x, sx.offset.y + (gridRound g (moveRawRect m e shift).top
        - (moveRawRect m e shift).top)⟩, sx.line, QLineF.null, sx.onCenter, false⟩, ?_, ?_⟩
    · simp only [moveOffset, hcond, hx, if_true, hsx, Option.some_bind,
        moveSnapY_grid fuel e _ _ g hgs hgrid hfree]
    · simp only [QRectF.translated, QRectF.top, hsxy, moveRawRect]
      ring
  · refine ⟨⟨⟨(moveRawOffset m e shift).x, (moveRawOffset m e shift).y
        + (gridRound g (moveRawRect m e shift).top - (moveRawRect m e shift).top)⟩,
        QLineF.null, QLineF.null, false, false⟩, ?_, ?_⟩
    · simp only [moveOffset, hcond, hx, if_true,
        moveSnapY_grid fuel e _ _ g hgs hgrid hfree, Option.some_bind]
      simp
    · simp only [QRectF.translated, QRectF.top, moveRawRect]
      ring

end MoveFacts

/-! ## Facts about scaling -/

section ScaleFacts

variable {α : Type} [LinearOrderedField α]

theorem sign_of_pos {x : α} (h : 0 < x) : Utils.sign x = 1 := by
  simp [Utils.sign, h]

theorem sign_of_neg {x : α} (h : x < 0) : Utils.sign x = -1 := by
  simp [Utils.sign, h, not_lt.mpr (le_of_lt h)]

theorem abs_sign_mul_abs (x y : α) (hy : y ≠ 0) :
    |Utils.sign y * (|x|)| = |x| := by
  rcases lt_or_gt_of_ne hy with h | h
  · rw [sign_of_neg h]; simp
  · rw [sign_of_pos h]; simp

theorem sign_mul_abs_mul_nonneg (x y : α) : 0 ≤ Utils.sign y * |x| * y := by
  rcases lt_trichotomy y 0 with h | h | h
  · rw [sign_of_neg h]
    have := abs_nonneg x
    nlinarith
  · simp [h]
  · rw [sign_of_pos h]
    have := abs_nonneg x
    nlinarith

theorem floorScale_x (rect : QRectF α) (scale : QPointF α) (hw : rect.width ≠ 0) :
    1 ≤ |rect.width * (floorScale rect scale).x| ∧
    (1 ≤ |rect.width * scale.x| → (floorScale rect scale).x = scale.x) ∧
    (|rect.width * scale.x| < 1 →
      (floorScale rect scale).x = (if 0 ≤ scale.x then 1 else -1) / rect.width) := by
  by_cases h : |rect.width * scale.x| < 1
  · have hx : (floorScale rect scale).x = (if 0 ≤ scale.x then 1 else -1) / rect.width := by
      simp [floorScale, h]
    refine ⟨?_, fun h1 => absurd h (not_lt.mpr h1), fun _ => hx⟩
    rw [hx, mul_div_cancel₀ _ hw]
    split_ifs <;> simp
  · have hx : (floorScale rect scale).x = scale.x := by simp [floorScale, h]
    exact ⟨by rw [hx]; exact not_lt.mp h, fun _ => hx, fun h1 => absurd h1 h⟩

theorem floorScale_y (rect : QRectF α) (scale : QPointF α) (hh : rect.height ≠ 0) :
    1 ≤ |rect.height * (floorScale rect scale).y| ∧
    (1 ≤ |rect.height * scale.y| → (floorScale rect scale).y = scale.y) ∧
    (|rect.height * scale.y| < 1 →
      (floorScale rect scale).y = (if 0 ≤ scale.y then 1 else -1) / rect.height) := by
  by_cases h : |rect.height * scale.y| < 1
  · have hy : (floorScale rect scale).y = (if 0 ≤ scale.y then 1 else -1) / rect.height := by
      simp [floorScale, h]
    refine ⟨?_, fun h1 => absurd h (not_lt.mpr h1), fun _ => hy⟩
    rw [hy, mul_div_cancel₀ _ hh]
    split_ifs <;> simp
  · have hy : (floorScale rect scale).y = scale.y := by simp [floorScale, h]
    exact ⟨by rw [hy]; exact not_lt.mp h, fun _ => hy, fun h1 => absurd h1 h⟩

end ScaleFacts

section ScaleSnapFacts

variable {α : Type} [LinearOrderedField α] [FloorRing α]

/-- The two branches of `calcScale` under `keepProportions`. -/
theorem calcScale_keep (fuel : Nat) (e : EditorWindow α) (g : Int)
    (hgs : getGridSpacing fuel e = some g) (pos pivot : QPointF α) (sx sy : α) :
    ∃ rx ry res,
      snapXCoord fuel e pos.x (min pos.y pivot.y) (max pos.y pivot.y) true = some rx ∧
      snapYCoord fuel e pos.y (min pos.x pivot.x) (max pos.x pivot.x) true = some ry ∧
      calcScale fuel e pos pivot sx sy true = some res ∧
      (|(rawScale e rx.coord ry.coord pivot sx sy).x| < |(rawScale e rx.coord ry.coord pivot sx sy).y| →
        res.scale = ⟨(rawScale e rx.coord ry.coord pivot sx sy).x,
          Utils.sign (rawScale e rx.coord ry.coord pivot sx sy).y
            * |(rawScale e rx.coord ry.coord pivot sx sy).x|⟩ ∧
        res.horzSnapLine = QLineF.null) ∧
      (¬ |(rawScale e rx.coord ry.coord pivot sx sy).x| < |(rawScale e rx.coord ry.coord pivot sx sy).y| →
        res.scale = ⟨Utils.sign (rawScale e rx.coord ry.coord pivot sx sy).x
            * |(rawScale e rx.coord ry.coord pivot sx sy).y|,
          (rawScale e rx.coord ry.coord pivot sx sy).y⟩ ∧
        res.vertSnapLine = QLineF.null) := by
  obtain ⟨rx, hrx⟩ := snapXCoord_isSome fuel e g hgs pos.x (min pos.y pivot.y)
    (max pos.y pivot.y) true
  obtain ⟨ry, hry⟩ := snapYCoord_isSome fuel e g hgs pos.y (min pos.x pivot.x)
    (max pos.x pivot.x) true
  by_cases hlt : |(rawScale e rx.coord ry.coord pivot sx sy).x|
      < |(rawScale e rx.coord ry.coord pivot sx sy).y|
  · obtain ⟨v, hv⟩ := snapXCoord_isSome fuel e g hgs rx.coord
      (min (e.mOriginalRect.height * (Utils.sign (rawScale e rx.coord ry.coord pivot sx sy).y
        * |(rawScale e rx.coord ry.coord pivot sx sy).x|) * sy + pivot.y) pivot.y)
      (max (e.mOriginalRect.height * (Utils.sign (rawScale e rx.coord ry.coord pivot sx sy).y
        * |(rawScale e rx.coord ry.coord pivot sx sy).x|) * sy + pivot.y) pivot.y) true
    refine ⟨rx, ry, ⟨⟨(rawScale e rx.coord ry.coord pivot sx sy).x,
      Utils.sign (rawScale e rx.coord ry.coord pivot sx sy).y
        * |(rawScale e rx.coord ry.coord pivot sx sy).x|⟩, v.line, QLineF.null⟩, hrx, hry, ?_,
      fun _ => ⟨rfl, rfl⟩, fun hn => absurd hlt hn⟩
    simp only [calcScale, hrx, hry, Option.some_bind, if_true, if_pos hlt, hv]
  · obtain ⟨hz, hhz⟩ := snapYCoord_isSome fuel e g hgs ry.coord
      (min (e.mOriginalRect.width * (Utils.sign (rawScale e rx.coord ry.coord pivot sx sy).x
        * |(rawScale e rx.coord ry.coord pivot sx sy).y|) * sx + pivot.x) pivot.x)
      (max (e.mOriginalRect.width * (Utils.sign (rawScale e rx.coord ry.coord pivot sx sy).x
        * |(rawScale e rx.coord ry.coord pivot sx sy).y|) * sx + pivot.x) pivot.x) true
    refine ⟨rx, ry, ⟨⟨Utils.sign (rawScale e rx.coord ry.coord pivot sx sy).x
        * |(rawScale e rx.coord ry.coord pivot sx sy).y|,
      (rawScale e rx.coord ry.coord pivot sx sy).y⟩, QLineF.null, hz.line⟩, hrx, hry, ?_,
      fun hp => absurd hp hlt, fun _ => ⟨rfl, rfl⟩⟩
    simp only [calcScale, hrx, hry, Option.some_bind, if_true, if_neg hlt, hhz]

/-- Under `keepProportions` the factors of `calcScale` have equal magnitude and
each has the sign of the factor computed for its own axis. -/
theorem calcScale_keep_abs (fuel : Nat) (e : EditorWindow α) (g : Int)
    (hgs : getGridSpacing fuel e = some g) (pos pivot : QPointF α) (sx sy : α) :
    ∃ rx ry res,
      snapXCoord fuel e pos.x (min pos.y pivot.y) (max pos.y pivot.y) true = some rx ∧
      snapYCoord fuel e pos.y (min pos.x pivot.x) (max pos.x pivot.x) true = some ry ∧
      calcScale fuel e pos pivot sx sy true = some res ∧
      |res.scale.x| = |res.scale.y| ∧
      0 ≤ res.scale.x * (rawScale e rx.coord ry.coord pivot sx sy).x ∧
      0 ≤ res.scale.y * (rawScale e rx.coord ry.coord pivot sx sy).y := by
  obtain ⟨rx, ry, res, hrx, hry, hres, h1, h2⟩ := calcScale_keep fuel e g hgs pos pivot sx sy
  refine ⟨rx, ry, res, hrx, hry, hres, ?_⟩
  by_cases hlt : |(rawScale e rx.coord ry.coord pivot sx sy).x|
      < |(rawScale e rx.coord ry.coord pivot sx sy).y|
  · obtain ⟨hs, _⟩ := h1 hlt
    have hy0 : (rawScale e rx.coord ry.coord pivot sx sy).y ≠ 0 := by
      intro h0
      rw [h0, abs_zero] at hlt
      exact absurd hlt (not_lt.mpr (abs_nonneg _))
    rw [hs]
    refine ⟨(abs_sign_mul_abs _ _ hy0).symm, mul_self_nonneg _, sign_mul_abs_mul_nonneg _ _⟩
  · obtain ⟨hs, _⟩ := h2 hlt
    rw [hs]
    refine ⟨?_, sign_mul_abs_mul_nonneg _ _, mul_self_nonneg _⟩
    by_cases hx0 : (rawScale e rx.coord ry.coord pivot sx sy).x = 0
    · have hy0 : (rawScale e rx.coord ry.coord pivot sx sy).y = 0 := by
        rw [hx0, abs_zero, not_lt] at hlt
        exact abs_eq_zero.mp (le_antisymm hlt (abs_nonneg _))
      simp [hy0]
    · exact abs_sign_mul_abs _ _ hx0

theorem edgeScaleX_keep (fuel : Nat) (e : EditorWindow α) (g : Int)
    (hgs : getGridSpacing fuel e = some g) (pos : QPointF α) (dir : α) :
    ∃ res, edgeScaleX fuel e pos dir true = some res ∧ res.scale.y = |res.scale.x| := by
  obtain ⟨s, hs⟩ := snapXCoord_isSome fuel e g hgs (roundPos pos (resizePivot e)).x
    e.mOriginalRect.top e.mOriginalRect.bottom true
  obtain ⟨v, hv⟩ := snapXCoord_isSome fuel e g hgs (roundPos pos (resizePivot e)).x
    ((resizePivot e).y - e.mOriginalRect.height / 2
      * |dir * (s.coord - (resizePivot e).x) / e.mOriginalRect.width|)
    ((resizePivot e).y + e.mOriginalRect.height / 2
      * |dir * (s.coord - (resizePivot e).x) / e.mOriginalRect.width|) true
  refine ⟨⟨⟨dir * (s.coord - (resizePivot e).x) / e.mOriginalRect.width,
    |dir * (s.coord - (resizePivot e).x) / e.mOriginalRect.width|⟩, v.line, QLineF.null⟩, ?_, rfl⟩
  simp only [edgeScaleX, hs, Option.some_bind, if_true, hv]

theorem edgeScaleY_keep (fuel : Nat) (e : EditorWindow α) (g : Int)
    (hgs : getGridSpacing fuel e = some g) (pos : QPointF α) (dir : α) :
    ∃ res, edgeScaleY fuel e pos dir true = some res ∧ res.scale.x = |res.scale.y| := by
  obtain ⟨s, hs⟩ := snapYCoord_isSome fuel e g hgs (roundPos pos (resizePivot e)).y
    e.mOriginalRect.left e.mOriginalRect.right true
  obtain ⟨hz, hhz⟩ := snapYCoord_isSome fuel e g hgs (roundPos pos (resizePivot e)).y
    ((resizePivot e).x - e.mOriginalRect.width / 2
      * |dir * (s.coord - (resizePivot e).y) / e.mOriginalRect.height|)
    ((resizePivot e).x + e.mOriginalRect.width / 2
      * |dir * (s.coord - (resizePivot e).y) / e.mOriginalRect.height|) true
  refine ⟨⟨⟨|dir * (s.coord - (resizePivot e).y) / e.mOriginalRect.height|,
    dir * (s.coord - (resizePivot e).y) / e.mOriginalRect.height⟩, QLineF.null, hz.line⟩, ?_, rfl⟩
  simp only [edgeScaleY, hs, Option.some_bind, if_true, hhz]

/-- Under `keepProportions` every marker yields factors of equal magnitude. -/
theorem markerScale_keep (fuel : Nat) (e : EditorWindow α) (g : Int)
    (hgs : getGridSpacing fuel e = some g) (pos : QPointF α) :
    ∃ r, markerScale fuel e pos true = some r ∧ |r.scale.x| = |r.scale.y| := by
  have hc : ∀ (p pivot : QPointF α) (sx sy : α),
      ∃ r, calcScale fuel e p pivot sx sy true = some r ∧ |r.scale.x| = |r.scale.y| := by
    intro p pivot sx sy
    obtain ⟨_, _, res, _, _, hres, habs, _⟩ := calcScale_keep_abs fuel e g hgs p pivot sx sy
    exact ⟨res, hres, habs⟩
  have hx : ∀ dir : α,
      ∃ r, edgeScaleX fuel e pos dir true = some r ∧ |r.scale.x| = |r.scale.y| := by
    intro dir
    obtain ⟨res, hres, hy⟩ := edgeScaleX_keep fuel e g hgs pos dir
    exact ⟨res, hres, by rw [hy, abs_abs]⟩
  have hy : ∀ dir : α,
      ∃ r, edgeScaleY fuel e pos dir true = some r ∧ |r.scale.x| = |r.scale.y| := by
    intro dir
    obtain ⟨res, hres, hx⟩ := edgeScaleY_keep fuel e g hgs pos dir
    exact ⟨res, hres, by rw [hx, abs_abs]⟩
  unfold markerScale
  cases e.mSelectionMarker
  · exact ⟨_, rfl, rfl⟩
  · exact hc _ _ _ _
  · exact hx _
  · exact hc _ _ _ _
  · exact hy _
  · exact hc _ _ _ _
  · exact hx _
  · exact hc _ _ _ _
  · exact hy _

end ScaleSnapFacts

/-! ## Facts about rotation -/

section RotateFacts

variable {α : Type} [LinearOrderedField α] [FloorRing α]

/-- The normalisation of the Rotate branch, `fmod` followed by adding 360 to a
negative remainder, is the remainder of the floor division by 360. -/
theorem fmod_normalised (x : α) :
    (if fmod x 360 < 0 then fmod x 360 + 360 else fmod x 360)
      = x - 360 * ((⌊x / 360⌋ : Int) : α) := by
  have hfl := Int.floor_le (x / 360)
  have hfl2 := Int.lt_floor_add_one (x / 360)
  have h360 : (0 : α) < 360 := by norm_num
  rw [le_div_iff₀ h360] at hfl
  rw [div_lt_iff₀ h360] at hfl2
  by_cases h0 : 0 ≤ x / 360
  · have hf : fmod x 360 = x - ((⌊x / 360⌋ : Int) : α) * 360 := by simp [fmod, h0]
    rw [hf, if_neg (by linarith)]
    ring
  · have hf : fmod x 360 = x - ((⌈x / 360⌉ : Int) : α) * 360 := by simp [fmod, h0]
    have hc1 := Int.le_ceil (x / 360)
    have hc2 := Int.ceil_lt_add_one (x / 360)
    rcases eq_or_lt_of_le hc1 with heq | hlt
    · have hfc : ⌊x / 360⌋ = ⌈x / 360⌉ := by
        rw [heq, Int.floor_intCast, Int.ceil_intCast]
      have hx : x = ((⌈x / 360⌉ : Int) : α) * 360 := by
        rw [← heq]; field_simp
      rw [hf, hfc, if_neg (by linarith)]
      ring
    · have hfc : ⌊x / 360⌋ = ⌈x / 360⌉ - 1 := by
        rw [Int.floor_eq_iff]
        push_cast
        constructor <;> linarith
      rw [div_lt_iff₀ h360] at hlt
      rw [hf, hfc, if_pos (by linarith)]
      push_cast
      ring

end RotateFacts

/-! ## Facts about the selection -/

section SelectFacts

variable {α : Type}

/-- Updating the allowed actions leaves the proportion lock as it is. -/
theorem updateAllowedEditorActions_keep (e : EditorWindow α) :
    (updateAllowedEditorActions e).mKeepProportions = e.mKeepProportions := by
  unfold updateAllowedEditorActions
  split <;> rfl

/-- Updating the allowed actions leaves the selection as it is. -/
theorem updateAllowedEditorActions_selected (e : EditorWindow α) :
    (updateAllowedEditorActions e).mSelectedObjects = e.mSelectedObjects := by
  unfold updateAllowedEditorActions
  split <;> rfl

/-- Updating the allowed actions leaves the interaction state as it is. -/
theorem updateAllowedEditorActions_state (e : EditorWindow α) :
    (updateAllowedEditorActions e).mEditorState = e.mEditorState := by
  unfold updateAllowedEditorActions
  split <;> rfl

end SelectFacts

/-! ## Evaluations of the resize examples -/

theorem resizeEditor_floor_breaks_proportions :
    (mouseMoveStateResize 0 resizeEditor ⟨1, 1⟩ true).map
      (fun r => (r.keepProportions, r.scale)) = some (true, ⟨1 / 100, 1 / 50⟩) := by
  norm_num [mouseMoveStateResize, markerScale, resizePivot, roundPos, Utils.round, calcScale,
    snapXCoord, snapYCoord, floorScale, resizeEditor, EditorWindow.init, QRectF.width,
    QRectF.height, QRectF.topLeft, QPointF.add, QPointF.sub, Utils.sign, rawScale,
    SNAP_DISTANCE, abs_div]

theorem resizeEditor_keeps_smaller :
    (calcScale 0 resizeEditor ⟨100, 100⟩ ⟨0, 0⟩ 1 1 true).map (fun r => r.scale)
      = some ⟨1, 1⟩ := by
  norm_num [calcScale, snapXCoord, snapYCoord, resizeEditor, EditorWindow.init, rawScale,
    QRectF.width, QRectF.height, Utils.sign, SNAP_DISTANCE]

theorem twoObjectEditor_fields :
    twoObjectEditor.mKeepProportions = true ∧
    twoObjectEditor.mOriginalRect = ⟨0, 0, 168, 68⟩ ∧
    twoObjectEditor.mSelectionMarker = .MARKER_BOTTOM_RIGHT ∧
    twoObjectEditor.options = ⟨false, false, false, false, 10⟩ ∧
    twoObjectEditor.mZoom = 1 ∧
    twoObjectEditor.mSelectedObjects = twoObjects ∧
    twoObjectEditor.mOriginalPositions = [⟨0, 0⟩, ⟨120, 20⟩] ∧
    twoObjectEditor.mOriginalSizes = [⟨100, 50⟩, ⟨40, 40⟩] ∧
    twoObjectEditor.mOriginalAngles = [0, 45] := by
  refine ⟨?_, ?_, ?_, ?_, ?_, ?_, ?_, ?_, ?_⟩
  · simp [twoObjectEditor, selectGameObjects, updateAllowedEditorActions, twoObjects,
      isSkewAngle, EditorWindow.init]
  · simp [twoObjectEditor, selectGameObjects, updateAllowedEditorActions, twoObjects,
      QRectF.united, QRectF.isNull, EditorWindow.init]
    norm_num
  all_goals
    simp [twoObjectEditor, selectGameObjects, updateAllowedEditorActions, twoObjects,
      EditorWindow.init]

theorem twoObjectEditor_doubles :
    (mouseMoveStateResize 0 twoObjectEditor ⟨336, 136⟩ false).map
      (fun r => (r.scale, r.objects.map (fun o => o.size)))
      = some (⟨2, 2⟩, [⟨200, 100⟩, ⟨80, 80⟩]) := by
  obtain ⟨h1, h2, hm, ho, hz, hs, hp, hsz, ha⟩ := twoObjectEditor_fields
  simp only [mouseMoveStateResize, markerScale, resizePivot, hm, h1, h2, calcScale, snapXCoord,
    snapYCoord, ho, hz, resizeObjects, hs, hp, hsz, ha, rawScale]
  norm_num [roundPos, Utils.round, floorScale, QRectF.width, QRectF.height, QRectF.topLeft,
    QPointF.add, QPointF.sub, Utils.sign, SNAP_DISTANCE, abs_div, resizeObject, twoObjects]

/-! ## Facts about axis-locked translation, over the reals -/

theorem abs_div_sqrt_le_one (x y : ℝ) : |x / Real.sqrt (x * x + y * y)| ≤ 1 := by
  by_cases h : x * x + y * y = 0
  · rw [h, Real.sqrt_zero, div_zero, abs_zero]; exact zero_le_one
  · have hpos : 0 < x * x + y * y :=
      lt_of_le_of_ne (by nlinarith [mul_self_nonneg x, mul_self_nonneg y]) (Ne.symm h)
    have hr : 0 < Real.sqrt (x * x + y * y) := Real.sqrt_pos.mpr hpos
    rw [abs_div, abs_of_pos hr, div_le_one hr]
    apply Real.abs_le_sqrt
    nlinarith [mul_self_nonneg y]

theorem normalized_x_real (eps : ℝ) (d : QPointF ℝ) :
    ((QVector2D.ofPoint d).normalized (Libm.real eps)).x
      = d.x / Real.sqrt (d.x * d.x + d.y * d.y) := by
  simp only [QVector2D.normalized, QVector2D.ofPoint, Libm.real]
  split_ifs with h
  · rw [h, Real.sqrt_zero, div_zero]
  · rfl

/-- The clamp of a near-zero angle does not change the 45-degree step chosen. -/
theorem lockedStep_clamp (eps : ℝ) (heps : eps ≤ Real.pi / 8) (d : QPointF ℝ) :
    ⌊((if d.y < 0 then
          -(if |Real.arccos (d.x / Real.sqrt (d.x * d.x + d.y * d.y)) - 0| < eps then 0
            else Real.arccos (d.x / Real.sqrt (d.x * d.x + d.y * d.y)))
        else (if |Real.arccos (d.x / Real.sqrt (d.x * d.x + d.y * d.y)) - 0| < eps then 0
            else Real.arccos (d.x / Real.sqrt (d.x * d.x + d.y * d.y)))) + Real.pi / 8)
        / (Real.pi / 4)⌋
      = ⌊(angleFromXAxis d + Real.pi / 8) / (Real.pi / 4)⌋ := by
  have hpi := Real.pi_pos
  have h4 : (0 : ℝ) < Real.pi / 4 := by positivity
  have hA0 := Real.arccos_nonneg (d.x / Real.sqrt (d.x * d.x + d.y * d.y))
  by_cases hc : |Real.arccos (d.x / Real.sqrt (d.x * d.x + d.y * d.y)) - 0| < eps
  · have hA : Real.arccos (d.x / Real.sqrt (d.x * d.x + d.y * d.y)) < Real.pi / 8 := by
      rw [sub_zero, abs_of_nonneg hA0] at hc
      linarith
    simp only [if_pos hc, neg_zero, ite_self, angleFromXAxis]
    have hl : ⌊((0 : ℝ) + Real.pi / 8) / (Real.pi / 4)⌋ = 0 := by
      rw [Int.floor_eq_iff, le_div_iff₀ h4, div_lt_iff₀ h4]
      constructor <;> push_cast <;> linarith
    rw [hl]
    symm
    rw [Int.floor_eq_iff, le_div_iff₀ h4, div_lt_iff₀ h4]
    split_ifs <;> constructor <;> push_cast <;> linarith
  · simp only [if_neg hc, angleFromXAxis]

theorem angleFromXAxis_bounds (d : QPointF ℝ) :
    -Real.pi ≤ angleFromXAxis d ∧ angleFromXAxis d ≤ Real.pi := by
  have h0 := Real.arccos_nonneg (d.x / Real.sqrt (d.x * d.x + d.y * d.y))
  have h1 := Real.arccos_le_pi (d.x / Real.sqrt (d.x * d.x + d.y * d.y))
  unfold angleFromXAxis
  split_ifs <;> constructor <;> linarith

theorem angleFromXAxis_polar (d : QPointF ℝ) :
    d.x = Real.sqrt (d.x * d.x + d.y * d.y) * Real.cos (angleFromXAxis d) ∧
    d.y = Real.sqrt (d.x * d.x + d.y * d.y) * Real.sin (angleFromXAxis d) := by
  by_cases h : d.x * d.x + d.y * d.y = 0
  · have hx : d.x = 0 := by nlinarith [mul_self_nonneg d.x, mul_self_nonneg d.y]
    have hy : d.y = 0 := by nlinarith [mul_self_nonneg d.x, mul_self_nonneg d.y]
    rw [h, Real.sqrt_zero, zero_mul, zero_mul]
    exact ⟨hx, hy⟩
  · have hpos : 0 < d.x * d.x + d.y * d.y :=
      lt_of_le_of_ne (by nlinarith [mul_self_nonneg d.x, mul_self_nonneg d.y]) (Ne.symm h)
    have hr : 0 < Real.sqrt (d.x * d.x + d.y * d.y) := Real.sqrt_pos.mpr hpos
    have hrr : Real.sqrt (d.x * d.x + d.y * d.y) * Real.sqrt (d.x * d.x + d.y * d.y)
        = d.x * d.x + d.y * d.y := Real.mul_self_sqrt (le_of_lt hpos)
    have hle := abs_le.mp (abs_div_sqrt_le_one d.x d.y)
    have hcos : Real.cos (Real.arccos (d.x / Real.sqrt (d.x * d.x + d.y * d.y)))
        = d.x / Real.sqrt (d.x * d.x + d.y * d.y) := Real.cos_arccos hle.1 hle.2
    have hsq : 1 - (d.x / Real.sqrt (d.x * d.x + d.y * d.y)) ^ 2
        = (d.y / Real.sqrt (d.x * d.x + d.y * d.y)) ^ 2 := by
      field_simp
      nlinarith
    have hsin : Real.sin (Real.arccos (d.x / Real.sqrt (d.x * d.x + d.y * d.y)))
        = |d.y| / Real.sqrt (d.x * d.x + d.y * d.y) := by
      rw [Real.sin_arccos, hsq, Real.sqrt_sq_eq_abs, abs_div, abs_of_pos hr]
    unfold angleFromXAxis
    split_ifs with hy
    · rw [Real.cos_neg, Real.sin_neg, hcos, hsin, abs_of_neg hy]
      constructor <;> field_simp
    · rw [hcos, hsin, abs_of_nonneg (not_lt.mp hy)]
      constructor <;> field_simp

theorem lockedAngle_near (d : QPointF ℝ) :
    |lockedAngle d - angleFromXAxis d| ≤ Real.pi / 8 := by
  have hpi := Real.pi_pos
  have h4 : (0 : ℝ) < Real.pi / 4 := by positivity
  have h1 := Int.floor_le ((angleFromXAxis d + Real.pi / 8) / (Real.pi / 4))
  have h2 := Int.lt_floor_add_one ((angleFromXAxis d + Real.pi / 8) / (Real.pi / 4))
  rw [le_div_iff₀ h4] at h1
  rw [div_lt_iff₀ h4] at h2
  unfold lockedAngle
  rw [abs_le]
  constructor <;> linarith

theorem dot_lockedAngle_nonneg (d : QPointF ℝ) :
    0 ≤ d.x * Real.cos (lockedAngle d) + d.y * Real.sin (lockedAngle d) := by
  obtain ⟨hx, hy⟩ := angleFromXAxis_polar d
  have hnear := abs_le.mp (lockedAngle_near d)
  have hpi := Real.pi_pos
  have hcos : 0 ≤ Real.cos (angleFromXAxis d - lockedAngle d) :=
    Real.cos_nonneg_of_neg_pi_div_two_le_of_le (by linarith) (by linarith)
  have hr := Real.sqrt_nonneg (d.x * d.x + d.y * d.y)
  have he : d.x * Real.cos (lockedAngle d) + d.y * Real.sin (lockedAngle d)
      = Real.sqrt (d.x * d.x + d.y * d.y) * Real.cos (angleFromXAxis d - lockedAngle d) := by
    rw [Real.cos_sub]
    calc d.x * Real.cos (lockedAngle d) + d.y * Real.sin (lockedAngle d)
        = (Real.sqrt (d.x * d.x + d.y * d.y) * Real.cos (angleFromXAxis d))
            * Real.cos (lockedAngle d)
          + (Real.sqrt (d.x * d.x + d.y * d.y) * Real.sin (angleFromXAxis d))
            * Real.sin (lockedAngle d) := by rw [← hx, ← hy]
      _ = Real.sqrt (d.x * d.x + d.y * d.y)
          * (Real.cos (angleFromXAxis d) * Real.cos (lockedAngle d)
            + Real.sin (angleFromXAxis d) * Real.sin (lockedAngle d)) := by ring
  rw [he]
  exact mul_nonneg hr hcos

theorem calcTranslation_real_locked (eps : ℝ) (heps : eps ≤ Real.pi / 8) (d : QPointF ℝ) :
    calcTranslation (Libm.real eps) d true =
      (⟨(d.x * Real.cos (lockedAngle d) + d.y * Real.sin (lockedAngle d))
            * Real.cos (lockedAngle d),
          (d.x * Real.cos (lockedAngle d) + d.y * Real.sin (lockedAngle d))
            * Real.sin (lockedAngle d)⟩,
        ⟨Real.cos (lockedAngle d), Real.sin (lockedAngle d)⟩) := by
  have hx := normalized_x_real eps d
  have hle := abs_div_sqrt_le_one d.x d.y
  have hfl := lockedStep_clamp eps heps d
  simp only [calcTranslation, if_true, hx]
  simp only [Libm.real, if_pos hle, Utils.isEqual, decide_eq_true_eq, QVector2D.ofPoint,
    QVector2D.dotProduct, QVector2D.smul, QVector2D.toPointF, hfl, lockedAngle]

/-! ## Evaluations over the reals -/

theorem calcTranslation_real_down :
    calcTranslation (Libm.real (1 / 10000)) (⟨0, 53⟩ : QPointF ℝ) true = (⟨0, 53⟩, ⟨0, 1⟩) := by
  have hpi := Real.pi_gt_three
  have hne : Real.pi ≠ 0 := by positivity
  have hq : (Real.pi / 2 + Real.pi / 8) / (Real.pi / 4) = 5 / 2 := by
    field_simp; ring
  have hfl : ⌊(Real.pi / 2 + Real.pi / 8) / (Real.pi / 4)⌋ = 2 := by
    rw [hq, Int.floor_eq_iff]; norm_num
  have hang : (2 : ℝ) * (Real.pi / 4) = Real.pi / 2 := by ring
  have hnot : ¬ |Real.pi / 2| < (1 : ℝ) / 10000 := by
    rw [abs_of_pos (by positivity)]; linarith
  simp only [calcTranslation, if_true, QVector2D.ofPoint, QVector2D.normalized, Libm.real]
  norm_num [Utils.isEqual, hnot, hfl, hang, QVector2D.dotProduct, QVector2D.smul,
    QVector2D.toPointF]

theorem lockedMoveEditor_delta : pointerDelta lockedMoveEditor = ⟨0, 53⟩ := by
  norm_num [pointerDelta, lockedMoveEditor, EditorWindow.init, QPointF.divScalar]

theorem lockedMoveEditor_move :
    moveOffset (Libm.real (1 / 10000)) 0 lockedMoveEditor true
      = some ⟨⟨0, 50⟩, QLineF.null, QLineF.null, false, false⟩ := by
  have h1 := calcTranslation_real_down
  have h2 := lockedMoveEditor_delta
  have hraw : moveRawOffset (Libm.real (1 / 10000)) lockedMoveEditor true = ⟨0, 53⟩ := by
    simp only [moveRawOffset, h2, h1]
    norm_num [lockedMoveEditor, EditorWindow.init, QRectF.topLeft, QPointF.add, QPointF.sub,
      Utils.round]
  simp only [moveOffset, moveRawRect, hraw, h2, h1]
  norm_num [Utils.isEqual, Libm.real, moveSnapY, snapYCoord, lockedMoveEditor, EditorWindow.init,
    QRectF.translated, QRectF.top, QRectF.left, QRectF.right, QRectF.bottom, QRectF.center,
    getGridSpacing, gridRound, qFloor, wrapInt, SNAP_DISTANCE]

theorem lockedMoveEditor_free (rect : QRectF ℝ) :
    MoveFreeX lockedMoveEditor rect ∧ MoveFreeY lockedMoveEditor rect := by
  have hg : lockedMoveEditor.options.snapToGuides = false := rfl
  have hs : lockedMoveEditor.options.enableSmartGuides = false := rfl
  have hG : ∀ (gs : List ℝ) (c : ℝ), GuideFree lockedMoveEditor gs c :=
    fun _ _ h => absurd (hg.symm.trans h) (by decide)
  have hS : ∀ layer : List Nat → Snap ℝ → Snap ℝ, SmartFree lockedMoveEditor layer true :=
    fun _ h => absurd (hs.symm.trans h) (by decide)
  exact ⟨⟨hG _ _, hG _ _, hG _ _, hS _, hS _, hS _⟩, ⟨hG _ _, hG _ _, hG _ _, hS _, hS _, hS _⟩⟩

/-! ## Claims about the snapping engine -/

section SnapClaims

variable {α : Type} [LinearOrderedField α] [FloorRing α]

/-- C2: when snapping to guides is enabled and a guide of the axis lies within
`SNAP_DISTANCE / zoom` of the value, while the origin is not within that distance
and the smart-guide query finds nothing, `snapXCoord` and `snapYCoord` return the
coordinate of a nearest such guide; the grid step does not run, whatever the
snap-to-grid flag says. -/
theorem C2_guide_snap_precedes_grid :
    (∀ (fuel : Nat) (e : EditorWindow α) (x y1 y2 : α) (excl : Bool),
      e.options.snapToGuides = true →
      (∃ g ∈ e.vertGuides, |g - x| < (SNAP_DISTANCE : α) / e.mZoom) →
      ¬ |x| < (SNAP_DISTANCE : α) / e.mZoom →
      SmartFree e (e.layerSnapX x y1 y2) excl →
      ∃ r, snapXCoord fuel e x y1 y2 excl = some r ∧ r.coord ∈ e.vertGuides ∧
        |r.coord - x| < (SNAP_DISTANCE : α) / e.mZoom ∧
        ∀ g ∈ e.vertGuides, |r.coord - x| ≤ |g - x|) ∧
    (∀ (fuel : Nat) (e : EditorWindow α) (y x1 x2 : α) (excl : Bool),
      e.options.snapToGuides = true →
      (∃ g ∈ e.horzGuides, |g - y| < (SNAP_DISTANCE : α) / e.mZoom) →
      ¬ |y| < (SNAP_DISTANCE : α) / e.mZoom →
      SmartFree e (e.layerSnapY y x1 x2) excl →
      ∃ r, snapYCoord fuel e y x1 x2 excl = some r ∧ r.coord ∈ e.horzGuides ∧
        |r.coord - y| < (SNAP_DISTANCE : α) / e.mZoom ∧
        ∀ g ∈ e.horzGuides, |r.coord - y| ≤ |g - y|) :=
  ⟨fun fuel e x y1 y2 excl hon hg ho hs => snapXCoord_guide fuel e x y1 y2 excl hon hg ho hs,
    fun fuel e y x1 x2 excl hon hg ho hs => snapYCoord_guide fuel e y x1 x2 excl hon hg ho hs⟩

/-- C3 (amended): for a positive grid spacing `g` and a coordinate `k * g` that
lies in the range of `int`, `snapXCoord` and `snapYCoord` return the coordinate
unchanged when the grid step is the one that runs; and grid rounding applied to
the grid rounding of a value whose neighbouring multiples of `g` lie in the range
of `int` returns that value again. -/
theorem C3_grid_snap_idempotent_in_int_range :
    (∀ (fuel : Nat) (e : EditorWindow α) (g k : Int) (y1 y2 : α) (excl : Bool),
      getGridSpacing fuel e = some g → 0 < g → -2147483648 ≤ k * g → k * g ≤ 2147483647 →
      e.options.snapToGrid = true →
      GuideFree e e.vertGuides (((k * g : Int)) : α) →
      SmartFree e (e.layerSnapX (((k * g : Int)) : α) y1 y2) excl →
      ∃ r, snapXCoord fuel e (((k * g : Int)) : α) y1 y2 excl = some r ∧
        r.coord = (((k * g : Int)) : α)) ∧
    (∀ (fuel : Nat) (e : EditorWindow α) (g k : Int) (x1 x2 : α) (excl : Bool),
      getGridSpacing fuel e = some g → 0 < g → -2147483648 ≤ k * g → k * g ≤ 2147483647 →
      e.options.snapToGrid = true →
      GuideFree e e.horzGuides (((k * g : Int)) : α) →
      SmartFree e (e.layerSnapY (((k * g : Int)) : α) x1 x2) excl →
      ∃ r, snapYCoord fuel e (((k * g : Int)) : α) x1 x2 excl = some r ∧
        r.coord = (((k * g : Int)) : α)) ∧
    (∀ (g : Int) (x : α), 0 < g → GridInRange g x →
      gridRound g (gridRound g x) = gridRound g x) := by
  refine ⟨?_, ?_, ?_⟩
  · intro fuel e g k y1 y2 excl hgs hg hlo hhi hgrid hfree hsmart
    rw [snapXCoord_free fuel e _ y1 y2 excl hfree hsmart, if_pos hgrid, hgs]
    exact ⟨_, rfl, gridRound_mul g hg k hlo hhi⟩
  · intro fuel e g k x1 x2 excl hgs hg hlo hhi hgrid hfree hsmart
    rw [snapYCoord_free fuel e _ x1 x2 excl hfree hsmart, if_pos hgrid, hgs]
    exact ⟨_, rfl, gridRound_mul g hg k hlo hhi⟩
  · intro g x hg hr
    exact gridRound_idem g hg x hr

end SnapClaims

theorem guideEditor_smartFree (layer : List Nat → Snap ℚ → Snap ℚ) (excl : Bool)
    (h : ∀ l s, layer l s = s) : SmartFree guideEditor layer excl :=
  fun _ s => h _ s

/-- C2, at a concrete input: with a guide at 102 and the grid enabled, the value
100 (itself on the grid of spacing 10) snaps to the guide. -/
theorem C2_guide_snap_precedes_grid_witness :
    guideEditor.options.snapToGuides = true ∧
    (∃ g ∈ guideEditor.vertGuides, |g - 100| < (SNAP_DISTANCE : ℚ) / guideEditor.mZoom) ∧
    ¬ |(100 : ℚ)| < (SNAP_DISTANCE : ℚ) / guideEditor.mZoom ∧
    SmartFree guideEditor (guideEditor.layerSnapX 100 0 50) true ∧
    ∃ r, snapXCoord 0 guideEditor 100 0 50 true = some r ∧ r.coord ∈ guideEditor.vertGuides ∧
      |r.coord - 100| < (SNAP_DISTANCE : ℚ) / guideEditor.mZoom ∧
      ∀ g ∈ guideEditor.vertGuides, |r.coord - 100| ≤ |g - 100| := by
  have h1 : guideEditor.options.snapToGuides = true := rfl
  have h2 : ∃ g ∈ guideEditor.vertGuides, |g - 100| < (SNAP_DISTANCE : ℚ) / guideEditor.mZoom :=
    ⟨102, by simp [guideEditor], by norm_num [guideEditor, EditorWindow.init, SNAP_DISTANCE, abs_lt]⟩
  have h3 : ¬ |(100 : ℚ)| < (SNAP_DISTANCE : ℚ) / guideEditor.mZoom := by
    norm_num [guideEditor, EditorWindow.init, SNAP_DISTANCE]
  have h4 : SmartFree guideEditor (guideEditor.layerSnapX 100 0 50) true :=
    guideEditor_smartFree _ _ (fun _ _ => rfl)
  exact ⟨h1, h2, h3, h4, (@C2_guide_snap_precedes_grid ℚ _ _).1 0 guideEditor 100 0 50 true h1 h2 h3 h4⟩

/-- C3 (amended), at a concrete input: the value 50 on the grid of spacing 10 is
returned unchanged by `snapXCoord`. -/
theorem C3_grid_snap_idempotent_in_int_range_witness :
    getGridSpacing 1 guideEditor = some 10 ∧ (0 : Int) < 10 ∧
    (-2147483648 : Int) ≤ 5 * 10 ∧ (5 * 10 : Int) ≤ 2147483647 ∧
    guideEditor.options.snapToGrid = true ∧
    GuideFree guideEditor guideEditor.vertGuides ((((5 : Int) * 10 : Int)) : ℚ) ∧
    SmartFree guideEditor (guideEditor.layerSnapX ((((5 : Int) * 10 : Int)) : ℚ) 0 50) true ∧
    ∃ r, snapXCoord 1 guideEditor ((((5 : Int) * 10 : Int)) : ℚ) 0 50 true = some r ∧
      r.coord = ((((5 : Int) * 10 : Int)) : ℚ) := by
  have h1 : getGridSpacing 1 guideEditor = some 10 := by
    norm_num [getGridSpacing, gridSpacingLoop, guideEditor, EditorWindow.init, MIN_GRID_SPACING]
  have h2 : (0 : Int) < 10 := by decide
  have h3 : guideEditor.options.snapToGrid = true := rfl
  have h4 : GuideFree guideEditor guideEditor.vertGuides ((((5 : Int) * 10 : Int)) : ℚ) := by
    intro _
    norm_num [guideEditor, EditorWindow.init, SNAP_DISTANCE, abs_lt]
  have h5 : SmartFree guideEditor
      (guideEditor.layerSnapX ((((5 : Int) * 10 : Int)) : ℚ) 0 50) true :=
    guideEditor_smartFree _ _ (fun _ _ => rfl)
  exact ⟨h1, h2, by decide, by decide, h3, h4, h5,
    (@C3_grid_snap_idempotent_in_int_range ℚ _ _).1 1 guideEditor 10 5 0 50 true h1 h2
      (by decide) (by decide) h3 h4 h5⟩

/-- C3, as stated, fails beyond the range of `int`: the coordinate 2147483650 is
the multiple 214748365 * 10 of the grid spacing 10, no guide, axis or smart guide
is near it, and the grid step of `snapXCoord` returns -2147483646, because the
`int` product `qFloor(..) * gridSpacing` wraps around; rounding that result once
more gives yet another value. -/
theorem C3_counterexample :
    getGridSpacing 1 guideEditor = some 10 ∧ guideEditor.options.snapToGrid = true ∧
    (2147483650 : ℚ) = ((((214748365 : Int) * 10 : Int)) : ℚ) ∧
    GuideFree guideEditor guideEditor.vertGuides (2147483650 : ℚ) ∧
    SmartFree guideEditor (guideEditor.layerSnapX (2147483650 : ℚ) 0 50) true ∧
    snapXCoord 1 guideEditor (2147483650 : ℚ) 0 50 true
      = some ⟨-2147483646, 4, QLineF.null⟩ ∧
    gridRound 10 (gridRound 10 (2147483650 : ℚ)) = 2147483646 ∧
    gridRound 10 (2147483650 : ℚ) = -2147483646 := by
  have h1 : getGridSpacing 1 guideEditor = some 10 := by
    norm_num [getGridSpacing, gridSpacingLoop, guideEditor, EditorWindow.init, MIN_GRID_SPACING]
  have h4 : GuideFree guideEditor guideEditor.vertGuides (2147483650 : ℚ) := by
    intro _
    norm_num [guideEditor, EditorWindow.init, SNAP_DISTANCE, abs_lt]
  have h5 : SmartFree guideEditor (guideEditor.layerSnapX (2147483650 : ℚ) 0 50) true :=
    guideEditor_smartFree _ _ (fun _ _ => rfl)
  have h6 : gridRound 10 (2147483650 : ℚ) = -2147483646 := by
    norm_num [gridRound, qFloor, wrapInt]
  refine ⟨h1, rfl, by norm_num, h4, h5, ?_, ?_, h6⟩
  · rw [snapXCoord_free 1 guideEditor _ 0 50 true h4 h5,
      if_pos (show guideEditor.options.snapToGrid = true from rfl), h1]
    simp only [Option.map_some', h6]
    norm_num [guideEditor, EditorWindow.init, SNAP_DISTANCE]
  · rw [h6]
    norm_num [gridRound, qFloor, wrapInt]

/-! ## Claims about the Move state -/

section MoveClaims

variable {α : Type} [LinearOrderedField α] [FloorRing α]

/-- C4 (amended): in the Move state with snap-to-grid on and no guide, origin or
smart-guide candidate, for a selection rectangle whose left edge is an integer in
the range of `int` and whose unsnapped position keeps the grid rounding in that
range, the left edge of the moved selection rectangle ends on the multiple of the
grid spacing nearest to its unsnapped position whenever the X-axis block runs,
that is with axis-lock off or with the locked axis horizontal, and the offset
applied is then an integer; likewise the top edge whenever the Y-axis block runs.
(Sums and differences of integers of this size are exact in the arithmetic of
`qreal`.)  In particular the rectangle (100,100)-(200,150) dragged right by 53
pixels at zoom 1 with grid spacing 10 ends with its left edge at 150 and its top
edge at 100. -/
theorem C4_move_grid_snap_unless_axis_locked (m : Libm α) (fuel : Nat) (e : EditorWindow α)
    (shift : Bool) (g : Int) (hgs : getGridSpacing fuel e = some g) (hg : 0 < g)
    (hgrid : e.options.snapToGrid = true) :
    ((shift = false ∨
        Utils.isEqual (calcTranslation m (pointerDelta e) shift).2.y 0 m.EPS = true) →
      MoveFreeX e (moveRawRect m e shift) →
      (∃ n : Int, -2147483648 ≤ n ∧ n ≤ 2147483647 ∧ e.mOriginalRect.left = (n : α)) →
      GridInRange g (moveRawRect m e shift).left →
      ∃ r, moveOffset m fuel e shift = some r ∧
        (∃ k : Int, (e.mOriginalRect.translated r.offset).left = (k : α) * (g : α)) ∧
        |(e.mOriginalRect.translated r.offset).left - (moveRawRect m e shift).left|
          ≤ (g : α) / 2 ∧
        ∃ n : Int, r.offset.x = (n : α)) ∧
    ((shift = false ∨
        Utils.isEqual (calcTranslation m (pointerDelta e) shift).2.x 0 m.EPS = true) →
      MoveFreeY e (moveRawRect m e shift) →
      (∃ n : Int, -2147483648 ≤ n ∧ n ≤ 2147483647 ∧ e.mOriginalRect.top = (n : α)) →
      GridInRange g (moveRawRect m e shift).top →
      ∃ r, moveOffset m fuel e shift = some r ∧
        (∃ k : Int, (e.mOriginalRect.translated r.offset).top = (k : α) * (g : α)) ∧
        |(e.mOriginalRect.translated r.offset).top - (moveRawRect m e shift).top|
          ≤ (g : α) / 2 ∧
        ∃ n : Int, r.offset.y = (n : α)) ∧
    (∀ (m0 : Libm ℚ) (fuel0 : Nat), ∃ r, moveOffset m0 fuel0 gridMoveEditor false = some r ∧
      (gridMoveEditor.mOriginalRect.translated r.offset).left = 150 ∧
      (gridMoveEditor.mOriginalRect.translated r.offset).top = 100) := by
  refine ⟨?_, ?_, ?_⟩
  · rintro hguard hfree ⟨n, _, _, hn⟩ hrange
    obtain ⟨r, hr, hl⟩ := moveOffset_left_grid m fuel e shift g hgs hgrid hguard hfree
    obtain ⟨k, hk⟩ := gridRound_multiple g hg _ hrange
    refine ⟨r, hr, ⟨k, by rw [hl]; exact hk⟩, by rw [hl]; exact gridRound_near g hg _ hrange,
      k * g - n, ?_⟩
    have hsum : (e.mOriginalRect.translated r.offset).left = e.mOriginalRect.left + r.offset.x :=
      rfl
    rw [hsum, hk, hn] at hl
    push_cast
    linarith
  · rintro hguard hfree ⟨n, _, _, hn⟩ hrange
    obtain ⟨r, hr, hl⟩ := moveOffset_top_grid m fuel e shift g hgs hgrid hguard hfree
    obtain ⟨k, hk⟩ := gridRound_multiple g hg _ hrange
    refine ⟨r, hr, ⟨k, by rw [hl]; exact hk⟩, by rw [hl]; exact gridRound_near g hg _ hrange,
      k * g - n, ?_⟩
    have hsum : (e.mOriginalRect.translated r.offset).top = e.mOriginalRect.top + r.offset.y :=
      rfl
    rw [hsum, hk, hn] at hl
    push_cast
    linarith
  · intro m0 fuel0
    refine ⟨⟨⟨50, 0⟩, QLineF.null, QLineF.null, false, false⟩, ?_, ?_, ?_⟩
    · norm_num [moveOffset, moveRawRect, moveRawOffset, calcTranslation, pointerDelta,
        moveSnapX, moveSnapY, snapXCoord, snapYCoord, gridMoveEditor, EditorWindow.init,
        QRectF.translated, QRectF.top, QRectF.left, QRectF.right, QRectF.bottom, QRectF.center,
        QRectF.topLeft, QPointF.add, QPointF.sub, QPointF.divScalar, Utils.round,
        getGridSpacing, gridRound, qFloor, wrapInt, SNAP_DISTANCE]
    · norm_num [gridMoveEditor, QRectF.translated, QRectF.left]
    · norm_num [gridMoveEditor, QRectF.translated, QRectF.top]

/-- C5: in the Move state the snapping engine is evaluated on each axis for the
near edge, the center and the far edge; when at least one of the three snap
distances is below `SNAP_DISTANCE / zoom`, the correction applied to the offset is
that of a candidate whose distance is the smallest of the three, and when none is
below the threshold the near-edge result is applied. -/
theorem C5_move_applies_smallest_distance :
    (∀ (fuel : Nat) (e : EditorWindow α) (rect : QRectF α) (offset : QPointF α)
      (l c r : Snap α),
      snapXCoord fuel e rect.left rect.top rect.bottom true = some l →
      snapXCoord fuel e rect.center.x rect.center.y rect.center.y true = some c →
      snapXCoord fuel e rect.right rect.top rect.bottom true = some r →
      ∃ res, moveSnapX fuel e rect offset = some res ∧ res.offset.y = offset.y ∧
        ((l.distance < (SNAP_DISTANCE : α) / e.mZoom ∨
            c.distance < (SNAP_DISTANCE : α) / e.mZoom ∨
            r.distance < (SNAP_DISTANCE : α) / e.mZoom) →
          (res.offset.x = offset.x + (c.coord - rect.center.x) ∧ res.line = c.line ∧
              c.distance ≤ l.distance ∧ c.distance ≤ r.distance) ∨
            (res.offset.x = offset.x + (l.coord - rect.left) ∧ res.line = l.line ∧
              l.distance ≤ c.distance ∧ l.distance ≤ r.distance) ∨
            (res.offset.x = offset.x + (r.coord - rect.right) ∧ res.line = r.line ∧
              r.distance ≤ l.distance ∧ r.distance ≤ c.distance)) ∧
        ((¬ l.distance < (SNAP_DISTANCE : α) / e.mZoom ∧
            ¬ c.distance < (SNAP_DISTANCE : α) / e.mZoom ∧
            ¬ r.distance < (SNAP_DISTANCE : α) / e.mZoom) →
          res.offset.x = offset.x + (l.coord - rect.left) ∧ res.line = QLineF.null)) ∧
    (∀ (fuel : Nat) (e : EditorWindow α) (rect : QRectF α) (offset : QPointF α)
      (t c b : Snap α),
      snapYCoord fuel e rect.top rect.left rect.right true = some t →
      snapYCoord fuel e rect.center.y rect.center.x rect.center.x true = some c →
      snapYCoord fuel e rect.bottom rect.left rect.right true = some b →
      ∃ res, moveSnapY fuel e rect offset = some res ∧ res.offset.x = offset.x ∧
        ((t.distance < (SNAP_DISTANCE : α) / e.mZoom ∨
            c.distance < (SNAP_DISTANCE : α) / e.mZoom ∨
            b.distance < (SNAP_DISTANCE : α) / e.mZoom) →
          (res.offset.y = offset.y + (c.coord - rect.center.y) ∧ res.line = c.line ∧
              c.distance ≤ t.distance ∧ c.distance ≤ b.distance) ∨
            (res.offset.y = offset.y + (t.coord - rect.top) ∧ res.line = t.line ∧
              t.distance ≤ c.distance ∧ t.distance ≤ b.distance) ∨
            (res.offset.y = offset.y + (b.coord - rect.bottom) ∧ res.line = b.line ∧
              b.distance ≤ t.distance ∧ b.distance ≤ c.distance)) ∧
        ((¬ t.distance < (SNAP_DISTANCE : α) / e.mZoom ∧
            ¬ c.distance < (SNAP_DISTANCE : α) / e.mZoom ∧
            ¬ b.distance < (SNAP_DISTANCE : α) / e.mZoom) →
          res.offset.y = offset.y + (t.coord - rect.top) ∧ res.line = QLineF.null)) ∧
    (∀ (m : Libm α) (fuel : Nat) (e : EditorWindow α),
      moveOffset m fuel e false =
        (moveSnapX fuel e (moveRawRect m e false) (moveRawOffset m e false)).bind fun sx =>
        (moveSnapY fuel e (moveRawRect m e false) sx.offset).bind fun sy =>
        some ⟨sy.offset, sx.line, sy.line, sx.onCenter, sy.onCenter⟩) := by
  refine ⟨?_, ?_, ?_⟩
  · intro fuel e rect offset l c r hl hc hr
    exact moveSnapX_choice fuel e rect offset l c r hl hc hr
  · intro fuel e rect offset t c b ht hc hb
    exact moveSnapY_choice fuel e rect offset t c b ht hc hb
  · intro m fuel e
    simp [moveOffset]

end MoveClaims

/-! ## Claims about scaling, selection and rotation -/

section ScaleClaims

variable {α : Type} [LinearOrderedField α] [FloorRing α]

/-- C6 (amended): in a resize step performed with proportion-lock in effect, for
every handle, the pair of scale factors computed for the handle, before the
one-unit minimum-extent floor, has equal magnitude on both axes, each axis
keeping its own sign (a corner handle gives each factor the sign of the factor
computed for its axis, an edge handle scales the other axis by the magnitude
itself); the factors applied to the objects are the floor of that pair, so they
are that pair whenever neither scaled extent is below one unit. -/
theorem C6_proportion_lock_equal_magnitude_before_floor (fuel : Nat) (e : EditorWindow α)
    (g : Int) (pos : QPointF α) (shift : Bool)
    (hgs : getGridSpacing fuel e = some g)
    (hw : e.mOriginalRect.width ≠ 0) (hh : e.mOriginalRect.height ≠ 0)
    (hkeep : (shift || e.mKeepProportions) = true) :
    (∃ r res, markerScale fuel e pos true = some r ∧ |r.scale.x| = |r.scale.y| ∧
      mouseMoveStateResize fuel e pos shift = some res ∧
      res.scale = floorScale e.mOriginalRect r.scale ∧
      1 ≤ |e.mOriginalRect.width * res.scale.x| ∧ 1 ≤ |e.mOriginalRect.height * res.scale.y| ∧
      (1 ≤ |e.mOriginalRect.width * r.scale.x| → 1 ≤ |e.mOriginalRect.height * r.scale.y| →
        res.scale = r.scale ∧ |res.scale.x| = |res.scale.y|)) ∧
    (∀ (p pivot : QPointF α) (sx sy : α), ∃ rx ry c,
      snapXCoord fuel e p.x (min p.y pivot.y) (max p.y pivot.y) true = some rx ∧
      snapYCoord fuel e p.y (min p.x pivot.x) (max p.x pivot.x) true = some ry ∧
      calcScale fuel e p pivot sx sy true = some c ∧ |c.scale.x| = |c.scale.y| ∧
      0 ≤ c.scale.x * (rawScale e rx.coord ry.coord pivot sx sy).x ∧
      0 ≤ c.scale.y * (rawScale e rx.coord ry.coord pivot sx sy).y) ∧
    (∀ dir : α, ∃ c, edgeScaleX fuel e pos dir true = some c ∧ c.scale.y = |c.scale.x|) ∧
    (∀ dir : α, ∃ c, edgeScaleY fuel e pos dir true = some c ∧ c.scale.x = |c.scale.y|) := by
  refine ⟨?_, fun p pivot sx sy => calcScale_keep_abs fuel e g hgs p pivot sx sy,
    fun dir => edgeScaleX_keep fuel e g hgs pos dir,
    fun dir => edgeScaleY_keep fuel e g hgs pos dir⟩
  obtain ⟨r, hr, habs⟩ := markerScale_keep fuel e g hgs pos
  obtain ⟨fx1, fx2, _⟩ := floorScale_x e.mOriginalRect r.scale hw
  obtain ⟨fy1, fy2, _⟩ := floorScale_y e.mOriginalRect r.scale hh
  refine ⟨r, ⟨true, resizePivot e, floorScale e.mOriginalRect r.scale, r.vertSnapLine,
    r.horzSnapLine, resizeObjects e (resizePivot e) (floorScale e.mOriginalRect r.scale) true⟩,
    hr, habs, ?_, rfl, fx1, fy1, ?_⟩
  · simp only [mouseMoveStateResize, hkeep, hr, Option.map_some']
  · intro h1 h2
    have hx := fx2 h1
    have hy := fy2 h2
    have hfs : floorScale e.mOriginalRect r.scale = r.scale := by
      cases hq : floorScale e.mOriginalRect r.scale with
      | mk qx qy =>
        cases hr2 : r.scale with
        | mk rx0 ry0 =>
          rw [hq, hr2] at hx hy
          simp only at hx hy
          rw [hx, hy]
    exact ⟨hfs, by rw [hfs]; exact habs⟩

/-- C7 (amended): in `calcScale` with proportion-lock requested, the axis whose
computed scale factor has the larger magnitude is the one discarded (the X axis
when the magnitudes are equal): its factor is replaced by the magnitude of the
other axis's factor carrying the discarded axis's own sign, and the snap line
belonging to the discarded axis is cleared. -/
theorem C7_larger_magnitude_axis_discarded (fuel : Nat) (e : EditorWindow α) (g : Int)
    (hgs : getGridSpacing fuel e = some g) (pos pivot : QPointF α) (sx sy : α) :
    ∃ rx ry res,
      snapXCoord fuel e pos.x (min pos.y pivot.y) (max pos.y pivot.y) true = some rx ∧
      snapYCoord fuel e pos.y (min pos.x pivot.x) (max pos.x pivot.x) true = some ry ∧
      calcScale fuel e pos pivot sx sy true = some res ∧
      (|(rawScale e rx.coord ry.coord pivot sx sy).x| < |(rawScale e rx.coord ry.coord pivot sx sy).y| →
        res.scale.x = (rawScale e rx.coord ry.coord pivot sx sy).x ∧
        res.scale.y = Utils.sign (rawScale e rx.coord ry.coord pivot sx sy).y
          * |(rawScale e rx.coord ry.coord pivot sx sy).x| ∧
        |res.scale.y| = |(rawScale e rx.coord ry.coord pivot sx sy).x| ∧
        0 ≤ res.scale.y * (rawScale e rx.coord ry.coord pivot sx sy).y ∧
        res.horzSnapLine = QLineF.null) ∧
      (|(rawScale e rx.coord ry.coord pivot sx sy).y| ≤ |(rawScale e rx.coord ry.coord pivot sx sy).x| →
        res.scale.y = (rawScale e rx.coord ry.coord pivot sx sy).y ∧
        res.scale.x = Utils.sign (rawScale e rx.coord ry.coord pivot sx sy).x
          * |(rawScale e rx.coord ry.coord pivot sx sy).y| ∧
        |res.scale.x| = |(rawScale e rx.coord ry.coord pivot sx sy).y| ∧
        0 ≤ res.scale.x * (rawScale e rx.coord ry.coord pivot sx sy).x ∧
        res.vertSnapLine = QLineF.null) := by
  obtain ⟨rx, ry, res, hrx, hry, hres, h1, h2⟩ := calcScale_keep fuel e g hgs pos pivot sx sy
  obtain ⟨rx2, ry2, res2, hrx2, hry2, hres2, habs, hsx, hsy⟩ :=
    calcScale_keep_abs fuel e g hgs pos pivot sx sy
  have e1 : rx2 = rx := Option.some.inj (hrx2.symm.trans hrx)
  have e2 : ry2 = ry := Option.some.inj (hry2.symm.trans hry)
  have e3 : res2 = res := Option.some.inj (hres2.symm.trans hres)
  subst e1 e2 e3
  refine ⟨rx2, ry2, res2, hrx, hry, hres, ?_, ?_⟩
  · intro hlt
    obtain ⟨hs, hl⟩ := h1 hlt
    have hxe : res2.scale.x = (rawScale e rx2.coord ry2.coord pivot sx sy).x := by rw [hs]
    have hye : res2.scale.y = Utils.sign (rawScale e rx2.coord ry2.coord pivot sx sy).y
        * |(rawScale e rx2.coord ry2.coord pivot sx sy).x| := by rw [hs]
    exact ⟨hxe, hye, by rw [← habs, hxe], hsy, hl⟩
  · intro hle
    obtain ⟨hs, hl⟩ := h2 (not_lt.mpr hle)
    have hye : res2.scale.y = (rawScale e rx2.coord ry2.coord pivot sx sy).y := by rw [hs]
    have hxe : res2.scale.x = Utils.sign (rawScale e rx2.coord ry2.coord pivot sx sy).x
        * |(rawScale e rx2.coord ry2.coord pivot sx sy).y| := by rw [hs]
    exact ⟨hye, hxe, by rw [habs, hye], hsx, hl⟩

/-- C9: when the selection contains an object whose angle is none of 0, 90, 180,
270, `selectGameObjects` forces proportion-lock, and a resize step under forced
proportion-lock multiplies every selected object's width by `sx` and its height
by `sy` for one and the same pair, whatever the object's angle; two objects at 0
and 45 degrees whose bottom-right handle is dragged to the point that doubles the
selection rectangle are both scaled by (2, 2). -/
theorem C9_forced_proportions_scale_uniformly :
    (∀ (e : EditorWindow α) (objects : List (GameObject α)),
      (∃ o ∈ objects, o.angle ≠ 0 ∧ o.angle ≠ 90 ∧ o.angle ≠ 180 ∧ o.angle ≠ 270) →
      (selectGameObjects e objects).mKeepProportions = true) ∧
    (∀ (fuel : Nat) (e : EditorWindow α) (g : Int) (pos : QPointF α) (shift : Bool),
      getGridSpacing fuel e = some g → e.mKeepProportions = true →
      ∃ res, mouseMoveStateResize fuel e pos shift = some res ∧ res.keepProportions = true ∧
        res.objects = List.zipWith
          (fun o (t : QPointF α × QSizeF α × α) =>
            { o with
              position := ⟨(t.1.x - res.pivot.x) * res.scale.x + res.pivot.x,
                (t.1.y - res.pivot.y) * res.scale.y + res.pivot.y⟩
              size := ⟨t.2.1.width * res.scale.x, t.2.1.height * res.scale.y⟩ })
          e.mSelectedObjects
          (List.zip e.mOriginalPositions (List.zip e.mOriginalSizes e.mOriginalAngles))) ∧
    (twoObjects.map (fun o => o.angle) = [0, 45] ∧
      twoObjectEditor.mKeepProportions = true ∧
      twoObjectEditor.mSelectionMarker = .MARKER_BOTTOM_RIGHT ∧
      twoObjectEditor.mOriginalRect = ⟨0, 0, 168, 68⟩ ∧
      twoObjectEditor.mOriginalSizes = [⟨100, 50⟩, ⟨40, 40⟩] ∧
      (mouseMoveStateResize 0 twoObjectEditor ⟨336, 136⟩ false).map
        (fun r => (r.scale, r.objects.map (fun o => o.size)))
        = some (⟨2, 2⟩, [⟨200, 100⟩, ⟨80, 80⟩])) := by
  refine ⟨?_, ?_, ?_⟩
  · rintro e objects ⟨o, ho, h0, h90, h180, h270⟩
    cases objects with
    | nil => simp at ho
    | cons front rest =>
      have hany : (front :: rest).any (fun o => isSkewAngle o.angle) = true := by
        rw [List.any_eq_true]
        exact ⟨o, ho, by simp [isSkewAngle, h0, h90, h180, h270]⟩
      simp only [selectGameObjects, hany]
      split_ifs
      · rw [updateAllowedEditorActions_keep]
        split <;> rfl
      · rfl
  · intro fuel e g pos shift hgs hkeep
    have hk : (shift || e.mKeepProportions) = true := by simp [hkeep]
    obtain ⟨r, hr, _⟩ := markerScale_keep fuel e g hgs pos
    refine ⟨⟨true, resizePivot e, floorScale e.mOriginalRect r.scale, r.vertSnapLine,
      r.horzSnapLine, resizeObjects e (resizePivot e) (floorScale e.mOriginalRect r.scale) true⟩,
      ?_, rfl, ?_⟩
    · simp only [mouseMoveStateResize, hk, hr, Option.map_some']
    · simp [resizeObjects, resizeObject]
  · obtain ⟨h1, h2, hm, _, _, _, _, hsz, _⟩ := twoObjectEditor_fields
    exact ⟨by simp [twoObjects], h1, hm, h2, hsz, twoObjectEditor_doubles⟩

/-- C10: in the Rotate state the absolute angle stored on an object lies in
[0, 360); with `m` the sum of original angle and delta reduced modulo 360 into
[0, 360), it is exactly 0, 90, 180 or 270 when `m` is less than 0.5 away from that
value (and 0 when `m` is less than 0.5 away from 360), and it is `m` otherwise;
original angle 370 and delta -15 store 355. -/
theorem C10_rotation_angle_normalised_and_snapped (a d : α) :
    0 ≤ rotateAbsAngle a d ∧ rotateAbsAngle a d < 360 ∧
    (|(a + d - 360 * ((⌊(a + d) / 360⌋ : Int) : α)) - 0| < 1 / 2 → rotateAbsAngle a d = 0) ∧
    (|(a + d - 360 * ((⌊(a + d) / 360⌋ : Int) : α)) - 360| < 1 / 2 → rotateAbsAngle a d = 0) ∧
    (|(a + d - 360 * ((⌊(a + d) / 360⌋ : Int) : α)) - 90| < 1 / 2 → rotateAbsAngle a d = 90) ∧
    (|(a + d - 360 * ((⌊(a + d) / 360⌋ : Int) : α)) - 180| < 1 / 2 →
      rotateAbsAngle a d = 180) ∧
    (|(a + d - 360 * ((⌊(a + d) / 360⌋ : Int) : α)) - 270| < 1 / 2 →
      rotateAbsAngle a d = 270) ∧
    ((¬ |(a + d - 360 * ((⌊(a + d) / 360⌋ : Int) : α)) - 0| < 1 / 2 ∧
        ¬ |(a + d - 360 * ((⌊(a + d) / 360⌋ : Int) : α)) - 360| < 1 / 2 ∧
        ¬ |(a + d - 360 * ((⌊(a + d) / 360⌋ : Int) : α)) - 90| < 1 / 2 ∧
        ¬ |(a + d - 360 * ((⌊(a + d) / 360⌋ : Int) : α)) - 180| < 1 / 2 ∧
        ¬ |(a + d - 360 * ((⌊(a + d) / 360⌋ : Int) : α)) - 270| < 1 / 2) →
      rotateAbsAngle a d = a + d - 360 * ((⌊(a + d) / 360⌋ : Int) : α)) ∧
    rotateAbsAngle (370 : α) (-15) = 355 := by
  have hnorm := fmod_normalised (a + d)
  have hfl := Int.floor_le ((a + d) / 360)
  have hfl2 := Int.lt_floor_add_one ((a + d) / 360)
  have h360 : (0 : α) < 360 := by norm_num
  rw [le_div_iff₀ h360] at hfl
  rw [div_lt_iff₀ h360] at hfl2
  have hm0 : 0 ≤ a + d - 360 * ((⌊(a + d) / 360⌋ : Int) : α) := by linarith
  have hm1 : a + d - 360 * ((⌊(a + d) / 360⌋ : Int) : α) < 360 := by linarith
  have hdef : rotateAbsAngle a d =
      (if |(a + d - 360 * ((⌊(a + d) / 360⌋ : Int) : α)) - 0| < 1 / 2 ∨
          |(a + d - 360 * ((⌊(a + d) / 360⌋ : Int) : α)) - 360| < 1 / 2 then 0
        else if |(a + d - 360 * ((⌊(a + d) / 360⌋ : Int) : α)) - 90| < 1 / 2 then 90
        else if |(a + d - 360 * ((⌊(a + d) / 360⌋ : Int) : α)) - 180| < 1 / 2 then 180
        else if |(a + d - 360 * ((⌊(a + d) / 360⌋ : Int) : α)) - 270| < 1 / 2 then 270
        else a + d - 360 * ((⌊(a + d) / 360⌋ : Int) : α)) := by
    simp only [rotateAbsAngle, hnorm, Utils.isEqual, Bool.or_eq_true, decide_eq_true_eq]
  generalize a + d - 360 * ((⌊(a + d) / 360⌋ : Int) : α) = m at hdef hm0 hm1
  refine ⟨?_, ?_, ?_, ?_, ?_, ?_, ?_, ?_, ?_⟩
  · rw [hdef]
    split_ifs
    all_goals first | exact hm0 | norm_num
  · rw [hdef]
    split_ifs
    all_goals first | exact hm1 | norm_num
  · intro h; rw [hdef, if_pos (Or.inl h)]
  · intro h; rw [hdef, if_pos (Or.inr h)]
  · intro h
    have h2 := abs_lt.mp h
    rw [hdef, if_neg, if_pos h]
    rintro (hc | hc) <;> have h3 := abs_lt.mp hc <;> linarith [h2.1, h2.2, h3.1, h3.2]
  · intro h
    have h2 := abs_lt.mp h
    rw [hdef, if_neg, if_neg, if_pos h]
    · intro hc; have h3 := abs_lt.mp hc; linarith [h2.1, h2.2, h3.1, h3.2]
    · rintro (hc | hc) <;> have h3 := abs_lt.mp hc <;> linarith [h2.1, h2.2, h3.1, h3.2]
  · intro h
    have h2 := abs_lt.mp h
    rw [hdef, if_neg, if_neg, if_neg, if_pos h]
    · intro hc; have h3 := abs_lt.mp hc; linarith [h2.1, h2.2, h3.1, h3.2]
    · intro hc; have h3 := abs_lt.mp hc; linarith [h2.1, h2.2, h3.1, h3.2]
    · rintro (hc | hc) <;> have h3 := abs_lt.mp hc <;> linarith [h2.1, h2.2, h3.1, h3.2]
  · rintro ⟨n0, n360, n90, n180, n270⟩
    rw [hdef, if_neg (by rintro (hc | hc); exact n0 hc; exact n360 hc), if_neg n90,
      if_neg n180, if_neg n270]
  · norm_num [rotateAbsAngle, fmod, Utils.isEqual, abs_lt]

end ScaleClaims

/-- C4, as stated, fails with axis-lock on: with snap-to-grid as the only snapping
feature and grid spacing 10, the rectangle (103,100)-(203,150) dragged straight
down with Shift held keeps its left edge at 103, which is no multiple of 10. -/
theorem C4_counterexample :
    lockedMoveEditor.options = ⟨false, false, true, false, 10⟩ ∧
    ∃ r, moveOffset (Libm.real (1 / 10000)) 0 lockedMoveEditor true = some r ∧
      (lockedMoveEditor.mOriginalRect.translated r.offset).left = 103 ∧
      ¬ ∃ k : Int, (lockedMoveEditor.mOriginalRect.translated r.offset).left = (k : ℝ) * 10 := by
  refine ⟨rfl, _, lockedMoveEditor_move, ?_, ?_⟩
  · norm_num [lockedMoveEditor, QRectF.translated, QRectF.left]
  · have hl : (lockedMoveEditor.mOriginalRect.translated (⟨0, 50⟩ : QPointF ℝ)).left = 103 := by
      norm_num [lockedMoveEditor, QRectF.translated, QRectF.left]
    rw [hl]
    rintro ⟨k, hk⟩
    have hk2 : (103 : Int) = k * 10 := by exact_mod_cast hk
    omega

theorem lockedMoveEditor_rawLeft :
    (moveRawRect (Libm.real (1 / 10000)) lockedMoveEditor false).left = 103 := by
  have h2 := lockedMoveEditor_delta
  simp only [moveRawRect, moveRawOffset, h2, calcTranslation]
  norm_num [lockedMoveEditor, EditorWindow.init, QRectF.topLeft, QPointF.add, QPointF.sub,
    Utils.round, QRectF.translated, QRectF.left]

/-- C4 (amended), at a concrete input: the same rectangle dragged straight down
without Shift has its left edge rounded to the grid. -/
theorem C4_move_grid_snap_unless_axis_locked_witness :
    getGridSpacing 0 lockedMoveEditor = some 10 ∧ (0 : Int) < 10 ∧
    lockedMoveEditor.options.snapToGrid = true ∧
    (false = false ∨ Utils.isEqual
      (calcTranslation (Libm.real (1 / 10000)) (pointerDelta lockedMoveEditor) false).2.y 0
      (Libm.real (1 / 10000)).EPS = true) ∧
    MoveFreeX lockedMoveEditor (moveRawRect (Libm.real (1 / 10000)) lockedMoveEditor false) ∧
    (∃ n : Int, -2147483648 ≤ n ∧ n ≤ 2147483647 ∧
      lockedMoveEditor.mOriginalRect.left = (n : ℝ)) ∧
    GridInRange 10 (moveRawRect (Libm.real (1 / 10000)) lockedMoveEditor false).left ∧
    ∃ r, moveOffset (Libm.real (1 / 10000)) 0 lockedMoveEditor false = some r ∧
      (∃ k : Int, (lockedMoveEditor.mOriginalRect.translated r.offset).left
        = (k : ℝ) * ((10 : Int) : ℝ)) ∧
      |(lockedMoveEditor.mOriginalRect.translated r.offset).left
          - (moveRawRect (Libm.real (1 / 10000)) lockedMoveEditor false).left|
        ≤ ((10 : Int) : ℝ) / 2 ∧
      ∃ n : Int, r.offset.x = (n : ℝ) := by
  have h1 : getGridSpacing 0 lockedMoveEditor = some 10 := rfl
  have h2 : (0 : Int) < 10 := by decide
  have h3 : lockedMoveEditor.options.snapToGrid = true := rfl
  have h4 : MoveFreeX lockedMoveEditor
      (moveRawRect (Libm.real (1 / 10000)) lockedMoveEditor false) :=
    (lockedMoveEditor_free _).1
  have h5 : ∃ n : Int, -2147483648 ≤ n ∧ n ≤ 2147483647 ∧
      lockedMoveEditor.mOriginalRect.left = (n : ℝ) :=
    ⟨103, by decide, by decide, by norm_num [lockedMoveEditor, QRectF.left]⟩
  have h6 : GridInRange 10 (moveRawRect (Libm.real (1 / 10000)) lockedMoveEditor false).left := by
    rw [lockedMoveEditor_rawLeft]
    constructor <;> norm_num
  exact ⟨h1, h2, h3, Or.inl rfl, h4, h5, h6,
    (C4_move_grid_snap_unless_axis_locked (Libm.real (1 / 10000)) 0 lockedMoveEditor false 10
      h1 h2 h3).1 (Or.inl rfl) h4 h5 h6⟩

/-- C5, at a concrete input: a rectangle whose left edge is 3 units from the guide
at 102, while center and right edge only reach the grid, is corrected by the
left-edge candidate. -/
theorem C5_move_applies_smallest_distance_witness :
    snapXCoord 1 guideEditor (⟨99, 0, 20, 10⟩ : QRectF ℚ).left (⟨99, 0, 20, 10⟩ : QRectF ℚ).top
      (⟨99, 0, 20, 10⟩ : QRectF ℚ).bottom true = some ⟨102, 3, ⟨102, 0, 102, 10⟩⟩ ∧
    snapXCoord 1 guideEditor (⟨99, 0, 20, 10⟩ : QRectF ℚ).center.x
      (⟨99, 0, 20, 10⟩ : QRectF ℚ).center.y (⟨99, 0, 20, 10⟩ : QRectF ℚ).center.y true
      = some ⟨110, 4, QLineF.null⟩ ∧
    snapXCoord 1 guideEditor (⟨99, 0, 20, 10⟩ : QRectF ℚ).right (⟨99, 0, 20, 10⟩ : QRectF ℚ).top
      (⟨99, 0, 20, 10⟩ : QRectF ℚ).bottom true = some ⟨120, 4, QLineF.null⟩ ∧
    ∃ res, moveSnapX 1 guideEditor ⟨99, 0, 20, 10⟩ ⟨0, 0⟩ = some res ∧
      res.offset = ⟨3, 0⟩ ∧ res.line = ⟨102, 0, 102, 10⟩ := by
  have hl : snapXCoord 1 guideEditor (⟨99, 0, 20, 10⟩ : QRectF ℚ).left
      (⟨99, 0, 20, 10⟩ : QRectF ℚ).top (⟨99, 0, 20, 10⟩ : QRectF ℚ).bottom true
      = some ⟨102, 3, ⟨102, 0, 102, 10⟩⟩ := by
    norm_num [snapXCoord, snapToGuidesStep, Scene.findGuide, Scene.findGuideAux, Scene.getGuide,
      guideEditor, EditorWindow.init, SNAP_DISTANCE, excludedObjects, abs_lt, QRectF.left,
      QRectF.top, QRectF.bottom]
  have hc : snapXCoord 1 guideEditor (⟨99, 0, 20, 10⟩ : QRectF ℚ).center.x
      (⟨99, 0, 20, 10⟩ : QRectF ℚ).center.y (⟨99, 0, 20, 10⟩ : QRectF ℚ).center.y true
      = some ⟨110, 4, QLineF.null⟩ := by
    norm_num [snapXCoord, snapToGuidesStep, Scene.findGuide, Scene.findGuideAux, Scene.getGuide,
      guideEditor, EditorWindow.init, SNAP_DISTANCE, excludedObjects, abs_lt, QRectF.center,
      getGridSpacing, gridSpacingLoop, MIN_GRID_SPACING, gridRound, qFloor, wrapInt]
  have hr : snapXCoord 1 guideEditor (⟨99, 0, 20, 10⟩ : QRectF ℚ).right
      (⟨99, 0, 20, 10⟩ : QRectF ℚ).top (⟨99, 0, 20, 10⟩ : QRectF ℚ).bottom true
      = some ⟨120, 4, QLineF.null⟩ := by
    norm_num [snapXCoord, snapToGuidesStep, Scene.findGuide, Scene.findGuideAux, Scene.getGuide,
      guideEditor, EditorWindow.init, SNAP_DISTANCE, excludedObjects, abs_lt, QRectF.right,
      QRectF.top, QRectF.bottom, getGridSpacing, gridSpacingLoop, MIN_GRID_SPACING, gridRound,
      qFloor, wrapInt]
  refine ⟨hl, hc, hr, ?_⟩
  obtain ⟨res, h1, h2, h3, _⟩ := (@C5_move_applies_smallest_distance ℚ _ _).1 1 guideEditor
    ⟨99, 0, 20, 10⟩ ⟨0, 0⟩ _ _ _ hl hc hr
  have hx := h3 (Or.inl (by norm_num [guideEditor, EditorWindow.init, SNAP_DISTANCE]))
  refine ⟨res, h1, ?_⟩
  rcases hx with ⟨_, _, hbad, _⟩ | ⟨ha, hb, _, _⟩ | ⟨_, _, hbad, _⟩
  · norm_num at hbad
  · have hy : res.offset.y = 0 := h2
    have hxx : res.offset.x = 3 := by rw [ha]; norm_num [QRectF.left]
    refine ⟨?_, hb⟩
    obtain ⟨⟨ox, oy⟩, ln, oc⟩ := res
    simp only at hy hxx
    rw [hy, hxx]
  · norm_num at hbad

/-- C6, as stated, fails after the floor: with Shift held, a 100 x 50 selection
whose bottom-right handle is dragged to (1, 1) gets the factors (1/100, 1/50),
which differ in magnitude. -/
theorem C6_counterexample :
    ∃ res, mouseMoveStateResize 0 resizeEditor ⟨1, 1⟩ true = some res ∧
      res.keepProportions = true ∧ res.scale = ⟨1 / 100, 1 / 50⟩ ∧
      |res.scale.x| ≠ |res.scale.y| := by
  have h := resizeEditor_floor_breaks_proportions
  cases hres : mouseMoveStateResize 0 resizeEditor ⟨1, 1⟩ true with
  | none => rw [hres] at h; simp at h
  | some res =>
    rw [hres] at h
    simp only [Option.map_some', Option.some.injEq, Prod.mk.injEq] at h
    refine ⟨res, rfl, h.1, h.2, ?_⟩
    rw [h.2]
    norm_num [abs_div]

/-- C6 (amended), at a concrete input: the bottom-right handle of the 100 x 50
selection dragged to (200, 100) with Shift held. -/
theorem C6_proportion_lock_equal_magnitude_before_floor_witness :
    getGridSpacing 0 resizeEditor = some 10 ∧
    resizeEditor.mOriginalRect.width ≠ 0 ∧ resizeEditor.mOriginalRect.height ≠ 0 ∧
    (true || resizeEditor.mKeepProportions) = true ∧
    ∃ r res, markerScale 0 resizeEditor ⟨200, 100⟩ true = some r ∧ |r.scale.x| = |r.scale.y| ∧
      mouseMoveStateResize 0 resizeEditor ⟨200, 100⟩ true = some res ∧
      res.scale = floorScale resizeEditor.mOriginalRect r.scale ∧
      1 ≤ |resizeEditor.mOriginalRect.width * res.scale.x| ∧
      1 ≤ |resizeEditor.mOriginalRect.height * res.scale.y| ∧
      (1 ≤ |resizeEditor.mOriginalRect.width * r.scale.x| →
        1 ≤ |resizeEditor.mOriginalRect.height * r.scale.y| →
        res.scale = r.scale ∧ |res.scale.x| = |res.scale.y|) := by
  have h1 : getGridSpacing 0 resizeEditor = some 10 := rfl
  have h2 : resizeEditor.mOriginalRect.width ≠ 0 := by norm_num [resizeEditor, QRectF.width]
  have h3 : resizeEditor.mOriginalRect.height ≠ 0 := by norm_num [resizeEditor, QRectF.height]
  have h4 : (true || resizeEditor.mKeepProportions) = true := rfl
  exact ⟨h1, h2, h3, h4,
    (C6_proportion_lock_equal_magnitude_before_floor 0 resizeEditor 10 ⟨200, 100⟩ true
      h1 h2 h3 h4).1⟩

/-- C7, as stated, fails: for the 100 x 50 selection scaled about (0, 0) with the
pointer at (100, 100) the computed factors are (1, 2); the X factor has the
smaller magnitude, yet it is kept and the Y factor is the one replaced. -/
theorem C7_counterexample :
    snapXCoord 0 resizeEditor 100 (min 100 0) (max 100 0) true
      = some ⟨100, 4, QLineF.null⟩ ∧
    snapYCoord 0 resizeEditor 100 (min 100 0) (max 100 0) true
      = some ⟨100, 4, QLineF.null⟩ ∧
    rawScale resizeEditor 100 100 ⟨0, 0⟩ 1 1 = ⟨1, 2⟩ ∧
    ∃ res, calcScale 0 resizeEditor ⟨100, 100⟩ ⟨0, 0⟩ 1 1 true = some res ∧
      res.scale = ⟨1, 1⟩ := by
  refine ⟨?_, ?_, ?_, ?_⟩
  · norm_num [snapXCoord, resizeEditor, EditorWindow.init, SNAP_DISTANCE]
  · norm_num [snapYCoord, resizeEditor, EditorWindow.init, SNAP_DISTANCE]
  · norm_num [rawScale, resizeEditor, QRectF.width, QRectF.height]
  · have h := resizeEditor_keeps_smaller
    cases hres : calcScale 0 resizeEditor ⟨100, 100⟩ ⟨0, 0⟩ 1 1 true with
    | none => rw [hres] at h; simp at h
    | some res =>
      rw [hres] at h
      simp only [Option.map_some', Option.some.injEq] at h
      exact ⟨res, rfl, h⟩

/-- C7 (amended), at a concrete input: the same scale computation. -/
theorem C7_larger_magnitude_axis_discarded_witness :
    getGridSpacing 0 resizeEditor = some 10 ∧
    ∃ rx ry res,
      snapXCoord 0 resizeEditor (⟨100, 100⟩ : QPointF ℚ).x
        (min (⟨100, 100⟩ : QPointF ℚ).y (⟨0, 0⟩ : QPointF ℚ).y)
        (max (⟨100, 100⟩ : QPointF ℚ).y (⟨0, 0⟩ : QPointF ℚ).y) true = some rx ∧
      snapYCoord 0 resizeEditor (⟨100, 100⟩ : QPointF ℚ).y
        (min (⟨100, 100⟩ : QPointF ℚ).x (⟨0, 0⟩ : QPointF ℚ).x)
        (max (⟨100, 100⟩ : QPointF ℚ).x (⟨0, 0⟩ : QPointF ℚ).x) true = some ry ∧
      calcScale 0 resizeEditor ⟨100, 100⟩ ⟨0, 0⟩ 1 1 true = some res ∧
      (|(rawScale resizeEditor rx.coord ry.coord ⟨0, 0⟩ 1 1).x|
          < |(rawScale resizeEditor rx.coord ry.coord ⟨0, 0⟩ 1 1).y| →
        res.scale.x = (rawScale resizeEditor rx.coord ry.coord ⟨0, 0⟩ 1 1).x ∧
        res.horzSnapLine = QLineF.null) := by
  have h1 : getGridSpacing 0 resizeEditor = some 10 := rfl
  obtain ⟨rx, ry, res, hrx, hry, hres, ha, _⟩ :=
    C7_larger_magnitude_axis_discarded 0 resizeEditor 10 h1 ⟨100, 100⟩ ⟨0, 0⟩ 1 1
  exact ⟨h1, rx, ry, res, hrx, hry, hres, fun hlt => ⟨(ha hlt).1, (ha hlt).2.2.2.2⟩⟩

/-- C9, at a concrete input: selecting the objects at 0 and 45 degrees forces
proportion-lock. -/
theorem C9_forced_proportions_scale_uniformly_witness :
    (∃ o ∈ twoObjects, o.angle ≠ 0 ∧ o.angle ≠ 90 ∧ o.angle ≠ 180 ∧ o.angle ≠ 270) ∧
    (selectGameObjects (EditorWindow.init ⟨false, false, false, false, 10⟩)
      twoObjects).mKeepProportions = true := by
  have h1 : ∃ o ∈ twoObjects, o.angle ≠ 0 ∧ o.angle ≠ 90 ∧ o.angle ≠ 180 ∧ o.angle ≠ 270 :=
    ⟨⟨2, ⟨120, 20⟩, ⟨40, 40⟩, 45, ⟨140, 40⟩, ⟨112, 12, 56, 56⟩⟩, by simp [twoObjects],
      by norm_num⟩
  exact ⟨h1, (@C9_forced_proportions_scale_uniformly ℚ _ _).1 _ twoObjects h1⟩

/-- C10, at a concrete input: original angle 85 and delta 5.2 give 90.2 modulo
360, which is stored as 90. -/
theorem C10_rotation_angle_normalised_and_snapped_witness :
    |((85 : ℚ) + 26 / 5 - 360 * ((⌊((85 : ℚ) + 26 / 5) / 360⌋ : Int) : ℚ)) - 90| < 1 / 2 ∧
    rotateAbsAngle (85 : ℚ) (26 / 5) = 90 := by
  have h1 : |((85 : ℚ) + 26 / 5 - 360 * ((⌊((85 : ℚ) + 26 / 5) / 360⌋ : Int) : ℚ)) - 90|
      < 1 / 2 := by
    have hf : ⌊((85 : ℚ) + 26 / 5) / 360⌋ = 0 := by
      rw [Int.floor_eq_iff]; norm_num
    rw [hf, abs_lt]
    norm_num
  exact ⟨h1, (C10_rotation_angle_normalised_and_snapped (85 : ℚ) (26 / 5)).2.2.2.2.1 h1⟩

/-! ## Claim about the rotation angle -/

/-- The signed raw rotation angle lies in [-π, π]. -/
theorem rotateRawAngle_bounds (eps : ℝ) (e : EditorWindow ℝ) (pos : QPointF ℝ) :
    -Real.pi ≤ rotateRawAngle (Libm.real eps) e pos ∧
      rotateRawAngle (Libm.real eps) e pos ≤ Real.pi := by
  have hpi := Real.pi_pos
  have hsome : ∀ v a : ℝ, (Libm.real eps).acos v = some a → 0 ≤ a ∧ a ≤ Real.pi := by
    intro v a h
    simp only [Libm.real] at h
    split_ifs at h
    cases h
    exact ⟨Real.arccos_nonneg v, Real.arccos_le_pi v⟩
  unfold rotateRawAngle
  simp only
  generalize QVector2D.dotProduct _ e.mRotationVector = v
  rcases hacos : (Libm.real eps).acos v with _ | a
  · simp only []
    split_ifs <;> constructor <;> linarith
  · obtain ⟨h0, h1⟩ := hsome v a hacos
    simp only []
    split_ifs <;> constructor <;> linarith

/-- The raw rotation angle is the arc cosine of the scalar product of the
normalised pointer direction with the rotation vector, with the sign of the side
of the rotation vector the pointer is on; an arc cosine below the tolerance
counts as zero. -/
theorem rotateRawAngle_eq (eps : ℝ) (e : EditorWindow ℝ) (pos : QPointF ℝ)
    (hv : |QVector2D.dotProduct
      ((QVector2D.ofPoint (pos.sub e.mOriginalCenter)).normalized (Libm.real eps))
      e.mRotationVector| ≤ 1) :
    rotateRawAngle (Libm.real eps) e pos =
      (if QVector2D.dotProduct
          ((QVector2D.ofPoint (pos.sub e.mOriginalCenter)).normalized (Libm.real eps))
          ⟨-e.mRotationVector.y, e.mRotationVector.x⟩ < 0 then -1 else 1) *
      (if Real.arccos (QVector2D.dotProduct
          ((QVector2D.ofPoint (pos.sub e.mOriginalCenter)).normalized (Libm.real eps))
          e.mRotationVector) < eps then 0
        else Real.arccos (QVector2D.dotProduct
          ((QVector2D.ofPoint (pos.sub e.mOriginalCenter)).normalized (Libm.real eps))
          e.mRotationVector)) := by
  unfold rotateRawAngle
  simp only
  generalize QVector2D.dotProduct _ e.mRotationVector = v at hv ⊢
  generalize QVector2D.dotProduct _ (⟨-e.mRotationVector.y, e.mRotationVector.x⟩ : QVector2D ℝ)
    = w
  have hacos : (Libm.real eps).acos v = some (Real.arccos v) := by
    simp only [Libm.real, if_pos hv]
  have heps : (Libm.real eps).EPS = eps := rfl
  rw [hacos]
  simp only [Utils.isEqual, heps, sub_zero, abs_of_nonneg (Real.arccos_nonneg v),
    decide_eq_true_eq]
  split_ifs <;> ring

/-- Over the reals `Utils::radToDeg` sends a multiple of π/4 to the multiple of
45. -/
theorem radToDeg_quarter (eps : ℝ) (k : Int) :
    Utils.radToDeg (Libm.real eps) ((k : ℝ) * (Real.pi / 4)) = 45 * (k : ℝ) := by
  have hne : Real.pi ≠ 0 := Real.pi_ne_zero
  simp only [Utils.radToDeg, Libm.real]
  field_simp
  ring

section TurnFacts

variable {α : Type} [LinearOrderedField α] [FloorRing α]

/-- The absolute angle stored by the Rotate branch is the sum of the original
angle and the delta up to whole turns and up to the snap to a right angle: the
difference is below half a degree, and zero when the reduced sum is at least half
a degree away from 0, 90, 180, 270 and 360. -/
theorem rotateAbsAngle_turn (a d : α) :
    ∃ n : Int, |rotateAbsAngle a d - a - (d - 360 * (n : α))| < 1 / 2 ∧
      ((¬ |(a + d - 360 * ((⌊(a + d) / 360⌋ : Int) : α)) - 0| < 1 / 2 ∧
          ¬ |(a + d - 360 * ((⌊(a + d) / 360⌋ : Int) : α)) - 360| < 1 / 2 ∧
          ¬ |(a + d - 360 * ((⌊(a + d) / 360⌋ : Int) : α)) - 90| < 1 / 2 ∧
          ¬ |(a + d - 360 * ((⌊(a + d) / 360⌋ : Int) : α)) - 180| < 1 / 2 ∧
          ¬ |(a + d - 360 * ((⌊(a + d) / 360⌋ : Int) : α)) - 270| < 1 / 2) →
        rotateAbsAngle a d - a = d - 360 * (n : α)) := by
  have hnorm := fmod_normalised (a + d)
  have hdef : rotateAbsAngle a d =
      (if |(a + d - 360 * ((⌊(a + d) / 360⌋ : Int) : α)) - 0| < 1 / 2 ∨
          |(a + d - 360 * ((⌊(a + d) / 360⌋ : Int) : α)) - 360| < 1 / 2 then 0
        else if |(a + d - 360 * ((⌊(a + d) / 360⌋ : Int) : α)) - 90| < 1 / 2 then 90
        else if |(a + d - 360 * ((⌊(a + d) / 360⌋ : Int) : α)) - 180| < 1 / 2 then 180
        else if |(a + d - 360 * ((⌊(a + d) / 360⌋ : Int) : α)) - 270| < 1 / 2 then 270
        else a + d - 360 * ((⌊(a + d) / 360⌋ : Int) : α)) := by
    simp only [rotateAbsAngle, hnorm, Utils.isEqual, Bool.or_eq_true, decide_eq_true_eq]
  generalize hq : ⌊(a + d) / 360⌋ = q at hdef
  by_cases h360 : |(a + d - 360 * (q : α)) - 360| < 1 / 2
  · refine ⟨q + 1, ?_, fun h => absurd h360 h.2.1⟩
    rw [hdef, if_pos (Or.inr h360)]
    have h2 := abs_lt.mp h360
    push_cast
    rw [abs_lt]
    constructor <;> linarith [h2.1, h2.2]
  · refine ⟨q, ?_, ?_⟩
    · rw [hdef]
      split_ifs with h1 h2 h3 h4
      · rcases h1 with h1 | h1
        · have h5 := abs_lt.mp h1
          rw [abs_lt]
          constructor <;> linarith [h5.1, h5.2]
        · exact absurd h1 h360
      · have h5 := abs_lt.mp h2
        rw [abs_lt]
        constructor <;> linarith [h5.1, h5.2]
      · have h5 := abs_lt.mp h3
        rw [abs_lt]
        constructor <;> linarith [h5.1, h5.2]
      · have h5 := abs_lt.mp h4
        rw [abs_lt]
        constructor <;> linarith [h5.1, h5.2]
      · have : a + d - 360 * (q : α) - a - (d - 360 * (q : α)) = 0 := by ring
        rw [this, abs_zero]
        norm_num
    · rintro ⟨n0, n360, n90, n180, n270⟩
      rw [hdef, if_neg (by rintro (hc | hc); exact n0 hc; exact n360 hc), if_neg n90,
        if_neg n180, if_neg n270]
      ring

/-- For an original angle and a delta that are whole numbers of degrees the snap
to a right angle changes nothing: the stored angle is the sum up to whole turns. -/
theorem rotateAbsAngle_turn_int (i j : Int) :
    ∃ n : Int, rotateAbsAngle (i : α) (j : α) - (i : α) = (j : α) - 360 * (n : α) := by
  have hnorm := fmod_normalised ((i : α) + (j : α))
  have hdef : rotateAbsAngle (i : α) (j : α) =
      (if |((i : α) + j - 360 * ((⌊((i : α) + j) / 360⌋ : Int) : α)) - 0| < 1 / 2 ∨
          |((i : α) + j - 360 * ((⌊((i : α) + j) / 360⌋ : Int) : α)) - 360| < 1 / 2 then 0
        else if |((i : α) + j - 360 * ((⌊((i : α) + j) / 360⌋ : Int) : α)) - 90| < 1 / 2 then 90
        else if |((i : α) + j - 360 * ((⌊((i : α) + j) / 360⌋ : Int) : α)) - 180| < 1 / 2
          then 180
        else if |((i : α) + j - 360 * ((⌊((i : α) + j) / 360⌋ : Int) : α)) - 270| < 1 / 2
          then 270
        else (i : α) + j - 360 * ((⌊((i : α) + j) / 360⌋ : Int) : α)) := by
    simp only [rotateAbsAngle, hnorm, Utils.isEqual, Bool.or_eq_true, decide_eq_true_eq]
  generalize hq : ⌊((i : α) + j) / 360⌋ = q at hdef
  have hint : ∀ c : Int, |((i : α) + j - 360 * (q : α)) - (c : α)| < 1 / 2 →
      (i : α) + j - 360 * (q : α) = (c : α) := by
    intro c hc
    have h1 : |(((i + j - 360 * q - c : Int)) : α)| < 1 := by
      push_cast
      exact hc.trans (by norm_num)
    have h2 : |i + j - 360 * q - c| < 1 := by
      have : ((|i + j - 360 * q - c| : Int) : α) < ((1 : Int) : α) := by
        rw [Int.cast_abs]; push_cast; push_cast at h1; exact h1
      exact_mod_cast this
    have h3 : i + j - 360 * q - c = 0 := by
      rw [abs_lt] at h2; omega
    have h4 : (((i + j - 360 * q - c : Int)) : α) = 0 := by rw [h3]; simp
    push_cast at h4
    linarith
  have h0 := hint 0
  have h360 := hint 360
  have h90 := hint 90
  have h180 := hint 180
  have h270 := hint 270
  push_cast at h0 h360 h90 h180 h270
  by_cases c360 : |((i : α) + j - 360 * (q : α)) - 360| < 1 / 2
  · refine ⟨q + 1, ?_⟩
    rw [hdef, if_pos (Or.inr c360)]
    push_cast
    linarith [h360 c360]
  · refine ⟨q, ?_⟩
    rw [hdef]
    split_ifs with c1 c2 c3 c4
    · rcases c1 with c1 | c1
      · linarith [h0 c1]
      · exact absurd c1 c360
    · linarith [h90 c2]
    · linarith [h180 c3]
    · linarith [h270 c4]
    · ring

/-- The angles the Rotate branch stores on the selected objects. -/
theorem mouseMoveStateRotate_angles (m : Libm α) (e : EditorWindow α) (pos : QPointF α)
    (shift : Bool) :
    (mouseMoveStateRotate m e pos shift).map (fun o => o.angle) =
      List.zipWith (fun (_ : GameObject α) (t : QPointF α × α) =>
          rotateAbsAngle t.2 (Utils.radToDeg m (rotateAngle m e pos shift)))
        e.mSelectedObjects (List.zip e.mOriginalPositions e.mOriginalAngles) := by
  simp [mouseMoveStateRotate, List.map_zipWith, rotateObject]

end TurnFacts

/-- The pointer of `rotateEditor` at (0, 5), a quarter turn from the rotation
vector: with Shift the rotation angle is π/2. -/
theorem rotateEditor_angle :
    rotateAngle (Libm.real (1 / 10000)) rotateEditor ⟨0, 5⟩ true = 2 * (Real.pi / 4) := by
  have hpi := Real.pi_gt_three
  have hq : (Real.pi / 2 + Real.pi / 8) / (Real.pi / 4) = 5 / 2 := by
    field_simp; ring
  have hfl : ⌊(Real.pi / 2 + Real.pi / 8) / (Real.pi / 4)⌋ = 2 := by
    rw [hq, Int.floor_eq_iff]; norm_num
  have hnot : ¬ |Real.pi / 2| < (1 : ℝ) / 10000 := by
    rw [abs_of_pos (by positivity)]; linarith
  have h25 : Real.sqrt 25 = 5 := by
    rw [show (25 : ℝ) = 5 * 5 by norm_num]
    exact Real.sqrt_mul_self (by norm_num)
  have hraw : rotateRawAngle (Libm.real (1 / 10000)) rotateEditor ⟨0, 5⟩ = Real.pi / 2 := by
    simp only [rotateRawAngle, rotateEditor, EditorWindow.init, QVector2D.ofPoint,
      QVector2D.normalized, QPointF.sub, Libm.real]
    norm_num [Utils.isEqual, hnot, QVector2D.dotProduct, h25]
  have hdef : rotateAngle (Libm.real (1 / 10000)) rotateEditor ⟨0, 5⟩ true
      = ((⌊(rotateRawAngle (Libm.real (1 / 10000)) rotateEditor ⟨0, 5⟩ + Real.pi / 8)
          / (Real.pi / 4)⌋ : Int) : ℝ) * (Real.pi / 4) := rfl
  rw [hdef, hraw, hfl]
  norm_num

/-- The object of `rotateEditor`, at 89.75 degrees, is stored at 180 degrees and
so turned by 90.25 degrees when the locked rotation angle is a quarter turn. -/
theorem rotateEditor_turn :
    (mouseMoveStateRotate (Libm.real (1 / 10000)) rotateEditor ⟨0, 5⟩ true).map
        (fun o => o.angle) = [180] ∧
    rotateTurn (Libm.real (1 / 10000)) (359 / 4)
        (rotateAngle (Libm.real (1 / 10000)) rotateEditor ⟨0, 5⟩ true) = 361 / 4 := by
  have hdeg : Utils.radToDeg (Libm.real (1 / 10000)) (2 * (Real.pi / 4)) = 90 := by
    have h := radToDeg_quarter (1 / 10000) 2
    push_cast at h
    rw [h]
    norm_num
  have habs : rotateAbsAngle (359 / 4 : ℝ) 90 = 180 := by
    norm_num [rotateAbsAngle, fmod, Utils.isEqual, abs_lt]
  constructor
  · rw [mouseMoveStateRotate_angles, rotateEditor_angle, hdeg]
    simp [rotateEditor, EditorWindow.init, habs]
  · rw [rotateEditor_angle]
    simp only [rotateTurn, hdeg, habs]
    norm_num

/-- C11 (amended): in the Rotate state the signed raw angle lies in [-π, π] and is
the arc cosine of the scalar product of the pointer direction and the rotation
vector, signed by the side the pointer is on; with angle-lock (Shift) the
rotation angle handed to the loop over the objects is the integer multiple
`k * (π/4)` of 45 degrees with `k = floor((angle + π/8) / (π/4))`, which differs
from the raw angle by at most π/8 (22.5 degrees) up to rounding, and without
Shift it is the raw angle.  The loop stores on every selected object the sum of
its original angle and `45 * k` degrees reduced into [0, 360) and snapped to 0,
90, 180 or 270, so an object is turned by `45 * k` degrees up to whole turns and
up to half a degree; an object whose original angle is a whole number of degrees
is turned by `45 * k` degrees up to whole turns exactly.  (The two bounds leave
one millionth for the roundings of `double`, for original angles of magnitude up
to one million degrees.) -/
theorem C11_rotate_lock_turns_by_multiple_of_45_up_to_snap (eps : ℝ) (e : EditorWindow ℝ)
    (pos : QPointF ℝ) :
    (-Real.pi ≤ rotateRawAngle (Libm.real eps) e pos ∧
      rotateRawAngle (Libm.real eps) e pos ≤ Real.pi) ∧
    (|QVector2D.dotProduct
        ((QVector2D.ofPoint (pos.sub e.mOriginalCenter)).normalized (Libm.real eps))
        e.mRotationVector| ≤ 1 →
      rotateRawAngle (Libm.real eps) e pos =
        (if QVector2D.dotProduct
            ((QVector2D.ofPoint (pos.sub e.mOriginalCenter)).normalized (Libm.real eps))
            ⟨-e.mRotationVector.y, e.mRotationVector.x⟩ < 0 then -1 else 1) *
        (if Real.arccos (QVector2D.dotProduct
            ((QVector2D.ofPoint (pos.sub e.mOriginalCenter)).normalized (Libm.real eps))
            e.mRotationVector) < eps then 0
          else Real.arccos (QVector2D.dotProduct
            ((QVector2D.ofPoint (pos.sub e.mOriginalCenter)).normalized (Libm.real eps))
            e.mRotationVector))) ∧
    (∃ k : Int, k = ⌊(rotateRawAngle (Libm.real eps) e pos + Real.pi / 8) / (Real.pi / 4)⌋ ∧
      rotateAngle (Libm.real eps) e pos true = (k : ℝ) * (Real.pi / 4) ∧
      Utils.radToDeg (Libm.real eps) (rotateAngle (Libm.real eps) e pos true) = 45 * (k : ℝ) ∧
      (mouseMoveStateRotate (Libm.real eps) e pos true).map (fun o => o.angle) =
        List.zipWith (fun (_ : GameObject ℝ) (t : QPointF ℝ × ℝ) =>
            rotateAbsAngle t.2 (45 * (k : ℝ)))
          e.mSelectedObjects (List.zip e.mOriginalPositions e.mOriginalAngles) ∧
      (∀ a : ℝ, |a| ≤ 1000000 → ∃ n : Int,
        |rotateTurn (Libm.real eps) a (rotateAngle (Libm.real eps) e pos true)
          - (45 * (k : ℝ) - 360 * (n : ℝ))| ≤ 1 / 2 + 1 / 1000000) ∧
      (∀ i : Int, |i| ≤ 1000000 → ∃ n : Int,
        rotateTurn (Libm.real eps) (i : ℝ) (rotateAngle (Libm.real eps) e pos true)
          = 45 * (k : ℝ) - 360 * (n : ℝ))) ∧
    |rotateAngle (Libm.real eps) e pos true - rotateRawAngle (Libm.real eps) e pos|
      ≤ Real.pi / 8 + 1 / 1000000 ∧
    rotateAngle (Libm.real eps) e pos false = rotateRawAngle (Libm.real eps) e pos := by
  have hpi := Real.pi_pos
  have hlock : rotateAngle (Libm.real eps) e pos true
      = ((⌊(rotateRawAngle (Libm.real eps) e pos + Real.pi / 8) / (Real.pi / 4)⌋ : Int) : ℝ)
        * (Real.pi / 4) := rfl
  have hdeg := radToDeg_quarter eps
    ⌊(rotateRawAngle (Libm.real eps) e pos + Real.pi / 8) / (Real.pi / 4)⌋
  refine ⟨rotateRawAngle_bounds eps e pos, rotateRawAngle_eq eps e pos,
    ⟨_, rfl, hlock, by rw [hlock, hdeg], ?_, ?_, ?_⟩, ?_, rfl⟩
  · rw [mouseMoveStateRotate_angles, hlock, hdeg]
  · intro a _
    obtain ⟨n, h1, _⟩ := rotateAbsAngle_turn a
      (45 * ((⌊(rotateRawAngle (Libm.real eps) e pos + Real.pi / 8) / (Real.pi / 4)⌋ : Int) : ℝ))
    refine ⟨n, ?_⟩
    simp only [rotateTurn, hlock, hdeg]
    linarith
  · intro i _
    obtain ⟨n, h1⟩ := @rotateAbsAngle_turn_int ℝ _ _ i
      (45 * ⌊(rotateRawAngle (Libm.real eps) e pos + Real.pi / 8) / (Real.pi / 4)⌋)
    refine ⟨n, ?_⟩
    simp only [rotateTurn, hlock, hdeg]
    push_cast at h1
    exact h1
  · have hq : (0 : ℝ) < Real.pi / 4 := by positivity
    rw [hlock]
    have h1 := Int.floor_le ((rotateRawAngle (Libm.real eps) e pos + Real.pi / 8) / (Real.pi / 4))
    have h2 := Int.lt_floor_add_one
      ((rotateRawAngle (Libm.real eps) e pos + Real.pi / 8) / (Real.pi / 4))
    rw [le_div_iff₀ hq] at h1
    rw [div_lt_iff₀ hq] at h2
    rw [abs_le]
    constructor <;> linarith

/-- C11 (amended), at a concrete input: with the pointer a quarter turn from the
rotation vector the object of `rotateEditor` is turned by two times 45 degrees up
to half a degree. -/
theorem C11_rotate_lock_turns_by_multiple_of_45_up_to_snap_witness :
    rotateAngle (Libm.real (1 / 10000)) rotateEditor ⟨0, 5⟩ true = 2 * (Real.pi / 4) ∧
    ∃ k : Int, rotateAngle (Libm.real (1 / 10000)) rotateEditor ⟨0, 5⟩ true
        = (k : ℝ) * (Real.pi / 4) ∧
      ∃ n : Int, |rotateTurn (Libm.real (1 / 10000)) (359 / 4)
          (rotateAngle (Libm.real (1 / 10000)) rotateEditor ⟨0, 5⟩ true)
        - (45 * (k : ℝ) - 360 * (n : ℝ))| ≤ 1 / 2 + 1 / 1000000 := by
  obtain ⟨k, _, h1, _, _, h2, _⟩ :=
    (C11_rotate_lock_turns_by_multiple_of_45_up_to_snap (1 / 10000) rotateEditor ⟨0, 5⟩).2.2.1
  obtain ⟨n, h3⟩ := h2 (359 / 4) (by rw [abs_of_pos (by norm_num)]; norm_num)
  exact ⟨rotateEditor_angle, k, h1, n, h3⟩

/-- C11 as stated fails: the object of `rotateEditor` has the original angle
89.75; with Shift and the pointer a quarter turn from the rotation vector the
rotation angle is 2 * (π/4), the angle stored on the object is 180, snapped from
179.75, and the object is turned by 90.25 degrees, which is no integer multiple
of 45. -/
theorem C11_counterexample :
    rotateEditor.mOriginalAngles = [359 / 4] ∧
    rotateAngle (Libm.real (1 / 10000)) rotateEditor ⟨0, 5⟩ true = 2 * (Real.pi / 4) ∧
    (mouseMoveStateRotate (Libm.real (1 / 10000)) rotateEditor ⟨0, 5⟩ true).map
        (fun o => o.angle) = [180] ∧
    rotateTurn (Libm.real (1 / 10000)) (359 / 4)
        (rotateAngle (Libm.real (1 / 10000)) rotateEditor ⟨0, 5⟩ true) = 361 / 4 ∧
    ¬ ∃ k : Int, rotateTurn (Libm.real (1 / 10000)) (359 / 4)
        (rotateAngle (Libm.real (1 / 10000)) rotateEditor ⟨0, 5⟩ true) = 45 * (k : ℝ) := by
  refine ⟨rfl, rotateEditor_angle, rotateEditor_turn.1, rotateEditor_turn.2, ?_⟩
  rw [rotateEditor_turn.2]
  rintro ⟨k, hk⟩
  have h2 : (361 : ℝ) = 180 * (k : ℝ) := by linarith
  have h3 : (361 : Int) = 180 * k := by exact_mod_cast h2
  omega

/-! ## Claim about the unsnapped Move offset -/

section MoveRoundFacts

variable {α : Type} [LinearOrderedField α] [FloorRing α]

end MoveRoundFacts

section PressFrameFacts

variable {α : Type}

/-- Removing the guide a press has just added gives back the guide list. -/
theorem removeGuide_addGuide (guides : List α) (coord : α) :
    Scene.removeGuide (Scene.addGuide guides coord).2 (Scene.addGuide guides coord).1 = guides := by
  simp [Scene.removeGuide, Scene.addGuide, List.eraseIdx_append_of_length_le]

variable [LinearOrderedField α]

/-- Selecting objects leaves the guides, the layer tree, the press position, the
edit flag and the interaction state as they are. -/
theorem selectGameObjects_frame (e : EditorWindow α) (objects : List (GameObject α)) :
    (selectGameObjects e objects).horzGuides = e.horzGuides ∧
    (selectGameObjects e objects).vertGuides = e.vertGuides ∧
    (selectGameObjects e objects).children = e.children ∧
    (selectGameObjects e objects).mFirstPos = e.mFirstPos ∧
    (selectGameObjects e objects).mEditEnabled = e.mEditEnabled ∧
    (selectGameObjects e objects).mEditorState = e.mEditorState := by
  unfold selectGameObjects updateAllowedEditorActions
  cases objects with
  | nil => simp only []; split_ifs <;> exact ⟨rfl, rfl, rfl, rfl, rfl, rfl⟩
  | cons a as =>
    cases as with
    | nil => simp only []; split_ifs <;> exact ⟨rfl, rfl, rfl, rfl, rfl, rfl⟩
    | cons b bs => simp only []; split_ifs <;> exact ⟨rfl, rfl, rfl, rfl, rfl, rfl⟩

/-- The selection after `selectGameObjects` is the list passed to it. -/
theorem selectGameObjects_selected (e : EditorWindow α) (objects : List (GameObject α)) :
    (selectGameObjects e objects).mSelectedObjects = objects := by
  unfold selectGameObjects updateAllowedEditorActions
  cases objects with
  | nil => simp only []; split_ifs <;> rfl
  | cons a as =>
    cases as with
    | nil => simp only []; split_ifs <;> rfl
    | cons b bs => simp only []; split_ifs <;> rfl

/-- Dropping the selection leaves the guides, the layer tree, the press
position and the edit flag as they are. -/
theorem deselectAll_frame (e : EditorWindow α) :
    (deselectAll e).horzGuides = e.horzGuides ∧
    (deselectAll e).vertGuides = e.vertGuides ∧
    (deselectAll e).children = e.children ∧
    (deselectAll e).mFirstPos = e.mFirstPos ∧
    (deselectAll e).mEditEnabled = e.mEditEnabled ∧
    (deselectAll e).mEditorState = e.mEditorState := by
  unfold deselectAll
  split_ifs
  · exact selectGameObjects_frame e []
  · exact ⟨rfl, rfl, rfl, rfl, rfl, rfl⟩

/-- The object rule leaves the guides, the layer tree, the press position and
the edit flag as they are. -/
theorem pressObject_frame (e : EditorWindow α) (event : QMouseEvent) (object : GameObject α) :
    (pressObject e event object).horzGuides = e.horzGuides ∧
    (pressObject e event object).vertGuides = e.vertGuides ∧
    (pressObject e event object).children = e.children ∧
    (pressObject e event object).mFirstPos = e.mFirstPos ∧
    (pressObject e event object).mEditEnabled = e.mEditEnabled := by
  unfold pressObject
  by_cases hc : event.control = true
  · simp only [hc, if_true]
    have h := selectGameObjects_frame ({ e with mEditorState := .STATE_IDLE } : EditorWindow α)
      (if containsObject e.mSelectedObjects object = true then removeOne e.mSelectedObjects object
        else e.mSelectedObjects ++ [object])
    exact ⟨h.1, h.2.1, h.2.2.1, h.2.2.2.1, h.2.2.2.2.1⟩
  · simp only [hc]
    have h1 : ∀ e1 : EditorWindow α, e1.horzGuides = e.horzGuides ∧ e1.vertGuides = e.vertGuides ∧
        e1.children = e.children ∧ e1.mFirstPos = e.mFirstPos ∧ e1.mEditEnabled = e.mEditEnabled →
        (if e1.mMoveEnabled = true then ({ e1 with mEditorState := .STATE_MOVE } : EditorWindow α)
          else e1).horzGuides = e.horzGuides ∧
        (if e1.mMoveEnabled = true then ({ e1 with mEditorState := .STATE_MOVE } : EditorWindow α)
          else e1).vertGuides = e.vertGuides ∧
        (if e1.mMoveEnabled = true then ({ e1 with mEditorState := .STATE_MOVE } : EditorWindow α)
          else e1).children = e.children ∧
        (if e1.mMoveEnabled = true then ({ e1 with mEditorState := .STATE_MOVE } : EditorWindow α)
          else e1).mFirstPos = e.mFirstPos ∧
        (if e1.mMoveEnabled = true then ({ e1 with mEditorState := .STATE_MOVE } : EditorWindow α)
          else e1).mEditEnabled = e.mEditEnabled := by
      intro e1 h
      split_ifs
      · exact h
      · exact h
    apply h1
    split_ifs
    · exact ⟨rfl, rfl, rfl, rfl, rfl⟩
    · have h := selectGameObjects_frame e [object]
      exact ⟨h.1, h.2.1, h.2.2.1, h.2.2.2.1, h.2.2.2.2.1⟩

/-- The frame rule leaves the guides, the layer tree, the press position and
the edit flag as they are. -/
theorem pressNothing_frame (e : EditorWindow α) (pos : QPointF α) :
    (pressNothing e pos).horzGuides = e.horzGuides ∧
    (pressNothing e pos).vertGuides = e.vertGuides ∧
    (pressNothing e pos).children = e.children ∧
    (pressNothing e pos).mFirstPos = e.mFirstPos ∧
    (pressNothing e pos).mEditEnabled = e.mEditEnabled := by
  unfold pressNothing
  exact ⟨(deselectAll_frame e).1, (deselectAll_frame e).2.1, (deselectAll_frame e).2.2.1,
    (deselectAll_frame e).2.2.2.1, (deselectAll_frame e).2.2.2.2.1⟩

/-- The rules after the guide rules leave the guides, the layer tree, the press
position and the edit flag as they are. -/
theorem pressSelection_frame (m : Libm α) (e : EditorWindow α) (event : QMouseEvent)
    (pos : QPointF α) :
    (pressSelection m e event pos).horzGuides = e.horzGuides ∧
    (pressSelection m e event pos).vertGuides = e.vertGuides ∧
    (pressSelection m e event pos).children = e.children ∧
    (pressSelection m e event pos).mFirstPos = e.mFirstPos ∧
    (pressSelection m e event pos).mEditEnabled = e.mEditEnabled := by
  have hm : (pressMarker e pos).horzGuides = e.horzGuides ∧
      (pressMarker e pos).vertGuides = e.vertGuides ∧
      (pressMarker e pos).children = e.children ∧
      (pressMarker e pos).mFirstPos = e.mFirstPos ∧
      (pressMarker e pos).mEditEnabled = e.mEditEnabled := by
    unfold pressMarker
    split_ifs <;> exact ⟨rfl, rfl, rfl, rfl, rfl⟩
  obtain ⟨m1, m2, m3, m4, m5⟩ := hm
  unfold pressSelection
  simp only []
  split_ifs
  · exact ⟨rfl, rfl, rfl, rfl, rfl⟩
  · exact ⟨m1, m2, m3, m4, m5⟩
  · exact ⟨m1, m2, m3, m4, m5⟩
  · split
    · obtain ⟨h1, h2, h3, h4, h5⟩ := pressObject_frame (pressMarker e pos) event ‹_›
      exact ⟨h1.trans m1, h2.trans m2, h3.trans m3, h4.trans m4, h5.trans m5⟩
    · obtain ⟨h1, h2, h3, h4, h5⟩ := pressNothing_frame (pressMarker e pos) pos
      exact ⟨h1.trans m1, h2.trans m2, h3.trans m3, h4.trans m4, h5.trans m5⟩

variable [FloorRing α]

/-- A left press on a ruler with guides shown creates a guide, and a left press
elsewhere creates none. -/
theorem mousePressEvent_guides (m : Libm α) (e : EditorWindow α) (press : QMouseEvent)
    (hleft : press.button = .LeftButton) :
    (e.showGuides = true → press.pos.y < RULER_SIZE →
      (mousePressEvent m e press).mEditorState = .STATE_HORZ_GUIDE ∧
      (mousePressEvent m e press).mEditEnabled = false ∧
      (mousePressEvent m e press).mFirstPos = press.pos ∧
      (mousePressEvent m e press).vertGuides = e.vertGuides ∧
      Scene.removeGuide (mousePressEvent m e press).horzGuides
        (mousePressEvent m e press).mGuideIndex = e.horzGuides) ∧
    (e.showGuides = true → ¬ press.pos.y < RULER_SIZE → press.pos.x < RULER_SIZE →
      (mousePressEvent m e press).mEditorState = .STATE_VERT_GUIDE ∧
      (mousePressEvent m e press).mEditEnabled = false ∧
      (mousePressEvent m e press).mFirstPos = press.pos ∧
      (mousePressEvent m e press).horzGuides = e.horzGuides ∧
      Scene.removeGuide (mousePressEvent m e press).vertGuides
        (mousePressEvent m e press).mGuideIndex = e.vertGuides) ∧
    (¬ press.pos.y < RULER_SIZE → ¬ press.pos.x < RULER_SIZE →
      (mousePressEvent m e press).mFirstPos = press.pos ∧
      (mousePressEvent m e press).mEditEnabled = false ∧
      (mousePressEvent m e press).horzGuides = e.horzGuides ∧
      (mousePressEvent m e press).vertGuides = e.vertGuides) := by
  have hb : (pressBegin e press).showGuides = e.showGuides := rfl
  refine ⟨?_, ?_, ?_⟩
  · intro hs hy
    have hc : (pressBegin e press).showGuides = true ∧ press.pos.y < RULER_SIZE := ⟨hs, hy⟩
    simp only [mousePressEvent, hleft, if_true, pressGuides, if_pos hc]
    exact ⟨trivial, rfl, rfl, rfl, removeGuide_addGuide _ _⟩
  · intro hs hy hx
    have hc1 : ¬ ((pressBegin e press).showGuides = true ∧ press.pos.y < RULER_SIZE) :=
      fun h => hy h.2
    have hc2 : (pressBegin e press).showGuides = true ∧ press.pos.x < RULER_SIZE := ⟨hs, hx⟩
    simp only [mousePressEvent, hleft, if_true, pressGuides, if_neg hc1, if_pos hc2]
    exact ⟨trivial, rfl, rfl, rfl, removeGuide_addGuide _ _⟩
  · intro hy hx
    have hc1 : ¬ ((pressBegin e press).showGuides = true ∧ press.pos.y < RULER_SIZE) :=
      fun h => hy h.2
    have hc2 : ¬ ((pressBegin e press).showGuides = true ∧ press.pos.x < RULER_SIZE) :=
      fun h => hx h.2
    simp only [mousePressEvent, hleft, if_true, pressGuides, if_neg hc1, if_neg hc2]
    split_ifs
    · exact ⟨rfl, rfl, rfl, rfl⟩
    · exact ⟨rfl, rfl, rfl, rfl⟩
    · obtain ⟨h1, h2, _, h4, h5⟩ := pressSelection_frame m
        ({ pressBegin e press with mGuideIndex := (Scene.findGuide (pressBegin e press).vertGuides
          (windowToWorld e press.pos).x ((GUIDE_DISTANCE : α) / (pressBegin e press).mZoom)).1 })
        press (windowToWorld e press.pos)
      exact ⟨h4, h5, h1, h2⟩
    · obtain ⟨h1, h2, _, h4, h5⟩ := pressSelection_frame m (pressBegin e press) press
        (windowToWorld e press.pos)
      exact ⟨h4, h5, h1, h2⟩

end PressFrameFacts

section PressFacts

variable {α : Type} [LinearOrderedField α] [FloorRing α]

/-- A press that reaches the object rule is handled by `pressObject` or
`pressNothing`, applied to an editor that differs from the one before the press
in the press bookkeeping only. -/
theorem mousePressEvent_object_rule (m : Libm α) (e : EditorWindow α) (press : QMouseEvent)
    (h : ReachesObjectRule e press) :
    ∃ e1 : EditorWindow α,
      mousePressEvent m e press =
        (match e.findGameObjectByPoint (windowToWorld e press.pos) with
          | some object => pressObject e1 press object
          | none => pressNothing e1 (windowToWorld e press.pos)) ∧
      e1.mSelectedObjects = e.mSelectedObjects ∧ e1.mEditorState = e.mEditorState ∧
      e1.mMoveEnabled = e.mMoveEnabled ∧ e1.defaultLanguage = e.defaultLanguage ∧
      e1.isLocalized = e.isLocalized ∧ e1.isSizeLocked = e.isSizeLocked ∧
      e1.mEditEnabled = false ∧ e1.mFirstPos = press.pos ∧
      e1.horzGuides = e.horzGuides ∧ e1.vertGuides = e.vertGuides ∧ e1.children = e.children := by
  obtain ⟨hleft, hg, hc, hr, hrot⟩ := h
  -- the rules after the guide rules
  have hsel : ∀ e0 : EditorWindow α, e0.mSelectedObjects = e.mSelectedObjects →
      e0.mSnappedRect = e.mSnappedRect → e0.mSnappedCenter = e.mSnappedCenter →
      e0.mZoom = e.mZoom → e0.mMoveCenterEnabled = e.mMoveCenterEnabled →
      e0.mResizeEnabled = e.mResizeEnabled → e0.mRotationEnabled = e.mRotationEnabled →
      e0.findGameObjectByPoint = e.findGameObjectByPoint →
      pressSelection m e0 press (windowToWorld e press.pos) =
        (match e.findGameObjectByPoint (windowToWorld e press.pos) with
          | some object => pressObject (pressMarker e0 (windowToWorld e press.pos)) press object
          | none => pressNothing (pressMarker e0 (windowToWorld e press.pos))
              (windowToWorld e press.pos)) := by
    intro e0 h1 h2 h3 h4 h5 h6 h7 h8
    have hf : ∀ size, findSelectionMarker e0 (windowToWorld e press.pos) size
        = findSelectionMarker e (windowToWorld e press.pos) size := by
      intro size
      simp only [findSelectionMarker, h1, h2]
    have hf2 : ∀ size, findSelectionMarker (pressMarker e0 (windowToWorld e press.pos))
        (windowToWorld e press.pos) size = findSelectionMarker e (windowToWorld e press.pos) size := by
      intro size
      rw [← hf size]
      unfold pressMarker
      split_ifs
      · rfl
      · rfl
    have hmk : (pressMarker e0 (windowToWorld e press.pos)).mResizeEnabled = e.mResizeEnabled := by
      unfold pressMarker
      split_ifs <;> exact h6
    have hmr : (pressMarker e0 (windowToWorld e press.pos)).mRotationEnabled
        = e.mRotationEnabled := by
      unfold pressMarker
      split_ifs <;> exact h7
    have hms : e.mResizeEnabled = true →
        (pressMarker e0 (windowToWorld e press.pos)).mSelectionMarker = .MARKER_NONE := by
      intro hre
      unfold pressMarker
      rw [if_pos (h6.trans hre)]
      show findSelectionMarker e0 _ _ = _
      rw [hf, h4]
      exact hr hre
    unfold pressSelection
    simp only []
    rw [if_neg (by rw [h5, h1, h3, h4]; exact hc)]
    rw [if_neg (by
      rintro ⟨hre, hne⟩
      rw [hmk] at hre
      exact hne (hms hre))]
    rw [if_neg (by
      rw [hmr, hf2, hf2, h4]
      exact hrot)]
    rw [h8]
  by_cases hs : e.showGuides = true
  · obtain ⟨hy, hx, hh, hv⟩ := hg hs
    have hc1 : ¬ ((pressBegin e press).showGuides = true ∧ press.pos.y < RULER_SIZE) :=
      fun h => hy h.2
    have hc2 : ¬ ((pressBegin e press).showGuides = true ∧ press.pos.x < RULER_SIZE) :=
      fun h => hx h.2
    have hs1 : (pressBegin e press).showGuides = true := hs
    have hh1 : ¬ (Scene.findGuide (pressBegin e press).horzGuides (windowToWorld e press.pos).y
        ((GUIDE_DISTANCE : α) / (pressBegin e press).mZoom)).1 ≠ -1 := fun h => h hh
    have hv1 : ¬ (Scene.findGuide (pressBegin e press).vertGuides (windowToWorld e press.pos).x
        ((GUIDE_DISTANCE : α) / (pressBegin e press).mZoom)).1 ≠ -1 := fun h => h hv
    refine ⟨pressMarker ({ pressBegin e press with mGuideIndex :=
      (Scene.findGuide (pressBegin e press).vertGuides (windowToWorld e press.pos).x
        ((GUIDE_DISTANCE : α) / (pressBegin e press).mZoom)).1 }) (windowToWorld e press.pos),
      ?_, ?_⟩
    · simp only [mousePressEvent, hleft, if_true, pressGuides, if_neg hc1, if_neg hc2, if_pos hs1,
        if_neg hh1, if_neg hv1]
      exact hsel _ rfl rfl rfl rfl rfl rfl rfl rfl
    · unfold pressMarker
      split_ifs <;> exact ⟨rfl, rfl, rfl, rfl, rfl, rfl, rfl, rfl, rfl, rfl, rfl⟩
  · have hc1 : ¬ ((pressBegin e press).showGuides = true ∧ press.pos.y < RULER_SIZE) :=
      fun h => hs h.1
    have hc2 : ¬ ((pressBegin e press).showGuides = true ∧ press.pos.x < RULER_SIZE) :=
      fun h => hs h.1
    have hs1 : ¬ (pressBegin e press).showGuides = true := hs
    refine ⟨pressMarker (pressBegin e press) (windowToWorld e press.pos), ?_, ?_⟩
    · simp only [mousePressEvent, hleft, if_true, pressGuides, if_neg hc1, if_neg hc2, if_neg hs1]
      exact hsel _ rfl rfl rfl rfl rfl rfl rfl rfl
    · unfold pressMarker
      split_ifs <;> exact ⟨rfl, rfl, rfl, rfl, rfl, rfl, rfl, rfl, rfl, rfl, rfl⟩

end PressFacts

section MoveEventFacts

variable {α : Type} [LinearOrderedField α] [FloorRing α]

/-- A move event that stays within 2 pixels of the press point while editing is
not enabled changes the last pointer position and the camera only, whatever the
branches of the editing states are. -/
theorem mouseMoveEvent_still (edit : EditorWindow α → QMouseEvent → EditorWindow α)
    (e : EditorWindow α) (mv : QMouseEvent) (hen : e.mEditEnabled = false)
    (hw : WithinThreshold e.mFirstPos mv) :
    mouseMoveEvent edit e mv =
      { e with
        mLastPos := mv.pos
        mCameraPos :=
          if mv.rightDown = true then
            e.mCameraPos.sub (QPointF.divScalar ⟨((mv.pos.x - e.mLastPos.x : Int) : α),
              ((mv.pos.y - e.mLastPos.y : Int) : α)⟩ e.mZoom)
          else e.mCameraPos } := by
  have hno : ¬ (mv.leftDown = true ∧
      (|mv.pos.x - e.mFirstPos.x| > 2 ∨ |mv.pos.y - e.mFirstPos.y| > 2)) := by
    rintro ⟨_, h | h⟩
    · exact absurd hw.1 (not_le.mpr h)
    · exact absurd hw.2 (not_le.mpr h)
  unfold mouseMoveEvent
  simp only []
  rw [if_neg hno]
  by_cases hr : mv.rightDown = true
  · rw [if_pos hr, if_pos hr]
    simp only [hen]
    rfl
  · rw [if_neg hr, if_neg hr]
    simp only [hen]
    rfl

/-- Move events that all stay within 2 pixels of the press point while editing
is not enabled change the last pointer position and the camera only. -/
theorem moves_still (moves : List QMouseEvent) :
    ∀ e : EditorWindow α, e.mEditEnabled = false →
      (∀ mv ∈ moves, WithinThreshold e.mFirstPos mv) →
      ∃ last cam, ∀ edit : EditorWindow α → QMouseEvent → EditorWindow α,
        moves.foldl (mouseMoveEvent edit) e = { e with mLastPos := last, mCameraPos := cam } := by
  induction moves with
  | nil => intro e _ _; exact ⟨e.mLastPos, e.mCameraPos, fun _ => rfl⟩
  | cons mv rest ih =>
    intro e hen hw
    have hstep := fun edit => mouseMoveEvent_still edit e mv hen (hw mv (List.mem_cons_self _ _))
    obtain ⟨last, cam2, h2⟩ := ih ({ e with
        mLastPos := mv.pos
        mCameraPos :=
          if mv.rightDown = true then
            e.mCameraPos.sub (QPointF.divScalar ⟨((mv.pos.x - e.mLastPos.x : Int) : α),
              ((mv.pos.y - e.mLastPos.y : Int) : α)⟩ e.mZoom)
          else e.mCameraPos }) hen
      (fun x hx => hw x (List.mem_cons_of_mem _ hx))
    refine ⟨last, cam2, fun edit => ?_⟩
    rw [List.foldl_cons, hstep edit, h2 edit]

end MoveEventFacts

section ObjectRuleFacts

variable {α : Type}

/-- The pointer test `contains` is membership of the identity. -/
theorem containsObject_iff (objects : List (GameObject α)) (object : GameObject α) :
    containsObject objects object = true ↔ object.ident ∈ objects.map (fun o => o.ident) := by
  simp only [containsObject, List.any_eq_true, decide_eq_true_eq, List.mem_map]

/-- The identities left by `removeOne` are the identities with the first
occurrence of the removed one erased. -/
theorem removeOne_idents (objects : List (GameObject α)) (object : GameObject α) :
    (removeOne objects object).map (fun o => o.ident)
      = (objects.map (fun o => o.ident)).erase object.ident := by
  induction objects with
  | nil => rfl
  | cons a as ih =>
    by_cases h : a.ident = object.ident
    · simp [removeOne, h]
    · have h2 : ¬ (a.ident == object.ident) = true := by simpa using h
      simp [removeOne, h, List.erase_cons, h2, ih]

variable [LinearOrderedField α]

/-- Selecting a single object that changes the selection sets `mMoveEnabled` from
the language of the project and the localisation of the object. -/
theorem selectGameObjects_single_moveEnabled (e : EditorWindow α) (object : GameObject α)
    (h : [object.ident] ≠ e.mSelectedObjects.map (fun o => o.ident)) :
    (selectGameObjects e [object]).mMoveEnabled
      = (e.defaultLanguage || e.isLocalized object.ident) := by
  unfold selectGameObjects
  simp only [List.map]
  rw [if_pos h]
  unfold updateAllowedEditorActions
  by_cases hd : e.defaultLanguage = true
  · simp [hd]
  · simp [hd]

variable [FloorRing α]

/-- C19: when a left press in the Idle state reaches the object rule and hits
object `o`: with Ctrl the new selection is the old one with `o` erased if it was
selected and appended if it was not, and the state is Idle; without Ctrl the
selection is unchanged if `o` was selected and exactly `[o]` if it was not, the
state is Move if and only if `mMoveEnabled` holds after the press and Idle
otherwise; `mMoveEnabled` is the old flag if `o` was selected and is recomputed
for `[o]` (default language, or `o` localised) if it was not. -/
theorem C19_object_hit_selection (m : Libm α) (e : EditorWindow α) (press : QMouseEvent)
    (o : GameObject α) (hrule : ReachesObjectRule e press)
    (hhit : e.findGameObjectByPoint (windowToWorld e press.pos) = some o)
    (hidle : e.mEditorState = .STATE_IDLE) :
    (press.control = true →
      (mousePressEvent m e press).mSelectedObjects.map (fun x => x.ident)
        = (if o.ident ∈ e.mSelectedObjects.map (fun x => x.ident)
            then (e.mSelectedObjects.map (fun x => x.ident)).erase o.ident
            else e.mSelectedObjects.map (fun x => x.ident) ++ [o.ident]) ∧
      (mousePressEvent m e press).mEditorState = .STATE_IDLE) ∧
    (press.control = false →
      (mousePressEvent m e press).mSelectedObjects.map (fun x => x.ident)
        = (if o.ident ∈ e.mSelectedObjects.map (fun x => x.ident)
            then e.mSelectedObjects.map (fun x => x.ident) else [o.ident]) ∧
      ((mousePressEvent m e press).mEditorState = .STATE_MOVE ↔
        (mousePressEvent m e press).mMoveEnabled = true) ∧
      ((mousePressEvent m e press).mMoveEnabled = false →
        (mousePressEvent m e press).mEditorState = .STATE_IDLE) ∧
      (o.ident ∈ e.mSelectedObjects.map (fun x => x.ident) →
        (mousePressEvent m e press).mMoveEnabled = e.mMoveEnabled) ∧
      (o.ident ∉ e.mSelectedObjects.map (fun x => x.ident) →
        (mousePressEvent m e press).mMoveEnabled
          = (e.defaultLanguage || e.isLocalized o.ident))) := by
  obtain ⟨e1, heq, hsel, hst, hmv, hdl, hloc, _, _, _, _, _, _⟩ :=
    mousePressEvent_object_rule m e press hrule
  rw [hhit] at heq
  simp only [] at heq
  rw [heq]
  constructor
  · intro hc
    unfold pressObject
    rw [if_pos hc]
    simp only []
    refine ⟨?_, ?_⟩
    · rw [selectGameObjects_selected, ← hsel]
      by_cases hin : o.ident ∈ e1.mSelectedObjects.map (fun x => x.ident)
      · rw [if_pos ((containsObject_iff _ _).mpr hin), if_pos hin, removeOne_idents]
      · rw [if_neg (fun h => hin ((containsObject_iff _ _).mp h)), if_neg hin]
        simp
    · rw [(selectGameObjects_frame _ _).2.2.2.2.2]
  · intro hc
    have hc2 : ¬ press.control = true := by simp [hc]
    unfold pressObject
    rw [if_neg hc2]
    simp only []
    rw [← hsel]
    by_cases hin : o.ident ∈ e1.mSelectedObjects.map (fun x => x.ident)
    · rw [if_pos ((containsObject_iff _ _).mpr hin), if_pos hin]
      by_cases hme : e1.mMoveEnabled = true
      · rw [if_pos hme]
        exact ⟨rfl, ⟨fun _ => hme, fun _ => rfl⟩, fun h => by simp [hme] at h,
          fun _ => hmv, fun h => absurd hin h⟩
      · rw [if_neg hme]
        refine ⟨rfl, ⟨fun h => ?_, fun h => absurd h hme⟩, fun _ => hst.trans hidle,
          fun _ => hmv, fun h => absurd hin h⟩
        rw [hst, hidle] at h
        cases h
    · have hnc : ¬ containsObject e1.mSelectedObjects o = true :=
        fun h => hin ((containsObject_iff _ _).mp h)
      have hne : [o.ident] ≠ e1.mSelectedObjects.map (fun x => x.ident) := by
        intro h
        exact hin (h ▸ List.mem_singleton_self _)
      have hval := selectGameObjects_single_moveEnabled e1 o hne
      rw [hdl, hloc] at hval
      have hstate : (selectGameObjects e1 [o]).mEditorState = .STATE_IDLE := by
        rw [(selectGameObjects_frame _ _).2.2.2.2.2, hst, hidle]
      rw [if_neg hnc, if_neg hin]
      by_cases hme : (selectGameObjects e1 [o]).mMoveEnabled = true
      · rw [if_pos hme]
        refine ⟨?_, ⟨fun _ => hme, fun _ => rfl⟩, fun h => ?_, fun h => absurd h hin,
          fun _ => hval⟩
        · show (selectGameObjects e1 [o]).mSelectedObjects.map (fun x => x.ident) = [o.ident]
          rw [selectGameObjects_selected]
          rfl
        · have : (selectGameObjects e1 [o]).mMoveEnabled = false := h
          rw [hme] at this
          cases this
      · rw [if_neg hme]
        refine ⟨?_, ⟨fun h => ?_, fun h => absurd h hme⟩, fun _ => hstate,
          fun h => absurd h hin, fun _ => hval⟩
        · rw [selectGameObjects_selected]
          rfl
        · rw [hstate] at h
          cases h

end ObjectRuleFacts

section GestureFacts

variable {α : Type} [LinearOrderedField α] [FloorRing α]

/-- A left press on empty canvas followed by moves within 2 pixels and a left
release: the press drops the selection, and the moves and the release add
nothing to it. -/
theorem gesture_still_marquee (m : Libm α)
    (edit : EditorWindow α → QMouseEvent → EditorWindow α) (e : EditorWindow α)
    (press : QMouseEvent) (moves : List QMouseEvent) (release : QMouseEvent)
    (hrule : ReachesObjectRule e press)
    (hmiss : e.findGameObjectByPoint (windowToWorld e press.pos) = none)
    (hidle : e.mEditorState = .STATE_IDLE)
    (hstill : ∀ mv ∈ moves, WithinThreshold press.pos mv)
    (hrelease : release.button = .LeftButton) :
    (mousePressEvent m e press).mSelectedObjects = [] ∧
    (gesture m edit e press moves release).1.mSelectedObjects = [] ∧
    (gesture m edit e press moves release).1.mEditorState = .STATE_IDLE ∧
    (gesture m edit e press moves release).2 = [] ∧
    (gesture m edit e press moves release).1.children = e.children ∧
    (gesture m edit e press moves release).1.horzGuides = e.horzGuides ∧
    (gesture m edit e press moves release).1.vertGuides = e.vertGuides ∧
    (∀ edit2 : EditorWindow α → QMouseEvent → EditorWindow α,
      gesture m edit2 e press moves release = gesture m edit e press moves release) := by
  obtain ⟨e1, heq, hsel, hst, _, _, _, _, hen, hfp, hh, hv, hch⟩ :=
    mousePressEvent_object_rule m e press hrule
  rw [hmiss] at heq
  simp only [] at heq
  -- the state the press leaves
  have hd : (deselectAll e1).mSelectedObjects = [] := by
    unfold deselectAll
    by_cases hemp : e1.mSelectedObjects.isEmpty = false
    · rw [if_pos ⟨hst.trans hidle, hemp⟩]
      exact selectGameObjects_selected e1 []
    · rw [if_neg (fun h => hemp h.2)]
      cases hl : e1.mSelectedObjects with
      | nil => rfl
      | cons a as => rw [hl] at hemp; simp at hemp
  obtain ⟨d1, d2, d3, d4, d5, _⟩ := deselectAll_frame e1
  have hP1 : (mousePressEvent m e press).mSelectedObjects = [] := by rw [heq]; exact hd
  have hP2 : (mousePressEvent m e press).mEditorState = .STATE_SELECT := by rw [heq]; rfl
  have hP3 : (mousePressEvent m e press).mEditEnabled = false := by
    rw [heq]; exact d5.trans hen
  have hP4 : (mousePressEvent m e press).mFirstPos = press.pos := by
    rw [heq]; exact d4.trans hfp
  have hP5 : (mousePressEvent m e press).children = e.children := by
    rw [heq]; exact d3.trans hch
  have hP6 : (mousePressEvent m e press).horzGuides = e.horzGuides := by
    rw [heq]; exact d1.trans hh
  have hP7 : (mousePressEvent m e press).vertGuides = e.vertGuides := by
    rw [heq]; exact d2.trans hv
  obtain ⟨last, cam, hfold⟩ := moves_still moves (mousePressEvent m e press) hP3
    (by rw [hP4]; exact hstill)
  have hg : ∀ ed : EditorWindow α → QMouseEvent → EditorWindow α,
      gesture m ed e press moves release =
        ({ mousePressEvent m e press with
            mLastPos := last, mCameraPos := cam, mEditorState := .STATE_IDLE }, []) := by
    intro ed
    unfold gesture
    rw [hfold ed]
    unfold mouseReleaseEvent
    rw [if_pos hrelease]
    simp only [hP3, Bool.false_eq_true, if_false, releaseClick, hP2]
    simp
  refine ⟨hP1, ?_, ?_, ?_, ?_, ?_, ?_, ?_⟩
  · rw [hg]; exact hP1
  · rw [hg]
  · rw [hg]
  · rw [hg]; exact hP5
  · rw [hg]; exact hP6
  · rw [hg]; exact hP7
  · intro edit2
    rw [hg, hg]

end GestureFacts

section GuideCommitFacts

variable {α : Type} [LinearOrderedField α]

/-- The release of the left button in a guide-drag state, case by case. -/
theorem mouseReleaseEvent_guide (e : EditorWindow α) (release : QMouseEvent)
    (hrelease : release.button = .LeftButton) :
    (e.mEditorState = .STATE_HORZ_GUIDE →
      (mouseReleaseEvent e release).1.vertGuides = e.vertGuides ∧
      (e.mEditEnabled = false →
        (mouseReleaseEvent e release).2 = [] ∧
        (mouseReleaseEvent e release).1.horzGuides =
          if e.mFirstPos.x < RULER_SIZE ∨ e.mFirstPos.y < RULER_SIZE then
            Scene.removeGuide e.horzGuides e.mGuideIndex
          else e.horzGuides) ∧
      (e.mEditEnabled = true → RULER_SIZE ≤ release.pos.y ∧ release.pos.y < e.height →
        (mouseReleaseEvent e release).1.horzGuides = e.horzGuides ∧
        (mouseReleaseEvent e release).2 =
          [if e.mFirstPos.y < RULER_SIZE then .createGuide else .moveGuide]) ∧
      (e.mEditEnabled = true → ¬ (RULER_SIZE ≤ release.pos.y ∧ release.pos.y < e.height) →
        (mouseReleaseEvent e release).1.horzGuides
          = Scene.removeGuide e.horzGuides e.mGuideIndex ∧
        (mouseReleaseEvent e release).2 =
          if RULER_SIZE ≤ e.mFirstPos.y then [.deleteGuide] else [])) ∧
    (e.mEditorState = .STATE_VERT_GUIDE →
      (mouseReleaseEvent e release).1.horzGuides = e.horzGuides ∧
      (e.mEditEnabled = false →
        (mouseReleaseEvent e release).2 = [] ∧
        (mouseReleaseEvent e release).1.vertGuides =
          if e.mFirstPos.x < RULER_SIZE ∨ e.mFirstPos.y < RULER_SIZE then
            Scene.removeGuide e.vertGuides e.mGuideIndex
          else e.vertGuides) ∧
      (e.mEditEnabled = true → RULER_SIZE ≤ release.pos.x ∧ release.pos.x < e.width →
        (mouseReleaseEvent e release).1.vertGuides = e.vertGuides ∧
        (mouseReleaseEvent e release).2 =
          [if e.mFirstPos.x < RULER_SIZE then .createGuide else .moveGuide]) ∧
      (e.mEditEnabled = true → ¬ (RULER_SIZE ≤ release.pos.x ∧ release.pos.x < e.width) →
        (mouseReleaseEvent e release).1.vertGuides
          = Scene.removeGuide e.vertGuides e.mGuideIndex ∧
        (mouseReleaseEvent e release).2 =
          if RULER_SIZE ≤ e.mFirstPos.x then [.deleteGuide] else [])) := by
  constructor
  · intro hst
    by_cases hen : e.mEditEnabled = true
    · by_cases hin : RULER_SIZE ≤ release.pos.y ∧ release.pos.y < e.height
      · simp [mouseReleaseEvent, hrelease, hen, releaseCommit, hst, hin]
      · simp [mouseReleaseEvent, hrelease, hen, releaseCommit, hst, hin]
    · have hen2 : e.mEditEnabled = false := by simpa using hen
      by_cases hr : e.mFirstPos.x < RULER_SIZE ∨ e.mFirstPos.y < RULER_SIZE
      · simp [mouseReleaseEvent, hrelease, hen2, releaseClick, hst, hr]
      · simp [mouseReleaseEvent, hrelease, hen2, releaseClick, hst, hr]
  · intro hst
    by_cases hen : e.mEditEnabled = true
    · by_cases hin : RULER_SIZE ≤ release.pos.x ∧ release.pos.x < e.width
      · simp [mouseReleaseEvent, hrelease, hen, releaseCommit, hst, hin]
      · simp [mouseReleaseEvent, hrelease, hen, releaseCommit, hst, hin]
    · have hen2 : e.mEditEnabled = false := by simpa using hen
      by_cases hr : e.mFirstPos.x < RULER_SIZE ∨ e.mFirstPos.y < RULER_SIZE
      · simp [mouseReleaseEvent, hrelease, hen2, releaseClick, hst, hr]
      · simp [mouseReleaseEvent, hrelease, hen2, releaseClick, hst, hr]

end GuideCommitFacts

section GuideDragFacts

variable {α : Type}

theorem eraseIdx_set_self (l : List α) (n : Nat) (a : α) :
    (l.set n a).eraseIdx n = l.eraseIdx n := by
  induction l generalizing n with
  | nil => rfl
  | cons x xs ih =>
    cases n with
    | zero => rfl
    | succ k => simp only [List.set_cons_succ, List.eraseIdx_cons_succ, ih]

/-- Setting the coordinate of a guide and then removing that guide is removing it. -/
theorem removeGuide_setGuide (guides : List α) (index : Int) (coord : α) :
    Scene.removeGuide (Scene.setGuide guides index coord) index = Scene.removeGuide guides index := by
  by_cases h : 0 ≤ index
  · simp only [Scene.removeGuide, Scene.setGuide, if_pos h, eraseIdx_set_self]
  · simp only [Scene.removeGuide, Scene.setGuide, if_neg h]

/-- Setting the coordinate of a guide twice is setting it to the last value. -/
theorem setGuide_setGuide (guides : List α) (index : Int) (c1 c2 : α) :
    Scene.setGuide (Scene.setGuide guides index c1) index c2 = Scene.setGuide guides index c2 := by
  by_cases h : 0 ≤ index
  · simp only [Scene.setGuide, if_pos h, List.set_set]
  · simp only [Scene.setGuide, if_neg h]

/-- Setting the coordinate of the guide a press has just added. -/
theorem setGuide_addGuide (guides : List α) (c0 c : α) :
    Scene.setGuide (Scene.addGuide guides c0).2 (Scene.addGuide guides c0).1 c
      = guides ++ [c] := by
  simp [Scene.setGuide, Scene.addGuide]

variable [LinearOrderedField α] [FloorRing α]

/-- One move event in the state of dragging a horizontal guide: the state, the
guide index, the press point and the vertical guides stay; editing is enabled
from the first move with the left button down that leaves the 2 pixel square
around the press point; and the dragged guide gets a new coordinate exactly when
editing is enabled. -/
theorem mouseMoveEvent_horz (edit : EditorWindow α → QMouseEvent → EditorWindow α)
    (e : EditorWindow α) (mv : QMouseEvent) (hst : e.mEditorState = .STATE_HORZ_GUIDE) :
    (mouseMoveEvent edit e mv).mEditorState = .STATE_HORZ_GUIDE ∧
    (mouseMoveEvent edit e mv).mGuideIndex = e.mGuideIndex ∧
    (mouseMoveEvent edit e mv).mFirstPos = e.mFirstPos ∧
    (mouseMoveEvent edit e mv).vertGuides = e.vertGuides ∧
    (mouseMoveEvent edit e mv).height = e.height ∧
    ((mouseMoveEvent edit e mv).mEditEnabled = true ↔
      (e.mEditEnabled = true ∨ (mv.leftDown = true ∧ ¬ WithinThreshold e.mFirstPos mv))) ∧
    ((mouseMoveEvent edit e mv).mEditEnabled = false →
      (mouseMoveEvent edit e mv).horzGuides = e.horzGuides) ∧
    ((mouseMoveEvent edit e mv).mEditEnabled = true →
      ∃ c, (mouseMoveEvent edit e mv).horzGuides
        = Scene.setGuide e.horzGuides e.mGuideIndex c) := by
  have hbeyond : (|mv.pos.x - e.mFirstPos.x| > 2 ∨ |mv.pos.y - e.mFirstPos.y| > 2)
      ↔ ¬ WithinThreshold e.mFirstPos mv := by
    unfold WithinThreshold
    rw [not_and_or, not_le, not_le]
  by_cases hc : mv.leftDown = true ∧
      (|mv.pos.x - e.mFirstPos.x| > 2 ∨ |mv.pos.y - e.mFirstPos.y| > 2)
  · have hc2 : mv.leftDown = true ∧ ¬ WithinThreshold e.mFirstPos mv := ⟨hc.1, hbeyond.mp hc.2⟩
    by_cases hr : mv.rightDown = true <;> by_cases hs : e.options.enableSmartGuides = true <;>
      simp [mouseMoveEvent, hst, hc, hr, hs, hc2]
  · have hc2 : ¬ (mv.leftDown = true ∧ ¬ WithinThreshold e.mFirstPos mv) :=
      fun h => hc ⟨h.1, hbeyond.mpr h.2⟩
    by_cases hen : e.mEditEnabled = true
    · by_cases hr : mv.rightDown = true <;> by_cases hs : e.options.enableSmartGuides = true <;>
        simp [mouseMoveEvent, hst, hc, hr, hs, hen]
    · have hen2 : e.mEditEnabled = false := by simpa using hen
      by_cases hr : mv.rightDown = true <;>
        simp [mouseMoveEvent, hst, hc, hr, hen2, hc2]

/-- One move event in the state of dragging a vertical guide. -/
theorem mouseMoveEvent_vert (edit : EditorWindow α → QMouseEvent → EditorWindow α)
    (e : EditorWindow α) (mv : QMouseEvent) (hst : e.mEditorState = .STATE_VERT_GUIDE) :
    (mouseMoveEvent edit e mv).mEditorState = .STATE_VERT_GUIDE ∧
    (mouseMoveEvent edit e mv).mGuideIndex = e.mGuideIndex ∧
    (mouseMoveEvent edit e mv).mFirstPos = e.mFirstPos ∧
    (mouseMoveEvent edit e mv).horzGuides = e.horzGuides ∧
    (mouseMoveEvent edit e mv).width = e.width ∧
    ((mouseMoveEvent edit e mv).mEditEnabled = true ↔
      (e.mEditEnabled = true ∨ (mv.leftDown = true ∧ ¬ WithinThreshold e.mFirstPos mv))) ∧
    ((mouseMoveEvent edit e mv).mEditEnabled = false →
      (mouseMoveEvent edit e mv).vertGuides = e.vertGuides) ∧
    ((mouseMoveEvent edit e mv).mEditEnabled = true →
      ∃ c, (mouseMoveEvent edit e mv).vertGuides
        = Scene.setGuide e.vertGuides e.mGuideIndex c) := by
  have hbeyond : (|mv.pos.x - e.mFirstPos.x| > 2 ∨ |mv.pos.y - e.mFirstPos.y| > 2)
      ↔ ¬ WithinThreshold e.mFirstPos mv := by
    unfold WithinThreshold
    rw [not_and_or, not_le, not_le]
  by_cases hc : mv.leftDown = true ∧
      (|mv.pos.x - e.mFirstPos.x| > 2 ∨ |mv.pos.y - e.mFirstPos.y| > 2)
  · have hc2 : mv.leftDown = true ∧ ¬ WithinThreshold e.mFirstPos mv := ⟨hc.1, hbeyond.mp hc.2⟩
    by_cases hr : mv.rightDown = true <;> by_cases hs : e.options.enableSmartGuides = true <;>
      simp [mouseMoveEvent, hst, hc, hr, hs, hc2]
  · have hc2 : ¬ (mv.leftDown = true ∧ ¬ WithinThreshold e.mFirstPos mv) :=
      fun h => hc ⟨h.1, hbeyond.mpr h.2⟩
    by_cases hen : e.mEditEnabled = true
    · by_cases hr : mv.rightDown = true <;> by_cases hs : e.options.enableSmartGuides = true <;>
        simp [mouseMoveEvent, hst, hc, hr, hs, hen]
    · have hen2 : e.mEditEnabled = false := by simpa using hen
      by_cases hr : mv.rightDown = true <;>
        simp [mouseMoveEvent, hst, hc, hr, hen2, hc2]

/-- The moves of a drag of a horizontal guide that starts with editing not
enabled: the frame stays; editing ends enabled exactly when some move with the
left button down left the 2 pixel square around the press point; the guide list
is untouched while editing is not enabled, and otherwise it is the list at the
press with a new coordinate for the dragged guide. -/
theorem moves_horz (edit : EditorWindow α → QMouseEvent → EditorWindow α)
    (moves : List QMouseEvent) :
    ∀ e : EditorWindow α, e.mEditorState = .STATE_HORZ_GUIDE →
      (moves.foldl (mouseMoveEvent edit) e).mEditorState = .STATE_HORZ_GUIDE ∧
      (moves.foldl (mouseMoveEvent edit) e).mGuideIndex = e.mGuideIndex ∧
      (moves.foldl (mouseMoveEvent edit) e).mFirstPos = e.mFirstPos ∧
      (moves.foldl (mouseMoveEvent edit) e).vertGuides = e.vertGuides ∧
      (moves.foldl (mouseMoveEvent edit) e).height = e.height ∧
      ((moves.foldl (mouseMoveEvent edit) e).mEditEnabled = true ↔
        (e.mEditEnabled = true ∨
          ∃ mv ∈ moves, mv.leftDown = true ∧ ¬ WithinThreshold e.mFirstPos mv)) ∧
      ((moves.foldl (mouseMoveEvent edit) e).horzGuides = e.horzGuides ∨
        ∃ c, (moves.foldl (mouseMoveEvent edit) e).horzGuides
          = Scene.setGuide e.horzGuides e.mGuideIndex c) ∧
      (e.mEditEnabled = false →
        ((moves.foldl (mouseMoveEvent edit) e).mEditEnabled = false →
          (moves.foldl (mouseMoveEvent edit) e).horzGuides = e.horzGuides) ∧
        ((moves.foldl (mouseMoveEvent edit) e).mEditEnabled = true →
          ∃ c, (moves.foldl (mouseMoveEvent edit) e).horzGuides
            = Scene.setGuide e.horzGuides e.mGuideIndex c)) := by
  induction moves with
  | nil =>
    intro e hst
    refine ⟨hst, rfl, rfl, rfl, rfl, ?_, Or.inl rfl, fun hen => ⟨fun _ => rfl, ?_⟩⟩
    · simp
    · intro h
      exact absurd (hen.symm.trans h) (by simp)
  | cons mv rest ih =>
    intro e hst
    obtain ⟨s1, s2, s3, s4, s5, s6, s7, s8⟩ := mouseMoveEvent_horz edit e mv hst
    obtain ⟨r1, r2, r3, r4, r5, r6, r7, r8⟩ := ih (mouseMoveEvent edit e mv) s1
    rw [List.foldl_cons]
    have hG : (rest.foldl (mouseMoveEvent edit) (mouseMoveEvent edit e mv)).horzGuides
          = e.horzGuides ∨
        ∃ c, (rest.foldl (mouseMoveEvent edit) (mouseMoveEvent edit e mv)).horzGuides
          = Scene.setGuide e.horzGuides e.mGuideIndex c := by
      by_cases hen1 : (mouseMoveEvent edit e mv).mEditEnabled = true
      · obtain ⟨c1, hc1⟩ := s8 hen1
        rcases r7 with h | ⟨c, h⟩
        · exact Or.inr ⟨c1, h.trans hc1⟩
        · refine Or.inr ⟨c, ?_⟩
          rw [h, hc1, s2, setGuide_setGuide]
      · have hen2 : (mouseMoveEvent edit e mv).mEditEnabled = false := by simpa using hen1
        rcases r7 with h | ⟨c, h⟩
        · exact Or.inl (h.trans (s7 hen2))
        · refine Or.inr ⟨c, ?_⟩
          rw [h, s7 hen2, s2]
    refine ⟨r1, r2.trans s2, r3.trans s3, r4.trans s4, r5.trans s5, ?_, hG, ?_⟩
    · rw [r6, s6, s3]
      constructor
      · rintro (h | ⟨x, hx, hx2⟩)
        · rcases h with h | h
          · exact Or.inl h
          · exact Or.inr ⟨mv, List.mem_cons_self _ _, h⟩
        · exact Or.inr ⟨x, List.mem_cons_of_mem _ hx, hx2⟩
      · rintro (h | ⟨x, hx, hx2⟩)
        · exact Or.inl (Or.inl h)
        · rcases List.mem_cons.mp hx with hxe | hxr
          · subst hxe
            exact Or.inl (Or.inr hx2)
          · exact Or.inr ⟨x, hxr, hx2⟩
    · intro hen
      constructor
      · intro hf
        have hen1 : (mouseMoveEvent edit e mv).mEditEnabled = false := by
          by_contra hcon
          have : (mouseMoveEvent edit e mv).mEditEnabled = true := by simpa using hcon
          have h2 := r6.mpr (Or.inl this)
          exact absurd (h2.symm.trans hf) (by simp)
        rw [(r8 hen1).1 hf]
        exact s7 hen1
      · intro hf
        by_cases hen1 : (mouseMoveEvent edit e mv).mEditEnabled = true
        · obtain ⟨c1, hc1⟩ := s8 hen1
          rcases r7 with h | ⟨c, h⟩
          · exact ⟨c1, h.trans hc1⟩
          · refine ⟨c, ?_⟩
            rw [h, hc1, s2, setGuide_setGuide]
        · have hen2 : (mouseMoveEvent edit e mv).mEditEnabled = false := by simpa using hen1
          obtain ⟨c, h⟩ := (r8 hen2).2 hf
          refine ⟨c, ?_⟩
          rw [h, s7 hen2, s2]

/-- The moves of a drag of a vertical guide, as `moves_horz`. -/
theorem moves_vert (edit : EditorWindow α → QMouseEvent → EditorWindow α)
    (moves : List QMouseEvent) :
    ∀ e : EditorWindow α, e.mEditorState = .STATE_VERT_GUIDE →
      (moves.foldl (mouseMoveEvent edit) e).mEditorState = .STATE_VERT_GUIDE ∧
      (moves.foldl (mouseMoveEvent edit) e).mGuideIndex = e.mGuideIndex ∧
      (moves.foldl (mouseMoveEvent edit) e).mFirstPos = e.mFirstPos ∧
      (moves.foldl (mouseMoveEvent edit) e).horzGuides = e.horzGuides ∧
      (moves.foldl (mouseMoveEvent edit) e).width = e.width ∧
      ((moves.foldl (mouseMoveEvent edit) e).mEditEnabled = true ↔
        (e.mEditEnabled = true ∨
          ∃ mv ∈ moves, mv.leftDown = true ∧ ¬ WithinThreshold e.mFirstPos mv)) ∧
      ((moves.foldl (mouseMoveEvent edit) e).vertGuides = e.vertGuides ∨
        ∃ c, (moves.foldl (mouseMoveEvent edit) e).vertGuides
          = Scene.setGuide e.vertGuides e.mGuideIndex c) ∧
      (e.mEditEnabled = false →
        ((moves.foldl (mouseMoveEvent edit) e).mEditEnabled = false →
          (moves.foldl (mouseMoveEvent edit) e).vertGuides = e.vertGuides) ∧
        ((moves.foldl (mouseMoveEvent edit) e).mEditEnabled = true →
          ∃ c, (moves.foldl (mouseMoveEvent edit) e).vertGuides
            = Scene.setGuide e.vertGuides e.mGuideIndex c)) := by
  induction moves with
  | nil =>
    intro e hst
    refine ⟨hst, rfl, rfl, rfl, rfl, ?_, Or.inl rfl, fun hen => ⟨fun _ => rfl, ?_⟩⟩
    · simp
    · intro h
      exact absurd (hen.symm.trans h) (by simp)
  | cons mv rest ih =>
    intro e hst
    obtain ⟨s1, s2, s3, s4, s5, s6, s7, s8⟩ := mouseMoveEvent_vert edit e mv hst
    obtain ⟨r1, r2, r3, r4, r5, r6, r7, r8⟩ := ih (mouseMoveEvent edit e mv) s1
    rw [List.foldl_cons]
    have hG : (rest.foldl (mouseMoveEvent edit) (mouseMoveEvent edit e mv)).vertGuides
          = e.vertGuides ∨
        ∃ c, (rest.foldl (mouseMoveEvent edit) (mouseMoveEvent edit e mv)).vertGuides
          = Scene.setGuide e.vertGuides e.mGuideIndex c := by
      by_cases hen1 : (mouseMoveEvent edit e mv).mEditEnabled = true
      · obtain ⟨c1, hc1⟩ := s8 hen1
        rcases r7 with h | ⟨c, h⟩
        · exact Or.inr ⟨c1, h.trans hc1⟩
        · refine Or.inr ⟨c, ?_⟩
          rw [h, hc1, s2, setGuide_setGuide]
      · have hen2 : (mouseMoveEvent edit e mv).mEditEnabled = false := by simpa using hen1
        rcases r7 with h | ⟨c, h⟩
        · exact Or.inl (h.trans (s7 hen2))
        · refine Or.inr ⟨c, ?_⟩
          rw [h, s7 hen2, s2]
    refine ⟨r1, r2.trans s2, r3.trans s3, r4.trans s4, r5.trans s5, ?_, hG, ?_⟩
    · rw [r6, s6, s3]
      constructor
      · rintro (h | ⟨x, hx, hx2⟩)
        · rcases h with h | h
          · exact Or.inl h
          · exact Or.inr ⟨mv, List.mem_cons_self _ _, h⟩
        · exact Or.inr ⟨x, List.mem_cons_of_mem _ hx, hx2⟩
      · rintro (h | ⟨x, hx, hx2⟩)
        · exact Or.inl (Or.inl h)
        · rcases List.mem_cons.mp hx with hxe | hxr
          · subst hxe
            exact Or.inl (Or.inr hx2)
          · exact Or.inr ⟨x, hxr, hx2⟩
    · intro hen
      constructor
      · intro hf
        have hen1 : (mouseMoveEvent edit e mv).mEditEnabled = false := by
          by_contra hcon
          have : (mouseMoveEvent edit e mv).mEditEnabled = true := by simpa using hcon
          have h2 := r6.mpr (Or.inl this)
          exact absurd (h2.symm.trans hf) (by simp)
        rw [(r8 hen1).1 hf]
        exact s7 hen1
      · intro hf
        by_cases hen1 : (mouseMoveEvent edit e mv).mEditEnabled = true
        · obtain ⟨c1, hc1⟩ := s8 hen1
          rcases r7 with h | ⟨c, h⟩
          · exact ⟨c1, h.trans hc1⟩
          · refine ⟨c, ?_⟩
            rw [h, hc1, s2, setGuide_setGuide]
        · have hen2 : (mouseMoveEvent edit e mv).mEditEnabled = false := by simpa using hen1
          obtain ⟨c, h⟩ := (r8 hen2).2 hf
          refine ⟨c, ?_⟩
          rw [h, s7 hen2, s2]


/-- A left press on the top ruler with guides shown: the state it leaves. -/
theorem mousePressEvent_top_ruler (m : Libm α) (e : EditorWindow α) (press : QMouseEvent)
    (hleft : press.button = .LeftButton) (hs : e.showGuides = true)
    (hy : press.pos.y < RULER_SIZE) :
    ∃ c0, (mousePressEvent m e press).mEditorState = .STATE_HORZ_GUIDE ∧
      (mousePressEvent m e press).mEditEnabled = false ∧
      (mousePressEvent m e press).mFirstPos = press.pos ∧
      (mousePressEvent m e press).vertGuides = e.vertGuides ∧
      (mousePressEvent m e press).height = e.height ∧
      (mousePressEvent m e press).horzGuides = (Scene.addGuide e.horzGuides c0).2 ∧
      (mousePressEvent m e press).mGuideIndex = (Scene.addGuide e.horzGuides c0).1 := by
  have hc : (pressBegin e press).showGuides = true ∧ press.pos.y < RULER_SIZE := ⟨hs, hy⟩
  refine ⟨((qRound (windowToWorld e press.pos).y : Int) : α), ?_⟩
  simp only [mousePressEvent, hleft, if_true, pressGuides, if_pos hc]
  exact ⟨trivial, rfl, rfl, rfl, rfl, rfl, rfl⟩

/-- A left press on the left ruler, below the top ruler, with guides shown. -/
theorem mousePressEvent_left_ruler (m : Libm α) (e : EditorWindow α) (press : QMouseEvent)
    (hleft : press.button = .LeftButton) (hs : e.showGuides = true)
    (hy : ¬ press.pos.y < RULER_SIZE) (hx : press.pos.x < RULER_SIZE) :
    ∃ c0, (mousePressEvent m e press).mEditorState = .STATE_VERT_GUIDE ∧
      (mousePressEvent m e press).mEditEnabled = false ∧
      (mousePressEvent m e press).mFirstPos = press.pos ∧
      (mousePressEvent m e press).horzGuides = e.horzGuides ∧
      (mousePressEvent m e press).width = e.width ∧
      (mousePressEvent m e press).vertGuides = (Scene.addGuide e.vertGuides c0).2 ∧
      (mousePressEvent m e press).mGuideIndex = (Scene.addGuide e.vertGuides c0).1 := by
  have hc1 : ¬ ((pressBegin e press).showGuides = true ∧ press.pos.y < RULER_SIZE) :=
    fun h => hy h.2
  have hc2 : (pressBegin e press).showGuides = true ∧ press.pos.x < RULER_SIZE := ⟨hs, hx⟩
  refine ⟨((qRound (windowToWorld e press.pos).x : Int) : α), ?_⟩
  simp only [mousePressEvent, hleft, if_true, pressGuides, if_neg hc1, if_pos hc2]
  exact ⟨trivial, rfl, rfl, rfl, rfl, rfl, rfl⟩

/-- A left press off the rulers within the grab distance of a horizontal guide,
with guides shown: the guide is grabbed. -/
theorem mousePressEvent_grab_horz (m : Libm α) (e : EditorWindow α) (press : QMouseEvent)
    (hleft : press.button = .LeftButton) (hs : e.showGuides = true)
    (hy : ¬ press.pos.y < RULER_SIZE) (hx : ¬ press.pos.x < RULER_SIZE)
    (hfound : (Scene.findGuide e.horzGuides (windowToWorld e press.pos).y
      ((GUIDE_DISTANCE : α) / e.mZoom)).1 ≠ -1) :
    (mousePressEvent m e press).mEditorState = .STATE_HORZ_GUIDE ∧
    (mousePressEvent m e press).mEditEnabled = false ∧
    (mousePressEvent m e press).mFirstPos = press.pos ∧
    (mousePressEvent m e press).vertGuides = e.vertGuides ∧
    (mousePressEvent m e press).height = e.height ∧
    (mousePressEvent m e press).horzGuides = e.horzGuides ∧
    (mousePressEvent m e press).mGuideIndex = (Scene.findGuide e.horzGuides
      (windowToWorld e press.pos).y ((GUIDE_DISTANCE : α) / e.mZoom)).1 := by
  have hc1 : ¬ ((pressBegin e press).showGuides = true ∧ press.pos.y < RULER_SIZE) :=
    fun h => hy h.2
  have hc2 : ¬ ((pressBegin e press).showGuides = true ∧ press.pos.x < RULER_SIZE) :=
    fun h => hx h.2
  have hc3 : (pressBegin e press).showGuides = true := hs
  have hc4 : (Scene.findGuide (pressBegin e press).horzGuides (windowToWorld e press.pos).y
      ((GUIDE_DISTANCE : α) / (pressBegin e press).mZoom)).1 ≠ -1 := hfound
  simp only [mousePressEvent, hleft, if_true, pressGuides, if_neg hc1, if_neg hc2, if_pos hc3,
    if_pos hc4]
  exact ⟨trivial, rfl, rfl, rfl, rfl, rfl, rfl⟩

/-- A left press off the rulers within the grab distance of a vertical guide and
of no horizontal guide, with guides shown: the vertical guide is grabbed. -/
theorem mousePressEvent_grab_vert (m : Libm α) (e : EditorWindow α) (press : QMouseEvent)
    (hleft : press.button = .LeftButton) (hs : e.showGuides = true)
    (hy : ¬ press.pos.y < RULER_SIZE) (hx : ¬ press.pos.x < RULER_SIZE)
    (hnone : (Scene.findGuide e.horzGuides (windowToWorld e press.pos).y
      ((GUIDE_DISTANCE : α) / e.mZoom)).1 = -1)
    (hfound : (Scene.findGuide e.vertGuides (windowToWorld e press.pos).x
      ((GUIDE_DISTANCE : α) / e.mZoom)).1 ≠ -1) :
    (mousePressEvent m e press).mEditorState = .STATE_VERT_GUIDE ∧
    (mousePressEvent m e press).mEditEnabled = false ∧
    (mousePressEvent m e press).mFirstPos = press.pos ∧
    (mousePressEvent m e press).horzGuides = e.horzGuides ∧
    (mousePressEvent m e press).width = e.width ∧
    (mousePressEvent m e press).vertGuides = e.vertGuides ∧
    (mousePressEvent m e press).mGuideIndex = (Scene.findGuide e.vertGuides
      (windowToWorld e press.pos).x ((GUIDE_DISTANCE : α) / e.mZoom)).1 := by
  have hc1 : ¬ ((pressBegin e press).showGuides = true ∧ press.pos.y < RULER_SIZE) :=
    fun h => hy h.2
  have hc2 : ¬ ((pressBegin e press).showGuides = true ∧ press.pos.x < RULER_SIZE) :=
    fun h => hx h.2
  have hc3 : (pressBegin e press).showGuides = true := hs
  have hc4 : ¬ (Scene.findGuide (pressBegin e press).horzGuides (windowToWorld e press.pos).y
      ((GUIDE_DISTANCE : α) / (pressBegin e press).mZoom)).1 ≠ -1 := fun h => h hnone
  have hc5 : (Scene.findGuide (pressBegin e press).vertGuides (windowToWorld e press.pos).x
      ((GUIDE_DISTANCE : α) / (pressBegin e press).mZoom)).1 ≠ -1 := hfound
  simp only [mousePressEvent, hleft, if_true, pressGuides, if_neg hc1, if_neg hc2, if_pos hc3,
    if_neg hc4, if_pos hc5]
  exact ⟨trivial, rfl, rfl, rfl, rfl, rfl, rfl⟩

end GuideDragFacts

section GuideGestureFacts

variable {α : Type} [LinearOrderedField α]

/-- The release of the left button returns to the Idle state. -/
theorem mouseReleaseEvent_idle (e : EditorWindow α) (release : QMouseEvent)
    (hrelease : release.button = .LeftButton) :
    (mouseReleaseEvent e release).1.mEditorState = .STATE_IDLE := by
  simp [mouseReleaseEvent, hrelease]

variable [FloorRing α]

/-- The moves and the left release of a drag of a horizontal guide, from the
state `p` the press has left: what becomes of the guide and what is reported. -/
theorem guide_drag_horz (edit : EditorWindow α → QMouseEvent → EditorWindow α)
    (p : EditorWindow α) (moves : List QMouseEvent) (release : QMouseEvent)
    (hrelease : release.button = .LeftButton) (hst : p.mEditorState = .STATE_HORZ_GUIDE)
    (hen : p.mEditEnabled = false) :
    (mouseReleaseEvent (moves.foldl (mouseMoveEvent edit) p) release).1.mEditorState
      = .STATE_IDLE ∧
    (mouseReleaseEvent (moves.foldl (mouseMoveEvent edit) p) release).1.vertGuides
      = p.vertGuides ∧
    ((∀ mv ∈ moves, mv.leftDown = true → WithinThreshold p.mFirstPos mv) →
      (mouseReleaseEvent (moves.foldl (mouseMoveEvent edit) p) release).2 = [] ∧
      (mouseReleaseEvent (moves.foldl (mouseMoveEvent edit) p) release).1.horzGuides =
        if p.mFirstPos.x < RULER_SIZE ∨ p.mFirstPos.y < RULER_SIZE then
          Scene.removeGuide p.horzGuides p.mGuideIndex
        else p.horzGuides) ∧
    ((∃ mv ∈ moves, mv.leftDown = true ∧ ¬ WithinThreshold p.mFirstPos mv) →
      (RULER_SIZE ≤ release.pos.y ∧ release.pos.y < p.height →
        (∃ c, (mouseReleaseEvent (moves.foldl (mouseMoveEvent edit) p) release).1.horzGuides
          = Scene.setGuide p.horzGuides p.mGuideIndex c) ∧
        (mouseReleaseEvent (moves.foldl (mouseMoveEvent edit) p) release).2 =
          [if p.mFirstPos.y < RULER_SIZE then .createGuide else .moveGuide]) ∧
      (¬ (RULER_SIZE ≤ release.pos.y ∧ release.pos.y < p.height) →
        (mouseReleaseEvent (moves.foldl (mouseMoveEvent edit) p) release).1.horzGuides
          = Scene.removeGuide p.horzGuides p.mGuideIndex ∧
        (mouseReleaseEvent (moves.foldl (mouseMoveEvent edit) p) release).2 =
          if RULER_SIZE ≤ p.mFirstPos.y then [.deleteGuide] else [])) := by
  obtain ⟨f1, f2, f3, f4, f5, f6, _, f8⟩ := moves_horz edit moves p hst
  obtain ⟨g1, g2, g3, g4⟩ :=
    (mouseReleaseEvent_guide (moves.foldl (mouseMoveEvent edit) p) release hrelease).1 f1
  refine ⟨mouseReleaseEvent_idle _ release hrelease, g1.trans f4, ?_, ?_⟩
  · intro hstill
    have hoff : (moves.foldl (mouseMoveEvent edit) p).mEditEnabled = false := by
      by_contra hcon
      have hon : (moves.foldl (mouseMoveEvent edit) p).mEditEnabled = true := by simpa using hcon
      rcases f6.mp hon with h | ⟨mv, hmv, hdown, hout⟩
      · exact absurd (hen.symm.trans h) (by simp)
      · exact hout (hstill mv hmv hdown)
    obtain ⟨h1, h2⟩ := g2 hoff
    refine ⟨h1, ?_⟩
    rw [h2, f3, f2, (f8 hen).1 hoff]
  · intro hmoved
    have hon : (moves.foldl (mouseMoveEvent edit) p).mEditEnabled = true := f6.mpr (Or.inr hmoved)
    obtain ⟨c, hc⟩ := (f8 hen).2 hon
    constructor
    · intro hin
      obtain ⟨h1, h2⟩ := g3 hon (by rw [f5]; exact hin)
      exact ⟨⟨c, h1.trans hc⟩, by rw [h2, f3]⟩
    · intro hout
      obtain ⟨h1, h2⟩ := g4 hon (by rw [f5]; exact hout)
      refine ⟨?_, by rw [h2, f3]⟩
      rw [h1, hc, f2, removeGuide_setGuide]

/-- The moves and the left release of a drag of a vertical guide, as
`guide_drag_horz`. -/
theorem guide_drag_vert (edit : EditorWindow α → QMouseEvent → EditorWindow α)
    (p : EditorWindow α) (moves : List QMouseEvent) (release : QMouseEvent)
    (hrelease : release.button = .LeftButton) (hst : p.mEditorState = .STATE_VERT_GUIDE)
    (hen : p.mEditEnabled = false) :
    (mouseReleaseEvent (moves.foldl (mouseMoveEvent edit) p) release).1.mEditorState
      = .STATE_IDLE ∧
    (mouseReleaseEvent (moves.foldl (mouseMoveEvent edit) p) release).1.horzGuides
      = p.horzGuides ∧
    ((∀ mv ∈ moves, mv.leftDown = true → WithinThreshold p.mFirstPos mv) →
      (mouseReleaseEvent (moves.foldl (mouseMoveEvent edit) p) release).2 = [] ∧
      (mouseReleaseEvent (moves.foldl (mouseMoveEvent edit) p) release).1.vertGuides =
        if p.mFirstPos.x < RULER_SIZE ∨ p.mFirstPos.y < RULER_SIZE then
          Scene.removeGuide p.vertGuides p.mGuideIndex
        else p.vertGuides) ∧
    ((∃ mv ∈ moves, mv.leftDown = true ∧ ¬ WithinThreshold p.mFirstPos mv) →
      (RULER_SIZE ≤ release.pos.x ∧ release.pos.x < p.width →
        (∃ c, (mouseReleaseEvent (moves.foldl (mouseMoveEvent edit) p) release).1.vertGuides
          = Scene.setGuide p.vertGuides p.mGuideIndex c) ∧
        (mouseReleaseEvent (moves.foldl (mouseMoveEvent edit) p) release).2 =
          [if p.mFirstPos.x < RULER_SIZE then .createGuide else .moveGuide]) ∧
      (¬ (RULER_SIZE ≤ release.pos.x ∧ release.pos.x < p.width) →
        (mouseReleaseEvent (moves.foldl (mouseMoveEvent edit) p) release).1.vertGuides
          = Scene.removeGuide p.vertGuides p.mGuideIndex ∧
        (mouseReleaseEvent (moves.foldl (mouseMoveEvent edit) p) release).2 =
          if RULER_SIZE ≤ p.mFirstPos.x then [.deleteGuide] else [])) := by
  obtain ⟨f1, f2, f3, f4, f5, f6, _, f8⟩ := moves_vert edit moves p hst
  obtain ⟨g1, g2, g3, g4⟩ :=
    (mouseReleaseEvent_guide (moves.foldl (mouseMoveEvent edit) p) release hrelease).2 f1
  refine ⟨mouseReleaseEvent_idle _ release hrelease, g1.trans f4, ?_, ?_⟩
  · intro hstill
    have hoff : (moves.foldl (mouseMoveEvent edit) p).mEditEnabled = false := by
      by_contra hcon
      have hon : (moves.foldl (mouseMoveEvent edit) p).mEditEnabled = true := by simpa using hcon
      rcases f6.mp hon with h | ⟨mv, hmv, hdown, hout⟩
      · exact absurd (hen.symm.trans h) (by simp)
      · exact hout (hstill mv hmv hdown)
    obtain ⟨h1, h2⟩ := g2 hoff
    refine ⟨h1, ?_⟩
    rw [h2, f3, f2, (f8 hen).1 hoff]
  · intro hmoved
    have hon : (moves.foldl (mouseMoveEvent edit) p).mEditEnabled = true := f6.mpr (Or.inr hmoved)
    obtain ⟨c, hc⟩ := (f8 hen).2 hon
    constructor
    · intro hin
      obtain ⟨h1, h2⟩ := g3 hon (by rw [f5]; exact hin)
      exact ⟨⟨c, h1.trans hc⟩, by rw [h2, f3]⟩
    · intro hout
      obtain ⟨h1, h2⟩ := g4 hon (by rw [f5]; exact hout)
      refine ⟨?_, by rw [h2, f3]⟩
      rw [h1, hc, f2, removeGuide_setGuide]

end GuideGestureFacts

/-! ## Evaluations of the handler examples -/

/-- The press on `secondObject` reaches the object rule. -/
theorem clickEditor_second_rule :
    ReachesObjectRule (clickEditor : EditorWindow ℝ) pressOnSecond := by
  simp [ReachesObjectRule, clickEditor, EditorWindow.init, pressOnSecond, windowToWorld,
    findSelectionMarker, QRectF.contains, QPointF.add, QPointF.divScalar, CENTER_SIZE,
    MARKER_SIZE, ROTATE_SIZE, QRectF.center, QRectF.left, QRectF.right, QRectF.top,
    QRectF.bottom, firstObject]
  norm_num

/-- The press on empty canvas reaches the object rule. -/
theorem clickEditor_canvas_rule :
    ReachesObjectRule (clickEditor : EditorWindow ℝ) pressOnCanvas := by
  simp [ReachesObjectRule, clickEditor, EditorWindow.init, pressOnCanvas, windowToWorld,
    findSelectionMarker, QRectF.contains, QPointF.add, QPointF.divScalar, CENTER_SIZE,
    MARKER_SIZE, ROTATE_SIZE, QRectF.center, QRectF.left, QRectF.right, QRectF.top,
    QRectF.bottom, firstObject]
  norm_num

/-- The press at (250, 25) hits `secondObject`. -/
theorem clickEditor_hits_second :
    (clickEditor : EditorWindow ℝ).findGameObjectByPoint
      (windowToWorld (clickEditor : EditorWindow ℝ) pressOnSecond.pos) = some secondObject := by
  simp [clickEditor, EditorWindow.init, pressOnSecond, windowToWorld, QPointF.add,
    QPointF.divScalar]
  norm_num

/-- The press at (500, 400) hits nothing. -/
theorem clickEditor_misses :
    (clickEditor : EditorWindow ℝ).findGameObjectByPoint
      (windowToWorld (clickEditor : EditorWindow ℝ) pressOnCanvas.pos) = none := by
  simp [clickEditor, EditorWindow.init, pressOnCanvas, windowToWorld, QPointF.add,
    QPointF.divScalar]
  norm_num

/-! ## Claims about the mouse handlers -/

section ReleaseClaims

variable {α : Type} [LinearOrderedField α]

/-- C16 (amended): for every editor state and every release of the left button
the state after `mouseReleaseEvent` is Idle; the release of any other button
leaves the editor, and so its state, as it is. -/
theorem C16_left_release_returns_to_idle (e : EditorWindow α) (event : QMouseEvent) :
    (event.button = .LeftButton → (mouseReleaseEvent e event).1.mEditorState = .STATE_IDLE) ∧
    (event.button ≠ .LeftButton → mouseReleaseEvent e event = (e, [])) := by
  constructor
  · intro h
    simp [mouseReleaseEvent, h]
  · intro h
    simp [mouseReleaseEvent, h]

end ReleaseClaims

/-- C16, at a concrete input: the Move state is left on a left release and kept
on a right release. -/
theorem C16_left_release_returns_to_idle_witness :
    (mouseReleaseEvent (moveStateEditor : EditorWindow ℚ) leftRelease).1.mEditorState
      = .STATE_IDLE ∧
    mouseReleaseEvent (moveStateEditor : EditorWindow ℚ) rightRelease = (moveStateEditor, []) :=
  ⟨(C16_left_release_returns_to_idle moveStateEditor leftRelease).1 rfl,
    (C16_left_release_returns_to_idle moveStateEditor rightRelease).2 (by decide)⟩

/-- C16 fails as stated: in the Move state the release of the right button, held
to pan the camera during the drag, leaves the state Move. -/
theorem C16_counterexample :
    (moveStateEditor : EditorWindow ℚ).mEditorState = .STATE_MOVE ∧
    rightRelease.button = .RightButton ∧
    (mouseReleaseEvent (moveStateEditor : EditorWindow ℚ) rightRelease).1.mEditorState
      = .STATE_MOVE ∧
    (mouseReleaseEvent (moveStateEditor : EditorWindow ℚ) rightRelease).1.mEditorState
      ≠ .STATE_IDLE := by
  refine ⟨rfl, rfl, rfl, ?_⟩
  decide

section HandlerClaims

variable {α : Type} [LinearOrderedField α] [FloorRing α]

/-- C17 (amended): a guide-drag gesture is a left press with guides shown that
creates a guide (press on the top or on the left ruler) or grabs a guide that
exists (press off the rulers within the grab distance of it), moves, and a left
release; it ends in the Idle state and leaves the guides of the other
orientation as they were.  If the pointer never moved more than 2 pixels from the
press point (more generally, if no move with the left button down went further),
a created guide is removed again, a guide that existed is kept, and nothing is
reported.  If some move with the left button down went further: when
the release point lies, along the axis the guide moves on, between the ruler and
the far edge of the widget (`RULER_SIZE ≤ y < height` for a horizontal guide,
`RULER_SIZE ≤ x < width` for a vertical one, whatever the other coordinate is),
the guide is kept, with the coordinate the moves gave it, and creation (created
guide) or move (guide that existed) is reported; otherwise the guide is removed,
and deletion is reported exactly when it existed before the press. -/
theorem C17_guide_drag_commits_by_own_axis (m : Libm α)
    (edit : EditorWindow α → QMouseEvent → EditorWindow α) (s : EditorWindow α)
    (press : QMouseEvent) (moves : List QMouseEvent) (release : QMouseEvent)
    (hpress : press.button = .LeftButton) (hrelease : release.button = .LeftButton)
    (hshow : s.showGuides = true) :
    (press.pos.y < RULER_SIZE →
      (gesture m edit s press moves release).1.mEditorState = .STATE_IDLE ∧
      (gesture m edit s press moves release).1.vertGuides = s.vertGuides ∧
      ((∀ mv ∈ moves, mv.leftDown = true → WithinThreshold press.pos mv) →
        (gesture m edit s press moves release).2 = [] ∧
        (gesture m edit s press moves release).1.horzGuides = s.horzGuides) ∧
      ((∃ mv ∈ moves, mv.leftDown = true ∧ ¬ WithinThreshold press.pos mv) →
        (RULER_SIZE ≤ release.pos.y ∧ release.pos.y < s.height →
          (∃ c, (gesture m edit s press moves release).1.horzGuides = s.horzGuides ++ [c]) ∧
          (gesture m edit s press moves release).2 = [.createGuide]) ∧
        (¬ (RULER_SIZE ≤ release.pos.y ∧ release.pos.y < s.height) →
          (gesture m edit s press moves release).1.horzGuides = s.horzGuides ∧
          (gesture m edit s press moves release).2 = []))) ∧
    (¬ press.pos.y < RULER_SIZE → press.pos.x < RULER_SIZE →
      (gesture m edit s press moves release).1.mEditorState = .STATE_IDLE ∧
      (gesture m edit s press moves release).1.horzGuides = s.horzGuides ∧
      ((∀ mv ∈ moves, mv.leftDown = true → WithinThreshold press.pos mv) →
        (gesture m edit s press moves release).2 = [] ∧
        (gesture m edit s press moves release).1.vertGuides = s.vertGuides) ∧
      ((∃ mv ∈ moves, mv.leftDown = true ∧ ¬ WithinThreshold press.pos mv) →
        (RULER_SIZE ≤ release.pos.x ∧ release.pos.x < s.width →
          (∃ c, (gesture m edit s press moves release).1.vertGuides = s.vertGuides ++ [c]) ∧
          (gesture m edit s press moves release).2 = [.createGuide]) ∧
        (¬ (RULER_SIZE ≤ release.pos.x ∧ release.pos.x < s.width) →
          (gesture m edit s press moves release).1.vertGuides = s.vertGuides ∧
          (gesture m edit s press moves release).2 = []))) ∧
    (¬ press.pos.y < RULER_SIZE → ¬ press.pos.x < RULER_SIZE →
      (Scene.findGuide s.horzGuides (windowToWorld s press.pos).y
        ((GUIDE_DISTANCE : α) / s.mZoom)).1 ≠ -1 →
      (gesture m edit s press moves release).1.mEditorState = .STATE_IDLE ∧
      (gesture m edit s press moves release).1.vertGuides = s.vertGuides ∧
      ((∀ mv ∈ moves, mv.leftDown = true → WithinThreshold press.pos mv) →
        (gesture m edit s press moves release).2 = [] ∧
        (gesture m edit s press moves release).1.horzGuides = s.horzGuides) ∧
      ((∃ mv ∈ moves, mv.leftDown = true ∧ ¬ WithinThreshold press.pos mv) →
        (RULER_SIZE ≤ release.pos.y ∧ release.pos.y < s.height →
          (∃ c, (gesture m edit s press moves release).1.horzGuides
            = Scene.setGuide s.horzGuides (Scene.findGuide s.horzGuides
                (windowToWorld s press.pos).y ((GUIDE_DISTANCE : α) / s.mZoom)).1 c) ∧
          (gesture m edit s press moves release).2 = [.moveGuide]) ∧
        (¬ (RULER_SIZE ≤ release.pos.y ∧ release.pos.y < s.height) →
          (gesture m edit s press moves release).1.horzGuides
            = Scene.removeGuide s.horzGuides (Scene.findGuide s.horzGuides
                (windowToWorld s press.pos).y ((GUIDE_DISTANCE : α) / s.mZoom)).1 ∧
          (gesture m edit s press moves release).2 = [.deleteGuide]))) ∧
    (¬ press.pos.y < RULER_SIZE → ¬ press.pos.x < RULER_SIZE →
      (Scene.findGuide s.horzGuides (windowToWorld s press.pos).y
        ((GUIDE_DISTANCE : α) / s.mZoom)).1 = -1 →
      (Scene.findGuide s.vertGuides (windowToWorld s press.pos).x
        ((GUIDE_DISTANCE : α) / s.mZoom)).1 ≠ -1 →
      (gesture m edit s press moves release).1.mEditorState = .STATE_IDLE ∧
      (gesture m edit s press moves release).1.horzGuides = s.horzGuides ∧
      ((∀ mv ∈ moves, mv.leftDown = true → WithinThreshold press.pos mv) →
        (gesture m edit s press moves release).2 = [] ∧
        (gesture m edit s press moves release).1.vertGuides = s.vertGuides) ∧
      ((∃ mv ∈ moves, mv.leftDown = true ∧ ¬ WithinThreshold press.pos mv) →
        (RULER_SIZE ≤ release.pos.x ∧ release.pos.x < s.width →
          (∃ c, (gesture m edit s press moves release).1.vertGuides
            = Scene.setGuide s.vertGuides (Scene.findGuide s.vertGuides
                (windowToWorld s press.pos).x ((GUIDE_DISTANCE : α) / s.mZoom)).1 c) ∧
          (gesture m edit s press moves release).2 = [.moveGuide]) ∧
        (¬ (RULER_SIZE ≤ release.pos.x ∧ release.pos.x < s.width) →
          (gesture m edit s press moves release).1.vertGuides
            = Scene.removeGuide s.vertGuides (Scene.findGuide s.vertGuides
                (windowToWorld s press.pos).x ((GUIDE_DISTANCE : α) / s.mZoom)).1 ∧
          (gesture m edit s press moves release).2 = [.deleteGuide]))) := by
  refine ⟨?_, ?_, ?_, ?_⟩
  · intro hy
    obtain ⟨c0, p1, p2, p3, p4, p5, p6, p7⟩ := mousePressEvent_top_ruler m s press hpress hshow hy
    obtain ⟨d1, d2, d3, d4⟩ :=
      guide_drag_horz edit (mousePressEvent m s press) moves release hrelease p1 p2
    rw [p3] at d3 d4
    refine ⟨d1, d2.trans p4, fun hstill => ?_, fun hmoved => ⟨fun hin => ?_, fun hout => ?_⟩⟩
    · obtain ⟨h1, h2⟩ := d3 hstill
      refine ⟨h1, ?_⟩
      unfold gesture
      rw [h2, if_pos (Or.inr hy), p6, p7, removeGuide_addGuide]
    · obtain ⟨⟨c, h1⟩, h2⟩ := (d4 hmoved).1 (by rw [p5]; exact hin)
      refine ⟨⟨c, ?_⟩, ?_⟩
      · unfold gesture
        rw [h1, p6, p7, setGuide_addGuide]
      · unfold gesture
        rw [h2, if_pos hy]
    · obtain ⟨h1, h2⟩ := (d4 hmoved).2 (by rw [p5]; exact hout)
      refine ⟨?_, ?_⟩
      · unfold gesture
        rw [h1, p6, p7, removeGuide_addGuide]
      · unfold gesture
        rw [h2, if_neg (not_le.mpr hy)]
  · intro hy hx
    obtain ⟨c0, p1, p2, p3, p4, p5, p6, p7⟩ :=
      mousePressEvent_left_ruler m s press hpress hshow hy hx
    obtain ⟨d1, d2, d3, d4⟩ :=
      guide_drag_vert edit (mousePressEvent m s press) moves release hrelease p1 p2
    rw [p3] at d3 d4
    refine ⟨d1, d2.trans p4, fun hstill => ?_, fun hmoved => ⟨fun hin => ?_, fun hout => ?_⟩⟩
    · obtain ⟨h1, h2⟩ := d3 hstill
      refine ⟨h1, ?_⟩
      unfold gesture
      rw [h2, if_pos (Or.inl hx), p6, p7, removeGuide_addGuide]
    · obtain ⟨⟨c, h1⟩, h2⟩ := (d4 hmoved).1 (by rw [p5]; exact hin)
      refine ⟨⟨c, ?_⟩, ?_⟩
      · unfold gesture
        rw [h1, p6, p7, setGuide_addGuide]
      · unfold gesture
        rw [h2, if_pos hx]
    · obtain ⟨h1, h2⟩ := (d4 hmoved).2 (by rw [p5]; exact hout)
      refine ⟨?_, ?_⟩
      · unfold gesture
        rw [h1, p6, p7, removeGuide_addGuide]
      · unfold gesture
        rw [h2, if_neg (not_le.mpr hx)]
  · intro hy hx hfound
    obtain ⟨p1, p2, p3, p4, p5, p6, p7⟩ :=
      mousePressEvent_grab_horz m s press hpress hshow hy hx hfound
    obtain ⟨d1, d2, d3, d4⟩ :=
      guide_drag_horz edit (mousePressEvent m s press) moves release hrelease p1 p2
    rw [p3] at d3 d4
    refine ⟨d1, d2.trans p4, fun hstill => ?_, fun hmoved => ⟨fun hin => ?_, fun hout => ?_⟩⟩
    · obtain ⟨h1, h2⟩ := d3 hstill
      refine ⟨h1, ?_⟩
      unfold gesture
      rw [h2, if_neg (by rintro (h | h); exact hx h; exact hy h), p6]
    · obtain ⟨⟨c, h1⟩, h2⟩ := (d4 hmoved).1 (by rw [p5]; exact hin)
      refine ⟨⟨c, ?_⟩, ?_⟩
      · unfold gesture
        rw [h1, p6, p7]
      · unfold gesture
        rw [h2, if_neg hy]
    · obtain ⟨h1, h2⟩ := (d4 hmoved).2 (by rw [p5]; exact hout)
      refine ⟨?_, ?_⟩
      · unfold gesture
        rw [h1, p6, p7]
      · unfold gesture
        rw [h2, if_pos (not_lt.mp hy)]
  · intro hy hx hnone hfound
    obtain ⟨p1, p2, p3, p4, p5, p6, p7⟩ :=
      mousePressEvent_grab_vert m s press hpress hshow hy hx hnone hfound
    obtain ⟨d1, d2, d3, d4⟩ :=
      guide_drag_vert edit (mousePressEvent m s press) moves release hrelease p1 p2
    rw [p3] at d3 d4
    refine ⟨d1, d2.trans p4, fun hstill => ?_, fun hmoved => ⟨fun hin => ?_, fun hout => ?_⟩⟩
    · obtain ⟨h1, h2⟩ := d3 hstill
      refine ⟨h1, ?_⟩
      unfold gesture
      rw [h2, if_neg (by rintro (h | h); exact hx h; exact hy h), p6]
    · obtain ⟨⟨c, h1⟩, h2⟩ := (d4 hmoved).1 (by rw [p5]; exact hin)
      refine ⟨⟨c, ?_⟩, ?_⟩
      · unfold gesture
        rw [h1, p6, p7]
      · unfold gesture
        rw [h2, if_neg hx]
    · obtain ⟨h1, h2⟩ := (d4 hmoved).2 (by rw [p5]; exact hout)
      refine ⟨?_, ?_⟩
      · unfold gesture
        rw [h1, p6, p7]
      · unfold gesture
        rw [h2, if_pos (not_lt.mp hx)]

/-- C18 (amended): for every marquee gesture (left press in the Idle state on
empty canvas, moves, left release) in which the pointer never moves more than 2
pixels from the press point along either axis, the press leaves the selection
empty and the rest of the gesture adds nothing to it: after the gesture the
selection is empty, the state is Idle, nothing is reported, the layer tree and
the guides are as before the press, and the outcome does not depend on the
branches that edit objects. -/
theorem C18_still_marquee_leaves_selection_empty (m : Libm α)
    (edit : EditorWindow α → QMouseEvent → EditorWindow α) (e : EditorWindow α)
    (press : QMouseEvent) (moves : List QMouseEvent) (release : QMouseEvent)
    (hrule : ReachesObjectRule e press)
    (hmiss : e.findGameObjectByPoint (windowToWorld e press.pos) = none)
    (hidle : e.mEditorState = .STATE_IDLE)
    (hstill : ∀ mv ∈ moves, WithinThreshold press.pos mv)
    (hrelease : release.button = .LeftButton) :
    (mousePressEvent m e press).mSelectedObjects = [] ∧
    (gesture m edit e press moves release).1.mSelectedObjects = [] ∧
    (gesture m edit e press moves release).1.mEditorState = .STATE_IDLE ∧
    (gesture m edit e press moves release).2 = [] ∧
    (gesture m edit e press moves release).1.children = e.children ∧
    (gesture m edit e press moves release).1.horzGuides = e.horzGuides ∧
    (gesture m edit e press moves release).1.vertGuides = e.vertGuides ∧
    (∀ edit2 : EditorWindow α → QMouseEvent → EditorWindow α,
      gesture m edit2 e press moves release = gesture m edit e press moves release) :=
  gesture_still_marquee m edit e press moves release hrule hmiss hidle hstill hrelease

end HandlerClaims

/-- The press of `pressOnGuide` finds the guide of `guideIdleEditor`. -/
theorem guideIdleEditor_find :
    (Scene.findGuide (guideIdleEditor : EditorWindow ℝ).horzGuides
      (windowToWorld (guideIdleEditor : EditorWindow ℝ) pressOnGuide.pos).y
      ((GUIDE_DISTANCE : ℝ) / (guideIdleEditor : EditorWindow ℝ).mZoom)).1 = 0 := by
  norm_num [Scene.findGuide, Scene.findGuideAux, guideIdleEditor, windowToWorld, pressOnGuide,
    EditorWindow.init, QPointF.add, QPointF.divScalar, GUIDE_DISTANCE]

/-- C17, at a concrete input: the horizontal guide of `guideIdleEditor` is
grabbed at window point (100, 70), dragged to (900, 90) and released there, to
the right of the 800 x 600 widget; the guide is kept and its move is reported. -/
theorem C17_guide_drag_commits_by_own_axis_witness :
    pressOnGuide.button = .LeftButton ∧ sideReleaseLow.button = .LeftButton ∧
    (guideIdleEditor : EditorWindow ℝ).showGuides = true ∧
    ¬ pressOnGuide.pos.y < RULER_SIZE ∧ ¬ pressOnGuide.pos.x < RULER_SIZE ∧
    (Scene.findGuide (guideIdleEditor : EditorWindow ℝ).horzGuides
      (windowToWorld (guideIdleEditor : EditorWindow ℝ) pressOnGuide.pos).y
      ((GUIDE_DISTANCE : ℝ) / (guideIdleEditor : EditorWindow ℝ).mZoom)).1 ≠ -1 ∧
    (∃ mv ∈ [dragToSide], mv.leftDown = true ∧ ¬ WithinThreshold pressOnGuide.pos mv) ∧
    (RULER_SIZE ≤ sideReleaseLow.pos.y ∧
      sideReleaseLow.pos.y < (guideIdleEditor : EditorWindow ℝ).height) ∧
    ¬ sideReleaseLow.pos.x < (guideIdleEditor : EditorWindow ℝ).width ∧
    (∃ c, (gesture (Libm.real (1 / 10000)) (fun e _ => e) (guideIdleEditor : EditorWindow ℝ)
        pressOnGuide [dragToSide] sideReleaseLow).1.horzGuides
      = Scene.setGuide (guideIdleEditor : EditorWindow ℝ).horzGuides
          (Scene.findGuide (guideIdleEditor : EditorWindow ℝ).horzGuides
            (windowToWorld (guideIdleEditor : EditorWindow ℝ) pressOnGuide.pos).y
            ((GUIDE_DISTANCE : ℝ) / (guideIdleEditor : EditorWindow ℝ).mZoom)).1 c) ∧
    (gesture (Libm.real (1 / 10000)) (fun e _ => e) (guideIdleEditor : EditorWindow ℝ)
      pressOnGuide [dragToSide] sideReleaseLow).2 = [.moveGuide] :=
  have hfound : (Scene.findGuide (guideIdleEditor : EditorWindow ℝ).horzGuides
      (windowToWorld (guideIdleEditor : EditorWindow ℝ) pressOnGuide.pos).y
      ((GUIDE_DISTANCE : ℝ) / (guideIdleEditor : EditorWindow ℝ).mZoom)).1 ≠ -1 := by
    rw [guideIdleEditor_find]; decide
  have hmoved : ∃ mv ∈ [dragToSide], mv.leftDown = true ∧ ¬ WithinThreshold pressOnGuide.pos mv :=
    ⟨dragToSide, List.mem_singleton.mpr rfl, rfl,
      by norm_num [WithinThreshold, pressOnGuide, dragToSide]⟩
  ⟨rfl, rfl, rfl, by decide, by decide, hfound, hmoved, ⟨by decide, by decide⟩, by decide,
    ((C17_guide_drag_commits_by_own_axis (Libm.real (1 / 10000)) (fun e _ => e) guideIdleEditor
      pressOnGuide [dragToSide] sideReleaseLow rfl rfl rfl).2.2.1 (by decide) (by decide)
      hfound).2.2.2 hmoved |>.1 ⟨by decide, by decide⟩⟩

/-- C18, at a concrete input: a click on empty canvas with one move of one pixel. -/
theorem C18_still_marquee_leaves_selection_empty_witness :
    ReachesObjectRule (clickEditor : EditorWindow ℝ) pressOnCanvas ∧
    (clickEditor : EditorWindow ℝ).findGameObjectByPoint
      (windowToWorld (clickEditor : EditorWindow ℝ) pressOnCanvas.pos) = none ∧
    (clickEditor : EditorWindow ℝ).mEditorState = .STATE_IDLE ∧
    (∀ mv ∈ [(⟨⟨501, 401⟩, .NoButton, true, false, false, false⟩ : QMouseEvent)],
      WithinThreshold pressOnCanvas.pos mv) ∧
    releaseOnCanvas.button = .LeftButton ∧
    (gesture (Libm.real (1 / 10000)) (fun s _ => s) (clickEditor : EditorWindow ℝ) pressOnCanvas
      [⟨⟨501, 401⟩, .NoButton, true, false, false, false⟩] releaseOnCanvas).1.mSelectedObjects
      = [] := by
  have hw : ∀ mv ∈ [(⟨⟨501, 401⟩, .NoButton, true, false, false, false⟩ : QMouseEvent)],
      WithinThreshold pressOnCanvas.pos mv := by
    intro mv hmv
    rw [List.mem_singleton] at hmv
    subst hmv
    exact ⟨by decide, by decide⟩
  exact ⟨clickEditor_canvas_rule, clickEditor_misses, rfl, hw, rfl,
    (C18_still_marquee_leaves_selection_empty (Libm.real (1 / 10000)) (fun s _ => s)
      clickEditor pressOnCanvas _ releaseOnCanvas clickEditor_canvas_rule clickEditor_misses
      rfl hw rfl).2.1⟩

/-- C18 fails as stated: `firstObject` is selected before a click on empty
canvas and nothing is selected after it. -/
theorem C18_counterexample :
    (clickEditor : EditorWindow ℝ).mEditorState = .STATE_IDLE ∧
    (clickEditor : EditorWindow ℝ).mSelectedObjects.map (fun o => o.ident) = [1] ∧
    (gesture (Libm.real (1 / 10000)) (fun s _ => s) (clickEditor : EditorWindow ℝ) pressOnCanvas
      [] releaseOnCanvas).1.mSelectedObjects.map (fun o => o.ident) = [] ∧
    (gesture (Libm.real (1 / 10000)) (fun s _ => s) (clickEditor : EditorWindow ℝ) pressOnCanvas
      [] releaseOnCanvas).1.mSelectedObjects.map (fun o => o.ident)
      ≠ (clickEditor : EditorWindow ℝ).mSelectedObjects.map (fun o => o.ident) := by
  have h := (gesture_still_marquee (Libm.real (1 / 10000)) (fun s _ => s)
    (clickEditor : EditorWindow ℝ) pressOnCanvas [] releaseOnCanvas clickEditor_canvas_rule
    clickEditor_misses rfl (by simp) rfl).2.1
  refine ⟨rfl, rfl, ?_, ?_⟩
  · rw [h]; rfl
  · rw [h]
    simp [clickEditor, firstObject]

/-- C19, at a concrete input: a press on the unselected `secondObject` without
Ctrl selects it alone and enters the Move state; with Ctrl it is appended. -/
theorem C19_object_hit_selection_witness :
    ReachesObjectRule (clickEditor : EditorWindow ℝ) pressOnSecond ∧
    (clickEditor : EditorWindow ℝ).findGameObjectByPoint
      (windowToWorld (clickEditor : EditorWindow ℝ) pressOnSecond.pos) = some secondObject ∧
    (clickEditor : EditorWindow ℝ).mEditorState = .STATE_IDLE ∧
    (mousePressEvent (Libm.real (1 / 10000)) (clickEditor : EditorWindow ℝ)
      pressOnSecond).mSelectedObjects.map (fun x => x.ident) = [2] ∧
    (mousePressEvent (Libm.real (1 / 10000)) (clickEditor : EditorWindow ℝ)
      pressOnSecond).mEditorState = .STATE_MOVE := by
  have h := (C19_object_hit_selection (Libm.real (1 / 10000)) (clickEditor : EditorWindow ℝ)
    pressOnSecond secondObject clickEditor_second_rule clickEditor_hits_second rfl).2 rfl
  refine ⟨clickEditor_second_rule, clickEditor_hits_second, rfl, ?_, ?_⟩
  · rw [h.1]
    simp [clickEditor, firstObject, secondObject]
  · rw [h.2.1, h.2.2.2.2]
    · simp [clickEditor, EditorWindow.init]
    · simp [clickEditor, firstObject, secondObject]

/-- C17 fails as stated: the pre-existing horizontal guide of `guideDragEditor`
is released after a drag at window point (900, 70), to the right of the 800
pixel wide widget and so outside the canvas, and it is kept (removing it would
leave no guide) and a move is reported. -/
theorem C17_counterexample :
    (guideDragEditor : EditorWindow ℚ).mEditorState = .STATE_HORZ_GUIDE ∧
    (guideDragEditor : EditorWindow ℚ).mEditEnabled = true ∧
    RULER_SIZE ≤ (guideDragEditor : EditorWindow ℚ).mFirstPos.y ∧
    (guideDragEditor : EditorWindow ℚ).width ≤ sideRelease.pos.x ∧
    (mouseReleaseEvent (guideDragEditor : EditorWindow ℚ) sideRelease).1.horzGuides = [50] ∧
    Scene.removeGuide (guideDragEditor : EditorWindow ℚ).horzGuides
      (guideDragEditor : EditorWindow ℚ).mGuideIndex = [] ∧
    (mouseReleaseEvent (guideDragEditor : EditorWindow ℚ) sideRelease).2 = [.moveGuide] := by
  refine ⟨rfl, rfl, by decide, by decide, ?_, ?_, ?_⟩
  · rfl
  · rfl
  · rfl

/-! ## Claim about deleting objects -/

section DeleteFacts

variable {α : Type} [LinearOrderedField α]

/-- C20: with a non-empty selection of a saved scene, in the Idle state as in
any other, if the lookup `findUsedGameObjects` reports a selected object as used, then
`canDeleteSelectedObjects` answers no and `clear` and `cut` leave the editor and
the scene exactly as they are and emit nothing. -/
theorem C20_delete_refused_when_used (e : EditorWindow α)
    (hsel : e.mSelectedObjects.isEmpty = false) (htitled : e.mUntitled = false)
    (hused : (e.findUsedGameObjects (e.mSelectedObjects.map (fun o => o.ident))).isEmpty = false) :
    canDeleteSelectedObjects e = false ∧ clear e = (e, []) ∧ cut e = (e, []) := by
  have hcan : canDeleteSelectedObjects e = false := by
    simp [canDeleteSelectedObjects, hsel, htitled, hused]
  refine ⟨hcan, ?_, ?_⟩
  · simp [clear, hcan]
  · simp [cut, hcan]

end DeleteFacts

/-- C20, at a concrete input: object 1 is selected and used by the names file. -/
theorem C20_delete_refused_when_used_witness :
    (usedEditor : EditorWindow ℚ).mEditorState = .STATE_IDLE ∧
    (usedEditor : EditorWindow ℚ).mSelectedObjects.isEmpty = false ∧
    (usedEditor : EditorWindow ℚ).mUntitled = false ∧
    ((usedEditor : EditorWindow ℚ).findUsedGameObjects
      ((usedEditor : EditorWindow ℚ).mSelectedObjects.map (fun o => o.ident))).isEmpty = false ∧
    clear (usedEditor : EditorWindow ℚ) = (usedEditor, []) ∧
    cut (usedEditor : EditorWindow ℚ) = (usedEditor, []) :=
  ⟨rfl, rfl, rfl, rfl, (C20_delete_refused_when_used usedEditor rfl rfl rfl).2⟩

/-! ## Facts about child lists -/

section ChildListFacts

/-- The index of an object that follows a list not containing it. -/
theorem indexOfGameObject_mid (A B : List Nat) (o : Nat) (h : o ∉ A) :
    Layer.indexOfGameObject (A ++ o :: B) o = (A.length : Int) := by
  unfold Layer.indexOfGameObject
  rw [if_pos (by simp), List.indexOf_append_of_not_mem h, List.indexOf_cons_self]
  simp

/-- Removing the object that follows `A`. -/
theorem removeGameObject_mid (A B : List Nat) (o : Nat) :
    Layer.removeGameObject (A ++ o :: B) (A.length : Int) = A ++ B := by
  unfold Layer.removeGameObject
  rw [if_pos (by positivity), Int.toNat_ofNat, List.eraseIdx_append_of_length_le (le_refl _)]
  simp

/-- Inserting an object right after `X`. -/
theorem insertGameObject_mid (X Y : List Nat) (o : Nat) :
    Layer.insertGameObject (X ++ Y) (X.length : Int) o = X ++ o :: Y := by
  unfold Layer.insertGameObject
  rw [Int.toNat_ofNat]
  induction X with
  | nil => simp
  | cons x xs ih => simp [List.insertIdx_succ_cons, ih]

/-- An object of a list splits it at its first occurrence. -/
theorem split_at_mem {L : List Nat} {o : Nat} (h : o ∈ L) :
    ∃ A B, L = A ++ o :: B ∧ o ∉ A := by
  induction L with
  | nil => simp at h
  | cons x xs ih =>
    by_cases hx : o = x
    · exact ⟨[], xs, by simp [hx], by simp⟩
    · have hmem : o ∈ xs := by
        rcases List.mem_cons.mp h with h1 | h1
        · exact absurd h1 hx
        · exact h1
      obtain ⟨A, B, hL, hA⟩ := ih hmem
      refine ⟨x :: A, B, by simp [hL], ?_⟩
      simp only [List.mem_cons, not_or]
      exact ⟨hx, hA⟩

/-- A sublist of a list without duplicates splits the list at its head: the
rest of the sublist lies behind the head. -/
theorem split_at_sublist {M : List Nat} {o : Nat} {os : List Nat}
    (h : (o :: os).Sublist M) (hM : M.Nodup) :
    ∃ A B, M = A ++ o :: B ∧ os.Sublist B ∧ o ∉ A := by
  induction M with
  | nil => simp at h
  | cons x xs ih =>
    rw [List.nodup_cons] at hM
    rcases List.sublist_cons_iff.mp h with h1 | ⟨r, hr, hsub⟩
    · obtain ⟨A, B, hL, hs, hA⟩ := ih h1 hM.2
      have hox : o ≠ x := by
        intro hox
        have : o ∈ xs := h1.subset (List.mem_cons_self _ _)
        exact hM.1 (hox ▸ this)
      refine ⟨x :: A, B, by simp [hL], hs, ?_⟩
      simp only [List.mem_cons, not_or]
      exact ⟨hox, hA⟩
    · rw [List.cons.injEq] at hr
      obtain ⟨h1, h2⟩ := hr
      subst h1
      subst h2
      exact ⟨[], xs, rfl, hsub, by simp⟩

end ChildListFacts

/-! ## Facts about the reordering of a single layer -/

section SingleLayerFacts

/-- Bringing the objects `os` of the part `R` of a child list to the front of
`R`: the outcome, and the flag, which is set unless `os` already starts `R`. -/
theorem raise1_front (os : List Nat) :
    ∀ F R : List Nat, (F ++ R).Nodup → os.Nodup → (∀ o ∈ os, o ∈ R) →
      (raise1 (fun _ k => k) os (F.length : Int) (F ++ R)).2
        = F ++ (os ++ R.filter (fun x => decide (x ∉ os))) ∧
      ((raise1 (fun _ k => k) os (F.length : Int) (F ++ R)).1 = true ↔ ¬ os <+: R) := by
  induction os with
  | nil =>
    intro F R _ _ _
    simp [raise1]
  | cons o os ih =>
    intro F R hnd hos hmem
    obtain ⟨A, B, hR, hA⟩ := split_at_mem (hmem o (List.mem_cons_self _ _))
    subst hR
    rw [List.nodup_cons] at hos
    -- facts from the absence of duplicates
    have hnd2 : (F ++ [o] ++ (A ++ B)).Nodup := by
      have hp : (F ++ (A ++ o :: B)).Perm (F ++ [o] ++ (A ++ B)) := by
        rw [List.append_assoc]
        exact List.Perm.append_left F (List.perm_middle)
      exact hp.nodup_iff.mp hnd
    have hRnd : (A ++ o :: B).Nodup := (List.nodup_append.mp hnd).2.1
    have hoB : o ∉ B := by
      have := (List.nodup_append.mp hRnd).2.1
      exact (List.nodup_cons.mp this).1
    have hoF : o ∉ F := by
      intro h
      exact (List.nodup_append.mp hnd).2.2 h (by simp)
    have hmem2 : ∀ x ∈ os, x ∈ A ++ B := by
      intro x hx
      have h1 := hmem x (List.mem_cons_of_mem _ hx)
      have hxo : x ≠ o := fun h => hos.1 (h ▸ hx)
      simp only [List.mem_append, List.mem_cons] at h1 ⊢
      rcases h1 with h1 | h1 | h1
      · exact Or.inl h1
      · exact absurd h1 hxo
      · exact Or.inr h1
    have hidx : Layer.indexOfGameObject (F ++ (A ++ o :: B)) o = ((F ++ A).length : Int) := by
      rw [← List.append_assoc]
      exact indexOfGameObject_mid (F ++ A) B o (by simp [hoF, hA])
    obtain ⟨ih1, ih2⟩ := ih (F ++ [o]) (A ++ B) hnd2 hos.2 hmem2
    have hlen : ((F ++ [o]).length : Int) = (F.length : Int) + 1 := by simp
    rw [hlen] at ih1 ih2
    -- the filter of the rest
    have hfil : (A ++ o :: B).filter (fun x => decide (x ∉ o :: os))
        = (A ++ B).filter (fun x => decide (x ∉ os)) := by
      have hf : ∀ l : List Nat, o ∉ l →
          l.filter (fun x => decide (x ∉ o :: os)) = l.filter (fun x => decide (x ∉ os)) := by
        intro l hl
        apply List.filter_congr
        intro x hx
        have hxo : x ≠ o := fun h => hl (h ▸ hx)
        simp [hxo]
      rw [List.filter_append, List.filter_cons, List.filter_append, hf A hA, hf B hoB]
      simp
    unfold raise1
    rw [hidx]
    by_cases hAe : A = []
    · subst hAe
      have hno : ¬ (((F ++ []).length : Int) > (F.length : Int)) := by simp
      rw [if_neg hno]
      have hL : F ++ ([] ++ o :: B) = F ++ [o] ++ ([] ++ B) := by simp
      rw [hL, ih1, hfil]
      refine ⟨by simp, ?_⟩
      rw [ih2]
      simp [List.cons_prefix_cons]
    · have hyes : ((F ++ A).length : Int) > (F.length : Int) := by
        have : 0 < A.length := List.length_pos.mpr hAe
        simp only [List.length_append, Nat.cast_add]
        omega
      rw [if_pos hyes]
      have hrem : Layer.removeGameObject (F ++ (A ++ o :: B)) ((F ++ A).length : Int)
          = F ++ (A ++ B) := by
        rw [← List.append_assoc, removeGameObject_mid, List.append_assoc]
      rw [hrem, insertGameObject_mid F (A ++ B) o]
      have hL : F ++ o :: (A ++ B) = F ++ [o] ++ (A ++ B) := by simp
      rw [hL, ih1, hfil]
      refine ⟨by simp, ?_⟩
      simp only [true_iff]
      intro hpre
      obtain ⟨a, A', hA'⟩ := List.exists_cons_of_ne_nil hAe
      subst hA'
      rw [List.cons_append, List.cons_prefix_cons] at hpre
      exact hA (hpre.1 ▸ List.mem_cons_self _ _)

end SingleLayerFacts

section SingleLayerBackFacts

/-- Sending the objects `os` of the part `R` of a child list to the back of `R`:
the outcome, and the flag, which is set unless `os` already ends `R` (in reverse
order, as the loop runs from the last object to the first). -/
theorem lower1_back (os : List Nat) :
    ∀ R F : List Nat, (R ++ F).Nodup → os.Nodup → (∀ o ∈ os, o ∈ R) →
      (lower1 (fun _ b => b) os (F.length : Int) (R ++ F)).2
        = R.filter (fun x => decide (x ∉ os)) ++ (os.reverse ++ F) ∧
      ((lower1 (fun _ b => b) os (F.length : Int) (R ++ F)).1 = true ↔ ¬ os <+: R.reverse) := by
  induction os with
  | nil =>
    intro R F _ _ _
    simp [lower1]
  | cons o os ih =>
    intro R F hnd hos hmem
    obtain ⟨A, B, hR, hA⟩ := split_at_mem (hmem o (List.mem_cons_self _ _))
    subst hR
    rw [List.nodup_cons] at hos
    have hnd2 : ((A ++ B) ++ (o :: F)).Nodup := by
      have hp : ((A ++ o :: B) ++ F).Perm ((A ++ B) ++ (o :: F)) := by
        have h1 : ((A ++ o :: B) ++ F).Perm (o :: ((A ++ B) ++ F)) := by
          rw [List.append_assoc, List.cons_append, List.append_assoc]
          exact List.perm_middle
        exact h1.trans (List.perm_middle).symm
      exact hp.nodup_iff.mp hnd
    have hRnd : (A ++ o :: B).Nodup := (List.nodup_append.mp hnd).1
    have hoB : o ∉ B := by
      have := (List.nodup_append.mp hRnd).2.1
      exact (List.nodup_cons.mp this).1
    have hmem2 : ∀ x ∈ os, x ∈ A ++ B := by
      intro x hx
      have h1 := hmem x (List.mem_cons_of_mem _ hx)
      have hxo : x ≠ o := fun h => hos.1 (h ▸ hx)
      simp only [List.mem_append, List.mem_cons] at h1 ⊢
      rcases h1 with h1 | h1 | h1
      · exact Or.inl h1
      · exact absurd h1 hxo
      · exact Or.inr h1
    have hidx : Layer.indexOfGameObject ((A ++ o :: B) ++ F) o = (A.length : Int) := by
      rw [List.append_assoc, List.cons_append]
      exact indexOfGameObject_mid A (B ++ F) o hA
    have hnum : Layer.getNumGameObjects ((A ++ o :: B) ++ F) - 1 - (F.length : Int)
        = ((A ++ B).length : Int) := by
      unfold Layer.getNumGameObjects
      simp only [List.length_append, List.length_cons, Nat.cast_add, Nat.cast_one]
      ring
    obtain ⟨ih1, ih2⟩ := ih (A ++ B) (o :: F) hnd2 hos.2 hmem2
    have hlen : ((o :: F).length : Int) = (F.length : Int) + 1 := by simp
    rw [hlen] at ih1 ih2
    have hfil : (A ++ o :: B).filter (fun x => decide (x ∉ o :: os))
        = (A ++ B).filter (fun x => decide (x ∉ os)) := by
      have hf : ∀ l : List Nat, o ∉ l →
          l.filter (fun x => decide (x ∉ o :: os)) = l.filter (fun x => decide (x ∉ os)) := by
        intro l hl
        apply List.filter_congr
        intro x hx
        have hxo : x ≠ o := fun h => hl (h ▸ hx)
        simp [hxo]
      rw [List.filter_append, List.filter_cons, List.filter_append, hf A hA, hf B hoB]
      simp
    unfold lower1
    rw [hidx, hnum]
    by_cases hBe : B = []
    · subst hBe
      have hno : ¬ ((A.length : Int) < ((A ++ []).length : Int)) := by simp
      rw [if_neg hno]
      have hL : (A ++ [o]) ++ F = (A ++ []) ++ (o :: F) := by simp
      rw [hL, ih1, hfil]
      refine ⟨by simp, ?_⟩
      rw [ih2]
      simp [List.cons_prefix_cons]
    · have hyes : (A.length : Int) < ((A ++ B).length : Int) := by
        have : 0 < B.length := List.length_pos.mpr hBe
        simp only [List.length_append, Nat.cast_add]
        omega
      rw [if_pos hyes]
      have hrem : Layer.removeGameObject ((A ++ o :: B) ++ F) (A.length : Int)
          = (A ++ B) ++ F := by
        rw [List.append_assoc, List.cons_append, removeGameObject_mid, List.append_assoc]
      rw [hrem, insertGameObject_mid (A ++ B) F o, ih1, hfil]
      refine ⟨by simp, ?_⟩
      simp only [true_iff]
      intro hpre
      have hBr : B.reverse ≠ [] := by simpa using hBe
      obtain ⟨b, B', hB'⟩ := List.exists_cons_of_ne_nil hBr
      simp only [List.reverse_append, List.reverse_cons, hB', List.cons_append,
        List.cons_prefix_cons] at hpre
      have hb : b ∈ B.reverse := by rw [hB']; exact List.mem_cons_self _ _
      exact hoB (hpre.1 ▸ (List.mem_reverse.mp hb))

end SingleLayerBackFacts

section SingleLayerStepFacts

/-- A list that is not empty ends with some element. -/
theorem exists_snoc {l : List Nat} (h : l ≠ []) : ∃ Y x, l = Y ++ [x] := by
  have hr : l.reverse ≠ [] := by simpa using h
  obtain ⟨x, Y, hY⟩ := List.exists_cons_of_ne_nil hr
  refine ⟨Y.reverse, x, ?_⟩
  have := congrArg List.reverse hY
  simpa using this

/-- A list is a sublist of the tail of any list it properly ends. -/
theorem sublist_tail_of_suffix {S U : List Nat} (h : U ≠ []) : S.Sublist (U ++ S).tail := by
  obtain ⟨u, U', hU⟩ := List.exists_cons_of_ne_nil h
  subst hU
  simp only [List.cons_append, List.tail_cons]
  exact List.sublist_append_right _ _

/-- Moving up objects that lie behind the head of `Q`, in ascending order,
leaves the part `P` before `Q` in place. -/
theorem raise1_up_prefix (os : List Nat) :
    ∀ (k : Int) (P Q : List Nat), (P ++ Q).Nodup → os.Sublist Q.tail →
      P <+: (raise1 (fun index _ => index - 1) os k (P ++ Q)).2 := by
  induction os with
  | nil =>
    intro k P Q _ _
    simp [raise1]
  | cons o os ih =>
    intro k P Q hnd hsub
    have hQt : Q.tail.Nodup :=
      ((List.nodup_append.mp hnd).2.1).sublist (List.tail_sublist Q)
    obtain ⟨A, B, hsplit, hosB, hoA⟩ := split_at_sublist hsub hQt
    cases Q with
    | nil => simp at hsplit
    | cons q Q' =>
      simp only [List.tail_cons] at hsplit hsub
      subst hsplit
      have hoL : o ∉ P ++ q :: A := by
        intro h
        have h2 : ((P ++ q :: A) ++ o :: B).Nodup := by simpa using hnd
        exact (List.nodup_append.mp h2).2.2 h (List.mem_cons_self _ _)
      have hidx : Layer.indexOfGameObject (P ++ q :: (A ++ o :: B)) o
          = ((P ++ q :: A).length : Int) := by
        have : P ++ q :: (A ++ o :: B) = (P ++ q :: A) ++ o :: B := by simp
        rw [this]
        exact indexOfGameObject_mid _ _ _ hoL
      unfold raise1
      rw [hidx]
      by_cases hc : ((P ++ q :: A).length : Int) > k
      · rw [if_pos hc]
        obtain ⟨Y, x, hYx⟩ := exists_snoc (List.cons_ne_nil q A)
        have hrem : Layer.removeGameObject (P ++ q :: (A ++ o :: B)) ((P ++ q :: A).length : Int)
            = (P ++ Y) ++ (x :: B) := by
          have : P ++ q :: (A ++ o :: B) = (P ++ q :: A) ++ o :: B := by simp
          rw [this, removeGameObject_mid, hYx]
          simp
        have hlen : ((P ++ q :: A).length : Int) - 1 = ((P ++ Y).length : Int) := by
          rw [hYx]
          simp only [List.length_append, List.length_cons, List.length_nil, Nat.cast_add,
            Nat.cast_one]
          ring
        rw [hrem, hlen, insertGameObject_mid]
        have hL : (P ++ Y) ++ o :: x :: B = P ++ (Y ++ o :: x :: B) := by simp
        rw [hL]
        apply ih
        · have hp : (P ++ q :: (A ++ o :: B)).Perm (P ++ (Y ++ o :: x :: B)) := by
            apply List.Perm.append_left
            have : q :: (A ++ o :: B) = (Y ++ [x]) ++ o :: B := by rw [← hYx]; simp
            rw [this]
            have h1 : ((Y ++ [x]) ++ o :: B).Perm (Y ++ (x :: o :: B)) := by simp
            refine h1.trans ?_
            exact List.Perm.append_left Y (List.Perm.swap o x B)
          exact hp.nodup_iff.mp hnd
        · have h2 : Y ++ o :: x :: B = (Y ++ [o, x]) ++ B := by simp
          rw [h2]
          exact hosB.trans (sublist_tail_of_suffix (by simp))
      · rw [if_neg hc]
        apply ih
        · exact hnd
        · simp only [List.tail_cons]
          exact (List.sublist_cons_self o os).trans hsub

/-- In a single layer, if `moveUp` sets its flag for objects listed in ascending
child index, then the child order changes. -/
theorem raise1_up_changed (os : List Nat) :
    ∀ (k : Int) (L : List Nat), 0 ≤ k → L.Nodup → os.Sublist L →
      (raise1 (fun index _ => index - 1) os k L).1 = true →
      (raise1 (fun index _ => index - 1) os k L).2 ≠ L := by
  induction os with
  | nil =>
    intro k L _ _ _ h
    simp [raise1] at h
  | cons o os ih =>
    intro k L hk hnd hsub
    obtain ⟨A, B, hsplit, hosB, hoA⟩ := split_at_sublist hsub hnd
    subst hsplit
    have hidx := indexOfGameObject_mid A B o hoA
    unfold raise1
    rw [hidx]
    by_cases hc : (A.length : Int) > k
    · rw [if_pos hc]
      intro _
      have hAne : A ≠ [] := by
        intro h
        subst h
        simp at hc
        omega
      obtain ⟨X, x, hXx⟩ := exists_snoc hAne
      subst hXx
      have hrem : Layer.removeGameObject ((X ++ [x]) ++ o :: B) ((X ++ [x]).length : Int)
          = X ++ (x :: B) := by
        rw [removeGameObject_mid]
        simp
      have hlen : ((X ++ [x]).length : Int) - 1 = (X.length : Int) := by simp
      rw [hrem, hlen, insertGameObject_mid]
      have hL : X ++ o :: x :: B = (X ++ [o]) ++ (x :: B) := by simp
      have hnd2 : ((X ++ [o]) ++ (x :: B)).Nodup := by
        have hp : ((X ++ [x]) ++ o :: B).Perm ((X ++ [o]) ++ (x :: B)) := by
          have h1 : ((X ++ [x]) ++ o :: B).Perm (X ++ (x :: o :: B)) := by simp
          have h2 : ((X ++ [o]) ++ (x :: B)).Perm (X ++ (o :: x :: B)) := by simp
          exact h1.trans ((List.Perm.append_left X (List.Perm.swap o x B)).trans h2.symm)
        exact hp.nodup_iff.mp hnd
      have hpre := raise1_up_prefix os (k + 1) (X ++ [o]) (x :: B) hnd2 (by simpa using hosB)
      rw [hL]
      intro heq
      rw [heq] at hpre
      rw [List.append_assoc, List.prefix_append_right_inj] at hpre
      simp only [List.singleton_append, List.cons_prefix_cons] at hpre
      have hx : x ∈ X ++ [x] := by simp
      exact hoA (hpre.1 ▸ hx)
    · rw [if_neg hc]
      exact ih (k + 1) _ (by omega) hnd ((List.sublist_cons_self o os).trans hsub)

end SingleLayerStepFacts

section SingleLayerDownFacts

/-- Moving down objects that lie before the last element of `P`, in descending
order, leaves the part `Q` behind `P` in place. -/
theorem lower1_down_suffix (os : List Nat) :
    ∀ (k : Int) (P Q : List Nat), (P ++ Q).Nodup → os.Sublist P.reverse.tail →
      Q <:+ (lower1 (fun index _ => index + 1) os k (P ++ Q)).2 := by
  induction os with
  | nil =>
    intro k P Q _ _
    simp [lower1]
  | cons o os ih =>
    intro k P Q hnd hsub
    have hPnd : P.Nodup := (List.nodup_append.mp hnd).1
    have hrt : P.reverse.tail.Nodup :=
      (List.nodup_reverse.mpr hPnd).sublist (List.tail_sublist _)
    obtain ⟨A', B', hsplit, hosB, -⟩ := split_at_sublist hsub hrt
    -- the shape of `P`
    have hP : ∃ q, P = B'.reverse ++ o :: (A'.reverse ++ [q]) := by
      cases hr : P.reverse with
      | nil => rw [hr] at hsplit; simp at hsplit
      | cons q T =>
        rw [hr, List.tail_cons] at hsplit
        refine ⟨q, ?_⟩
        have := congrArg List.reverse hr
        rw [List.reverse_reverse, hsplit] at this
        rw [this]
        simp
    obtain ⟨q, hPq⟩ := hP
    obtain ⟨y, Z, hyZ⟩ := List.exists_cons_of_ne_nil
      (show A'.reverse ++ [q] ≠ [] by simp)
    rw [hyZ] at hPq
    subst hPq
    have hoA : o ∉ B'.reverse := by
      intro h
      have h2 : (B'.reverse ++ o :: (y :: Z)).Nodup := hPnd
      exact (List.nodup_append.mp h2).2.2 h (List.mem_cons_self _ _)
    have hidx : Layer.indexOfGameObject ((B'.reverse ++ o :: (y :: Z)) ++ Q) o
        = (B'.reverse.length : Int) := by
      have : (B'.reverse ++ o :: (y :: Z)) ++ Q = B'.reverse ++ o :: (y :: Z ++ Q) := by simp
      rw [this]
      exact indexOfGameObject_mid _ _ _ hoA
    unfold lower1
    rw [hidx]
    by_cases hc : (B'.reverse.length : Int)
        < Layer.getNumGameObjects ((B'.reverse ++ o :: (y :: Z)) ++ Q) - 1 - k
    · rw [if_pos hc]
      have hrem : Layer.removeGameObject ((B'.reverse ++ o :: (y :: Z)) ++ Q)
          (B'.reverse.length : Int) = (B'.reverse ++ [y]) ++ (Z ++ Q) := by
        have : (B'.reverse ++ o :: (y :: Z)) ++ Q = B'.reverse ++ o :: (y :: Z ++ Q) := by simp
        rw [this, removeGameObject_mid]
        simp
      have hlen : (B'.reverse.length : Int) + 1 = ((B'.reverse ++ [y]).length : Int) := by
        simp
      rw [hrem, hlen, insertGameObject_mid]
      have hL : (B'.reverse ++ [y]) ++ o :: (Z ++ Q) = (B'.reverse ++ y :: o :: Z) ++ Q := by simp
      rw [hL]
      apply ih
      · have hp : ((B'.reverse ++ o :: (y :: Z)) ++ Q).Perm ((B'.reverse ++ y :: o :: Z) ++ Q) :=
          List.Perm.append_right Q (List.Perm.append_left _ (List.Perm.swap y o Z))
        exact hp.nodup_iff.mp hnd
      · have h2 : (B'.reverse ++ y :: o :: Z).reverse = (Z.reverse ++ [o, y]) ++ B' := by simp
        rw [h2]
        exact hosB.trans (sublist_tail_of_suffix (by simp))
    · rw [if_neg hc]
      apply ih
      · exact hnd
      · exact (List.sublist_cons_self o os).trans hsub

/-- In a single layer, if `moveDown` sets its flag for objects listed in
descending child index, then the child order changes. -/
theorem lower1_down_changed (os : List Nat) :
    ∀ (k : Int) (L : List Nat), 0 ≤ k → L.Nodup → os.Sublist L.reverse →
      (lower1 (fun index _ => index + 1) os k L).1 = true →
      (lower1 (fun index _ => index + 1) os k L).2 ≠ L := by
  induction os with
  | nil =>
    intro k L _ _ _ h
    simp [lower1] at h
  | cons o os ih =>
    intro k L hk hnd hsub
    obtain ⟨A', B', hsplit, hosB, -⟩ := split_at_sublist hsub (List.nodup_reverse.mpr hnd)
    have hL : L = B'.reverse ++ o :: A'.reverse := by
      have := congrArg List.reverse hsplit
      rw [List.reverse_reverse] at this
      rw [this]
      simp
    subst hL
    have hoA : o ∉ B'.reverse := by
      intro h
      exact (List.nodup_append.mp hnd).2.2 h (List.mem_cons_self _ _)
    have hidx := indexOfGameObject_mid B'.reverse A'.reverse o hoA
    unfold lower1
    rw [hidx]
    by_cases hc : (B'.reverse.length : Int)
        < Layer.getNumGameObjects (B'.reverse ++ o :: A'.reverse) - 1 - k
    · rw [if_pos hc]
      intro _
      have hCne : A'.reverse ≠ [] := by
        intro h
        rw [h] at hc
        unfold Layer.getNumGameObjects at hc
        simp only [List.length_append, List.length_cons, List.length_nil, Nat.cast_add,
          Nat.cast_one] at hc
        omega
      obtain ⟨y, Z, hyZ⟩ := List.exists_cons_of_ne_nil hCne
      rw [hyZ] at hnd hidx ⊢
      have hrem : Layer.removeGameObject (B'.reverse ++ o :: (y :: Z)) (B'.reverse.length : Int)
          = (B'.reverse ++ [y]) ++ Z := by
        rw [removeGameObject_mid]
        simp
      have hlen : (B'.reverse.length : Int) + 1 = ((B'.reverse ++ [y]).length : Int) := by
        simp
      rw [hrem, hlen, insertGameObject_mid]
      have hnd2 : ((B'.reverse ++ [y]) ++ (o :: Z)).Nodup := by
        have hp : (B'.reverse ++ o :: (y :: Z)).Perm ((B'.reverse ++ [y]) ++ (o :: Z)) := by
          have h2 : ((B'.reverse ++ [y]) ++ (o :: Z)) = B'.reverse ++ (y :: o :: Z) := by simp
          rw [h2]
          exact List.Perm.append_left _ (List.Perm.swap y o Z)
        exact hp.nodup_iff.mp hnd
      have hsuf := lower1_down_suffix os (k + 1) (B'.reverse ++ [y]) (o :: Z) hnd2
        (by simpa using hosB)
      intro heq
      rw [heq] at hsuf
      have hsuf2 : (y :: Z) <:+ B'.reverse ++ o :: (y :: Z) :=
        ⟨B'.reverse ++ [o], by simp⟩
      have h3 := List.suffix_of_suffix_length_le hsuf hsuf2 (by simp)
      have h4 := h3.eq_of_length (by simp)
      rw [List.cons.injEq] at h4
      have hoy : o ≠ y := by
        intro h
        have h5 : (o :: (y :: Z)).Nodup := (List.nodup_append.mp hnd).2.1
        exact (List.nodup_cons.mp h5).1 (h ▸ List.mem_cons_self _ _)
      exact hoy h4.1
    · rw [if_neg hc]
      exact ih (k + 1) _ (by omega) hnd ((List.sublist_cons_self o os).trans hsub)

end SingleLayerDownFacts

/-! ## Facts about the reordering loops -/

section LoopFacts

/-- Without the flag the single-layer raise loop leaves the child list as it is. -/
theorem raise1_unmoved (target : Int → Int → Int) (os : List Nat) :
    ∀ (k : Int) (L : List Nat), (raise1 target os k L).1 = false → (raise1 target os k L).2 = L := by
  induction os with
  | nil => intro k L _; rfl
  | cons o os ih =>
    intro k L h
    unfold raise1 at h ⊢
    split_ifs at h ⊢ with hc
    exact ih _ _ h

/-- Without the flag the single-layer lower loop leaves the child list as it is. -/
theorem lower1_unmoved (target : Int → Int → Int) (os : List Nat) :
    ∀ (k : Int) (L : List Nat), (lower1 target os k L).1 = false → (lower1 target os k L).2 = L := by
  induction os with
  | nil => intro k L _; rfl
  | cons o os ih =>
    intro k L h
    unfold lower1 at h ⊢
    split_ifs at h ⊢ with hc
    exact ih _ _ h

/-- The tail of a list that is listed parent by parent is listed so as well. -/
theorem Contiguous.tail {par : Nat → Nat} {o : Nat} {rest : List Nat}
    (h : Contiguous par (o :: rest)) : Contiguous par rest := by
  intro l1 a l2 b l3 hl hab y hy
  exact h (o :: l1) a l2 b l3 (by rw [hl]; rfl) hab y hy

/-- In a list that is listed parent by parent, the objects of the parent of the
head that follow the head directly follow it. -/
theorem Contiguous.run {par : Nat → Nat} {o : Nat} {rest : List Nat}
    (h : Contiguous par (o :: rest)) :
    ∀ l2 b l3, rest = l2 ++ b :: l3 → par b = par o → ∀ y ∈ l2, par y = par o := by
  intro l2 b l3 hl hb y hy
  exact h [] o l2 b l3 (by rw [hl]; rfl) hb.symm y hy

/-- If the objects of parent `q` in `o :: rest` all come first and `o` has
another parent, then `rest` has no object of parent `q`. -/
theorem filter_nil_of_run {par : Nat → Nat} {o q : Nat} {rest : List Nat}
    (h : ∀ l2 b l3, o :: rest = l2 ++ b :: l3 → par b = q → ∀ y ∈ l2, par y = q)
    (hne : par o ≠ q) : rest.filter (fun x => decide (par x = q)) = [] := by
  rw [List.filter_eq_nil_iff]
  intro b hb hpb
  simp only [decide_eq_true_eq] at hpb
  obtain ⟨l2, l3, hl⟩ := List.append_of_mem hb
  exact hne (h (o :: l2) b l3 (by rw [hl]; rfl) hpb o (List.mem_cons_self _ _))

/-- The loop of `bringToFront` and `moveUp` over a selection listed parent by
parent works layer by layer: the child list of a layer is the outcome of the
single-layer loop on the selected objects of that layer, and the flag is set
exactly when the single-layer loop of some layer sets it. -/
theorem raiseLoop_layers (par : Nat → Nat) (target : Int → Int → Int) (sel : List Nat) :
    ∀ (i : Int) (parent : Option Nat) (first : Int) (moved : Bool) (ch : Nat → List Nat),
      Contiguous par sel →
      (∀ q, parent = some q →
        ∀ l2 b l3, sel = l2 ++ b :: l3 → par b = q → ∀ y ∈ l2, par y = q) →
      (∀ p, (raiseLoop par target sel i parent first moved ch).2 p
        = (raise1 target (sel.filter (fun o => decide (par o = p)))
            (if parent = some p then i - first else 0) (ch p)).2) ∧
      ((raiseLoop par target sel i parent first moved ch).1 = true ↔
        moved = true ∨ ∃ p, (raise1 target (sel.filter (fun o => decide (par o = p)))
            (if parent = some p then i - first else 0) (ch p)).1 = true) := by
  induction sel with
  | nil =>
    intro i parent first moved ch _ _
    simp [raiseLoop, raise1]
  | cons o rest ih =>
    intro i parent first moved ch hcont hrun
    -- the counter of the layer of `o`
    have hk : i - (if parent ≠ some (par o) then i else first)
        = (if parent = some (par o) then i - first else 0) := by
      by_cases hp : parent = some (par o)
      · simp [hp]
      · simp [hp]
    have hfo : (o :: rest).filter (fun x => decide (par x = par o))
        = o :: rest.filter (fun x => decide (par x = par o)) := by
      simp
    have hfp : ∀ p, p ≠ par o → (o :: rest).filter (fun x => decide (par x = p))
        = rest.filter (fun x => decide (par x = p)) := by
      intro p hp
      simp [Ne.symm hp]
    -- layers other than the layer of `o`: the counter does not matter
    have hother : ∀ (p : Nat) (L : List Nat), p ≠ par o →
        raise1 target (rest.filter (fun x => decide (par x = p)))
          (if parent = some p then i - first else 0) L
        = raise1 target (rest.filter (fun x => decide (par x = p)))
          (if some (par o) = some p then i + 1 - (if parent ≠ some (par o) then i else first)
            else 0) L := by
      intro p L hp
      have h1 : ¬ some (par o) = some p := by
        intro h
        exact hp (Option.some.inj h).symm
      rw [if_neg h1]
      by_cases hq : parent = some p
      · rw [filter_nil_of_run (hrun p hq) (Ne.symm hp)]
        rfl
      · rw [if_neg hq]
    unfold raiseLoop
    simp only []
    rw [hk]
    by_cases hc : Layer.indexOfGameObject (ch (par o)) o
        > (if parent = some (par o) then i - first else 0)
    · rw [if_pos hc]
      obtain ⟨ih1, ih2⟩ := ih (i + 1) (some (par o))
        (if parent ≠ some (par o) then i else first) true
        (Function.update ch (par o)
          (Layer.insertGameObject
            (Layer.removeGameObject (ch (par o)) (Layer.indexOfGameObject (ch (par o)) o))
            (target (Layer.indexOfGameObject (ch (par o)) o)
              (if parent = some (par o) then i - first else 0)) o))
        hcont.tail (fun q hq => by
          rw [← Option.some.inj hq]
          exact hcont.run)
      have hcount : i + 1 - (if parent ≠ some (par o) then i else first)
          = (if parent = some (par o) then i - first else 0) + 1 := by
        rw [← hk]; ring
      have hp0 : (raise1 target ((o :: rest).filter (fun x => decide (par x = par o)))
          (if parent = some (par o) then i - first else 0) (ch (par o)))
          = (true, (raise1 target (rest.filter (fun x => decide (par x = par o)))
              ((if parent = some (par o) then i - first else 0) + 1)
              (Layer.insertGameObject
                (Layer.removeGameObject (ch (par o)) (Layer.indexOfGameObject (ch (par o)) o))
                (target (Layer.indexOfGameObject (ch (par o)) o)
                  (if parent = some (par o) then i - first else 0)) o)).2) := by
        rw [hfo]
        conv_lhs => unfold raise1
        rw [if_pos hc]
      constructor
      · intro p
        rw [ih1 p]
        by_cases hp : p = par o
        · subst hp
          rw [hp0, Function.update_same, if_pos rfl, hcount]
        · rw [Function.update_noteq hp, hfp p hp, hother p _ hp]
      · rw [ih2]
        simp only [true_or, true_iff]
        exact Or.inr ⟨par o, by rw [hp0]⟩
    · rw [if_neg hc]
      obtain ⟨ih1, ih2⟩ := ih (i + 1) (some (par o))
        (if parent ≠ some (par o) then i else first) moved ch
        hcont.tail (fun q hq => by
          rw [← Option.some.inj hq]
          exact hcont.run)
      have hcount : i + 1 - (if parent ≠ some (par o) then i else first)
          = (if parent = some (par o) then i - first else 0) + 1 := by
        rw [← hk]; ring
      have hp0 : (raise1 target ((o :: rest).filter (fun x => decide (par x = par o)))
          (if parent = some (par o) then i - first else 0) (ch (par o)))
          = raise1 target (rest.filter (fun x => decide (par x = par o)))
              ((if parent = some (par o) then i - first else 0) + 1) (ch (par o)) := by
        rw [hfo]
        conv_lhs => unfold raise1
        rw [if_neg hc]
      have hall : ∀ p, raise1 target ((o :: rest).filter (fun x => decide (par x = p)))
          (if parent = some p then i - first else 0) (ch p)
          = raise1 target (rest.filter (fun x => decide (par x = p)))
            (if some (par o) = some p then i + 1 - (if parent ≠ some (par o) then i else first)
              else 0) (ch p) := by
        intro p
        by_cases hp : p = par o
        · subst hp
          rw [hp0, if_pos rfl, hcount]
        · rw [hfp p hp, hother p _ hp]
      constructor
      · intro p
        rw [ih1 p, hall p]
      · rw [ih2]
        constructor
        · rintro (h | ⟨p, h⟩)
          · exact Or.inl h
          · exact Or.inr ⟨p, by rw [hall p]; exact h⟩
        · rintro (h | ⟨p, h⟩)
          · exact Or.inl h
          · exact Or.inr ⟨p, by rw [← hall p]; exact h⟩

end LoopFacts

section LowerLoopFacts

/-- The loop of `sendToBack` and `moveDown` over a selection listed parent by
parent works layer by layer, like `raiseLoop`. -/
theorem lowerLoop_layers (par : Nat → Nat) (target : Int → Int → Int) (sel : List Nat) :
    ∀ (i : Int) (parent : Option Nat) (last : Int) (moved : Bool) (ch : Nat → List Nat),
      Contiguous par sel →
      (∀ q, parent = some q →
        ∀ l2 b l3, sel = l2 ++ b :: l3 → par b = q → ∀ y ∈ l2, par y = q) →
      (∀ p, (lowerLoop par target sel i parent last moved ch).2 p
        = (lower1 target (sel.filter (fun o => decide (par o = p)))
            (if parent = some p then last - i else 0) (ch p)).2) ∧
      ((lowerLoop par target sel i parent last moved ch).1 = true ↔
        moved = true ∨ ∃ p, (lower1 target (sel.filter (fun o => decide (par o = p)))
            (if parent = some p then last - i else 0) (ch p)).1 = true) := by
  induction sel with
  | nil =>
    intro i parent last moved ch _ _
    simp [lowerLoop, lower1]
  | cons o rest ih =>
    intro i parent last moved ch hcont hrun
    have hk : (if parent ≠ some (par o) then i else last) - i
        = (if parent = some (par o) then last - i else 0) := by
      by_cases hp : parent = some (par o)
      · simp [hp]
      · simp [hp]
    have hfo : (o :: rest).filter (fun x => decide (par x = par o))
        = o :: rest.filter (fun x => decide (par x = par o)) := by
      simp
    have hfp : ∀ p, p ≠ par o → (o :: rest).filter (fun x => decide (par x = p))
        = rest.filter (fun x => decide (par x = p)) := by
      intro p hp
      simp [Ne.symm hp]
    have hother : ∀ (p : Nat) (L : List Nat), p ≠ par o →
        lower1 target (rest.filter (fun x => decide (par x = p)))
          (if parent = some p then last - i else 0) L
        = lower1 target (rest.filter (fun x => decide (par x = p)))
          (if some (par o) = some p then (if parent ≠ some (par o) then i else last) - (i - 1)
            else 0) L := by
      intro p L hp
      have h1 : ¬ some (par o) = some p := by
        intro h
        exact hp (Option.some.inj h).symm
      rw [if_neg h1]
      by_cases hq : parent = some p
      · rw [filter_nil_of_run (hrun p hq) (Ne.symm hp)]
        rfl
      · rw [if_neg hq]
    have hcount : (if parent ≠ some (par o) then i else last) - (i - 1)
        = (if parent = some (par o) then last - i else 0) + 1 := by
      rw [← hk]; ring
    unfold lowerLoop
    simp only []
    rw [hk]
    by_cases hc : Layer.indexOfGameObject (ch (par o)) o
        < Layer.getNumGameObjects (ch (par o)) - 1
          - (if parent = some (par o) then last - i else 0)
    · rw [if_pos hc]
      obtain ⟨ih1, ih2⟩ := ih (i - 1) (some (par o))
        (if parent ≠ some (par o) then i else last) true
        (Function.update ch (par o)
          (Layer.insertGameObject
            (Layer.removeGameObject (ch (par o)) (Layer.indexOfGameObject (ch (par o)) o))
            (target (Layer.indexOfGameObject (ch (par o)) o)
              (Layer.getNumGameObjects (ch (par o)) - 1
                - (if parent = some (par o) then last - i else 0))) o))
        hcont.tail (fun q hq => by
          rw [← Option.some.inj hq]
          exact hcont.run)
      have hp0 : (lower1 target ((o :: rest).filter (fun x => decide (par x = par o)))
          (if parent = some (par o) then last - i else 0) (ch (par o)))
          = (true, (lower1 target (rest.filter (fun x => decide (par x = par o)))
              ((if parent = some (par o) then last - i else 0) + 1)
              (Layer.insertGameObject
                (Layer.removeGameObject (ch (par o)) (Layer.indexOfGameObject (ch (par o)) o))
                (target (Layer.indexOfGameObject (ch (par o)) o)
                  (Layer.getNumGameObjects (ch (par o)) - 1
                    - (if parent = some (par o) then last - i else 0))) o)).2) := by
        rw [hfo]
        conv_lhs => unfold lower1
        rw [if_pos hc]
      constructor
      · intro p
        rw [ih1 p]
        by_cases hp : p = par o
        · subst hp
          rw [hp0, Function.update_same, if_pos rfl, hcount]
        · rw [Function.update_noteq hp, hfp p hp, hother p _ hp]
      · rw [ih2]
        simp only [true_or, true_iff]
        exact Or.inr ⟨par o, by rw [hp0]⟩
    · rw [if_neg hc]
      obtain ⟨ih1, ih2⟩ := ih (i - 1) (some (par o))
        (if parent ≠ some (par o) then i else last) moved ch
        hcont.tail (fun q hq => by
          rw [← Option.some.inj hq]
          exact hcont.run)
      have hp0 : (lower1 target ((o :: rest).filter (fun x => decide (par x = par o)))
          (if parent = some (par o) then last - i else 0) (ch (par o)))
          = lower1 target (rest.filter (fun x => decide (par x = par o)))
              ((if parent = some (par o) then last - i else 0) + 1) (ch (par o)) := by
        rw [hfo]
        conv_lhs => unfold lower1
        rw [if_neg hc]
      have hall : ∀ p, lower1 target ((o :: rest).filter (fun x => decide (par x = p)))
          (if parent = some p then last - i else 0) (ch p)
          = lower1 target (rest.filter (fun x => decide (par x = p)))
            (if some (par o) = some p then (if parent ≠ some (par o) then i else last) - (i - 1)
              else 0) (ch p) := by
        intro p
        by_cases hp : p = par o
        · subst hp
          rw [hp0, if_pos rfl, hcount]
        · rw [hfp p hp, hother p _ hp]
      constructor
      · intro p
        rw [ih1 p, hall p]
      · rw [ih2]
        constructor
        · rintro (h | ⟨p, h⟩)
          · exact Or.inl h
          · exact Or.inr ⟨p, by rw [hall p]; exact h⟩
        · rintro (h | ⟨p, h⟩)
          · exact Or.inl h
          · exact Or.inr ⟨p, by rw [← hall p]; exact h⟩

/-- A list listed parent by parent is listed so when read backwards. -/
theorem Contiguous.reverse {par : Nat → Nat} {sel : List Nat} (h : Contiguous par sel) :
    Contiguous par sel.reverse := by
  intro l1 a l2 b l3 hl hab y hy
  have h2 : sel = l3.reverse ++ b :: (l2.reverse ++ a :: l1.reverse) := by
    have := congrArg List.reverse hl
    rw [List.reverse_reverse] at this
    rw [this]
    simp
  have := h l3.reverse b l2.reverse a l1.reverse h2 hab.symm y (List.mem_reverse.mpr hy)
  rw [this, hab]

end LowerLoopFacts

section TopLoopFacts

/-- The loop of `bringToFront` and `moveUp`, as the operations start it. -/
theorem raiseLoop_top (par : Nat → Nat) (target : Int → Int → Int) (sel : List Nat)
    (ch : Nat → List Nat) (hcont : Contiguous par sel) :
    (∀ p, (raiseLoop par target sel 0 none 0 false ch).2 p
      = (raise1 target (sel.filter (fun o => decide (par o = p))) 0 (ch p)).2) ∧
    ((raiseLoop par target sel 0 none 0 false ch).1 = true ↔
      ∃ p, (raise1 target (sel.filter (fun o => decide (par o = p))) 0 (ch p)).1 = true) := by
  obtain ⟨h1, h2⟩ := raiseLoop_layers par target sel 0 none 0 false ch hcont
    (fun q hq => by cases hq)
  simp only [if_false, Bool.false_eq_true, false_or] at h1 h2
  exact ⟨h1, h2⟩

/-- The loop of `sendToBack` and `moveDown`, as the operations start it. -/
theorem lowerLoop_top (par : Nat → Nat) (target : Int → Int → Int) (sel : List Nat) (i : Int)
    (ch : Nat → List Nat) (hcont : Contiguous par sel) :
    (∀ p, (lowerLoop par target sel.reverse i none 0 false ch).2 p
      = (lower1 target ((sel.filter (fun o => decide (par o = p))).reverse) 0 (ch p)).2) ∧
    ((lowerLoop par target sel.reverse i none 0 false ch).1 = true ↔
      ∃ p, (lower1 target ((sel.filter (fun o => decide (par o = p))).reverse) 0 (ch p)).1
        = true) := by
  obtain ⟨h1, h2⟩ := lowerLoop_layers par target sel.reverse i none 0 false ch hcont.reverse
    (fun q hq => by cases hq)
  simp only [if_false, Bool.false_eq_true, false_or, List.filter_reverse] at h1 h2
  exact ⟨h1, h2⟩

end TopLoopFacts

section ReorderFacts

variable {α : Type}

/-- What the four operations do in the Idle state with a non-empty selection, in
terms of the loops. -/
theorem reorder_unfold (e : EditorWindow α) (hidle : e.mEditorState = .STATE_IDLE)
    (hsel : e.mSelectedObjects.isEmpty = false) :
    ((bringToFront e).1.children
        = (raiseLoop e.parentLayer (fun _ k => k) (sortedIds e) 0 none 0 false e.children).2 ∧
      ((bringToFront e).2 ≠ [] ↔
        (raiseLoop e.parentLayer (fun _ k => k) (sortedIds e) 0 none 0 false e.children).1
          = true)) ∧
    ((sendToBack e).1.children
        = (lowerLoop e.parentLayer (fun _ k => k) (sortedIds e).reverse
            ((sortedIds e).length - 1) none 0 false e.children).2 ∧
      ((sendToBack e).2 ≠ [] ↔
        (lowerLoop e.parentLayer (fun _ k => k) (sortedIds e).reverse
            ((sortedIds e).length - 1) none 0 false e.children).1 = true)) ∧
    ((moveUp e).1.children
        = (raiseLoop e.parentLayer (fun index _ => index - 1) (sortedIds e) 0 none 0 false
            e.children).2 ∧
      ((moveUp e).2 ≠ [] ↔
        (raiseLoop e.parentLayer (fun index _ => index - 1) (sortedIds e) 0 none 0 false
            e.children).1 = true)) ∧
    ((moveDown e).1.children
        = (lowerLoop e.parentLayer (fun index _ => index + 1) (sortedIds e).reverse
            ((sortedIds e).length - 1) none 0 false e.children).2 ∧
      ((moveDown e).2 ≠ [] ↔
        (lowerLoop e.parentLayer (fun index _ => index + 1) (sortedIds e).reverse
            ((sortedIds e).length - 1) none 0 false e.children).1 = true)) := by
  have hs : sortSelectedGameObjects e =
      { e with
        mSelectedObjects := e.sortGameObjects e.children e.mSelectedObjects
        mOriginalPositions := (e.sortGameObjects e.children e.mSelectedObjects).map
          (fun o => o.position)
        mOriginalSizes := (e.sortGameObjects e.children e.mSelectedObjects).map (fun o => o.size)
        mOriginalAngles := (e.sortGameObjects e.children e.mSelectedObjects).map
          (fun o => o.angle) } := by
    unfold sortSelectedGameObjects
    rw [if_pos hsel]
  have hflag : ∀ (b : Bool) (c : Command), ((if b = true then [c] else []) ≠ []) ↔ b = true := by
    intro b c
    cases b <;> simp
  refine ⟨?_, ?_, ?_, ?_⟩
  · unfold bringToFront
    rw [if_pos ⟨hidle, hsel⟩]
    simp only [hs, hflag]
    exact ⟨rfl, Iff.rfl⟩
  · unfold sendToBack
    rw [if_pos ⟨hidle, hsel⟩]
    simp only [hs, hflag]
    exact ⟨rfl, Iff.rfl⟩
  · unfold moveUp
    rw [if_pos ⟨hidle, hsel⟩]
    simp only [hs, hflag]
    exact ⟨rfl, Iff.rfl⟩
  · unfold moveDown
    rw [if_pos ⟨hidle, hsel⟩]
    simp only [hs, hflag]
    exact ⟨rfl, Iff.rfl⟩

end ReorderFacts

section GroupFacts

/-- Filtering a list without duplicates by membership in one of its sublists
gives that sublist. -/
theorem filter_mem_of_sublist {os L : List Nat} (hsub : os.Sublist L) (hL : L.Nodup) :
    L.filter (fun x => decide (x ∈ os)) = os := by
  have h1 : os.Sublist (L.filter (fun x => decide (x ∈ os))) := by
    have h := hsub.filter (fun x => decide (x ∈ os))
    rwa [List.filter_eq_self.mpr (by simp)] at h
  have h2 : (L.filter (fun x => decide (x ∈ os))).length ≤ os.length := by
    apply List.Subperm.length_le
    apply List.Nodup.subperm (hL.sublist (List.filter_sublist L))
    intro x hx
    simpa using (List.mem_filter.mp hx).2
  exact (h1.eq_of_length_le h2).symm

variable {α : Type}

/-- In a well-formed scene with a depth-sorted selection, the selected objects
of a layer are the children of the layer that are selected, in child order, and
the other children are those not in the group. -/
theorem layerGroup_filter (e : EditorWindow α) (hwf : SceneWellFormed e) (hsort : DepthSorted e)
    (layer : Nat) :
    (e.children layer).filter (fun x => decide (x ∈ selectedIds e)) = layerGroup e layer ∧
    (e.children layer).filter (fun x => decide (x ∉ layerGroup e layer))
      = (e.children layer).filter (fun x => decide (x ∉ selectedIds e)) := by
  obtain ⟨hnd, hpar⟩ := hwf
  obtain ⟨hperm, _, hsub⟩ := hsort
  have hiff : ∀ x ∈ e.children layer, (x ∈ layerGroup e layer ↔ x ∈ selectedIds e) := by
    intro x hx
    unfold layerGroup
    rw [List.mem_filter, hperm.mem_iff]
    simp [hpar layer x hx]
  constructor
  · rw [← filter_mem_of_sublist (hsub layer) (hnd layer)]
    apply List.filter_congr
    intro x hx
    simp [hiff x hx]
  · apply List.filter_congr
    intro x hx
    simp [hiff x hx]

end GroupFacts

section ReorderLayerFacts

variable {α : Type}

/-- After `bringToFront` in the Idle state with a non-empty, depth-sorted
selection every layer lists its selected children first and the other children
behind them, each group in its previous order; the change is reported exactly
when the selected children of some layer did not start its child list. -/
theorem bringToFront_children (e : EditorWindow α) (hidle : e.mEditorState = .STATE_IDLE)
    (hsel : e.mSelectedObjects.isEmpty = false) (hwf : SceneWellFormed e)
    (hsort : DepthSorted e) :
    (∀ layer, (bringToFront e).1.children layer
      = layerGroup e layer ++ (e.children layer).filter (fun x => decide (x ∉ layerGroup e layer))) ∧
    ((bringToFront e).2 ≠ [] ↔ ∃ layer, ¬ layerGroup e layer <+: e.children layer) := by
  obtain ⟨⟨hch, hfl⟩, -, -, -⟩ := reorder_unfold e hidle hsel
  obtain ⟨h1, h2⟩ := raiseLoop_top e.parentLayer (fun _ k => k) (sortedIds e) e.children hsort.2.1
  have hspec : ∀ layer, (raise1 (fun _ k => k) (layerGroup e layer) 0 (e.children layer)).2
        = layerGroup e layer
          ++ (e.children layer).filter (fun x => decide (x ∉ layerGroup e layer)) ∧
      ((raise1 (fun _ k => k) (layerGroup e layer) 0 (e.children layer)).1 = true ↔
        ¬ layerGroup e layer <+: e.children layer) := by
    intro layer
    have h := raise1_front (layerGroup e layer) [] (e.children layer)
      (by simpa using hwf.1 layer) ((hwf.1 layer).sublist (hsort.2.2 layer))
      (fun o ho => (hsort.2.2 layer).subset ho)
    simpa using h
  constructor
  · intro layer
    rw [hch, h1 layer]
    exact (hspec layer).1
  · rw [hfl, h2]
    constructor
    · rintro ⟨p, hp⟩
      exact ⟨p, (hspec p).2.mp hp⟩
    · rintro ⟨p, hp⟩
      exact ⟨p, (hspec p).2.mpr hp⟩

/-- After `sendToBack` in the Idle state with a non-empty, depth-sorted selection
every layer lists its selected children last and the other children before
them, each group in its previous order; the change is reported exactly when the
selected children of some layer did not end its child list. -/
theorem sendToBack_children (e : EditorWindow α) (hidle : e.mEditorState = .STATE_IDLE)
    (hsel : e.mSelectedObjects.isEmpty = false) (hwf : SceneWellFormed e)
    (hsort : DepthSorted e) :
    (∀ layer, (sendToBack e).1.children layer
      = (e.children layer).filter (fun x => decide (x ∉ layerGroup e layer)) ++ layerGroup e layer) ∧
    ((sendToBack e).2 ≠ [] ↔
      ∃ layer, ¬ (layerGroup e layer).reverse <+: (e.children layer).reverse) := by
  obtain ⟨-, ⟨hch, hfl⟩, -, -⟩ := reorder_unfold e hidle hsel
  obtain ⟨h1, h2⟩ := lowerLoop_top e.parentLayer (fun _ k => k) (sortedIds e)
    ((sortedIds e).length - 1) e.children hsort.2.1
  have hspec : ∀ layer,
      (lower1 (fun _ k => k) (layerGroup e layer).reverse 0 (e.children layer)).2
        = (e.children layer).filter (fun x => decide (x ∉ layerGroup e layer))
          ++ layerGroup e layer ∧
      ((lower1 (fun _ k => k) (layerGroup e layer).reverse 0 (e.children layer)).1 = true ↔
        ¬ (layerGroup e layer).reverse <+: (e.children layer).reverse) := by
    intro layer
    have h := lower1_back (layerGroup e layer).reverse (e.children layer) []
      (by simpa using hwf.1 layer)
      (List.nodup_reverse.mpr ((hwf.1 layer).sublist (hsort.2.2 layer)))
      (fun o ho => (hsort.2.2 layer).subset (List.mem_reverse.mp ho))
    simpa using h
  constructor
  · intro layer
    rw [hch, h1 layer]
    exact (hspec layer).1
  · rw [hfl, h2]
    constructor
    · rintro ⟨p, hp⟩
      exact ⟨p, (hspec p).2.mp hp⟩
    · rintro ⟨p, hp⟩
      exact ⟨p, (hspec p).2.mpr hp⟩

end ReorderLayerFacts

section OrderChangeFacts

/-- Selected children that start the child list stay where they are. -/
theorem front_fixed {G L : List Nat} (hL : L.Nodup) (hpre : G <+: L) :
    G ++ L.filter (fun x => decide (x ∉ G)) = L := by
  obtain ⟨T, hT⟩ := hpre
  subst hT
  have hdis := (List.nodup_append.mp hL).2.2
  rw [List.filter_append, List.filter_eq_nil_iff.mpr (by simp),
    List.filter_eq_self.mpr (fun x hx => by
      simp only [decide_eq_true_eq]
      exact fun hg => hdis hg hx)]
  simp

/-- Selected children that end the child list stay where they are. -/
theorem back_fixed {G L : List Nat} (hL : L.Nodup) (hsuf : G <:+ L) :
    L.filter (fun x => decide (x ∉ G)) ++ G = L := by
  obtain ⟨T, hT⟩ := hsuf
  subst hT
  have hdis := (List.nodup_append.mp hL).2.2
  have h1 : T.filter (fun x => decide (x ∉ G)) = T := by
    rw [List.filter_eq_self]
    intro x hx
    simp only [decide_eq_true_eq]
    exact fun hg => hdis hx hg
  have h2 : G.filter (fun x => decide (x ∉ G)) = [] := by
    rw [List.filter_eq_nil_iff]
    intro x hx
    simpa using hx
  rw [List.filter_append, h1, h2, List.append_nil]

variable {α : Type}

/-- Outside the Idle state, or with nothing selected, `bringToFront` does
nothing. -/
theorem bringToFront_idle_only (e : EditorWindow α)
    (h : ¬ (e.mEditorState = .STATE_IDLE ∧ e.mSelectedObjects.isEmpty = false)) :
    bringToFront e = (e, []) := by
  unfold bringToFront
  rw [if_neg h]

/-- The report of `bringToFront` and the change of some child order go together. -/
theorem bringToFront_moved_iff (e : EditorWindow α) (hwf : SceneWellFormed e)
    (hsort : DepthSorted e) :
    (bringToFront e).2 ≠ [] ↔ ∃ layer, (bringToFront e).1.children layer ≠ e.children layer := by
  by_cases hcond : e.mEditorState = .STATE_IDLE ∧ e.mSelectedObjects.isEmpty = false
  · obtain ⟨hch, hfl⟩ := bringToFront_children e hcond.1 hcond.2 hwf hsort
    rw [hfl]
    constructor
    · rintro ⟨p, hp⟩
      exact ⟨p, fun heq => hp ⟨(e.children p).filter (fun x => decide (x ∉ layerGroup e p)), by
        rw [← hch p, heq]⟩⟩
    · rintro ⟨p, hp⟩
      refine ⟨p, fun hpre => hp ?_⟩
      rw [hch p]
      exact front_fixed (hwf.1 p) hpre
  · unfold bringToFront
    rw [if_neg hcond]
    simp

/-- The report of `sendToBack` and the change of some child order go together. -/
theorem sendToBack_moved_iff (e : EditorWindow α) (hwf : SceneWellFormed e)
    (hsort : DepthSorted e) :
    (sendToBack e).2 ≠ [] ↔ ∃ layer, (sendToBack e).1.children layer ≠ e.children layer := by
  by_cases hcond : e.mEditorState = .STATE_IDLE ∧ e.mSelectedObjects.isEmpty = false
  · obtain ⟨hch, hfl⟩ := sendToBack_children e hcond.1 hcond.2 hwf hsort
    rw [hfl]
    constructor
    · rintro ⟨p, hp⟩
      refine ⟨p, fun heq => hp ?_⟩
      rw [List.reverse_prefix]
      exact ⟨(e.children p).filter (fun x => decide (x ∉ layerGroup e p)), by
        rw [← hch p, heq]⟩
    · rintro ⟨p, hp⟩
      refine ⟨p, fun hpre => hp ?_⟩
      rw [hch p]
      exact back_fixed (hwf.1 p) (List.reverse_prefix.mp hpre)
  · unfold sendToBack
    rw [if_neg hcond]
    simp

/-- The report of `moveUp` and the change of some child order go together. -/
theorem moveUp_moved_iff (e : EditorWindow α) (hwf : SceneWellFormed e)
    (hsort : DepthSorted e) :
    (moveUp e).2 ≠ [] ↔ ∃ layer, (moveUp e).1.children layer ≠ e.children layer := by
  by_cases hcond : e.mEditorState = .STATE_IDLE ∧ e.mSelectedObjects.isEmpty = false
  · obtain ⟨-, -, ⟨hch, hfl⟩, -⟩ := reorder_unfold e hcond.1 hcond.2
    obtain ⟨h1, h2⟩ := raiseLoop_top e.parentLayer (fun index _ => index - 1) (sortedIds e)
      e.children hsort.2.1
    rw [hfl, h2, hch]
    constructor
    · rintro ⟨p, hp⟩
      refine ⟨p, ?_⟩
      rw [h1 p]
      exact raise1_up_changed _ 0 _ (le_refl _) (hwf.1 p) (hsort.2.2 p) hp
    · rintro ⟨p, hp⟩
      refine ⟨p, ?_⟩
      rw [h1 p] at hp
      by_contra hflag
      exact hp (raise1_unmoved _ _ _ _ (by simpa using hflag))
  · unfold moveUp
    rw [if_neg hcond]
    simp

/-- The report of `moveDown` and the change of some child order go together. -/
theorem moveDown_moved_iff (e : EditorWindow α) (hwf : SceneWellFormed e)
    (hsort : DepthSorted e) :
    (moveDown e).2 ≠ [] ↔ ∃ layer, (moveDown e).1.children layer ≠ e.children layer := by
  by_cases hcond : e.mEditorState = .STATE_IDLE ∧ e.mSelectedObjects.isEmpty = false
  · obtain ⟨-, -, -, ⟨hch, hfl⟩⟩ := reorder_unfold e hcond.1 hcond.2
    obtain ⟨h1, h2⟩ := lowerLoop_top e.parentLayer (fun index _ => index + 1) (sortedIds e)
      ((sortedIds e).length - 1) e.children hsort.2.1
    rw [hfl, h2, hch]
    constructor
    · rintro ⟨p, hp⟩
      refine ⟨p, ?_⟩
      rw [h1 p]
      exact lower1_down_changed _ 0 _ (le_refl _) (hwf.1 p)
        (List.reverse_sublist.mpr (hsort.2.2 p)) hp
    · rintro ⟨p, hp⟩
      refine ⟨p, ?_⟩
      rw [h1 p] at hp
      by_contra hflag
      exact hp (lower1_unmoved _ _ _ _ (by simpa using hflag))
  · unfold moveDown
    rw [if_neg hcond]
    simp

/-- A second `bringToFront` right after the first finds every group of selected
children at the front of its layer: it reports nothing and changes no child
list. -/
theorem bringToFront_twice (e : EditorWindow α) (hwf : SceneWellFormed e)
    (hsort : DepthSorted e) (hsort2 : DepthSorted (bringToFront e).1) :
    (bringToFront (bringToFront e).1).2 = [] ∧
    (bringToFront (bringToFront e).1).1.children = (bringToFront e).1.children := by
  by_cases hcond : e.mEditorState = .STATE_IDLE ∧ e.mSelectedObjects.isEmpty = false
  · obtain ⟨hch, -⟩ := bringToFront_children e hcond.1 hcond.2 hwf hsort
    -- the editor after the first call
    have hframe : (bringToFront e).1.parentLayer = e.parentLayer ∧
        selectedIds (bringToFront e).1 = sortedIds e := by
      unfold bringToFront
      rw [if_pos hcond]
      unfold sortSelectedGameObjects
      rw [if_pos hcond.2]
      exact ⟨rfl, rfl⟩
    obtain ⟨hpar, hids⟩ := hframe
    have hwf2 : SceneWellFormed (bringToFront e).1 := by
      constructor
      · intro p
        rw [hch p]
        have hperm : (layerGroup e p ++ (e.children p).filter
            (fun x => decide (x ∉ layerGroup e p))).Perm (e.children p) := by
          rw [(layerGroup_filter e hwf hsort p).2, ← (layerGroup_filter e hwf hsort p).1]
          have h := List.filter_append_perm (fun x => decide (x ∈ selectedIds e)) (e.children p)
          have hneg : (e.children p).filter (fun x => decide (x ∉ selectedIds e))
              = (e.children p).filter (fun x => !decide (x ∈ selectedIds e)) := by
            apply List.filter_congr
            intro x _
            simp
          rw [hneg]
          exact h
        exact hperm.nodup_iff.mpr (hwf.1 p)
      · intro p o ho
        rw [hch p] at ho
        rw [hpar]
        rcases List.mem_append.mp ho with h | h
        · exact hwf.2 p o ((hsort.2.2 p).subset h)
        · exact hwf.2 p o (List.mem_filter.mp h).1
    -- every group is already at the front
    have hgroup : ∀ p, layerGroup (bringToFront e).1 p = layerGroup e p := by
      intro p
      rw [← (layerGroup_filter (bringToFront e).1 hwf2 hsort2 p).1, hids, hch p,
        List.filter_append]
      have h1 : (layerGroup e p).filter (fun x => decide (x ∈ sortedIds e)) = layerGroup e p := by
        rw [List.filter_eq_self]
        intro x hx
        simp only [decide_eq_true_eq]
        exact (List.mem_filter.mp hx).1
      have h2 : ((e.children p).filter (fun x => decide (x ∉ layerGroup e p))).filter
          (fun x => decide (x ∈ sortedIds e)) = [] := by
        rw [List.filter_eq_nil_iff]
        intro x hx hmem
        simp only [decide_eq_true_eq] at hmem
        obtain ⟨hxc, hxg⟩ := List.mem_filter.mp hx
        simp only [decide_eq_true_eq] at hxg
        apply hxg
        unfold layerGroup
        rw [List.mem_filter]
        exact ⟨hmem, by simpa using hwf.2 p x hxc⟩
      rw [h1, h2, List.append_nil]
    have hmoved := bringToFront_moved_iff (bringToFront e).1 hwf2 hsort2
    have hnone : (bringToFront (bringToFront e).1).2 = [] := by
      by_cases hcond2 : (bringToFront e).1.mEditorState = .STATE_IDLE ∧
          (bringToFront e).1.mSelectedObjects.isEmpty = false
      · obtain ⟨-, hfl2⟩ := bringToFront_children (bringToFront e).1 hcond2.1 hcond2.2 hwf2 hsort2
        by_contra hne
        obtain ⟨p, hp⟩ := hfl2.mp hne
        apply hp
        rw [hgroup p, hch p]
        exact List.prefix_append _ _
      · rw [bringToFront_idle_only _ hcond2]
    refine ⟨hnone, ?_⟩
    funext p
    by_contra hne
    exact (hmoved.mpr ⟨p, hne⟩) hnone
  · have h1 : bringToFront e = (e, []) := bringToFront_idle_only e hcond
    rw [h1]
    simp only []
    rw [h1]
    exact ⟨rfl, rfl⟩

end OrderChangeFacts

/-! ## Evaluations of the reordering example -/

/-- The scene of `orderEditor` is well formed. -/
theorem orderEditor_wf : SceneWellFormed (orderEditor : EditorWindow ℚ) := by
  constructor
  · intro layer
    by_cases h : layer = 0
    · simp [orderEditor, h]
    · simp [orderEditor, h]
  · intro layer o ho
    by_cases h : layer = 0
    · simp [orderEditor, EditorWindow.init, h]
    · simp [orderEditor, h] at ho

/-- The depth sort of `orderEditor` lists object 2 before object 3. -/
theorem orderEditor_sortedIds : sortedIds (orderEditor : EditorWindow ℚ) = [2, 3] := by
  rfl

/-- The depth sort of `orderEditor` keeps its contract. -/
theorem orderEditor_sorted : DepthSorted (orderEditor : EditorWindow ℚ) := by
  refine ⟨?_, ?_, ?_⟩
  · rw [orderEditor_sortedIds]
    exact List.Perm.swap 3 2 []
  · intro l1 a l2 b l3 _ _ y _
    rfl
  · intro layer
    unfold layerGroup
    rw [orderEditor_sortedIds]
    by_cases h : layer = 0
    · subst h
      have : (orderEditor : EditorWindow ℚ).children 0 = [1, 2, 3] := rfl
      rw [this]
      decide
    · have hp : ∀ o, ¬ (orderEditor : EditorWindow ℚ).parentLayer o = layer := by
        intro o ho
        exact h ho.symm
      simp [hp]

/-- The outcome of `bringToFront` on `orderEditor`. -/
theorem orderEditor_front :
    (bringToFront (orderEditor : EditorWindow ℚ)).2 = [.bringToFront] ∧
    (bringToFront (orderEditor : EditorWindow ℚ)).1.children 0 = [2, 3, 1] ∧
    sortedIds (bringToFront (orderEditor : EditorWindow ℚ)).1 = [2, 3] ∧
    selectedIds (bringToFront (orderEditor : EditorWindow ℚ)).1 = [2, 3] := by
  refine ⟨?_, ?_, ?_, ?_⟩ <;> rfl

/-- The depth sort keeps its contract after `bringToFront` on `orderEditor`. -/
theorem orderEditor_sorted2 :
    DepthSorted (bringToFront (orderEditor : EditorWindow ℚ)).1 := by
  obtain ⟨-, hch, hs, hids⟩ := orderEditor_front
  refine ⟨?_, ?_, ?_⟩
  · rw [hs, hids]
  · intro l1 a l2 b l3 _ _ y _
    rfl
  · intro layer
    unfold layerGroup
    rw [hs]
    by_cases h : layer = 0
    · subst h
      rw [hch]
      decide
    · have hp : ∀ o, ¬ (bringToFront (orderEditor : EditorWindow ℚ)).1.parentLayer o = layer := by
        intro o ho
        exact h ho.symm
      simp [hp]

/-- Behind an object that fails the test, `dropWhile` keeps everything. -/
theorem mem_dropWhile_of_not (p : Nat → Bool) (b : Nat) (l3 : List Nat) :
    ∀ l2 : List Nat, (∃ y ∈ l2, p y = false) → b ∈ (l2 ++ b :: l3).dropWhile p := by
  intro l2
  induction l2 with
  | nil => rintro ⟨y, hy, _⟩; simp at hy
  | cons x l2 ih =>
    rintro ⟨y, hy, hpy⟩
    by_cases hx : p x = true
    · have hy2 : y ∈ l2 := by
        rcases List.mem_cons.mp hy with h | h
        · rw [h, hx] at hpy; cases hpy
        · exact h
      simp only [List.cons_append, List.dropWhile_cons, hx, if_true]
      exact ih ⟨y, hy2, hpy⟩
    · simp [List.dropWhile_cons, hx]

/-- A list that passes the check is listed parent by parent. -/
theorem isContiguous_sound (par : Nat → Nat) (sel : List Nat) :
    isContiguous par sel = true → Contiguous par sel := by
  induction sel with
  | nil =>
    intro _ l1 a l2 b l3 h
    simp at h
  | cons o rest ih =>
    intro hc l1 a l2 b l3 h hab y hy
    simp only [isContiguous, Bool.and_eq_true] at hc
    cases l1 with
    | nil =>
      simp only [List.nil_append, List.cons.injEq] at h
      obtain ⟨rfl, hrest⟩ := h
      by_contra hne
      have hb : b ∈ rest.dropWhile (fun x => par x == par o) := by
        rw [hrest]
        exact mem_dropWhile_of_not _ b l3 l2 ⟨y, hy, by simpa using hne⟩
      have := List.all_eq_true.mp hc.1 b hb
      simp only [bne_iff_ne, ne_eq] at this
      exact this hab.symm
    | cons x l1 =>
      simp only [List.cons_append, List.cons.injEq] at h
      exact ih hc.2 l1 a l2 b l3 h.2 hab y hy

/-- The scene of `twoLayerEditor` is well formed. -/
theorem twoLayerEditor_wf : SceneWellFormed (twoLayerEditor : EditorWindow ℚ) := by
  constructor
  · intro layer
    by_cases h0 : layer = 0
    · simp [twoLayerEditor, h0]
    · by_cases h1 : layer = 1
      · simp [twoLayerEditor, h1]
      · simp [twoLayerEditor, h0, h1]
  · intro layer o ho
    by_cases h0 : layer = 0
    · subst h0
      simp [twoLayerEditor] at ho ⊢
      omega
    · by_cases h1 : layer = 1
      · subst h1
        simp [twoLayerEditor] at ho ⊢
        omega
      · simp [twoLayerEditor, h0, h1] at ho

/-- The depth sort of `twoLayerEditor` lists the objects 2 and 3 of layer 0
before object 5 of layer 1. -/
theorem twoLayerEditor_sortedIds : sortedIds (twoLayerEditor : EditorWindow ℚ) = [2, 3, 5] := by
  rfl

/-- The outcome of `bringToFront` on `twoLayerEditor`. -/
theorem twoLayerEditor_front :
    (bringToFront (twoLayerEditor : EditorWindow ℚ)).2 = [.bringToFront] ∧
    (bringToFront (twoLayerEditor : EditorWindow ℚ)).1.children 0 = [2, 3, 1] ∧
    (bringToFront (twoLayerEditor : EditorWindow ℚ)).1.children 1 = [5, 4] ∧
    sortedIds (bringToFront (twoLayerEditor : EditorWindow ℚ)).1 = [2, 3, 5] ∧
    selectedIds (bringToFront (twoLayerEditor : EditorWindow ℚ)).1 = [2, 3, 5] := by
  refine ⟨?_, ?_, ?_, ?_, ?_⟩ <;> rfl

/-- The contract of the depth sort for an editor whose sorted selection is
2, 3, 5 over the layers of `twoLayerEditor`. -/
theorem twoLayer_sorted (e : EditorWindow ℚ) (hs : sortedIds e = [2, 3, 5])
    (hperm : ([2, 3, 5] : List Nat).Perm (selectedIds e))
    (hpar : e.parentLayer = fun o => if o ≤ 3 then 0 else 1)
    (h0 : ([2, 3] : List Nat).Sublist (e.children 0))
    (h1 : ([5] : List Nat).Sublist (e.children 1)) : DepthSorted e := by
  refine ⟨by rw [hs]; exact hperm, ?_, ?_⟩
  · rw [hs, hpar]
    exact isContiguous_sound _ _ (by decide)
  · intro layer
    unfold layerGroup
    rw [hs, hpar]
    by_cases hl0 : layer = 0
    · subst hl0
      exact h0
    · by_cases hl1 : layer = 1
      · subst hl1
        exact h1
      · have : List.filter (fun o => decide ((if o ≤ 3 then 0 else 1) = layer)) [2, 3, 5] = [] := by
          simp [List.filter, Ne.symm hl0, Ne.symm hl1]
        rw [this]
        exact List.nil_sublist _

/-- The depth sort of `twoLayerEditor` keeps its contract. -/
theorem twoLayerEditor_sorted : DepthSorted (twoLayerEditor : EditorWindow ℚ) :=
  twoLayer_sorted _ twoLayerEditor_sortedIds (by decide) rfl (by decide) (by decide)

/-- The depth sort keeps its contract after `bringToFront` on `twoLayerEditor`. -/
theorem twoLayerEditor_sorted2 :
    DepthSorted (bringToFront (twoLayerEditor : EditorWindow ℚ)).1 :=
  twoLayer_sorted _ twoLayerEditor_front.2.2.2.1
    (by rw [twoLayerEditor_front.2.2.2.2]) rfl
    (by rw [twoLayerEditor_front.2.1]; decide) (by rw [twoLayerEditor_front.2.2.1]; decide)

/-! ## Claims about the depth order -/

section OrderClaims

variable {α : Type}

/-- C13: in a well-formed scene, with the depth sort listing the selected objects
parent by parent in ascending child index at both calls, a second `bringToFront`
right after the first (in the Idle state with a non-empty selection, as in any
other state) reports nothing and leaves every child list as the first call left
it. -/
theorem C13_bring_to_front_twice_is_noop (e : EditorWindow α) (hwf : SceneWellFormed e)
    (hsort : DepthSorted e) (hsort2 : DepthSorted (bringToFront e).1) :
    (bringToFront (bringToFront e).1).2 = [] ∧
    (bringToFront (bringToFront e).1).1.children = (bringToFront e).1.children :=
  bringToFront_twice e hwf hsort hsort2

/-- C14: after `bringToFront` in the Idle state with a non-empty selection, in a
well-formed scene with the depth sort listing the selected objects parent by
parent in ascending child index, every layer lists its selected children first,
in their previous order, followed by its other children in their previous order;
after `sendToBack` it lists the other children first and the selected children
last, each group in its previous order. -/
theorem C14_front_and_back_arrangement (e : EditorWindow α)
    (hidle : e.mEditorState = .STATE_IDLE) (hsel : e.mSelectedObjects.isEmpty = false)
    (hwf : SceneWellFormed e) (hsort : DepthSorted e) :
    (∀ layer, (bringToFront e).1.children layer
      = (e.children layer).filter (fun x => decide (x ∈ selectedIds e))
        ++ (e.children layer).filter (fun x => decide (x ∉ selectedIds e))) ∧
    (∀ layer, (sendToBack e).1.children layer
      = (e.children layer).filter (fun x => decide (x ∉ selectedIds e))
        ++ (e.children layer).filter (fun x => decide (x ∈ selectedIds e))) := by
  constructor
  · intro layer
    rw [(bringToFront_children e hidle hsel hwf hsort).1 layer,
      (layerGroup_filter e hwf hsort layer).2, (layerGroup_filter e hwf hsort layer).1]
  · intro layer
    rw [(sendToBack_children e hidle hsel hwf hsort).1 layer,
      (layerGroup_filter e hwf hsort layer).2, (layerGroup_filter e hwf hsort layer).1]

/-- C15: in a well-formed scene with the depth sort listing the selected objects
parent by parent in ascending child index, each of `bringToFront`, `sendToBack`,
`moveUp` and `moveDown` reports a change (its flag `moved` is set and
`sceneChanged` is emitted) if and only if the child list of some layer after the
call differs from the child list before it. -/
theorem C15_report_iff_order_changed (e : EditorWindow α) (hwf : SceneWellFormed e)
    (hsort : DepthSorted e) :
    ((bringToFront e).2 ≠ [] ↔ ∃ layer, (bringToFront e).1.children layer ≠ e.children layer) ∧
    ((sendToBack e).2 ≠ [] ↔ ∃ layer, (sendToBack e).1.children layer ≠ e.children layer) ∧
    ((moveUp e).2 ≠ [] ↔ ∃ layer, (moveUp e).1.children layer ≠ e.children layer) ∧
    ((moveDown e).2 ≠ [] ↔ ∃ layer, (moveDown e).1.children layer ≠ e.children layer) :=
  ⟨bringToFront_moved_iff e hwf hsort, sendToBack_moved_iff e hwf hsort,
    moveUp_moved_iff e hwf hsort, moveDown_moved_iff e hwf hsort⟩

end OrderClaims

/-- C13, at a concrete input: objects 2 and 3 of layer 0 (children 1, 2, 3) and
object 5 of layer 1 (children 4, 5) are brought to the front twice. -/
theorem C13_bring_to_front_twice_is_noop_witness :
    SceneWellFormed (twoLayerEditor : EditorWindow ℚ) ∧
    DepthSorted (twoLayerEditor : EditorWindow ℚ) ∧
    DepthSorted (bringToFront (twoLayerEditor : EditorWindow ℚ)).1 ∧
    (bringToFront (twoLayerEditor : EditorWindow ℚ)).2 = [.bringToFront] ∧
    (bringToFront (bringToFront (twoLayerEditor : EditorWindow ℚ)).1).2 = [] ∧
    (bringToFront (bringToFront (twoLayerEditor : EditorWindow ℚ)).1).1.children
      = (bringToFront (twoLayerEditor : EditorWindow ℚ)).1.children :=
  ⟨twoLayerEditor_wf, twoLayerEditor_sorted, twoLayerEditor_sorted2, twoLayerEditor_front.1,
    C13_bring_to_front_twice_is_noop twoLayerEditor twoLayerEditor_wf twoLayerEditor_sorted
      twoLayerEditor_sorted2⟩

/-- C14, at a concrete input: the child list 1, 2, 3 with objects 2 and 3
selected becomes 2, 3, 1 by `bringToFront` and stays 1, 2, 3 by `sendToBack`. -/
theorem C14_front_and_back_arrangement_witness :
    (orderEditor : EditorWindow ℚ).mEditorState = .STATE_IDLE ∧
    (orderEditor : EditorWindow ℚ).mSelectedObjects.isEmpty = false ∧
    SceneWellFormed (orderEditor : EditorWindow ℚ) ∧
    DepthSorted (orderEditor : EditorWindow ℚ) ∧
    (bringToFront (orderEditor : EditorWindow ℚ)).1.children 0 = [2, 3, 1] ∧
    (sendToBack (orderEditor : EditorWindow ℚ)).1.children 0 = [1, 2, 3] := by
  have h := C14_front_and_back_arrangement (orderEditor : EditorWindow ℚ) rfl rfl
    orderEditor_wf orderEditor_sorted
  refine ⟨rfl, rfl, orderEditor_wf, orderEditor_sorted, ?_, ?_⟩
  · rw [h.1 0]
    rfl
  · rw [h.2 0]
    rfl

/-- C15, at a concrete input: `bringToFront` on the child list 1, 2, 3 with
objects 2 and 3 selected reports a change, and the child list of layer 0
changes. -/
theorem C15_report_iff_order_changed_witness :
    SceneWellFormed (orderEditor : EditorWindow ℚ) ∧
    DepthSorted (orderEditor : EditorWindow ℚ) ∧
    (bringToFront (orderEditor : EditorWindow ℚ)).2 ≠ [] ∧
    ∃ layer, (bringToFront (orderEditor : EditorWindow ℚ)).1.children layer
      ≠ (orderEditor : EditorWindow ℚ).children layer := by
  have h := (C15_report_iff_order_changed (orderEditor : EditorWindow ℚ) orderEditor_wf
    orderEditor_sorted).1
  have hne : (bringToFront (orderEditor : EditorWindow ℚ)).2 ≠ [] := by
    rw [orderEditor_front.1]
    simp
  exact ⟨orderEditor_wf, orderEditor_sorted, hne, h.mp hne⟩

/-! ## Facts and claims about the camera -/

section CameraFacts

variable {α : Type} [LinearOrderedField α]

/-- The conversion of a window point is `windowToWorld` on its coordinates. -/
theorem windowToWorld_ofPoint (e : EditorWindow α) (pt : QPoint) :
    windowToWorld e pt = windowToWorldF e ⟨(pt.x : α), (pt.y : α)⟩ := rfl

/-- The two coordinate transforms undo each other at a non-zero zoom. -/
theorem camera_inverse (e : EditorWindow α) (hz : e.mZoom ≠ 0) (p q : QPointF α) :
    windowToWorldF e (worldToWindow e p) = p ∧ worldToWindow e (windowToWorldF e q) = q := by
  constructor
  · simp only [windowToWorldF, worldToWindow, QPointF.add, QPointF.divScalar]
    rw [mul_div_assoc, div_self hz, mul_div_assoc, div_self hz]
    simp
  · simp only [windowToWorldF, worldToWindow, QPointF.add, QPointF.divScalar]
    rw [add_sub_cancel_left, add_sub_cancel_left, div_mul_cancel₀ _ hz, div_mul_cancel₀ _ hz]

/-- A zoom within 0.005 of the current one is ignored by `setZoom`. -/
theorem setZoom_near (e : EditorWindow α) (zoom : α) (h : |zoom - e.mZoom| < 5 / 1000) :
    setZoom e zoom = e := by
  unfold setZoom Utils.isEqual
  rw [if_pos (by simpa using h)]

/-- A zoom that differs from the current one by 0.005 or more is stored by
`setZoom`, and the camera moves by the change of half the widget size in world
units. -/
theorem setZoom_far (e : EditorWindow α) (zoom : α) (h : ¬ |zoom - e.mZoom| < 5 / 1000) :
    (setZoom e zoom).mZoom = zoom ∧
    (setZoom e zoom).mCameraPos
      = ⟨e.mCameraPos.x + (e.width : α) / 2 / e.mZoom - (e.width : α) / 2 / zoom,
          e.mCameraPos.y + (e.height : α) / 2 / e.mZoom - (e.height : α) / 2 / zoom⟩ ∧
    (setZoom e zoom).width = e.width ∧ (setZoom e zoom).height = e.height := by
  unfold setZoom Utils.isEqual
  rw [if_neg (by simpa using h)]
  exact ⟨rfl, rfl, rfl, rfl⟩

/-- The zoom after an Alt+wheel event lies between 0.1 and 32. -/
theorem wheelEvent_zoom_bounds (qPow : α → α → α) (e : EditorWindow α) (event : QWheelEvent)
    (h : event.alt = true) :
    1 / 10 ≤ (wheelEvent qPow e event).mZoom ∧ (wheelEvent qPow e event).mZoom ≤ 32 := by
  unfold wheelEvent qBound
  rw [if_pos h]
  exact ⟨le_max_left _ _, max_le (by norm_num) (min_le_left _ _)⟩

/-- A wheel event without Alt leaves the zoom as it is. -/
theorem wheelEvent_scroll_zoom (qPow : α → α → α) (e : EditorWindow α) (event : QWheelEvent)
    (h : event.alt = false) : (wheelEvent qPow e event).mZoom = e.mZoom := by
  unfold wheelEvent
  rw [h]
  simp only [Bool.false_eq_true, if_false]
  split_ifs <;> rfl

end CameraFacts

section CameraClaims

variable {α : Type} [LinearOrderedField α]

/-- C23 (amended): starting from a zoom within [0.1, 32], a wheel event leaves
the zoom within [0.1, 32] (the Alt+wheel gesture clamps the new zoom, a wheel
event without Alt does not change it); `setZoom` applies no bound: it keeps the
current zoom when its argument is within 0.005 of it and stores the argument
otherwise, so the zoom stays within [0.1, 32] under `setZoom` when the argument
lies in that range. -/
theorem C23_wheel_clamps_zoom_setZoom_stores (qPow : α → α → α) (e : EditorWindow α)
    (event : QWheelEvent) (zoom : α) (hlo : 1 / 10 ≤ e.mZoom) (hhi : e.mZoom ≤ 32) :
    (1 / 10 ≤ (wheelEvent qPow e event).mZoom ∧ (wheelEvent qPow e event).mZoom ≤ 32) ∧
    (setZoom e zoom).mZoom = (if |zoom - e.mZoom| < 5 / 1000 then e.mZoom else zoom) ∧
    (1 / 10 ≤ zoom → zoom ≤ 32 →
      1 / 10 ≤ (setZoom e zoom).mZoom ∧ (setZoom e zoom).mZoom ≤ 32) := by
  have hset : (setZoom e zoom).mZoom = (if |zoom - e.mZoom| < 5 / 1000 then e.mZoom else zoom) := by
    by_cases h : |zoom - e.mZoom| < 5 / 1000
    · rw [if_pos h, setZoom_near e zoom h]
    · rw [if_neg h, (setZoom_far e zoom h).1]
  refine ⟨?_, hset, ?_⟩
  · by_cases h : event.alt = true
    · exact wheelEvent_zoom_bounds qPow e event h
    · rw [wheelEvent_scroll_zoom qPow e event (by simpa using h)]
      exact ⟨hlo, hhi⟩
  · intro h1 h2
    rw [hset]
    split_ifs
    · exact ⟨hlo, hhi⟩
    · exact ⟨h1, h2⟩

end CameraClaims

/-- C23, at a concrete input: one notch with Alt at zoom `1.0` gives the zoom
`1.1`, and `setZoom` with the argument 2 gives the zoom 2. -/
theorem C23_wheel_clamps_zoom_setZoom_stores_witness :
    (1 : ℚ) / 10 ≤ (plainEditor : EditorWindow ℚ).mZoom ∧
    (plainEditor : EditorWindow ℚ).mZoom ≤ 32 ∧
    (wheelEvent notchPow (plainEditor : EditorWindow ℚ) wheelNotch).mZoom = 11 / 10 ∧
    (setZoom (plainEditor : EditorWindow ℚ) 2).mZoom = 2 := by
  have hlo : (1 : ℚ) / 10 ≤ (plainEditor : EditorWindow ℚ).mZoom := by
    norm_num [plainEditor, EditorWindow.init]
  have hhi : (plainEditor : EditorWindow ℚ).mZoom ≤ 32 := by
    norm_num [plainEditor, EditorWindow.init]
  have h := C23_wheel_clamps_zoom_setZoom_stores notchPow (plainEditor : EditorWindow ℚ)
    wheelNotch 2 hlo hhi
  refine ⟨hlo, hhi, ?_, ?_⟩
  · norm_num [wheelEvent, qBound, notchPow, wheelNotch, plainEditor, EditorWindow.init]
  · rw [h.2.1]
    norm_num [plainEditor, EditorWindow.init]

/-- C23 as stated fails: `setZoom` with the argument 100 at zoom `1.0` leaves the
zoom at 100, above 32. -/
theorem C23_counterexample :
    (1 : ℚ) / 10 ≤ (plainEditor : EditorWindow ℚ).mZoom ∧
    (plainEditor : EditorWindow ℚ).mZoom ≤ 32 ∧
    (setZoom (plainEditor : EditorWindow ℚ) 100).mZoom = 100 ∧
    ¬ (setZoom (plainEditor : EditorWindow ℚ) 100).mZoom ≤ 32 := by
  have h : (setZoom (plainEditor : EditorWindow ℚ) 100).mZoom = 100 :=
    (setZoom_far _ 100 (by norm_num [plainEditor, EditorWindow.init, abs_lt])).1
  refine ⟨by norm_num [plainEditor, EditorWindow.init],
    by norm_num [plainEditor, EditorWindow.init], h, ?_⟩
  rw [h]
  norm_num

/-! ## Facts and claim about the active grid spacing -/

section GridSpacingFacts

variable {α : Type} [LinearOrderedField α]

/-- The loop of `getGridSpacing` started at `b * 4 ^ i` stops at `b * 4 ^ k`, the
first spacing of the sequence whose on-screen size is not below the minimum,
when that spacing is in the range of `int`. -/
theorem gridSpacingLoop_reach (zoom : α) (b : Int) (k : Nat) (hb : 0 ≤ b)
    (hmax : b * 4 ^ k ≤ 2147483647)
    (hk : ¬ ((b * 4 ^ k : Int) : α) * zoom < 10)
    (hlt : ∀ j < k, ((b * 4 ^ j : Int) : α) * zoom < 10) :
    ∀ (fuel i : Nat), i ≤ k → k - i < fuel →
      gridSpacingLoop zoom fuel (b * 4 ^ i) = some (b * 4 ^ k) := by
  intro fuel
  induction fuel with
  | zero => intro i _ h; omega
  | succ fuel ih =>
    intro i hik hfuel
    unfold gridSpacingLoop
    have hmin : ((MIN_GRID_SPACING : Int) : α) = 10 := by simp [MIN_GRID_SPACING]
    rw [hmin]
    rcases Nat.lt_or_ge i k with hlt1 | hge
    · rw [if_pos (hlt i hlt1)]
      have hpow : (4 : Int) ^ (i + 1) ≤ 4 ^ k := pow_le_pow_right₀ (by norm_num) hlt1
      have hle : b * 4 ^ (i + 1) ≤ b * 4 ^ k := mul_le_mul_of_nonneg_left hpow hb
      have hnn : 0 ≤ b * 4 ^ (i + 1) := mul_nonneg hb (by positivity)
      have hstep : wrapInt (b * 4 ^ i * GRID_SPACING_COEFF) = b * 4 ^ (i + 1) := by
        have he : b * 4 ^ i * GRID_SPACING_COEFF = b * 4 ^ (i + 1) := by
          simp only [GRID_SPACING_COEFF]
          ring
        rw [he]
        exact wrapInt_of_range _ (by omega) (by omega)
      rw [hstep]
      exact ih (i + 1) hlt1 (by omega)
    · have hi : i = k := le_antisymm hik hge
      subst hi
      rw [if_neg hk]

/-- At a zoom so small that no `int` reaches the minimum on-screen size, the loop
of `getGridSpacing` never returns, whatever the number of loop tests. -/
theorem gridSpacingLoop_never (zoom : α) (hz : 0 ≤ zoom) (hsmall : 2147483648 * zoom < 10) :
    ∀ (fuel : Nat) (s : Int), -2147483648 ≤ s → s ≤ 2147483647 →
      gridSpacingLoop zoom fuel s = none := by
  intro fuel
  induction fuel with
  | zero => intro s _ _; rfl
  | succ fuel ih =>
    intro s h1 h2
    unfold gridSpacingLoop
    have hmin : ((MIN_GRID_SPACING : Int) : α) = 10 := by simp [MIN_GRID_SPACING]
    have hs : (s : α) ≤ 2147483648 := by
      have : (s : α) ≤ ((2147483647 : Int) : α) := Int.cast_le.mpr h2
      push_cast at this
      linarith
    have hlt : (s : α) * zoom < ((MIN_GRID_SPACING : Int) : α) := by
      rw [hmin]
      have := mul_le_mul_of_nonneg_right hs hz
      linarith
    rw [if_pos hlt]
    exact ih _ (wrapInt_range _).1 (wrapInt_range _).2

variable [FloorRing α]

/-- With a base spacing of at least one and a positive zoom some spacing of the
sequence `b * 4 ^ k` reaches the minimum on-screen size. -/
theorem gridSpacing_reaches (zoom : α) (b : Int) (hb : 1 ≤ b) (hz : 0 < zoom) :
    ∃ k : Nat, ¬ ((b * 4 ^ k : Int) : α) * zoom < 10 := by
  have hbα : (1 : α) ≤ (b : α) := by exact_mod_cast hb
  obtain ⟨n, hn⟩ := pow_unbounded_of_one_lt (10 / zoom) (show (1 : α) < 4 by norm_num)
  refine ⟨n, ?_⟩
  rw [not_lt]
  push_cast
  rw [div_lt_iff₀ hz] at hn
  have h4 : (0 : α) < 4 ^ n := by positivity
  nlinarith

/-- Method `getGridSpacing` with "snap to visible lines": for a base spacing
`b ≥ 1` in the range of `int` and a zoom of at least `40 / 2147483647` it returns
`b * 4 ^ k` for the least `k` whose on-screen size `b * 4 ^ k * zoom` is at least
10, given more than `k` loop tests; that spacing is in the range of `int`. -/
theorem getGridSpacing_visible (e : EditorWindow α) (hb : 1 ≤ e.options.gridSpacing)
    (hmax : e.options.gridSpacing ≤ 2147483647) (hz : 40 ≤ 2147483647 * e.mZoom)
    (hv : e.options.snapToVisibleLines = true) :
    ∃ k : Nat, (∀ fuel, k < fuel → getGridSpacing fuel e = some (e.options.gridSpacing * 4 ^ k)) ∧
      e.options.gridSpacing * 4 ^ k ≤ 2147483647 ∧
      (10 : α) ≤ ((e.options.gridSpacing * 4 ^ k : Int) : α) * e.mZoom ∧
      ∀ j < k, ((e.options.gridSpacing * 4 ^ j : Int) : α) * e.mZoom < 10 := by
  classical
  have hzpos : 0 < e.mZoom := by
    by_contra hc
    have : 2147483647 * e.mZoom ≤ 0 := mul_nonpos_of_nonneg_of_nonpos (by norm_num) (not_lt.mp hc)
    linarith
  have hex := gridSpacing_reaches e.mZoom e.options.gridSpacing hb hzpos
  have hmin : ∀ j < Nat.find hex, ((e.options.gridSpacing * 4 ^ j : Int) : α) * e.mZoom < 10 :=
    fun j hj => not_not.mp (Nat.find_min hex hj)
  have hfit : e.options.gridSpacing * 4 ^ Nat.find hex ≤ 2147483647 := by
    rcases Nat.eq_zero_or_pos (Nat.find hex) with h0 | hpos
    · rw [h0]
      simpa using hmax
    · obtain ⟨j, hj⟩ : ∃ j, Nat.find hex = j + 1 := ⟨Nat.find hex - 1, by omega⟩
      have hlt := hmin j (by omega)
      rw [hj]
      have hcast : ((e.options.gridSpacing * 4 ^ (j + 1) : Int) : α) < ((2147483647 : Int) : α) := by
        push_cast at hlt ⊢
        have h1 : (e.options.gridSpacing : α) * 4 ^ (j + 1) * e.mZoom < 2147483647 * e.mZoom := by
          have : (e.options.gridSpacing : α) * 4 ^ (j + 1) * e.mZoom
              = 4 * ((e.options.gridSpacing : α) * 4 ^ j * e.mZoom) := by ring
          rw [this]
          linarith
        exact lt_of_mul_lt_mul_right h1 hzpos.le
      exact le_of_lt (Int.cast_lt.mp hcast)
  refine ⟨Nat.find hex, ?_, hfit, not_lt.mp (Nat.find_spec hex), hmin⟩
  intro fuel hfuel
  unfold getGridSpacing
  rw [if_pos hv]
  have h := gridSpacingLoop_reach e.mZoom e.options.gridSpacing (Nat.find hex) (by omega) hfit
    (Nat.find_spec hex) hmin fuel 0 (Nat.zero_le _) (by omega)
  simpa using h

end GridSpacingFacts

section GridSpacingClaims

variable {α : Type} [LinearOrderedField α] [FloorRing α]

/-- C22 (amended): with "snap to visible lines" enabled, for every base spacing
`b ≥ 1` in the range of `int` and every zoom `z ≥ 40 / 2147483647` (which keeps
the `int` spacing from overflowing), `getGridSpacing` returns `b` multiplied by
`GRID_SPACING_COEFF = 4` repeatedly, that is `b * 4 ^ k` for the least `k ≥ 0` for
which the on-screen size `b * 4 ^ k * z` reaches `MIN_GRID_SPACING = 10` (given
more than `k` loop tests): every earlier size is below 10, and the size reached
is at least 10 up to the one rounding of the product that the comparison of the
source is made on, a relative error of at most `2 ^ -52`.  With the option
disabled it returns `b`. -/
theorem C22_grid_spacing_multiplied_by_four (e : EditorWindow α)
    (hb : 1 ≤ e.options.gridSpacing) (hmax : e.options.gridSpacing ≤ 2147483647)
    (hz : 40 ≤ 2147483647 * e.mZoom) :
    (e.options.snapToVisibleLines = true →
      ∃ k : Nat,
        (∀ fuel, k < fuel → getGridSpacing fuel e = some (e.options.gridSpacing * 4 ^ k)) ∧
        e.options.gridSpacing * 4 ^ k ≤ 2147483647 ∧
        (10 : α) ≤ ((e.options.gridSpacing * 4 ^ k : Int) : α) * e.mZoom * (1 + 1 / 2 ^ 52) ∧
        ∀ j < k, ((e.options.gridSpacing * 4 ^ j : Int) : α) * e.mZoom < 10) ∧
    (e.options.snapToVisibleLines = false →
      ∀ fuel, getGridSpacing fuel e = some e.options.gridSpacing) := by
  constructor
  · intro hv
    obtain ⟨k, h1, h2, h3, h4⟩ := getGridSpacing_visible e hb hmax hz hv
    refine ⟨k, h1, h2, ?_, h4⟩
    have hpos : (0 : α) < 1 / 2 ^ 52 := by positivity
    nlinarith
  · intro hv fuel
    unfold getGridSpacing
    rw [hv]
    rfl

end GridSpacingClaims

/-- C22 (amended), at a concrete input: base spacing 5 at zoom `1.0` gives the
spacing 20. -/
theorem C22_grid_spacing_multiplied_by_four_witness :
    1 ≤ (coarseGridEditor : EditorWindow ℚ).options.gridSpacing ∧
    (coarseGridEditor : EditorWindow ℚ).options.gridSpacing ≤ 2147483647 ∧
    40 ≤ 2147483647 * (coarseGridEditor : EditorWindow ℚ).mZoom ∧
    getGridSpacing 2 (coarseGridEditor : EditorWindow ℚ) = some 20 ∧
    ∃ k : Nat,
      (∀ fuel, k < fuel → getGridSpacing fuel (coarseGridEditor : EditorWindow ℚ)
        = some ((coarseGridEditor : EditorWindow ℚ).options.gridSpacing * 4 ^ k)) ∧
      (coarseGridEditor : EditorWindow ℚ).options.gridSpacing * 4 ^ k ≤ 2147483647 ∧
      (10 : ℚ) ≤ (((coarseGridEditor : EditorWindow ℚ).options.gridSpacing * 4 ^ k : Int) : ℚ)
        * (coarseGridEditor : EditorWindow ℚ).mZoom * (1 + 1 / 2 ^ 52) ∧
      ∀ j < k, (((coarseGridEditor : EditorWindow ℚ).options.gridSpacing * 4 ^ j : Int) : ℚ)
        * (coarseGridEditor : EditorWindow ℚ).mZoom < 10 :=
  ⟨by decide, by decide, by norm_num [coarseGridEditor, EditorWindow.init],
    by norm_num [getGridSpacing, gridSpacingLoop, coarseGridEditor, EditorWindow.init,
      MIN_GRID_SPACING, GRID_SPACING_COEFF, wrapInt],
    (C22_grid_spacing_multiplied_by_four (coarseGridEditor : EditorWindow ℚ) (by decide)
      (by decide) (by norm_num [coarseGridEditor, EditorWindow.init])).1 rfl⟩

/-- C22 as stated fails: with base spacing 5 at zoom `1.0` the code returns 20,
which is not 5 doubled up to the first on-screen size of at least 10 (that
would be 10); and at the zoom `2 ^ -34` the `int` spacing wraps around before
its on-screen size reaches 10, so that the loop returns for no number of loop
tests. -/
theorem C22_counterexample :
    (coarseGridEditor : EditorWindow ℚ).options.snapToVisibleLines = true ∧
    (coarseGridEditor : EditorWindow ℚ).options.gridSpacing = 5 ∧
    (coarseGridEditor : EditorWindow ℚ).mZoom = 1 ∧
    (∀ fuel, 1 < fuel → getGridSpacing fuel (coarseGridEditor : EditorWindow ℚ) = some 20) ∧
    (¬ ∃ k : Nat, (20 : Int) = 5 * 2 ^ k ∧ ∀ j < k, (((5 * 2 ^ j : Int)) : ℚ) * 1 < 10) ∧
    (tinyZoomEditor : EditorWindow ℚ).options.snapToVisibleLines = true ∧
    (tinyZoomEditor : EditorWindow ℚ).options.gridSpacing = 5 ∧
    (tinyZoomEditor : EditorWindow ℚ).mZoom = 1 / 2 ^ 34 ∧
    ∀ fuel, getGridSpacing fuel (tinyZoomEditor : EditorWindow ℚ) = none := by
  refine ⟨rfl, rfl, rfl, ?_, ?_, rfl, rfl, rfl, ?_⟩
  · intro fuel hfuel
    have h := gridSpacingLoop_reach (1 : ℚ) 5 1 (by norm_num) (by norm_num) (by norm_num)
      (fun j hj => by
        have : j = 0 := by omega
        subst this
        norm_num) fuel 0 (Nat.zero_le _) (by omega)
    simpa [getGridSpacing, coarseGridEditor, EditorWindow.init] using h
  · rintro ⟨k, hk, hl⟩
    rcases k with _ | _ | _ | k
    · norm_num at hk
    · norm_num at hk
    · have := hl 1 (by norm_num)
      norm_num at this
    · have hp : (0 : Int) < 2 ^ k := by positivity
      rw [pow_succ, pow_succ, pow_succ] at hk
      omega
  · intro fuel
    have h := gridSpacingLoop_never (1 / 2 ^ 34 : ℚ) (by norm_num) (by norm_num) fuel 5
      (by norm_num) (by norm_num)
    simpa [getGridSpacing, tinyZoomEditor, coarseGridEditor, EditorWindow.init] using h

/-! ## Claim about ties between the snap candidates of the Move state -/

section TieFacts

variable {α : Type} [LinearOrderedField α] [FloorRing α]

/-- The order in which the X block of the Move state prefers its candidates: the
center when its distance is below the threshold and not above either edge
distance, the near edge when it is strictly closer than the center and not
farther than the far edge, the far edge when it is strictly the closest. -/
theorem moveSnapX_order (fuel : Nat) (e : EditorWindow α) (rect : QRectF α)
    (offset : QPointF α) (l c r : Snap α)
    (hl : snapXCoord fuel e rect.left rect.top rect.bottom true = some l)
    (hc : snapXCoord fuel e rect.center.x rect.center.y rect.center.y true = some c)
    (hr : snapXCoord fuel e rect.right rect.top rect.bottom true = some r) :
    (c.distance < (SNAP_DISTANCE : α) / e.mZoom ∧ c.distance ≤ l.distance ∧
        c.distance ≤ r.distance →
      moveSnapX fuel e rect offset
        = some ⟨⟨offset.x + (c.coord - rect.center.x), offset.y⟩, c.line, true⟩) ∧
    (l.distance < (SNAP_DISTANCE : α) / e.mZoom ∧ l.distance < c.distance ∧
        l.distance ≤ r.distance →
      moveSnapX fuel e rect offset
        = some ⟨⟨offset.x + (l.coord - rect.left), offset.y⟩, l.line, false⟩) ∧
    (r.distance < (SNAP_DISTANCE : α) / e.mZoom ∧ r.distance < l.distance ∧
        r.distance < c.distance →
      moveSnapX fuel e rect offset
        = some ⟨⟨offset.x + (r.coord - rect.right), offset.y⟩, r.line, false⟩) := by
  simp only [moveSnapX, hl, hc, hr, Option.some_bind]
  refine ⟨fun h => ?_, fun h => ?_, fun h => ?_⟩
  · rw [if_pos h]
  · rw [if_neg (fun h1 => absurd h1.2.1 (not_le.mpr h.2.1)),
      if_pos ⟨h.1, le_of_lt h.2.1, h.2.2⟩]
  · rw [if_neg (fun h1 => absurd h1.2.2 (not_le.mpr h.2.2)),
      if_neg (fun h1 => absurd h1.2.2 (not_le.mpr h.2.1)),
      if_pos ⟨h.1, le_of_lt h.2.1, le_of_lt h.2.2⟩]

/-- The order in which the Y block of the Move state prefers its candidates. -/
theorem moveSnapY_order (fuel : Nat) (e : EditorWindow α) (rect : QRectF α)
    (offset : QPointF α) (t c b : Snap α)
    (ht : snapYCoord fuel e rect.top rect.left rect.right true = some t)
    (hc : snapYCoord fuel e rect.center.y rect.center.x rect.center.x true = some c)
    (hb : snapYCoord fuel e rect.bottom rect.left rect.right true = some b) :
    (c.distance < (SNAP_DISTANCE : α) / e.mZoom ∧ c.distance ≤ t.distance ∧
        c.distance ≤ b.distance →
      moveSnapY fuel e rect offset
        = some ⟨⟨offset.x, offset.y + (c.coord - rect.center.y)⟩, c.line, true⟩) ∧
    (t.distance < (SNAP_DISTANCE : α) / e.mZoom ∧ t.distance < c.distance ∧
        t.distance ≤ b.distance →
      moveSnapY fuel e rect offset
        = some ⟨⟨offset.x, offset.y + (t.coord - rect.top)⟩, t.line, false⟩) ∧
    (b.distance < (SNAP_DISTANCE : α) / e.mZoom ∧ b.distance < t.distance ∧
        b.distance < c.distance →
      moveSnapY fuel e rect offset
        = some ⟨⟨offset.x, offset.y + (b.coord - rect.bottom)⟩, b.line, false⟩) := by
  simp only [moveSnapY, ht, hc, hb, Option.some_bind]
  refine ⟨fun h => ?_, fun h => ?_, fun h => ?_⟩
  · rw [if_pos h]
  · rw [if_neg (fun h1 => absurd h1.2.1 (not_le.mpr h.2.1)),
      if_pos ⟨h.1, le_of_lt h.2.1, h.2.2⟩]
  · rw [if_neg (fun h1 => absurd h1.2.2 (not_le.mpr h.2.2)),
      if_neg (fun h1 => absurd h1.2.2 (not_le.mpr h.2.1)),
      if_pos ⟨h.1, le_of_lt h.2.1, le_of_lt h.2.2⟩]

/-- C25 (amended): in the Move state, when several of the three snap candidates
on an axis tie for the smallest snap distance (below `SNAP_DISTANCE / zoom`), the
tie is broken in the order center, near edge, far edge: the center candidate is
applied whenever its distance is below the threshold and not larger than either
edge distance; the near edge is applied when its distance is strictly smaller
than the center distance and not larger than the far-edge distance; the far edge
is applied when its distance is strictly the smallest. -/
theorem C25_ties_prefer_center_then_near_edge :
    (∀ (fuel : Nat) (e : EditorWindow α) (rect : QRectF α) (offset : QPointF α)
      (l c r : Snap α),
      snapXCoord fuel e rect.left rect.top rect.bottom true = some l →
      snapXCoord fuel e rect.center.x rect.center.y rect.center.y true = some c →
      snapXCoord fuel e rect.right rect.top rect.bottom true = some r →
      (c.distance < (SNAP_DISTANCE : α) / e.mZoom ∧ c.distance ≤ l.distance ∧
          c.distance ≤ r.distance →
        moveSnapX fuel e rect offset
          = some ⟨⟨offset.x + (c.coord - rect.center.x), offset.y⟩, c.line, true⟩) ∧
      (l.distance < (SNAP_DISTANCE : α) / e.mZoom ∧ l.distance < c.distance ∧
          l.distance ≤ r.distance →
        moveSnapX fuel e rect offset
          = some ⟨⟨offset.x + (l.coord - rect.left), offset.y⟩, l.line, false⟩) ∧
      (r.distance < (SNAP_DISTANCE : α) / e.mZoom ∧ r.distance < l.distance ∧
          r.distance < c.distance →
        moveSnapX fuel e rect offset
          = some ⟨⟨offset.x + (r.coord - rect.right), offset.y⟩, r.line, false⟩)) ∧
    (∀ (fuel : Nat) (e : EditorWindow α) (rect : QRectF α) (offset : QPointF α)
      (t c b : Snap α),
      snapYCoord fuel e rect.top rect.left rect.right true = some t →
      snapYCoord fuel e rect.center.y rect.center.x rect.center.x true = some c →
      snapYCoord fuel e rect.bottom rect.left rect.right true = some b →
      (c.distance < (SNAP_DISTANCE : α) / e.mZoom ∧ c.distance ≤ t.distance ∧
          c.distance ≤ b.distance →
        moveSnapY fuel e rect offset
          = some ⟨⟨offset.x, offset.y + (c.coord - rect.center.y)⟩, c.line, true⟩) ∧
      (t.distance < (SNAP_DISTANCE : α) / e.mZoom ∧ t.distance < c.distance ∧
          t.distance ≤ b.distance →
        moveSnapY fuel e rect offset
          = some ⟨⟨offset.x, offset.y + (t.coord - rect.top)⟩, t.line, false⟩) ∧
      (b.distance < (SNAP_DISTANCE : α) / e.mZoom ∧ b.distance < t.distance ∧
          b.distance < c.distance →
        moveSnapY fuel e rect offset
          = some ⟨⟨offset.x, offset.y + (b.coord - rect.bottom)⟩, b.line, false⟩)) :=
  ⟨fun fuel e rect offset l c r hl hc hr => moveSnapX_order fuel e rect offset l c r hl hc hr,
    fun fuel e rect offset t c b ht hc hb => moveSnapY_order fuel e rect offset t c b ht hc hb⟩

end TieFacts

/-- The three X probes of the rectangle (-1,0)-(3,50) in `axisEditor`, which has
no guide: the left edge and the center both snap to the axis at distance 1, the
right edge at distance 3. -/
theorem axisEditor_probes :
    snapXCoord 0 (axisEditor : EditorWindow ℚ) (-1) 0 50 true = some ⟨0, 1, ⟨0, 0, 0, 50⟩⟩ ∧
    snapXCoord 0 (axisEditor : EditorWindow ℚ) 1 25 25 true = some ⟨0, 1, ⟨0, 25, 0, 25⟩⟩ ∧
    snapXCoord 0 (axisEditor : EditorWindow ℚ) 3 0 50 true = some ⟨0, 3, ⟨0, 0, 0, 50⟩⟩ := by
  refine ⟨?_, ?_, ?_⟩ <;>
  norm_num [snapXCoord, snapToGuidesStep, Scene.findGuide, Scene.findGuideAux, Scene.getGuide,
    axisEditor, EditorWindow.init, SNAP_DISTANCE, abs_lt]

/-- C25, at a concrete input: for the rectangle (-1,0)-(3,50) in `axisEditor` the
left edge and the center both have snap distance 1, and the center candidate is
applied: the offset changes by 0 - 1 = -1 and the snap is marked as a center
snap. -/
theorem C25_ties_prefer_center_then_near_edge_witness :
    snapXCoord 0 (axisEditor : EditorWindow ℚ) (-1) 0 50 true = some ⟨0, 1, ⟨0, 0, 0, 50⟩⟩ ∧
    snapXCoord 0 (axisEditor : EditorWindow ℚ) 1 25 25 true = some ⟨0, 1, ⟨0, 25, 0, 25⟩⟩ ∧
    moveSnapX 0 (axisEditor : EditorWindow ℚ) ⟨-1, 0, 4, 50⟩ ⟨0, 0⟩
      = some ⟨⟨0 + (0 - (-1 + 4 / 2)), 0⟩, ⟨0, 25, 0, 25⟩, true⟩ := by
  have hl : snapXCoord 0 (axisEditor : EditorWindow ℚ) (⟨-1, 0, 4, 50⟩ : QRectF ℚ).left
      (⟨-1, 0, 4, 50⟩ : QRectF ℚ).top (⟨-1, 0, 4, 50⟩ : QRectF ℚ).bottom true
      = some ⟨0, 1, ⟨0, 0, 0, 50⟩⟩ := by
    have h := axisEditor_probes.1
    norm_num [QRectF.left, QRectF.top, QRectF.bottom]
    exact h
  have hc : snapXCoord 0 (axisEditor : EditorWindow ℚ) (⟨-1, 0, 4, 50⟩ : QRectF ℚ).center.x
      (⟨-1, 0, 4, 50⟩ : QRectF ℚ).center.y (⟨-1, 0, 4, 50⟩ : QRectF ℚ).center.y true
      = some ⟨0, 1, ⟨0, 25, 0, 25⟩⟩ := by
    have h := axisEditor_probes.2.1
    norm_num [QRectF.center]
    exact h
  have hr : snapXCoord 0 (axisEditor : EditorWindow ℚ) (⟨-1, 0, 4, 50⟩ : QRectF ℚ).right
      (⟨-1, 0, 4, 50⟩ : QRectF ℚ).top (⟨-1, 0, 4, 50⟩ : QRectF ℚ).bottom true
      = some ⟨0, 3, ⟨0, 0, 0, 50⟩⟩ := by
    have h := axisEditor_probes.2.2
    norm_num [QRectF.right, QRectF.top, QRectF.bottom]
    exact h
  have h := (C25_ties_prefer_center_then_near_edge.1 0 (axisEditor : EditorWindow ℚ)
    ⟨-1, 0, 4, 50⟩ ⟨0, 0⟩ _ _ _ hl hc hr).1
    (by norm_num [axisEditor, EditorWindow.init, SNAP_DISTANCE])
  exact ⟨axisEditor_probes.1, axisEditor_probes.2.1, h⟩

/-- C25 as stated fails: in `axisEditor`, which has no guide, the left edge and
the center of the rectangle (-1,0)-(3,50) both snap to the axis at distance 1,
below the threshold 4, and the code applies the center candidate (offset -1,
center snap), not the near edge (offset 1). -/
theorem C25_counterexample :
    (axisEditor : EditorWindow ℚ).vertGuides = [] ∧
    snapXCoord 0 (axisEditor : EditorWindow ℚ) (-1) 0 50 true = some ⟨0, 1, ⟨0, 0, 0, 50⟩⟩ ∧
    snapXCoord 0 (axisEditor : EditorWindow ℚ) 1 25 25 true = some ⟨0, 1, ⟨0, 25, 0, 25⟩⟩ ∧
    snapXCoord 0 (axisEditor : EditorWindow ℚ) 3 0 50 true = some ⟨0, 3, ⟨0, 0, 0, 50⟩⟩ ∧
    moveSnapX 0 (axisEditor : EditorWindow ℚ) ⟨-1, 0, 4, 50⟩ ⟨0, 0⟩
      = some ⟨⟨-1, 0⟩, ⟨0, 25, 0, 25⟩, true⟩ ∧
    moveSnapX 0 (axisEditor : EditorWindow ℚ) ⟨-1, 0, 4, 50⟩ ⟨0, 0⟩
      ≠ some ⟨⟨1, 0⟩, ⟨0, 0, 0, 50⟩, false⟩ := by
  have h : moveSnapX 0 (axisEditor : EditorWindow ℚ) ⟨-1, 0, 4, 50⟩ ⟨0, 0⟩
      = some ⟨⟨-1, 0⟩, ⟨0, 25, 0, 25⟩, true⟩ := by
    norm_num [moveSnapX, snapXCoord, snapToGuidesStep, Scene.findGuide, Scene.findGuideAux,
      Scene.getGuide, axisEditor, EditorWindow.init, SNAP_DISTANCE, abs_lt, QRectF.left,
      QRectF.top, QRectF.bottom, QRectF.right, QRectF.center]
  refine ⟨rfl, axisEditor_probes.1, axisEditor_probes.2.1, axisEditor_probes.2.2, h, ?_⟩
  rw [h]
  simp

/-! ## Claim about the origin snap and the guide snap -/

section OriginFacts

variable {α : Type} [LinearOrderedField α]

/-- The guide block of a snap query when a nearest guide `g` lies within the
snap distance: the origin wins if it is strictly closer than `g`, otherwise the
coordinate of a guide as near as `g` is returned. -/
theorem snapToGuidesStep_origin (guides : List α) (c : α) (mkLine : α → QLineF α) (s : Snap α)
    (g : α) (hg : g ∈ guides) (hnear : ∀ g1 ∈ guides, |c - g| ≤ |c - g1|)
    (hgt : |c - g| < s.distance) :
    (|c| < |c - g| →
      (snapToGuidesStep guides c mkLine s).coord = 0 ∧
      (snapToGuidesStep guides c mkLine s).distance = |c|) ∧
    (¬ |c| < |c - g| →
      (snapToGuidesStep guides c mkLine s).coord ∈ guides ∧
      |c - (snapToGuidesStep guides c mkLine s).coord| = |c - g| ∧
      (snapToGuidesStep guides c mkLine s).distance = |c - g|) := by
  obtain ⟨h1, h2, h3, h4, h5⟩ := findGuide_some guides c s.distance
    ⟨g, hg, by rw [abs_sub_comm]; exact hgt⟩
  have hd : (Scene.findGuide guides c s.distance).2 = |c - g| := by
    apply le_antisymm
    · rw [abs_sub_comm c g]
      exact h5 g hg
    · rw [h3, abs_sub_comm _ c]
      exact hnear _ h2
  constructor
  · intro ho
    have ho2 : |c| < (Scene.findGuide guides c s.distance).2 := by rw [hd]; exact ho
    simp only [snapToGuidesStep, if_pos h1, if_pos ho2]
    exact ⟨trivial, trivial⟩
  · intro ho
    have ho2 : ¬ |c| < (Scene.findGuide guides c s.distance).2 := by rw [hd]; exact ho
    simp only [snapToGuidesStep, if_pos h1, if_neg ho2]
    refine ⟨h2, ?_, hd⟩
    rw [abs_sub_comm, ← h3, hd]

end OriginFacts
section OriginClaims

variable {α : Type} [LinearOrderedField α] [FloorRing α]

/-- With guides as the only snapping feature, `snapXCoord` returns the triple of
its guide block. -/
theorem snapXCoord_guides_only (fuel : Nat) (e : EditorWindow α) (x y1 y2 : α) (excl : Bool)
    (hon : e.options.snapToGuides = true) (hsm : e.options.enableSmartGuides = false)
    (hgr : e.options.snapToGrid = false) :
    snapXCoord fuel e x y1 y2 excl
      = some (snapToGuidesStep e.vertGuides x (fun g => ⟨g, y1, g, y2⟩)
          ⟨x, (SNAP_DISTANCE : α) / e.mZoom, QLineF.null⟩) := by
  simp [snapXCoord, hon, hsm, hgr]

/-- With guides as the only snapping feature, `snapYCoord` returns the triple of
its guide block. -/
theorem snapYCoord_guides_only (fuel : Nat) (e : EditorWindow α) (y x1 x2 : α) (excl : Bool)
    (hon : e.options.snapToGuides = true) (hsm : e.options.enableSmartGuides = false)
    (hgr : e.options.snapToGrid = false) :
    snapYCoord fuel e y x1 x2 excl
      = some (snapToGuidesStep e.horzGuides y (fun g => ⟨x1, g, x2, g⟩)
          ⟨y, (SNAP_DISTANCE : α) / e.mZoom, QLineF.null⟩) := by
  simp [snapYCoord, hon, hsm, hgr]

/-- C26: with snap-to-guides enabled and smart guides and grid snapping
disabled, for every value `x` and every guide `g` of the axis that is a nearest
guide to `x` and lies within `SNAP_DISTANCE / zoom` of it, `snapXCoord` returns 0
if the origin is strictly closer to `x` than the guide (`|x| < |x - g|`) and
otherwise returns the coordinate of a guide at the distance of `g`, which is `g`
itself when no other guide is as near; likewise `snapYCoord`. -/
theorem C26_origin_overrides_guide_only_if_strictly_closer (fuel : Nat) (e : EditorWindow α)
    (hon : e.options.snapToGuides = true) (hsm : e.options.enableSmartGuides = false)
    (hgr : e.options.snapToGrid = false) :
    (∀ (x y1 y2 : α) (excl : Bool) (g : α), g ∈ e.vertGuides →
      (∀ g1 ∈ e.vertGuides, |x - g| ≤ |x - g1|) → |x - g| < (SNAP_DISTANCE : α) / e.mZoom →
      ∃ s, snapXCoord fuel e x y1 y2 excl = some s ∧
        (|x| < |x - g| → s.coord = 0) ∧
        (¬ |x| < |x - g| → s.coord ∈ e.vertGuides ∧ |x - s.coord| = |x - g|) ∧
        (¬ |x| < |x - g| → (∀ g1 ∈ e.vertGuides, |x - g1| = |x - g| → g1 = g) → s.coord = g)) ∧
    (∀ (y x1 x2 : α) (excl : Bool) (g : α), g ∈ e.horzGuides →
      (∀ g1 ∈ e.horzGuides, |y - g| ≤ |y - g1|) → |y - g| < (SNAP_DISTANCE : α) / e.mZoom →
      ∃ s, snapYCoord fuel e y x1 x2 excl = some s ∧
        (|y| < |y - g| → s.coord = 0) ∧
        (¬ |y| < |y - g| → s.coord ∈ e.horzGuides ∧ |y - s.coord| = |y - g|) ∧
        (¬ |y| < |y - g| → (∀ g1 ∈ e.horzGuides, |y - g1| = |y - g| → g1 = g) → s.coord = g)) := by
  constructor
  · intro x y1 y2 excl g hg hnear hgt
    obtain ⟨h1, h2⟩ := snapToGuidesStep_origin e.vertGuides x (fun g => (⟨g, y1, g, y2⟩ : QLineF α))
      ⟨x, (SNAP_DISTANCE : α) / e.mZoom, QLineF.null⟩ g hg hnear hgt
    exact ⟨_, snapXCoord_guides_only fuel e x y1 y2 excl hon hsm hgr, fun ho => (h1 ho).1,
      fun ho => ⟨(h2 ho).1, (h2 ho).2.1⟩, fun ho huniq => huniq _ (h2 ho).1 (h2 ho).2.1⟩
  · intro y x1 x2 excl g hg hnear hgt
    obtain ⟨h1, h2⟩ := snapToGuidesStep_origin e.horzGuides y (fun g => (⟨x1, g, x2, g⟩ : QLineF α))
      ⟨y, (SNAP_DISTANCE : α) / e.mZoom, QLineF.null⟩ g hg hnear hgt
    exact ⟨_, snapYCoord_guides_only fuel e y x1 x2 excl hon hsm hgr, fun ho => (h1 ho).1,
      fun ho => ⟨(h2 ho).1, (h2 ho).2.1⟩, fun ho huniq => huniq _ (h2 ho).1 (h2 ho).2.1⟩

end OriginClaims

/-- C26, at a concrete input: with one guide at 3 and zoom `1.0`, the value 1 is
strictly closer to the origin and snaps to 0, while the value 3/2, as far from
the origin as from the guide, snaps to the guide. -/
theorem C26_origin_overrides_guide_only_if_strictly_closer_witness :
    (originEditor : EditorWindow ℚ).options.snapToGuides = true ∧
    (originEditor : EditorWindow ℚ).options.enableSmartGuides = false ∧
    (originEditor : EditorWindow ℚ).options.snapToGrid = false ∧
    (∃ s, snapXCoord 0 (originEditor : EditorWindow ℚ) 1 0 50 true = some s ∧ s.coord = 0) ∧
    (∃ s, snapXCoord 0 (originEditor : EditorWindow ℚ) (3 / 2) 0 50 true = some s ∧
      s.coord = 3) := by
  have h := (C26_origin_overrides_guide_only_if_strictly_closer 0 (originEditor : EditorWindow ℚ)
    rfl rfl rfl).1
  have hmem : (3 : ℚ) ∈ (originEditor : EditorWindow ℚ).vertGuides := by
    simp [originEditor]
  have hnear : ∀ x : ℚ, ∀ g1 ∈ (originEditor : EditorWindow ℚ).vertGuides, |x - 3| ≤ |x - g1| := by
    intro x g1 hg1
    have : g1 = 3 := by simpa [originEditor] using hg1
    rw [this]
  have huniq : ∀ x : ℚ, ∀ g1 ∈ (originEditor : EditorWindow ℚ).vertGuides,
      |x - g1| = |x - 3| → g1 = 3 := by
    intro x g1 hg1 _
    simpa [originEditor] using hg1
  refine ⟨rfl, rfl, rfl, ?_, ?_⟩
  · obtain ⟨s, hs, h0, -, -⟩ := h 1 0 50 true 3 hmem (hnear 1)
      (by norm_num [originEditor, EditorWindow.init, SNAP_DISTANCE, abs_lt])
    exact ⟨s, hs, h0 (by norm_num [abs_lt, lt_abs])⟩
  · obtain ⟨s, hs, -, -, hg⟩ := h (3 / 2) 0 50 true 3 hmem (hnear (3 / 2))
      (by norm_num [originEditor, EditorWindow.init, SNAP_DISTANCE, abs_lt])
    refine ⟨s, hs, hg ?_ (huniq (3 / 2))⟩
    have h1 : |(3 / 2 : ℚ) - 3| = 3 / 2 := by
      rw [show (3 / 2 : ℚ) - 3 = -(3 / 2) by norm_num, abs_neg, abs_of_pos (by norm_num)]
    have h2 : |(3 / 2 : ℚ)| = 3 / 2 := abs_of_pos (by norm_num)
    rw [h1, h2]
    exact lt_irrefl _

/-! ## Claim about the reported snap distance -/

section FiredFacts

variable {α : Type} [LinearOrderedField α]

/-- The default-constructed line is null. -/
theorem isNull_null : Utils.isNull (QLineF.null : QLineF α) = true := by
  simp [Utils.isNull, QLineF.null]

/-- The query `findGuide` either reports no guide and leaves the distance as it
was, or reports a guide and lowers the distance. -/
theorem findGuide_cases (guides : List α) (c d : α) :
    ((Scene.findGuide guides c d).1 = -1 ∧ (Scene.findGuide guides c d).2 = d) ∨
    ((Scene.findGuide guides c d).1 ≠ -1 ∧ (Scene.findGuide guides c d).2 < d) := by
  obtain ⟨-, -, h3⟩ := findGuideAux_spec c guides 0 (-1) d
  rcases h3 with ⟨ha, hb⟩ | ⟨k, -, ha, -, hc⟩
  · exact Or.inl ⟨ha, hb⟩
  · refine Or.inr ⟨?_, hc⟩
    unfold Scene.findGuide
    rw [ha]
    omega

/-- The guide block of a snap query: when a guide or the origin fires the
distance drops and the line is drawn at the returned coordinate; otherwise the
triple is left as it is. -/
theorem snapToGuidesStep_fired (guides : List α) (c : α) (mkLine : α → QLineF α) (s : Snap α) :
    (((Scene.findGuide guides c s.distance).1 ≠ -1 ∨
        |c| < (Scene.findGuide guides c s.distance).2) →
      (snapToGuidesStep guides c mkLine s).distance < s.distance ∧
      (snapToGuidesStep guides c mkLine s).line
        = mkLine (snapToGuidesStep guides c mkLine s).coord) ∧
    (¬ ((Scene.findGuide guides c s.distance).1 ≠ -1 ∨
        |c| < (Scene.findGuide guides c s.distance).2) →
      snapToGuidesStep guides c mkLine s = s) := by
  rcases findGuide_cases guides c s.distance with ⟨h1, h2⟩ | ⟨h1, h2⟩
  · by_cases ho : |c| < (Scene.findGuide guides c s.distance).2
    · refine ⟨fun _ => ?_, fun hn => absurd (Or.inr ho) hn⟩
      simp only [snapToGuidesStep, h1, ne_eq, not_true_eq_false, if_false, if_pos ho]
      rw [h2] at ho
      exact ⟨ho, trivial⟩
    · refine ⟨fun hf => ?_, fun _ => ?_⟩
      · rcases hf with hf | hf
        · exact absurd h1 hf
        · exact absurd hf ho
      · rw [h2] at ho
        simp only [snapToGuidesStep, h1, ne_eq, not_true_eq_false, if_false, h2, if_neg ho]
  · refine ⟨fun _ => ?_, fun hn => absurd (Or.inl h1) hn⟩
    by_cases ho : |c| < (Scene.findGuide guides c s.distance).2
    · simp only [snapToGuidesStep, if_pos h1, if_pos ho]
      exact ⟨lt_trans ho h2, trivial⟩
    · simp only [snapToGuidesStep, if_pos h1, if_neg ho]
      exact ⟨h2, trivial⟩

/-- The triple of `snapXCoord` after its guide block, by whether a guide or the
origin fired. -/
theorem snapXGuides_fired (e : EditorWindow α) (x y1 y2 : α) :
    (GuideFired e e.vertGuides x →
      (snapXGuides e x y1 y2).distance < (SNAP_DISTANCE : α) / e.mZoom ∧
      (snapXGuides e x y1 y2).line
        = ⟨(snapXGuides e x y1 y2).coord, y1, (snapXGuides e x y1 y2).coord, y2⟩) ∧
    (¬ GuideFired e e.vertGuides x →
      snapXGuides e x y1 y2 = ⟨x, (SNAP_DISTANCE : α) / e.mZoom, QLineF.null⟩) := by
  obtain ⟨h1, h2⟩ := snapToGuidesStep_fired e.vertGuides x (fun g => (⟨g, y1, g, y2⟩ : QLineF α))
    ⟨x, (SNAP_DISTANCE : α) / e.mZoom, QLineF.null⟩
  unfold snapXGuides GuideFired
  by_cases hon : e.options.snapToGuides = true
  · rw [if_pos hon]
    exact ⟨fun hf => h1 hf.2, fun hn => h2 (fun hf => hn ⟨hon, hf⟩)⟩
  · rw [if_neg hon]
    exact ⟨fun hf => absurd hf.1 hon, fun _ => rfl⟩

/-- The triple of `snapYCoord` after its guide block, by whether a guide or the
origin fired. -/
theorem snapYGuides_fired (e : EditorWindow α) (y x1 x2 : α) :
    (GuideFired e e.horzGuides y →
      (snapYGuides e y x1 x2).distance < (SNAP_DISTANCE : α) / e.mZoom ∧
      (snapYGuides e y x1 x2).line
        = ⟨x1, (snapYGuides e y x1 x2).coord, x2, (snapYGuides e y x1 x2).coord⟩) ∧
    (¬ GuideFired e e.horzGuides y →
      snapYGuides e y x1 x2 = ⟨y, (SNAP_DISTANCE : α) / e.mZoom, QLineF.null⟩) := by
  obtain ⟨h1, h2⟩ := snapToGuidesStep_fired e.horzGuides y (fun g => (⟨x1, g, x2, g⟩ : QLineF α))
    ⟨y, (SNAP_DISTANCE : α) / e.mZoom, QLineF.null⟩
  unfold snapYGuides GuideFired
  by_cases hon : e.options.snapToGuides = true
  · rw [if_pos hon]
    exact ⟨fun hf => h1 hf.2, fun hn => h2 (fun hf => hn ⟨hon, hf⟩)⟩
  · rw [if_neg hon]
    exact ⟨fun hf => absurd hf.1 hon, fun _ => rfl⟩

/-- What the steps of a snap query after the guide block do to the distance and
the line: `s1` is the triple after the guide block, `s2` the triple after the
smart-guide query, which either left `s1` as it was or lowered its distance. -/
theorem snap_outcome (t : α) (s0 s1 s2 : Snap α) (guideFired smartFired : Prop)
    (h0d : s0.distance = t) (h0l : s0.line = QLineF.null)
    (hg1 : guideFired → s1.distance < t) (hg2 : ¬ guideFired → s1 = s0)
    (hs1 : smartFired → s2.distance < s1.distance) (hs2 : ¬ smartFired → s2 = s1) :
    s2.distance ≤ t ∧ (s2.distance < t ↔ guideFired ∨ smartFired) ∧
    (¬ (guideFired ∨ smartFired) → s2.distance = t ∧ s2.line = QLineF.null) := by
  have h1le : s1.distance ≤ t := by
    by_cases hg : guideFired
    · exact le_of_lt (hg1 hg)
    · rw [hg2 hg, h0d]
  have h2le : s2.distance ≤ s1.distance := by
    by_cases hs : smartFired
    · exact le_of_lt (hs1 hs)
    · rw [hs2 hs]
  have hnone : ¬ (guideFired ∨ smartFired) → s2.distance = t ∧ s2.line = QLineF.null := by
    intro hn
    rw [hs2 (fun h => hn (Or.inr h)), hg2 (fun h => hn (Or.inl h))]
    exact ⟨h0d, h0l⟩
  refine ⟨le_trans h2le h1le, ⟨fun hlt => ?_, fun hf => ?_⟩, hnone⟩
  · by_contra hn
    rw [(hnone hn).1] at hlt
    exact lt_irrefl _ hlt
  · rcases hf with hg | hs
    · exact lt_of_le_of_lt h2le (hg1 hg)
    · exact lt_of_lt_of_le (hs1 hs) h1le

end FiredFacts

section FiredSnapFacts

variable {α : Type} [LinearOrderedField α] [FloorRing α]

/-- The distance and the line reported by `snapXCoord`, by which snap fired. -/
theorem snapXCoord_fired (fuel : Nat) (e : EditorWindow α) (x y1 y2 : α) (excl : Bool) (g : Int)
    (hs : SmartLowers e) (hgs : getGridSpacing fuel e = some g) :
    ∃ s, snapXCoord fuel e x y1 y2 excl = some s ∧
      s.distance ≤ (SNAP_DISTANCE : α) / e.mZoom ∧
      (s.distance < (SNAP_DISTANCE : α) / e.mZoom ↔ SnapFiredX e x y1 y2 excl) ∧
      (¬ SnapFiredX e x y1 y2 excl →
        s.distance = (SNAP_DISTANCE : α) / e.mZoom ∧ s.line = QLineF.null) ∧
      (Utils.isNull s.line = false → SnapFiredX e x y1 y2 excl) ∧
      (GuideFired e e.vertGuides x → e.options.enableSmartGuides = false →
        s.line = ⟨s.coord, y1, s.coord, y2⟩) := by
  obtain ⟨hg1, hg2⟩ := snapXGuides_fired e x y1 y2
  have hunf : snapXCoord fuel e x y1 y2 excl =
      if e.options.snapToGrid = true ∧
          (if e.options.enableSmartGuides = true then
            e.layerSnapX x y1 y2 (excludedObjects e excl) (snapXGuides e x y1 y2)
            else snapXGuides e x y1 y2).distance = (SNAP_DISTANCE : α) / e.mZoom then
        some ⟨gridRound g x,
          (if e.options.enableSmartGuides = true then
            e.layerSnapX x y1 y2 (excludedObjects e excl) (snapXGuides e x y1 y2)
            else snapXGuides e x y1 y2).distance,
          (if e.options.enableSmartGuides = true then
            e.layerSnapX x y1 y2 (excludedObjects e excl) (snapXGuides e x y1 y2)
            else snapXGuides e x y1 y2).line⟩
      else some (if e.options.enableSmartGuides = true then
            e.layerSnapX x y1 y2 (excludedObjects e excl) (snapXGuides e x y1 y2)
            else snapXGuides e x y1 y2) := by
    simp only [snapXCoord, snapXGuides, hgs, Option.map_some']
  generalize hs2 : (if e.options.enableSmartGuides = true then
      e.layerSnapX x y1 y2 (excludedObjects e excl) (snapXGuides e x y1 y2)
      else snapXGuides e x y1 y2) = s2 at hunf
  have hsm1 : (e.options.enableSmartGuides = true ∧
      e.layerSnapX x y1 y2 (excludedObjects e excl) (snapXGuides e x y1 y2)
        ≠ snapXGuides e x y1 y2) → s2.distance < (snapXGuides e x y1 y2).distance := by
    rintro ⟨hon, hne⟩
    rw [← hs2, if_pos hon]
    rcases hs.1 x y1 y2 (excludedObjects e excl) (snapXGuides e x y1 y2) with h | h
    · exact absurd h hne
    · exact h
  have hsm2 : ¬ (e.options.enableSmartGuides = true ∧
      e.layerSnapX x y1 y2 (excludedObjects e excl) (snapXGuides e x y1 y2)
        ≠ snapXGuides e x y1 y2) → s2 = snapXGuides e x y1 y2 := by
    intro hn
    rw [← hs2]
    by_cases hon : e.options.enableSmartGuides = true
    · rw [if_pos hon]
      by_contra hne
      exact hn ⟨hon, hne⟩
    · rw [if_neg hon]
  obtain ⟨hle, hiff, hnone⟩ := snap_outcome ((SNAP_DISTANCE : α) / e.mZoom)
    ⟨x, (SNAP_DISTANCE : α) / e.mZoom, QLineF.null⟩ (snapXGuides e x y1 y2) s2
    (GuideFired e e.vertGuides x) _ rfl rfl (fun h => (hg1 h).1) hg2 hsm1 hsm2
  have hline : GuideFired e e.vertGuides x → e.options.enableSmartGuides = false →
      s2.line = ⟨s2.coord, y1, s2.coord, y2⟩ ∧ s2.distance < (SNAP_DISTANCE : α) / e.mZoom := by
    intro hf hoff
    rw [hsm2 (fun h => by rw [hoff] at h; exact absurd h.1 (by simp))]
    exact ⟨(hg1 hf).2, (hg1 hf).1⟩
  have hnull : Utils.isNull s2.line = false → SnapFiredX e x y1 y2 excl := by
    intro hnn
    by_contra hn
    rw [(hnone hn).2, isNull_null] at hnn
    exact absurd hnn (by simp)
  by_cases hgrid : e.options.snapToGrid = true ∧ s2.distance = (SNAP_DISTANCE : α) / e.mZoom
  · rw [if_pos hgrid] at hunf
    refine ⟨_, hunf, hle, hiff, hnone, hnull, fun hf hoff => ?_⟩
    exact absurd hgrid.2 (ne_of_lt (hline hf hoff).2)
  · rw [if_neg hgrid] at hunf
    exact ⟨_, hunf, hle, hiff, hnone, hnull, fun hf hoff => (hline hf hoff).1⟩

/-- The distance and the line reported by `snapYCoord`, by which snap fired. -/
theorem snapYCoord_fired (fuel : Nat) (e : EditorWindow α) (y x1 x2 : α) (excl : Bool) (g : Int)
    (hs : SmartLowers e) (hgs : getGridSpacing fuel e = some g) :
    ∃ s, snapYCoord fuel e y x1 x2 excl = some s ∧
      s.distance ≤ (SNAP_DISTANCE : α) / e.mZoom ∧
      (s.distance < (SNAP_DISTANCE : α) / e.mZoom ↔ SnapFiredY e y x1 x2 excl) ∧
      (¬ SnapFiredY e y x1 x2 excl →
        s.distance = (SNAP_DISTANCE : α) / e.mZoom ∧ s.line = QLineF.null) ∧
      (Utils.isNull s.line = false → SnapFiredY e y x1 x2 excl) ∧
      (GuideFired e e.horzGuides y → e.options.enableSmartGuides = false →
        s.line = ⟨x1, s.coord, x2, s.coord⟩) := by
  obtain ⟨hg1, hg2⟩ := snapYGuides_fired e y x1 x2
  have hunf : snapYCoord fuel e y x1 x2 excl =
      if e.options.snapToGrid = true ∧
          (if e.options.enableSmartGuides = true then
            e.layerSnapY y x1 x2 (excludedObjects e excl) (snapYGuides e y x1 x2)
            else snapYGuides e y x1 x2).distance = (SNAP_DISTANCE : α) / e.mZoom then
        some ⟨gridRound g y,
          (if e.options.enableSmartGuides = true then
            e.layerSnapY y x1 x2 (excludedObjects e excl) (snapYGuides e y x1 x2)
            else snapYGuides e y x1 x2).distance,
          (if e.options.enableSmartGuides = true then
            e.layerSnapY y x1 x2 (excludedObjects e excl) (snapYGuides e y x1 x2)
            else snapYGuides e y x1 x2).line⟩
      else some (if e.options.enableSmartGuides = true then
            e.layerSnapY y x1 x2 (excludedObjects e excl) (snapYGuides e y x1 x2)
            else snapYGuides e y x1 x2) := by
    simp only [snapYCoord, snapYGuides, hgs, Option.map_some']
  generalize hs2 : (if e.options.enableSmartGuides = true then
      e.layerSnapY y x1 x2 (excludedObjects e excl) (snapYGuides e y x1 x2)
      else snapYGuides e y x1 x2) = s2 at hunf
  have hsm1 : (e.options.enableSmartGuides = true ∧
      e.layerSnapY y x1 x2 (excludedObjects e excl) (snapYGuides e y x1 x2)
        ≠ snapYGuides e y x1 x2) → s2.distance < (snapYGuides e y x1 x2).distance := by
    rintro ⟨hon, hne⟩
    rw [← hs2, if_pos hon]
    rcases hs.2 y x1 x2 (excludedObjects e excl) (snapYGuides e y x1 x2) with h | h
    · exact absurd h hne
    · exact h
  have hsm2 : ¬ (e.options.enableSmartGuides = true ∧
      e.layerSnapY y x1 x2 (excludedObjects e excl) (snapYGuides e y x1 x2)
        ≠ snapYGuides e y x1 x2) → s2 = snapYGuides e y x1 x2 := by
    intro hn
    rw [← hs2]
    by_cases hon : e.options.enableSmartGuides = true
    · rw [if_pos hon]
      by_contra hne
      exact hn ⟨hon, hne⟩
    · rw [if_neg hon]
  obtain ⟨hle, hiff, hnone⟩ := snap_outcome ((SNAP_DISTANCE : α) / e.mZoom)
    ⟨y, (SNAP_DISTANCE : α) / e.mZoom, QLineF.null⟩ (snapYGuides e y x1 x2) s2
    (GuideFired e e.horzGuides y) _ rfl rfl (fun h => (hg1 h).1) hg2 hsm1 hsm2
  have hline : GuideFired e e.horzGuides y → e.options.enableSmartGuides = false →
      s2.line = ⟨x1, s2.coord, x2, s2.coord⟩ ∧ s2.distance < (SNAP_DISTANCE : α) / e.mZoom := by
    intro hf hoff
    rw [hsm2 (fun h => by rw [hoff] at h; exact absurd h.1 (by simp))]
    exact ⟨(hg1 hf).2, (hg1 hf).1⟩
  have hnull : Utils.isNull s2.line = false → SnapFiredY e y x1 x2 excl := by
    intro hnn
    by_contra hn
    rw [(hnone hn).2, isNull_null] at hnn
    exact absurd hnn (by simp)
  by_cases hgrid : e.options.snapToGrid = true ∧ s2.distance = (SNAP_DISTANCE : α) / e.mZoom
  · rw [if_pos hgrid] at hunf
    refine ⟨_, hunf, hle, hiff, hnone, hnull, fun hf hoff => ?_⟩
    exact absurd hgrid.2 (ne_of_lt (hline hf hoff).2)
  · rw [if_neg hgrid] at hunf
    exact ⟨_, hunf, hle, hiff, hnone, hnull, fun hf hoff => (hline hf hoff).1⟩

end FiredSnapFacts

section FiredClaims

variable {α : Type} [LinearOrderedField α] [FloorRing α]

/-- C28 (amended): when the smart-guide queries of the root layer either leave
the triple passed to them as it is or lower its distance, the distance reported
by `snapXCoord` and `snapYCoord` is strictly below `SNAP_DISTANCE / zoom` exactly
when a guide, origin or smart-guide snap fired, and equals `SNAP_DISTANCE / zoom`
otherwise, in which case the returned line is null.  A returned line that is not
null implies that a snap fired, but not conversely: a guide or origin snap
returns the line through the snapped coordinate over the range passed by the
caller, which is the null line when these are all zero. -/
theorem C28_distance_below_threshold_iff_snap_fired (fuel : Nat) (e : EditorWindow α) (g : Int)
    (hs : SmartLowers e) (hgs : getGridSpacing fuel e = some g) :
    (∀ (x y1 y2 : α) (excl : Bool),
      ∃ s, snapXCoord fuel e x y1 y2 excl = some s ∧
        s.distance ≤ (SNAP_DISTANCE : α) / e.mZoom ∧
        (s.distance < (SNAP_DISTANCE : α) / e.mZoom ↔ SnapFiredX e x y1 y2 excl) ∧
        (¬ SnapFiredX e x y1 y2 excl →
          s.distance = (SNAP_DISTANCE : α) / e.mZoom ∧ s.line = QLineF.null) ∧
        (Utils.isNull s.line = false → SnapFiredX e x y1 y2 excl) ∧
        (GuideFired e e.vertGuides x → e.options.enableSmartGuides = false →
          s.line = ⟨s.coord, y1, s.coord, y2⟩)) ∧
    (∀ (y x1 x2 : α) (excl : Bool),
      ∃ s, snapYCoord fuel e y x1 x2 excl = some s ∧
        s.distance ≤ (SNAP_DISTANCE : α) / e.mZoom ∧
        (s.distance < (SNAP_DISTANCE : α) / e.mZoom ↔ SnapFiredY e y x1 x2 excl) ∧
        (¬ SnapFiredY e y x1 x2 excl →
          s.distance = (SNAP_DISTANCE : α) / e.mZoom ∧ s.line = QLineF.null) ∧
        (Utils.isNull s.line = false → SnapFiredY e y x1 x2 excl) ∧
        (GuideFired e e.horzGuides y → e.options.enableSmartGuides = false →
          s.line = ⟨x1, s.coord, x2, s.coord⟩)) :=
  ⟨fun x y1 y2 excl => snapXCoord_fired fuel e x y1 y2 excl g hs hgs,
    fun y x1 x2 excl => snapYCoord_fired fuel e y x1 x2 excl g hs hgs⟩

end FiredClaims

/-- The three X probes of the rectangle (1,0)-(101,50) in `oneGuideEditor`: the left
edge snaps to the axis and the center to the guide at 52, both at distance 1;
the right edge finds nothing. -/
theorem oneGuideEditor_probes :
    snapXCoord 0 (oneGuideEditor : EditorWindow ℚ) 1 0 50 true = some ⟨0, 1, ⟨0, 0, 0, 50⟩⟩ ∧
    snapXCoord 0 (oneGuideEditor : EditorWindow ℚ) 51 25 25 true = some ⟨52, 1, ⟨52, 25, 52, 25⟩⟩ ∧
    snapXCoord 0 (oneGuideEditor : EditorWindow ℚ) 101 0 50 true = some ⟨101, 4, QLineF.null⟩ := by
  refine ⟨?_, ?_, ?_⟩ <;>
  norm_num [snapXCoord, snapToGuidesStep, Scene.findGuide, Scene.findGuideAux, Scene.getGuide,
    oneGuideEditor, EditorWindow.init, SNAP_DISTANCE, abs_lt]

/-- The smart-guide queries of `oneGuideEditor` find nothing. -/
theorem oneGuideEditor_smartLowers : SmartLowers (oneGuideEditor : EditorWindow ℚ) :=
  ⟨fun _ _ _ _ _ => Or.inl rfl, fun _ _ _ _ _ => Or.inl rfl⟩

/-- The origin fires for the value 1 in `axisEditor`. -/
theorem axisEditor_origin_fired :
    GuideFired (axisEditor : EditorWindow ℚ) (axisEditor : EditorWindow ℚ).vertGuides 1 := by
  refine ⟨rfl, Or.inr ?_⟩
  norm_num [Scene.findGuide, Scene.findGuideAux, axisEditor, EditorWindow.init, SNAP_DISTANCE,
    abs_lt]

/-- The center probe of the rectangle (-49,-25)-(51,25) in `axisEditor`: the
center (1, 0) snaps to the axis at distance 1, and the line drawn for it has all
coordinates zero. -/
theorem axisEditor_center_probe :
    snapXCoord 0 (axisEditor : EditorWindow ℚ) (⟨-49, -25, 100, 50⟩ : QRectF ℚ).center.x
      (⟨-49, -25, 100, 50⟩ : QRectF ℚ).center.y (⟨-49, -25, 100, 50⟩ : QRectF ℚ).center.y true
      = some ⟨0, 1, ⟨0, 0, 0, 0⟩⟩ := by
  norm_num [snapXCoord, snapToGuidesStep, Scene.findGuide, Scene.findGuideAux, Scene.getGuide,
    axisEditor, EditorWindow.init, SNAP_DISTANCE, abs_lt, QRectF.center]

/-- C28, at a concrete input: in `oneGuideEditor` the value 51 snaps to the guide at
52 with a distance below the threshold, the value 101 finds nothing and reports
the threshold itself. -/
theorem C28_distance_below_threshold_iff_snap_fired_witness :
    SmartLowers (oneGuideEditor : EditorWindow ℚ) ∧
    getGridSpacing 0 (oneGuideEditor : EditorWindow ℚ) = some 10 ∧
    snapXCoord 0 (oneGuideEditor : EditorWindow ℚ) 51 25 25 true = some ⟨52, 1, ⟨52, 25, 52, 25⟩⟩ ∧
    snapXCoord 0 (oneGuideEditor : EditorWindow ℚ) 101 0 50 true = some ⟨101, 4, QLineF.null⟩ ∧
    (∃ s, snapXCoord 0 (oneGuideEditor : EditorWindow ℚ) 51 25 25 true = some s ∧
      (s.distance < (SNAP_DISTANCE : ℚ) / (oneGuideEditor : EditorWindow ℚ).mZoom ↔
        SnapFiredX (oneGuideEditor : EditorWindow ℚ) 51 25 25 true)) := by
  obtain ⟨s, h1, -, h2, -⟩ := (C28_distance_below_threshold_iff_snap_fired 0
    (oneGuideEditor : EditorWindow ℚ) 10 oneGuideEditor_smartLowers rfl).1 51 25 25 true
  exact ⟨oneGuideEditor_smartLowers, rfl, oneGuideEditor_probes.2.1, oneGuideEditor_probes.2.2,
    s, h1, h2⟩

/-- C28 as stated fails: in `axisEditor`, which has no guide, for the center
(1, 0) of the rectangle (-49,-25)-(51,25) the origin snap fires and the reported
distance 1 is below the threshold 4, yet the returned snap line is null. -/
theorem C28_counterexample :
    (axisEditor : EditorWindow ℚ).vertGuides = [] ∧
    (⟨-49, -25, 100, 50⟩ : QRectF ℚ).center = ⟨1, 0⟩ ∧
    GuideFired (axisEditor : EditorWindow ℚ) (axisEditor : EditorWindow ℚ).vertGuides 1 ∧
    (∃ s, snapXCoord 0 (axisEditor : EditorWindow ℚ) (⟨-49, -25, 100, 50⟩ : QRectF ℚ).center.x
        (⟨-49, -25, 100, 50⟩ : QRectF ℚ).center.y (⟨-49, -25, 100, 50⟩ : QRectF ℚ).center.y true
        = some s ∧
      s.distance < (SNAP_DISTANCE : ℚ) / (axisEditor : EditorWindow ℚ).mZoom ∧
      Utils.isNull s.line = true) := by
  refine ⟨rfl, by norm_num [QRectF.center], axisEditor_origin_fired, _, axisEditor_center_probe,
    ?_, ?_⟩
  · norm_num [axisEditor, EditorWindow.init, SNAP_DISTANCE]
  · simp [Utils.isNull]

/-! ## Claim about the snapshot lists -/

section SnapshotFacts

variable {α : Type}

/-- After `sortSelectedGameObjects` the snapshot lists are as long as the
selection if anything is selected. -/
theorem sortSelectedGameObjects_inv (e : EditorWindow α) :
    SnapshotInv (sortSelectedGameObjects e) := by
  unfold sortSelectedGameObjects
  by_cases h : e.mSelectedObjects.isEmpty = false
  · rw [if_pos h]
    intro _
    unfold SnapshotMatches
    simp
  · rw [if_neg h]
    intro hne
    exact absurd hne h

variable [LinearOrderedField α]

/-- The snapshot lists after `selectGameObjects`: rebuilt from a non-empty list
of objects, left as they were for an empty one. -/
theorem selectGameObjects_snapshot (e : EditorWindow α) (objects : List (GameObject α)) :
    (objects ≠ [] →
      (selectGameObjects e objects).mOriginalPositions = objects.map (fun o => o.position) ∧
      (selectGameObjects e objects).mOriginalSizes = objects.map (fun o => o.size) ∧
      (selectGameObjects e objects).mOriginalAngles = objects.map (fun o => o.angle)) ∧
    (objects = [] →
      (selectGameObjects e objects).mOriginalPositions = e.mOriginalPositions ∧
      (selectGameObjects e objects).mOriginalSizes = e.mOriginalSizes ∧
      (selectGameObjects e objects).mOriginalAngles = e.mOriginalAngles) := by
  unfold selectGameObjects updateAllowedEditorActions
  cases objects with
  | nil =>
    refine ⟨fun h => absurd rfl h, fun _ => ?_⟩
    simp only []
    split_ifs <;> exact ⟨rfl, rfl, rfl⟩
  | cons a as =>
    refine ⟨fun _ => ?_, fun h => by cases h⟩
    cases as with
    | nil => simp only []; split_ifs <;> exact ⟨rfl, rfl, rfl⟩
    | cons b bs => simp only []; split_ifs <;> exact ⟨rfl, rfl, rfl⟩

/-- After `selectGameObjects` on a non-empty list the snapshot lists are as long
as the selection. -/
theorem selectGameObjects_matches (e : EditorWindow α) (objects : List (GameObject α))
    (h : objects ≠ []) : SnapshotMatches (selectGameObjects e objects) := by
  obtain ⟨h1, h2, h3⟩ := (selectGameObjects_snapshot e objects).1 h
  unfold SnapshotMatches
  rw [h1, h2, h3, selectGameObjects_selected]
  simp

/-- After `selectGameObjects` the snapshot lists are as long as the selection if
anything is selected. -/
theorem selectGameObjects_inv (e : EditorWindow α) (objects : List (GameObject α)) :
    SnapshotInv (selectGameObjects e objects) := by
  intro hne
  apply selectGameObjects_matches
  rw [selectGameObjects_selected] at hne
  intro h
  rw [h] at hne
  simp at hne

/-- The operation `deselectAll` keeps the snapshot invariant. -/
theorem deselectAll_inv (e : EditorWindow α) (h : SnapshotInv e) : SnapshotInv (deselectAll e) := by
  unfold deselectAll
  split_ifs
  · exact selectGameObjects_inv e []
  · exact h

/-- The operation `selectAll` keeps the snapshot invariant. -/
theorem selectAll_inv (e : EditorWindow α) (active : List (GameObject α)) (h : SnapshotInv e) :
    SnapshotInv (selectAll e active) := by
  unfold selectAll
  split_ifs
  · exact selectGameObjects_inv e active
  · exact h

/-- The operation `paste` keeps the snapshot invariant. -/
theorem paste_inv (e : EditorWindow α) (layer : Option Nat)
    (records : List (Option (GameObject α))) (h : SnapshotInv e) :
    SnapshotInv (paste e layer records).1 := by
  unfold paste
  cases layer with
  | none => exact h
  | some layer =>
    simp only []
    split_ifs
    · exact h
    · cases loadAll records with
      | none => exact h
      | some objects => exact selectGameObjects_inv _ objects
    · exact h

/-- The operations `clear` and `cut` keep the snapshot invariant. -/
theorem clear_cut_inv (e : EditorWindow α) (h : SnapshotInv e) :
    SnapshotInv (clear e).1 ∧ SnapshotInv (cut e).1 := by
  constructor
  · unfold clear
    split_ifs
    · exact deselectAll_inv _ h
    · exact h
  · unfold cut
    split_ifs
    · apply deselectAll_inv
      have hc : SnapshotInv (copy e) := by
        unfold copy
        split_ifs
        · exact sortSelectedGameObjects_inv e
        · exact h
      exact hc
    · exact h

/-- The object rule of `mousePressEvent` (select, Ctrl-toggle) keeps the snapshot
invariant. -/
theorem pressObject_inv (e : EditorWindow α) (event : QMouseEvent) (object : GameObject α)
    (h : SnapshotInv e) : SnapshotInv (pressObject e event object) := by
  unfold pressObject
  by_cases hc : event.control = true
  · rw [if_pos hc]
    exact selectGameObjects_inv _ _
  · rw [if_neg hc]
    have h1 : SnapshotInv (if containsObject e.mSelectedObjects object = true then e
        else selectGameObjects e [object]) := by
      split_ifs
      · exact h
      · exact selectGameObjects_inv e [object]
    have h2 : ∀ e1 : EditorWindow α, SnapshotInv e1 →
        SnapshotInv (if e1.mMoveEnabled = true then
          ({ e1 with mEditorState := .STATE_MOVE } : EditorWindow α) else e1) := by
      intro e1 he1
      split_ifs
      · exact he1
      · exact he1
    exact h2 _ h1

/-- The last rule of `mousePressEvent` keeps the snapshot invariant. -/
theorem pressNothing_inv (e : EditorWindow α) (pos : QPointF α) (h : SnapshotInv e) :
    SnapshotInv (pressNothing e pos) :=
  deselectAll_inv e h

/-- The marker assignment of `mousePressEvent` keeps the snapshot invariant. -/
theorem pressMarker_inv (e : EditorWindow α) (pos : QPointF α) (h : SnapshotInv e) :
    SnapshotInv (pressMarker e pos) := by
  unfold pressMarker
  split_ifs
  · exact h
  · exact h

/-- The rules of `mousePressEvent` behind the guide rules keep the snapshot
invariant. -/
theorem pressSelection_inv (m : Libm α) (e : EditorWindow α) (event : QMouseEvent)
    (pos : QPointF α) (h : SnapshotInv e) : SnapshotInv (pressSelection m e event pos) := by
  have hm := pressMarker_inv e pos h
  unfold pressSelection
  simp only []
  split_ifs
  · exact h
  · exact hm
  · exact hm
  · cases e.findGameObjectByPoint pos with
    | none => exact pressNothing_inv _ pos hm
    | some object => exact pressObject_inv _ event object hm

/-- Method `mouseReleaseEvent` keeps the snapshot invariant. -/
theorem mouseReleaseEvent_inv (e : EditorWindow α) (event : QMouseEvent) (h : SnapshotInv e) :
    SnapshotInv (mouseReleaseEvent e event).1 := by
  have hc : SnapshotInv (releaseCommit e event).1 := by
    unfold releaseCommit
    cases e.mEditorState with
    | STATE_IDLE => exact h
    | STATE_SELECT => exact selectGameObjects_inv e _
    | STATE_MOVE => exact selectGameObjects_inv e _
    | STATE_RESIZE => exact selectGameObjects_inv e _
    | STATE_ROTATE => exact selectGameObjects_inv e _
    | STATE_MOVE_CENTER => exact h
    | STATE_HORZ_GUIDE =>
      simp only []
      split_ifs <;> exact h
    | STATE_VERT_GUIDE =>
      simp only []
      split_ifs <;> exact h
  have hk : SnapshotInv (releaseClick e) := by
    unfold releaseClick
    split_ifs
    · exact h
    · exact h
    · exact h
    · exact h
  unfold mouseReleaseEvent
  split_ifs
  · exact hc
  · exact hk
  · exact h

variable [FloorRing α]

/-- Method `mousePressEvent` keeps the snapshot invariant. -/
theorem mousePressEvent_inv (m : Libm α) (e : EditorWindow α) (event : QMouseEvent)
    (h : SnapshotInv e) : SnapshotInv (mousePressEvent m e event) := by
  unfold mousePressEvent
  split_ifs
  · have hb : SnapshotInv (pressBegin e event) := h
    unfold pressGuides
    simp only []
    split_ifs
    · exact hb
    · exact hb
    · exact hb
    · exact hb
    · exact pressSelection_inv m _ event _ hb
    · exact pressSelection_inv m _ event _ hb
  · exact h

end SnapshotFacts

section SnapshotClaims

variable {α : Type} [LinearOrderedField α] [FloorRing α]

/-- C21 (amended): `selectGameObjects` rebuilds the snapshot lists (original
positions, sizes and angles) only for a non-empty list of objects and leaves
them as they were when the selection is emptied.  So after every operation that
changes the selection (select and Ctrl-toggle in `mousePressEvent`, the marquee
commit in `mouseReleaseEvent`, `selectAll`, `deselectAll`, `paste`, `cut`,
`clear`) or re-sorts it by depth (`sortSelectedGameObjects`), the snapshot lists
have the same length as the list of selected objects whenever that list is not
empty. -/
theorem C21_snapshot_matches_nonempty_selection (m : Libm α) (e : EditorWindow α)
    (h : SnapshotInv e) :
    (∀ objects : List (GameObject α), objects ≠ [] →
      SnapshotMatches (selectGameObjects e objects)) ∧
    ((selectGameObjects e []).mOriginalPositions = e.mOriginalPositions ∧
      (selectGameObjects e []).mOriginalSizes = e.mOriginalSizes ∧
      (selectGameObjects e []).mOriginalAngles = e.mOriginalAngles) ∧
    (∀ (event : QMouseEvent) (object : GameObject α), SnapshotInv (pressObject e event object)) ∧
    (∀ event : QMouseEvent, SnapshotInv (mousePressEvent m e event)) ∧
    (∀ event : QMouseEvent, SnapshotInv (mouseReleaseEvent e event).1) ∧
    (∀ active : List (GameObject α), SnapshotInv (selectAll e active)) ∧
    SnapshotInv (deselectAll e) ∧
    (∀ (layer : Option Nat) (records : List (Option (GameObject α))),
      SnapshotInv (paste e layer records).1) ∧
    SnapshotInv (cut e).1 ∧
    SnapshotInv (clear e).1 ∧
    SnapshotInv (sortSelectedGameObjects e) :=
  ⟨fun objects hne => selectGameObjects_matches e objects hne,
    (selectGameObjects_snapshot e []).2 rfl,
    fun event object => pressObject_inv e event object h,
    fun event => mousePressEvent_inv m e event h,
    fun event => mouseReleaseEvent_inv e event h,
    fun active => selectAll_inv e active h,
    deselectAll_inv e h,
    fun layer records => paste_inv e layer records h,
    (clear_cut_inv e h).2,
    (clear_cut_inv e h).1,
    sortSelectedGameObjects_inv e⟩

end SnapshotClaims

/-- The snapshot lists of `clickEditor` are as long as its selection. -/
theorem clickEditor_matches (α : Type) [LinearOrderedField α] :
    SnapshotMatches (clickEditor : EditorWindow α) := by
  simp [SnapshotMatches, clickEditor]

/-- C21, at a concrete input: in `clickEditor`, where one object is selected and
each snapshot list has one entry, selecting both objects of the scene gives
snapshot lists of length 2. -/
theorem C21_snapshot_matches_nonempty_selection_witness :
    SnapshotInv (clickEditor : EditorWindow ℝ) ∧
    (selectGameObjects (clickEditor : EditorWindow ℝ)
      [firstObject, secondObject]).mOriginalPositions.length = 2 ∧
    SnapshotMatches (selectGameObjects (clickEditor : EditorWindow ℝ) [firstObject, secondObject]) ∧
    SnapshotInv (mousePressEvent (Libm.real 0) (clickEditor : EditorWindow ℝ) pressOnSecond) := by
  have hinv : SnapshotInv (clickEditor : EditorWindow ℝ) := fun _ => clickEditor_matches ℝ
  have h := C21_snapshot_matches_nonempty_selection (Libm.real 0) (clickEditor : EditorWindow ℝ)
    hinv
  refine ⟨hinv, ?_, h.1 _ (by simp), h.2.2.2.1 pressOnSecond⟩
  rw [((selectGameObjects_snapshot (clickEditor : EditorWindow ℝ) [firstObject, secondObject]).1
    (by simp)).1]
  rfl

/-- C21 as stated fails: `deselectAll` in the idle `clickEditor`, whose selection
and snapshot lists have one entry each, empties the selection and leaves the
snapshot lists with their one entry. -/
theorem C21_counterexample :
    (clickEditor : EditorWindow ℚ).mEditorState = .STATE_IDLE ∧
    SnapshotMatches (clickEditor : EditorWindow ℚ) ∧
    (deselectAll (clickEditor : EditorWindow ℚ)).mSelectedObjects.length = 0 ∧
    (deselectAll (clickEditor : EditorWindow ℚ)).mOriginalPositions.length = 1 ∧
    ¬ SnapshotMatches (deselectAll (clickEditor : EditorWindow ℚ)) := by
  have hd : deselectAll (clickEditor : EditorWindow ℚ)
      = selectGameObjects (clickEditor : EditorWindow ℚ) [] := by
    unfold deselectAll
    rw [if_pos ⟨rfl, rfl⟩]
  have hsel : (deselectAll (clickEditor : EditorWindow ℚ)).mSelectedObjects.length = 0 := by
    rw [hd, selectGameObjects_selected]
    rfl
  have hpos : (deselectAll (clickEditor : EditorWindow ℚ)).mOriginalPositions.length = 1 := by
    rw [hd, ((selectGameObjects_snapshot (clickEditor : EditorWindow ℚ) []).2 rfl).1]
    rfl
  refine ⟨rfl, clickEditor_matches ℚ, hsel, hpos, ?_⟩
  intro hm
  have h1 := hm.1
  rw [hsel, hpos] at h1
  exact absurd h1 (by decide)

/-! ## Facts about moving up and back down in a single layer -/

section UpDownFacts

/-- One step of the single-layer `moveUp` loop: an object right behind `z`, at an
index above `k`, changes places with `z`. -/
theorem raise1_up_step (rest X B : List Nat) (x z : Nat) (k : Int) (hx : x ∉ X ++ [z])
    (hk : k ≤ (X.length : Int)) :
    (raise1 (fun index _ => index - 1) (x :: rest) k (X ++ z :: x :: B)).2
      = (raise1 (fun index _ => index - 1) rest (k + 1) (X ++ x :: z :: B)).2 := by
  have hL : X ++ z :: x :: B = (X ++ [z]) ++ x :: B := by simp
  have hidx : Layer.indexOfGameObject (X ++ z :: x :: B) x = ((X ++ [z]).length : Int) := by
    rw [hL]
    exact indexOfGameObject_mid _ _ _ hx
  have hc : ((X ++ [z]).length : Int) > k := by
    simp only [List.length_append, List.length_cons, List.length_nil, Nat.cast_add, Nat.cast_one]
    omega
  have hrem : Layer.removeGameObject (X ++ z :: x :: B) ((X ++ [z]).length : Int)
      = X ++ (z :: B) := by
    rw [hL, removeGameObject_mid]
    simp
  have hlen : ((X ++ [z]).length : Int) - 1 = (X.length : Int) := by simp
  conv_lhs => unfold raise1
  rw [hidx, if_pos hc, hrem, hlen, insertGameObject_mid]

/-- One step of the single-layer `moveDown` loop: an object right before `z`,
with more than `k` objects behind `z`, changes places with `z`. -/
theorem lower1_down_step (rest X B : List Nat) (x z : Nat) (k : Int) (hx : x ∉ X)
    (hk : k ≤ (B.length : Int)) :
    (lower1 (fun index _ => index + 1) (x :: rest) k (X ++ x :: z :: B)).2
      = (lower1 (fun index _ => index + 1) rest (k + 1) (X ++ z :: x :: B)).2 := by
  have hidx : Layer.indexOfGameObject (X ++ x :: z :: B) x = (X.length : Int) :=
    indexOfGameObject_mid _ _ _ hx
  have hc : (X.length : Int) < Layer.getNumGameObjects (X ++ x :: z :: B) - 1 - k := by
    unfold Layer.getNumGameObjects
    simp only [List.length_append, List.length_cons, Nat.cast_add, Nat.cast_one]
    omega
  have hrem : Layer.removeGameObject (X ++ x :: z :: B) (X.length : Int) = (X ++ [z]) ++ B := by
    rw [removeGameObject_mid]
    simp
  have hlen : (X.length : Int) + 1 = ((X ++ [z]).length : Int) := by simp
  conv_lhs => unfold lower1
  rw [hidx, if_pos hc, hrem, hlen, insertGameObject_mid]
  simp

/-- The single-layer lowering loop over a list of objects followed by another
list continues, for the second list, where the first list left off. -/
theorem lower1_append (target : Int → Int → Int) (A : List Nat) :
    ∀ (B : List Nat) (k : Int) (L : List Nat),
      (lower1 target (A ++ B) k L).2
        = (lower1 target B (k + (A.length : Int)) (lower1 target A k L).2).2 := by
  induction A with
  | nil =>
    intro B k L
    simp [lower1]
  | cons a A ih =>
    intro B k L
    have hk : k + ((a :: A).length : Int) = (k + 1) + (A.length : Int) := by
      simp only [List.length_cons, Nat.cast_add, Nat.cast_one]
      ring
    rw [hk, List.cons_append]
    conv_lhs => unfold lower1
    conv_rhs => rw [lower1]
    split_ifs
    · exact ih B (k + 1) _
    · exact ih B (k + 1) _

/-- The index of an object that lies behind two parts of equal length which do
not contain it. -/
theorem indexOfGameObject_behind (X1 X2 B : List Nat) (v : Nat) (h1 : v ∉ X1) (h2 : v ∉ X2)
    (hlen : X1.length = X2.length) :
    Layer.indexOfGameObject (X1 ++ B) v = Layer.indexOfGameObject (X2 ++ B) v := by
  unfold Layer.indexOfGameObject
  by_cases hB : v ∈ B
  · rw [if_pos (List.mem_append_right _ hB), if_pos (List.mem_append_right _ hB),
      List.indexOf_append_of_not_mem h1, List.indexOf_append_of_not_mem h2, hlen]
  · rw [if_neg (by simp [h1, hB]), if_neg (by simp [h2, hB])]

/-- Leaving out the objects of `x :: G` is leaving out `x` after leaving out the
objects of `G`. -/
theorem filter_not_mem_cons (x : Nat) (G l : List Nat) :
    l.filter (fun v => decide (v ∉ x :: G))
      = (l.filter (fun v => decide (v ∉ G))).filter (fun v => decide (v ≠ x)) := by
  rw [List.filter_filter]
  apply List.filter_congr
  intro v _
  simp [and_comm]

end UpDownFacts

section UpDownShiftFacts

/-- Moving up, in a single layer, objects `G` that lie behind `y` in ascending
child index: the part `X` before `y` stays, every object of `G` ends one position
nearer to the front, the objects outside `G` keep their order, and moving the
objects of `G` down again restores the list. -/
theorem raise1_up_shift (G : List Nat) :
    ∀ (k : Int) (X : List Nat) (y : Nat) (S : List Nat), (X ++ y :: S).Nodup → G.Sublist S →
      k ≤ (X.length : Int) →
      ∃ R, (raise1 (fun index _ => index - 1) G k (X ++ y :: S)).2 = X ++ R ∧
        G.Sublist R ∧ R.Perm (y :: S) ∧
        R.filter (fun v => decide (v ∉ G)) = (y :: S).filter (fun v => decide (v ∉ G)) ∧
        (∀ v ∈ G, Layer.indexOfGameObject (X ++ R) v
          = Layer.indexOfGameObject (X ++ y :: S) v - 1) ∧
        (lower1 (fun index _ => index + 1) G.reverse 0 (X ++ R)).2 = X ++ y :: S := by
  induction G with
  | nil =>
    intro k X y S _ _ _
    exact ⟨y :: S, by simp [raise1], List.nil_sublist _, List.Perm.refl _, rfl,
      fun v hv => absurd hv (List.not_mem_nil v), by simp [lower1]⟩
  | cons x G ih =>
    intro k X y S hnd hsub hk
    have hSnd : S.Nodup := (List.nodup_cons.mp (List.nodup_append.mp hnd).2.1).2
    obtain ⟨A, B, hS, hGB, -⟩ := split_at_sublist hsub hSnd
    obtain ⟨W, z, hW⟩ := exists_snoc (List.cons_ne_nil y A)
    -- the list before and after the step
    have hyS : y :: S = W ++ z :: x :: B := by
      rw [hS, ← List.cons_append, hW]
      simp
    have hL : X ++ y :: S = (X ++ W) ++ z :: x :: B := by
      rw [hyS, List.append_assoc]
    have hL1 : (X ++ W) ++ x :: z :: B = (X ++ W ++ [x]) ++ z :: B := by simp
    have hndL : ((X ++ W) ++ z :: x :: B).Nodup := hL ▸ hnd
    have hnd1 : ((X ++ W ++ [x]) ++ z :: B).Nodup := by
      rw [← hL1]
      exact (List.Perm.append_left (X ++ W) (List.Perm.swap x z B)).nodup_iff.mp hndL
    have hxXW : x ∉ X ++ W := by
      intro h
      exact (List.nodup_append.mp hndL).2.2 h (by simp)
    have hxz : x ≠ z := by
      intro h
      have h2 := (List.nodup_append.mp hndL).2.1
      rw [List.nodup_cons] at h2
      exact h2.1 (h ▸ List.mem_cons_self _ _)
    have hxXWz : x ∉ (X ++ W) ++ [z] := by
      intro h
      rcases List.mem_append.mp h with h | h
      · exact hxXW h
      · exact hxz (List.mem_singleton.mp h)
    have hkXW : k ≤ ((X ++ W).length : Int) := by
      simp only [List.length_append, Nat.cast_add]
      omega
    have hk1 : k + 1 ≤ ((X ++ W ++ [x]).length : Int) := by
      simp only [List.length_append, List.length_cons, List.length_nil, Nat.cast_add,
        Nat.cast_one]
      omega
    obtain ⟨R1, hres, hsubR, hperm, hfil, hidx, hback⟩ :=
      ih (k + 1) (X ++ W ++ [x]) z B hnd1 hGB hk1
    have hstep := raise1_up_step G (X ++ W) B x z k hxXWz hkXW
    refine ⟨W ++ x :: R1, ?_, ?_, ?_, ?_, ?_, ?_⟩
    · rw [hL, hstep, hL1, hres]
      simp
    · exact (List.Sublist.cons₂ x hsubR).trans (List.sublist_append_right W _)
    · rw [hyS]
      refine List.Perm.append_left W ?_
      exact (List.Perm.cons x hperm).trans (List.Perm.swap z x B)
    · have hR : R1.filter (fun v => decide (v ∉ x :: G))
          = (z :: B).filter (fun v => decide (v ∉ x :: G)) := by
        rw [filter_not_mem_cons, hfil, ← filter_not_mem_cons]
      have hdrop : ∀ l : List Nat, (x :: l).filter (fun v => decide (v ∉ x :: G))
          = l.filter (fun v => decide (v ∉ x :: G)) := by
        intro l
        rw [List.filter_cons_of_neg (by simp)]
      have hz : (z :: x :: B).filter (fun v => decide (v ∉ x :: G))
          = (z :: B).filter (fun v => decide (v ∉ x :: G)) := by
        rw [List.filter_cons, hdrop, List.filter_cons]
      rw [hyS, List.filter_append, List.filter_append, hdrop, hR, hz]
    · intro v hv
      rcases List.mem_cons.mp hv with hvx | hvG
      · subst hvx
        have h1 : X ++ (W ++ v :: R1) = (X ++ W) ++ v :: R1 := by simp
        have h2 : X ++ y :: S = ((X ++ W) ++ [z]) ++ v :: B := by
          rw [hL]
          simp
        rw [h1, h2, indexOfGameObject_mid _ _ _ hxXW, indexOfGameObject_mid _ _ _ hxXWz]
        simp only [List.length_append, List.length_cons, List.length_nil, Nat.cast_add,
          Nat.cast_one]
        ring
      · have hvB : v ∈ B := hGB.subset hvG
        have hd := List.nodup_append.mp hnd1
        have hv1 : v ∉ X ++ W ++ [x] := fun h => hd.2.2 h (List.mem_cons_of_mem _ hvB)
        have hvz : v ≠ z := fun h => (List.nodup_cons.mp hd.2.1).1 (h ▸ hvB)
        have hvx : v ≠ x := fun h => hv1 (by simp [h])
        have hvXW : v ∉ X ++ W := fun h => hv1 (List.mem_append_left _ h)
        have h1 : X ++ (W ++ x :: R1) = (X ++ W ++ [x]) ++ R1 := by simp
        have h2 : (X ++ W ++ [x]) ++ z :: B = ((X ++ W) ++ [x, z]) ++ B := by simp
        have h3 : X ++ y :: S = ((X ++ W) ++ [z, x]) ++ B := by
          rw [hL]
          simp
        rw [h1, hidx v hvG, h2, h3]
        congr 1
        apply indexOfGameObject_behind
        · intro h
          rcases List.mem_append.mp h with h | h
          · exact hvXW h
          · simp only [List.mem_cons, List.mem_singleton, List.not_mem_nil, or_false] at h
            rcases h with h | h
            · exact hvx h
            · exact hvz h
        · intro h
          rcases List.mem_append.mp h with h | h
          · exact hvXW h
          · simp only [List.mem_cons, List.mem_singleton, List.not_mem_nil, or_false] at h
            rcases h with h | h
            · exact hvz h
            · exact hvx h
        · simp
    · have h1 : X ++ (W ++ x :: R1) = (X ++ W ++ [x]) ++ R1 := by simp
      have hlenG : ((0 : Int) + (G.reverse.length : Int)) ≤ (B.length : Int) := by
        have := hGB.length_le
        simp only [List.length_reverse, zero_add, Nat.cast_le]
        exact this
      rw [List.reverse_cons, lower1_append, h1, hback, ← hL1,
        lower1_down_step [] (X ++ W) B x z _ hxXW hlenG, hL]
      simp [lower1]

end UpDownShiftFacts

section UpDownLayerFacts

/-- Moving up, in a single layer without duplicates, objects listed in ascending
child index none of which is the first child: the objects keep their order among
themselves, each ends one position nearer to the front, the other objects keep
their order, and moving the objects down again restores the child list. -/
theorem raise1_up_layer (G L : List Nat) (hnd : L.Nodup) (hsub : G.Sublist L)
    (hhead : ∀ v ∈ G, Layer.indexOfGameObject L v ≠ 0) :
    G.Sublist (raise1 (fun index _ => index - 1) G 0 L).2 ∧
    (raise1 (fun index _ => index - 1) G 0 L).2.Perm L ∧
    (raise1 (fun index _ => index - 1) G 0 L).2.filter (fun v => decide (v ∉ G))
      = L.filter (fun v => decide (v ∉ G)) ∧
    (∀ v ∈ G, Layer.indexOfGameObject (raise1 (fun index _ => index - 1) G 0 L).2 v
      = Layer.indexOfGameObject L v - 1) ∧
    (lower1 (fun index _ => index + 1) G.reverse 0 (raise1 (fun index _ => index - 1) G 0 L).2).2
      = L := by
  cases L with
  | nil =>
    have hG : G = [] := List.sublist_nil.mp hsub
    subst hG
    simp [raise1, lower1]
  | cons y S =>
    have hyG : y ∉ G := by
      intro hy
      apply hhead y hy
      have := indexOfGameObject_mid [] S y (List.not_mem_nil y)
      simpa using this
    have hGS : G.Sublist S := by
      rcases List.sublist_cons_iff.mp hsub with h | ⟨r, hr, -⟩
      · exact h
      · exact absurd (hr ▸ List.mem_cons_self y r) hyG
    obtain ⟨R, hres, h1, h2, h3, h4, h5⟩ := raise1_up_shift G 0 [] y S (by simpa using hnd) hGS
      (by simp)
    simp only [List.nil_append] at hres h4 h5
    rw [hres]
    exact ⟨h1, h2, h3, h4, h5⟩

end UpDownLayerFacts

section UpDownEditorFacts

variable {α : Type}

/-- The editor after `moveUp` in the Idle state with a non-empty selection: the
parents, the state and the selection, which is the sorted one. -/
theorem moveUp_frame (e : EditorWindow α) (hidle : e.mEditorState = .STATE_IDLE)
    (hsel : e.mSelectedObjects.isEmpty = false) :
    (moveUp e).1.parentLayer = e.parentLayer ∧
    (moveUp e).1.sortGameObjects = e.sortGameObjects ∧
    (moveUp e).1.mEditorState = .STATE_IDLE ∧
    (moveUp e).1.mSelectedObjects = e.sortGameObjects e.children e.mSelectedObjects := by
  unfold moveUp
  rw [if_pos ⟨hidle, hsel⟩]
  unfold sortSelectedGameObjects
  rw [if_pos hsel]
  exact ⟨rfl, rfl, hidle, rfl⟩

/-- What `moveUp` does to the child list of a layer, in a well-formed scene with
a depth-sorted selection none of whose objects is the first child of its
parent. -/
theorem moveUp_layer (e : EditorWindow α) (hidle : e.mEditorState = .STATE_IDLE)
    (hsel : e.mSelectedObjects.isEmpty = false) (hwf : SceneWellFormed e)
    (hsort : DepthSorted e)
    (hfirst : ∀ o ∈ selectedIds e,
      Layer.indexOfGameObject (e.children (e.parentLayer o)) o ≠ 0) (p : Nat) :
    (layerGroup e p).Sublist ((moveUp e).1.children p) ∧
    ((moveUp e).1.children p).Perm (e.children p) ∧
    ((moveUp e).1.children p).filter (fun v => decide (v ∉ layerGroup e p))
      = (e.children p).filter (fun v => decide (v ∉ layerGroup e p)) ∧
    (∀ v ∈ layerGroup e p, Layer.indexOfGameObject ((moveUp e).1.children p) v
      = Layer.indexOfGameObject (e.children p) v - 1) ∧
    (lower1 (fun index _ => index + 1) (layerGroup e p).reverse 0 ((moveUp e).1.children p)).2
      = e.children p := by
  obtain ⟨-, -, ⟨hch, -⟩, -⟩ := reorder_unfold e hidle hsel
  obtain ⟨h1, -⟩ := raiseLoop_top e.parentLayer (fun index _ => index - 1) (sortedIds e)
    e.children hsort.2.1
  have hhead : ∀ v ∈ layerGroup e p, Layer.indexOfGameObject (e.children p) v ≠ 0 := by
    intro v hv
    unfold layerGroup at hv
    obtain ⟨hv1, hv2⟩ := List.mem_filter.mp hv
    have hpar : e.parentLayer v = p := by simpa using hv2
    have := hfirst v (hsort.1.mem_iff.mp hv1)
    rwa [hpar] at this
  have hkey := raise1_up_layer (layerGroup e p) (e.children p) (hwf.1 p) (hsort.2.2 p) hhead
  have heq : (moveUp e).1.children p
      = (raise1 (fun index _ => index - 1) (layerGroup e p) 0 (e.children p)).2 := by
    rw [hch, h1 p]
    rfl
  rw [heq]
  exact hkey

end UpDownEditorFacts

section UpDownRestoreFacts

variable {α : Type}

/-- In a well-formed scene with a depth-sorted selection none of whose objects
is the first child of its parent, `moveUp` takes every selected object one
position nearer to the front and keeps the order of the other objects, and
`moveDown` right after it, with the depth sort keeping its contract, restores
every child list. -/
theorem moveUp_moveDown (e : EditorWindow α) (hidle : e.mEditorState = .STATE_IDLE)
    (hsel : e.mSelectedObjects.isEmpty = false) (hwf : SceneWellFormed e)
    (hsort : DepthSorted e) (hsort2 : DepthSorted (moveUp e).1)
    (hfirst : ∀ o ∈ selectedIds e,
      Layer.indexOfGameObject (e.children (e.parentLayer o)) o ≠ 0) :
    (∀ o ∈ selectedIds e,
      Layer.indexOfGameObject ((moveUp e).1.children (e.parentLayer o)) o
        = Layer.indexOfGameObject (e.children (e.parentLayer o)) o - 1) ∧
    (∀ layer, ((moveUp e).1.children layer).filter (fun x => decide (x ∉ selectedIds e))
      = (e.children layer).filter (fun x => decide (x ∉ selectedIds e))) ∧
    (moveDown (moveUp e).1).1.children = e.children := by
  obtain ⟨hpar, -, hst, hselobj⟩ := moveUp_frame e hidle hsel
  have hlayer := moveUp_layer e hidle hsel hwf hsort hfirst
  have hids : selectedIds (moveUp e).1 = sortedIds e := by
    unfold selectedIds sortedIds
    rw [hselobj]
  -- membership in the group of a layer, for objects of that layer
  have hmem : ∀ p x, e.parentLayer x = p → (x ∈ layerGroup e p ↔ x ∈ sortedIds e) := by
    intro p x hx
    unfold layerGroup
    rw [List.mem_filter]
    simp [hx]
  have hparR : ∀ p, ∀ x ∈ (moveUp e).1.children p, e.parentLayer x = p := by
    intro p x hx
    exact hwf.2 p x ((hlayer p).2.1.mem_iff.mp hx)
  refine ⟨?_, ?_, ?_⟩
  · intro o ho
    apply (hlayer (e.parentLayer o)).2.2.2.1 o
    exact (hmem _ o rfl).mpr (hsort.1.mem_iff.mpr ho)
  · intro p
    have h1 : ((moveUp e).1.children p).filter (fun x => decide (x ∉ selectedIds e))
        = ((moveUp e).1.children p).filter (fun x => decide (x ∉ layerGroup e p)) := by
      apply List.filter_congr
      intro x hx
      simp [hmem p x (hparR p x hx), hsort.1.mem_iff]
    rw [h1, (hlayer p).2.2.1, (layerGroup_filter e hwf hsort p).2]
  · have hsel2 : (moveUp e).1.mSelectedObjects.isEmpty = false := by
      rw [hselobj]
      have hlen : (sortedIds e).length = (selectedIds e).length := hsort.1.length_eq
      unfold sortedIds selectedIds at hlen
      simp only [List.length_map] at hlen
      cases hs : e.sortGameObjects e.children e.mSelectedObjects with
      | nil =>
        rw [hs] at hlen
        cases hm : e.mSelectedObjects with
        | nil => rw [hm] at hsel; simp at hsel
        | cons a as => rw [hm] at hlen; simp at hlen
      | cons a as => rfl
    have hwf2 : SceneWellFormed (moveUp e).1 := by
      refine ⟨fun p => (hlayer p).2.1.nodup_iff.mpr (hwf.1 p), fun p o ho => ?_⟩
      rw [hpar]
      exact hparR p o ho
    have hgroup : ∀ p, layerGroup (moveUp e).1 p = layerGroup e p := by
      intro p
      rw [← (layerGroup_filter (moveUp e).1 hwf2 hsort2 p).1, hids]
      have h1 : ((moveUp e).1.children p).filter (fun x => decide (x ∈ sortedIds e))
          = ((moveUp e).1.children p).filter (fun x => decide (x ∈ layerGroup e p)) := by
        apply List.filter_congr
        intro x hx
        simp [hmem p x (hparR p x hx)]
      rw [h1]
      exact filter_mem_of_sublist (hlayer p).1 (hwf2.1 p)
    obtain ⟨-, -, -, ⟨hch, -⟩⟩ := reorder_unfold (moveUp e).1 hst hsel2
    obtain ⟨h1, -⟩ := lowerLoop_top (moveUp e).1.parentLayer (fun index _ => index + 1)
      (sortedIds (moveUp e).1) ((sortedIds (moveUp e).1).length - 1) (moveUp e).1.children
      hsort2.2.1
    funext p
    rw [hch, h1 p]
    have hg : (sortedIds (moveUp e).1).filter (fun o => decide ((moveUp e).1.parentLayer o = p))
        = layerGroup e p := hgroup p
    rw [hg]
    exact (hlayer p).2.2.2.2

end UpDownRestoreFacts

/-- The outcome of `moveUp` on `twoLayerEditor`. -/
theorem twoLayerEditor_up :
    (moveUp (twoLayerEditor : EditorWindow ℚ)).1.children 0 = [2, 3, 1] ∧
    (moveUp (twoLayerEditor : EditorWindow ℚ)).1.children 1 = [5, 4] ∧
    sortedIds (moveUp (twoLayerEditor : EditorWindow ℚ)).1 = [2, 3, 5] ∧
    selectedIds (moveUp (twoLayerEditor : EditorWindow ℚ)).1 = [2, 3, 5] := by
  refine ⟨?_, ?_, ?_, ?_⟩ <;> rfl

/-- The depth sort keeps its contract after `moveUp` on `twoLayerEditor`. -/
theorem twoLayerEditor_sorted_up : DepthSorted (moveUp (twoLayerEditor : EditorWindow ℚ)).1 :=
  twoLayer_sorted _ twoLayerEditor_up.2.2.1 (by rw [twoLayerEditor_up.2.2.2]) rfl
    (by rw [twoLayerEditor_up.1]; decide) (by rw [twoLayerEditor_up.2.1]; decide)

/-- No selected object of `twoLayerEditor` is the first child of its parent. -/
theorem twoLayerEditor_not_first :
    ∀ o ∈ selectedIds (twoLayerEditor : EditorWindow ℚ),
      Layer.indexOfGameObject ((twoLayerEditor : EditorWindow ℚ).children
        ((twoLayerEditor : EditorWindow ℚ).parentLayer o)) o ≠ 0 := by
  intro o ho
  have h : o = 5 ∨ o = 2 ∨ o = 3 := by
    simpa [selectedIds, twoLayerEditor, fifthObject, secondObject, thirdObject] using ho
  rcases h with h | h | h <;> subst h <;> decide

section UpDownClaims

variable {α : Type}

/-- C29: in the Idle state, for a well-formed scene and a non-empty selection in
which no selected object is at child index 0 of its parent, with the depth sort
listing the selected objects parent by parent in ascending child index at both
calls, `moveUp` shifts every selected object exactly one position toward the
front without changing the relative order of the non-selected objects, and an
immediately following `moveDown` restores the child order of every parent to
what it was before `moveUp`. -/
theorem C29_move_up_then_down_restores (e : EditorWindow α)
    (hidle : e.mEditorState = .STATE_IDLE) (hsel : e.mSelectedObjects.isEmpty = false)
    (hwf : SceneWellFormed e) (hsort : DepthSorted e) (hsort2 : DepthSorted (moveUp e).1)
    (hfirst : ∀ o ∈ selectedIds e,
      Layer.indexOfGameObject (e.children (e.parentLayer o)) o ≠ 0) :
    (∀ o ∈ selectedIds e,
      Layer.indexOfGameObject ((moveUp e).1.children (e.parentLayer o)) o
        = Layer.indexOfGameObject (e.children (e.parentLayer o)) o - 1) ∧
    (∀ layer, ((moveUp e).1.children layer).filter (fun x => decide (x ∉ selectedIds e))
      = (e.children layer).filter (fun x => decide (x ∉ selectedIds e))) ∧
    (moveDown (moveUp e).1).1.children = e.children :=
  moveUp_moveDown e hidle hsel hwf hsort hsort2 hfirst

end UpDownClaims

/-- C29, at a concrete input: in `twoLayerEditor` (layer 0 with the children
1, 2, 3, layer 1 with the children 4, 5, objects 5, 2 and 3 selected) `moveUp`
gives the child lists 2, 3, 1 and 5, 4, and `moveDown` right after it gives back
1, 2, 3 and 4, 5. -/
theorem C29_move_up_then_down_restores_witness :
    (twoLayerEditor : EditorWindow ℚ).mEditorState = .STATE_IDLE ∧
    (twoLayerEditor : EditorWindow ℚ).mSelectedObjects.isEmpty = false ∧
    SceneWellFormed (twoLayerEditor : EditorWindow ℚ) ∧
    DepthSorted (twoLayerEditor : EditorWindow ℚ) ∧
    DepthSorted (moveUp (twoLayerEditor : EditorWindow ℚ)).1 ∧
    (moveUp (twoLayerEditor : EditorWindow ℚ)).1.children 0 = [2, 3, 1] ∧
    (moveUp (twoLayerEditor : EditorWindow ℚ)).1.children 1 = [5, 4] ∧
    (moveDown (moveUp (twoLayerEditor : EditorWindow ℚ)).1).1.children 0 = [1, 2, 3] ∧
    (moveDown (moveUp (twoLayerEditor : EditorWindow ℚ)).1).1.children
      = (twoLayerEditor : EditorWindow ℚ).children := by
  have h := C29_move_up_then_down_restores (twoLayerEditor : EditorWindow ℚ) rfl rfl
    twoLayerEditor_wf twoLayerEditor_sorted twoLayerEditor_sorted_up twoLayerEditor_not_first
  refine ⟨rfl, rfl, twoLayerEditor_wf, twoLayerEditor_sorted, twoLayerEditor_sorted_up,
    twoLayerEditor_up.1, twoLayerEditor_up.2.1, ?_, h.2.2⟩
  rw [h.2.2]
  rfl

/-! ## Facts about rounded arithmetic -/

section RoundingFacts

variable {α : Type} [LinearOrderedField α]

theorem accurate_abs_le (fl : α → α) (u x : α) (h : Accurate fl u x) :
    |fl x| ≤ |x| + u * |x| := by
  unfold Accurate at h
  have := abs_sub_abs_le_abs_sub (fl x) x
  linarith

theorem accurate_abs_ge (fl : α → α) (u x : α) (h : Accurate fl u x) :
    |x| - u * |x| ≤ |fl x| := by
  unfold Accurate at h
  have := abs_sub_abs_le_abs_sub x (fl x)
  rw [abs_sub_comm x (fl x)] at this
  linarith

theorem accurate_id (x : α) : Accurate (fun y : α => y) 0 x := by
  simp [Accurate]

/-- Window to world and back, on one coordinate. -/
theorem roundtrip_window (fl : α → α) (u c z q : α) (hu0 : 0 ≤ u) (hu : u ≤ 1 / 8) (hz : z ≠ 0)
    (h1 : Accurate fl u (q / z)) (h2 : Accurate fl u (c + fl (q / z)))
    (h3 : Accurate fl u (fl (c + fl (q / z)) - c))
    (h4 : Accurate fl u (fl (fl (c + fl (q / z)) - c) * z)) :
    |fl (fl (fl (c + fl (q / z)) - c) * z) - q| ≤ u * (5 * |q| + 2 * |c * z|) := by
  unfold Accurate at h1 h2 h3 h4
  set a := fl (q / z) with ha
  set w := fl (c + a) with hw
  set s := fl (w - c) with hs
  set d := fl (s * z) with hd
  have hzp : 0 < |z| := abs_pos.mpr hz
  have hQ : 0 ≤ |q| := abs_nonneg q
  have hC : 0 ≤ |c * z| := abs_nonneg _
  have hP : 0 ≤ u * |q| := mul_nonneg hu0 hQ
  have hR : 0 ≤ u * |c * z| := mul_nonneg hu0 hC
  have hPP : u * (u * |q|) ≤ u * |q| / 8 := by
    have := mul_le_mul_of_nonneg_right hu hP
    linarith
  have hRR : u * (u * |c * z|) ≤ u * |c * z| / 8 := by
    have := mul_le_mul_of_nonneg_right hu hR
    linarith
  have hPPP : u * (u * (u * |q|)) ≤ u * |q| / 64 := by
    have h0 : 0 ≤ u * (u * |q|) := mul_nonneg hu0 hP
    have := mul_le_mul_of_nonneg_right hu h0
    linarith
  -- E1
  have e1 : |a * z - q| ≤ u * |q| := by
    have : a * z - q = (a - q / z) * z := by field_simp
    rw [this, abs_mul]
    calc |a - q / z| * |z| ≤ u * |q / z| * |z| := mul_le_mul_of_nonneg_right h1 hzp.le
      _ = u * |q| := by rw [abs_div]; field_simp
  have eaz : |a * z| ≤ |q| + u * |q| := by
    have := abs_sub_abs_le_abs_sub (a * z) q
    linarith
  have e2 : |(w - c - a) * z| ≤ u * (|c * z| + (|q| + u * |q|)) := by
    rw [abs_mul]
    have hh : |w - c - a| ≤ u * |c + a| := by
      have : w - c - a = w - (c + a) := by ring
      rw [this]; exact h2
    calc |w - c - a| * |z| ≤ u * |c + a| * |z| := mul_le_mul_of_nonneg_right hh hzp.le
      _ = u * |c * z + a * z| := by rw [mul_assoc, ← abs_mul]; ring_nf
      _ ≤ u * (|c * z| + (|q| + u * |q|)) := by
        apply mul_le_mul_of_nonneg_left _ hu0
        have := abs_add (c * z) (a * z)
        linarith
  have ewz : |(w - c) * z| ≤ |a * z| + |(w - c - a) * z| := by
    have : (w - c) * z = a * z + (w - c - a) * z := by ring
    rw [this]; exact abs_add _ _
  have e3 : |(s - (w - c)) * z| ≤ u * |(w - c) * z| := by
    rw [abs_mul, abs_mul, ← mul_assoc]
    exact mul_le_mul_of_nonneg_right h3 hzp.le
  have e3b : u * |(w - c) * z| ≤ u * (|a * z| + |(w - c - a) * z|) :=
    mul_le_mul_of_nonneg_left ewz hu0
  have e2u : u * |(w - c - a) * z| ≤ u * (u * (|c * z| + (|q| + u * |q|))) :=
    mul_le_mul_of_nonneg_left e2 hu0
  have eazu : u * |a * z| ≤ u * (|q| + u * |q|) := mul_le_mul_of_nonneg_left eaz hu0
  have esz : |s * z - q| ≤ |(s - (w - c)) * z| + |(w - c - a) * z| + |a * z - q| := by
    have : s * z - q = (s - (w - c)) * z + (w - c - a) * z + (a * z - q) := by ring
    rw [this]
    exact (abs_add _ _).trans (add_le_add_right (abs_add _ _) _)
  have hS : |s * z - q| ≤ 7 / 2 * (u * |q|) + 5 / 4 * (u * |c * z|) := by
    linarith
  have hsz : |s * z| ≤ |q| + |s * z - q| := by
    have := abs_sub_abs_le_abs_sub (s * z) q
    linarith
  have hS0 : 0 ≤ |s * z - q| := abs_nonneg _
  have huS : u * |s * z - q| ≤ |s * z - q| / 8 := by
    have := mul_le_mul_of_nonneg_right hu hS0
    linarith
  have h4b : u * |s * z| ≤ u * (|q| + |s * z - q|) := mul_le_mul_of_nonneg_left hsz hu0
  have hfin : |d - q| ≤ |d - s * z| + |s * z - q| := by
    have : d - q = (d - s * z) + (s * z - q) := by ring
    rw [this]; exact abs_add _ _
  linarith

/-- World to window and back, on one coordinate. -/
theorem roundtrip_world (fl : α → α) (u c z p : α) (hu0 : 0 ≤ u) (hu : u ≤ 1 / 8) (hz : z ≠ 0)
    (h1 : Accurate fl u (p - c)) (h2 : Accurate fl u (fl (p - c) * z))
    (h3 : Accurate fl u (fl (fl (p - c) * z) / z))
    (h4 : Accurate fl u (c + fl (fl (fl (p - c) * z) / z))) :
    |fl (c + fl (fl (fl (p - c) * z) / z)) - p| ≤ u * (4 * |p - c| + |p|) := by
  unfold Accurate at h1 h2 h3 h4
  set t := fl (p - c) with ht
  set s := fl (t * z) with hs
  set a := fl (s / z) with ha
  set r := fl (c + a) with hr
  have hzp : 0 < |z| := abs_pos.mpr hz
  have hD : 0 ≤ |p - c| := abs_nonneg _
  have hP : 0 ≤ u * |p - c| := mul_nonneg hu0 hD
  have hPP : u * (u * |p - c|) ≤ u * |p - c| / 8 := by
    have := mul_le_mul_of_nonneg_right hu hP
    linarith
  have hPPP : u * (u * (u * |p - c|)) ≤ u * |p - c| / 64 := by
    have h0 : 0 ≤ u * (u * |p - c|) := mul_nonneg hu0 hP
    have := mul_le_mul_of_nonneg_right hu h0
    linarith
  have et : |t| ≤ |p - c| + u * |p - c| := by
    have := abs_sub_abs_le_abs_sub t (p - c)
    linarith
  have e2 : |s / z - t| ≤ u * |t| := by
    have : s / z - t = (s - t * z) / z := by field_simp; ring
    rw [this, abs_div]
    rw [div_le_iff₀ hzp]
    calc |s - t * z| ≤ u * |t * z| := h2
      _ = u * |t| * |z| := by rw [abs_mul]; ring
  have esz : |s / z| ≤ |t| + u * |t| := by
    have := abs_sub_abs_le_abs_sub (s / z) t
    linarith
  have e3 : |a - s / z| ≤ u * (|t| + u * |t|) := h3.trans (mul_le_mul_of_nonneg_left esz hu0)
  have eat : |a - t| ≤ |a - s / z| + |s / z - t| := by
    have : a - t = (a - s / z) + (s / z - t) := by ring
    rw [this]; exact abs_add _ _
  have etu : u * |t| ≤ u * (|p - c| + u * |p - c|) := mul_le_mul_of_nonneg_left et hu0
  have etuu : u * (u * |t|) ≤ u * (u * (|p - c| + u * |p - c|)) :=
    mul_le_mul_of_nonneg_left etu hu0
  have ecap : |c + a - p| ≤ |t - (p - c)| + |a - t| := by
    have : c + a - p = (t - (p - c)) + (a - t) := by ring
    rw [this]; exact abs_add _ _
  have hE : |c + a - p| ≤ 7 / 2 * (u * |p - c|) := by
    linarith
  have hca : |c + a| ≤ |p| + |c + a - p| := by
    have := abs_sub_abs_le_abs_sub (c + a) p
    linarith
  have hE0 : 0 ≤ |c + a - p| := abs_nonneg _
  have huE : u * |c + a - p| ≤ |c + a - p| / 8 := by
    have := mul_le_mul_of_nonneg_right hu hE0
    linarith
  have h4b : u * |c + a| ≤ u * (|p| + |c + a - p|) := mul_le_mul_of_nonneg_left hca hu0
  have hfin : |r - p| ≤ |r - (c + a)| + |c + a - p| := by
    have : r - p = (r - (c + a)) + (c + a - p) := by ring
    rw [this]; exact abs_add _ _
  linarith

/-- The viewport center before and after `setZoom`, on one coordinate: `c0` is
the coordinate of the center before the call and `t` the offset of the center
from the camera at the new zoom. -/
theorem recenter (fl : α → α) (u c0 t : α) (hu0 : 0 ≤ u)
    (h1 : Accurate fl u (c0 - t)) (h2 : Accurate fl u (fl (c0 - t) + t)) :
    |fl (fl (c0 - t) + t) - c0| ≤ u * ((1 + u) * |c0 - t| + |c0|) := by
  unfold Accurate at h1 h2
  have e1 : |fl (c0 - t) + t - c0| ≤ u * |c0 - t| := by
    have : fl (c0 - t) + t - c0 = fl (c0 - t) - (c0 - t) := by ring
    rw [this]; exact h1
  have e2 : |fl (c0 - t) + t| ≤ |c0| + |fl (c0 - t) + t - c0| := by
    have := abs_sub_abs_le_abs_sub (fl (c0 - t) + t) c0
    linarith
  have e3 : u * |fl (c0 - t) + t| ≤ u * (|c0| + u * |c0 - t|) :=
    mul_le_mul_of_nonneg_left (e2.trans (by linarith)) hu0
  have hfin : |fl (fl (c0 - t) + t) - c0|
      ≤ |fl (fl (c0 - t) + t) - (fl (c0 - t) + t)| + |fl (c0 - t) + t - c0| := by
    have : fl (fl (c0 - t) + t) - c0
        = (fl (fl (c0 - t) + t) - (fl (c0 - t) + t)) + (fl (c0 - t) + t - c0) := by ring
    rw [this]; exact abs_add _ _
  have : u * ((1 + u) * |c0 - t| + |c0|) = u * |c0 - t| + u * (|c0| + u * |c0 - t|) := by ring
  rw [this]
  linarith

/-- The floor of the resize step on one axis: the factor `s` for the extent `w`. -/
theorem floor_axis (fl : α → α) (u w s : α) (hu0 : 0 ≤ u) (hu : u ≤ 1) (hw : w ≠ 0)
    (h : floorAccurate fl u w s) :
    (1 ≤ |fl (w * s)| → 1 - u ≤ |w * s|) ∧
    1 - u ≤ |w * fl ((if s ≥ 0 then 1 else -1) / w)| ∧
    1 - 2 * u ≤ |fl (w * fl ((if s ≥ 0 then 1 else -1) / w))| := by
  obtain ⟨h1, h2, h3⟩ := h
  have hwp : 0 < |w| := abs_pos.mpr hw
  have hsig : |(if s ≥ 0 then (1 : α) else -1)| = 1 := by split_ifs <;> simp
  have hexact : 1 - u ≤ |w * fl ((if s ≥ 0 then 1 else -1) / w)| := by
    have e1 : |w * fl ((if s ≥ 0 then 1 else -1) / w) - (if s ≥ 0 then 1 else -1)| ≤ u := by
      have : w * fl ((if s ≥ 0 then 1 else -1) / w) - (if s ≥ 0 then 1 else -1)
          = w * (fl ((if s ≥ 0 then 1 else -1) / w) - (if s ≥ 0 then 1 else -1) / w) := by
        field_simp
        ring
      rw [this, abs_mul]
      unfold Accurate at h2
      calc |w| * |fl ((if s ≥ 0 then 1 else -1) / w) - (if s ≥ 0 then 1 else -1) / w|
          ≤ |w| * (u * |(if s ≥ 0 then 1 else -1) / w|) := mul_le_mul_of_nonneg_left h2 hwp.le
        _ = u := by rw [abs_div, hsig]; field_simp
    have := abs_sub_abs_le_abs_sub (if s ≥ 0 then (1 : α) else -1)
      (w * fl ((if s ≥ 0 then 1 else -1) / w))
    rw [hsig, abs_sub_comm] at this
    linarith
  refine ⟨fun hge => ?_, hexact, ?_⟩
  · have := accurate_abs_le fl u _ h1
    have h0 : 0 ≤ |w * s| := abs_nonneg _
    have h00 : 0 ≤ u * |w * s| := mul_nonneg hu0 h0
    have h01 : u * (u * |w * s|) ≥ 0 := mul_nonneg hu0 h00
    have h02 : (1 - u) * (|w * s| + u * |w * s|) ≤ |w * s| := by
      have : (1 - u) * (|w * s| + u * |w * s|) = |w * s| - u * (u * |w * s|) := by ring
      linarith
    have h03 : (1 - u) * 1 ≤ (1 - u) * (|w * s| + u * |w * s|) :=
      mul_le_mul_of_nonneg_left (hge.trans this) (by linarith)
    linarith
  · have := accurate_abs_ge fl u _ h3
    have h1u : 0 ≤ 1 - u := by linarith
    have h04 : (1 - u) * (1 - u) ≤ (1 - u) * |w * fl ((if s ≥ 0 then 1 else -1) / w)| :=
      mul_le_mul_of_nonneg_left hexact h1u
    have h05 : 0 ≤ u * u := mul_nonneg hu0 hu0
    have : (1 - u) * |w * fl ((if s ≥ 0 then 1 else -1) / w)|
        = |w * fl ((if s ≥ 0 then 1 else -1) / w)|
          - u * |w * fl ((if s ≥ 0 then 1 else -1) / w)| := by ring
    have : (1 - u) * (1 - u) = 1 - 2 * u + u * u := by ring
    linarith

end RoundingFacts

section RoundingModelFacts

variable {α : Type} [LinearOrderedField α] [FloorRing α]

theorem roundHalfEven_abs (x : α) : |((roundHalfEven x : Int) : α) - x| ≤ 1 / 2 := by
  have h1 := Int.floor_le x
  have h2 := Int.lt_floor_add_one x
  unfold roundHalfEven
  split_ifs with ha hb hc
  · rw [abs_le]; constructor <;> linarith
  · rw [abs_le]; push_cast; constructor <;> linarith
  · rw [abs_le]; constructor <;> linarith
  · rw [abs_le]; push_cast; constructor <;> linarith

theorem roundHalfEven_eq (x : α) (n : Int) (h : |x - n| < 1 / 2) : roundHalfEven x = n := by
  have h1 := roundHalfEven_abs x
  rw [abs_lt] at h
  rw [abs_le] at h1
  have h3 : ((roundHalfEven x - n : Int) : α) < 1 := by push_cast; linarith
  have h4 : ((-1 : Int) : α) < ((roundHalfEven x - n : Int) : α) := by push_cast; linarith
  have h5 : roundHalfEven x - n < 1 := by exact_mod_cast h3
  have h6 : -1 < roundHalfEven x - n := by exact_mod_cast h4
  omega

theorem roundBits_eq (t : Int) (x : α) (e n : Int) (h1 : (2 : α) ^ e ≤ |x|)
    (h2 : |x| < (2 : α) ^ (e + 1)) (hn : |x / 2 ^ (e - t) - n| < 1 / 2) :
    roundBits t x = n * 2 ^ (e - t) := by
  have hpos : (0 : α) < |x| := lt_of_lt_of_le (by positivity) h1
  have hx : x ≠ 0 := abs_pos.mp hpos
  have hlog : Int.log 2 |x| = e := by
    have a1 : e ≤ Int.log 2 |x| := (Int.zpow_le_iff_le_log (by norm_num) hpos).mp (by exact_mod_cast h1)
    have a2 : Int.log 2 |x| < e + 1 := (Int.lt_zpow_iff_log_lt (by norm_num) hpos).mp (by exact_mod_cast h2)
    omega
  unfold roundBits
  rw [if_neg hx, hlog, roundHalfEven_eq _ n hn]

theorem roundBits_accurate (t : Int) (x : α) : |roundBits t x - x| ≤ 2 ^ (-t - 1) * |x| := by
  by_cases hx : x = 0
  · simp [roundBits, hx]
  have hpos : (0 : α) < |x| := abs_pos.mpr hx
  have hlog : (2 : α) ^ Int.log 2 |x| ≤ |x| := by
    have := Int.zpow_log_le_self (b := 2) (by norm_num) hpos
    exact_mod_cast this
  have hq : (0 : α) < 2 ^ (Int.log 2 |x| - t) := by positivity
  have hr := roundHalfEven_abs (x / 2 ^ (Int.log 2 |x| - t))
  unfold roundBits
  rw [if_neg hx]
  have e1 : ((roundHalfEven (x / 2 ^ (Int.log 2 |x| - t)) : Int) : α) * 2 ^ (Int.log 2 |x| - t) - x
      = (((roundHalfEven (x / 2 ^ (Int.log 2 |x| - t)) : Int) : α) - x / 2 ^ (Int.log 2 |x| - t))
        * 2 ^ (Int.log 2 |x| - t) := by
    field_simp
  rw [e1, abs_mul, abs_of_pos hq]
  have e2 : (2 : α) ^ (Int.log 2 |x| - t) = 2 ^ (-t - 1) * 2 * 2 ^ Int.log 2 |x| := by
    rw [show Int.log 2 |x| - t = (-t - 1) + 1 + Int.log 2 |x| by ring]
    rw [zpow_add₀ (by norm_num), zpow_add₀ (by norm_num), zpow_one]
  have h2 : (0 : α) < 2 ^ (-t - 1) := by positivity
  calc |((roundHalfEven (x / 2 ^ (Int.log 2 |x| - t)) : Int) : α) - x / 2 ^ (Int.log 2 |x| - t)|
        * 2 ^ (Int.log 2 |x| - t)
      ≤ 1 / 2 * 2 ^ (Int.log 2 |x| - t) := by
        exact mul_le_mul_of_nonneg_right hr hq.le
    _ = 2 ^ (-t - 1) * 2 ^ Int.log 2 |x| := by rw [e2]; ring
    _ ≤ 2 ^ (-t - 1) * |x| := mul_le_mul_of_nonneg_left hlog h2.le

theorem roundHalfEven_tie (x : α) (n : Int) (h : x = n + 1 / 2) :
    roundHalfEven x = if n % 2 = 0 then n else n + 1 := by
  have hf : ⌊x⌋ = n := by
    rw [Int.floor_eq_iff, h]
    constructor <;> linarith
  have hd : x - (n : α) = 1 / 2 := by rw [h]; ring
  unfold roundHalfEven
  rw [hf, hd]
  simp

theorem roundBits_zero (t : Int) : roundBits t (0 : α) = 0 := by simp [roundBits]

theorem roundBits_eq_pos (t : Int) (x : α) (e n : Int) (h1 : (2 : α) ^ e ≤ x)
    (h2 : x < (2 : α) ^ (e + 1)) (h3 : (n : α) - 1 / 2 < x / 2 ^ (e - t))
    (h4 : x / 2 ^ (e - t) < (n : α) + 1 / 2) : roundBits t x = n * 2 ^ (e - t) := by
  have hpos : (0 : α) < x := lt_of_lt_of_le (by positivity) h1
  refine roundBits_eq t x e n ?_ ?_ ?_
  · rwa [abs_of_pos hpos]
  · rwa [abs_of_pos hpos]
  · rw [abs_lt]; constructor <;> linarith

theorem roundBits_eq_neg (t : Int) (x : α) (e n : Int) (h1 : (2 : α) ^ e ≤ -x)
    (h2 : -x < (2 : α) ^ (e + 1)) (h3 : (n : α) - 1 / 2 < x / 2 ^ (e - t))
    (h4 : x / 2 ^ (e - t) < (n : α) + 1 / 2) : roundBits t x = n * 2 ^ (e - t) := by
  have hpos : (0 : α) < -x := lt_of_lt_of_le (by positivity) h1
  have hneg : x < 0 := by linarith
  refine roundBits_eq t x e n ?_ ?_ ?_
  · rwa [abs_of_neg hneg]
  · rwa [abs_of_neg hneg]
  · rw [abs_lt]; constructor <;> linarith

theorem roundBits_eq_tie_neg (t : Int) (x : α) (e n : Int) (h1 : (2 : α) ^ e ≤ -x)
    (h2 : -x < (2 : α) ^ (e + 1)) (h3 : x / 2 ^ (e - t) = (n : α) + 1 / 2) :
    roundBits t x = ((if n % 2 = 0 then n else n + 1 : Int) : α) * 2 ^ (e - t) := by
  have hpos : (0 : α) < -x := lt_of_lt_of_le (by positivity) h1
  have hneg : x < 0 := by linarith
  have hx : x ≠ 0 := hneg.ne
  have hlog : Int.log 2 |x| = e := by
    rw [abs_of_neg hneg]
    have a1 : e ≤ Int.log 2 (-x) :=
      (Int.zpow_le_iff_le_log (by norm_num) hpos).mp (by exact_mod_cast h1)
    have a2 : Int.log 2 (-x) < e + 1 :=
      (Int.lt_zpow_iff_log_lt (by norm_num) hpos).mp (by exact_mod_cast h2)
    omega
  unfold roundBits
  rw [if_neg hx, hlog, roundHalfEven_tie _ n h3]

theorem binary64_accurate (x : α) : |binary64 x - x| ≤ 1 / 2 ^ 53 * |x| := by
  have h := roundBits_accurate 52 x
  have e : (2 : α) ^ (-52 - 1 : Int) = 1 / 2 ^ 53 := by norm_num [zpow_neg]
  rw [e] at h
  exact h

theorem binary64_zero : binary64 (0 : α) = 0 := roundBits_zero 52

theorem binary64_eq_pos (x : α) (e n : Int) (h1 : (2 : α) ^ e ≤ x) (h2 : x < (2 : α) ^ (e + 1))
    (h3 : (n : α) - 1 / 2 < x / 2 ^ (e - 52)) (h4 : x / 2 ^ (e - 52) < (n : α) + 1 / 2) :
    binary64 x = n * 2 ^ (e - 52) :=
  roundBits_eq_pos 52 x e n h1 h2 h3 h4

theorem binary64_eq_neg (x : α) (e n : Int) (h1 : (2 : α) ^ e ≤ -x) (h2 : -x < (2 : α) ^ (e + 1))
    (h3 : (n : α) - 1 / 2 < x / 2 ^ (e - 52)) (h4 : x / 2 ^ (e - 52) < (n : α) + 1 / 2) :
    binary64 x = n * 2 ^ (e - 52) :=
  roundBits_eq_neg 52 x e n h1 h2 h3 h4

theorem binary64_eq_tie_neg (x : α) (e n : Int) (h1 : (2 : α) ^ e ≤ -x)
    (h2 : -x < (2 : α) ^ (e + 1)) (h3 : x / 2 ^ (e - 52) = (n : α) + 1 / 2) :
    binary64 x = ((if n % 2 = 0 then n else n + 1 : Int) : α) * 2 ^ (e - 52) :=
  roundBits_eq_tie_neg 52 x e n h1 h2 h3

end RoundingModelFacts

section LockFacts

variable {α : Type} [LinearOrderedField α]

end LockFacts

section RoundedFacts

variable {α : Type} [LinearOrderedField α]

theorem setZoomFl_far (fl : α → α) (e : EditorWindow α) (zoom : α)
    (h : ¬ |fl (zoom - e.mZoom)| < fl (5 / 1000)) :
    (setZoomFl fl e zoom).mZoom = zoom ∧
    (setZoomFl fl e zoom).mCameraPos =
      ⟨fl (fl (e.mCameraPos.x + fl (fl ((e.width : α) / 2) / e.mZoom))
          - fl (fl ((e.width : α) / 2) / zoom)),
        fl (fl (e.mCameraPos.y + fl (fl ((e.height : α) / 2) / e.mZoom))
          - fl (fl ((e.height : α) / 2) / zoom))⟩ ∧
    (setZoomFl fl e zoom).width = e.width ∧ (setZoomFl fl e zoom).height = e.height := by
  simp [setZoomFl, Utils.isEqualFl, h]

theorem setZoomFl_near (fl : α → α) (e : EditorWindow α) (zoom : α)
    (h : |fl (zoom - e.mZoom)| < fl (5 / 1000)) : setZoomFl fl e zoom = e := by
  simp [setZoomFl, Utils.isEqualFl, h]

/-- Without rounding `worldToWindowFl` is `worldToWindow`. -/
theorem worldToWindowFl_exact (e : EditorWindow α) (pt : QPointF α) :
    worldToWindowFl (fun x => x) e pt = worldToWindow e pt := rfl

/-- Without rounding `windowToWorldFl` is `windowToWorld`. -/
theorem windowToWorldFl_exact (e : EditorWindow α) (pt : QPointF α) :
    windowToWorldFl (fun x => x) e pt = windowToWorldF e pt := rfl

/-- Without rounding `setZoomFl` is `setZoom`. -/
theorem setZoomFl_exact (e : EditorWindow α) (zoom : α) :
    setZoomFl (fun x => x) e zoom = setZoom e zoom := rfl

/-- Without rounding `floorScaleFl` is `floorScale`. -/
theorem floorScaleFl_exact (rect : QRectF α) (scale : QPointF α) :
    floorScaleFl (fun x => x) rect scale = floorScale rect scale := rfl

/-- The viewport center after `setZoom` in rounded arithmetic. -/
theorem setZoomFl_center (fl : α → α) (e : EditorWindow α) (zoom : α)
    (h : ¬ |fl (zoom - e.mZoom)| < fl (5 / 1000)) :
    windowToWorldFl fl (setZoomFl fl e zoom) (viewportCenterFl fl (setZoomFl fl e zoom)) =
      ⟨fl (fl ((windowToWorldFl fl e (viewportCenterFl fl e)).x
          - fl (fl ((e.width : α) / 2) / zoom)) + fl (fl ((e.width : α) / 2) / zoom)),
        fl (fl ((windowToWorldFl fl e (viewportCenterFl fl e)).y
          - fl (fl ((e.height : α) / 2) / zoom)) + fl (fl ((e.height : α) / 2) / zoom))⟩ := by
  obtain ⟨h1, h2, h3, h4⟩ := setZoomFl_far fl e zoom h
  simp only [windowToWorldFl, viewportCenterFl, h1, h2, h3, h4]

end RoundedFacts

/-! ## Evaluations in the arithmetic of `double` -/

/-- The quotient 29 / 7 in `double`. -/
theorem binary64_29_7 : binary64 (29 / 7 : ℚ) = 4664442471205157 / 1125899906842624 := by
  rw [binary64_eq_pos (29 / 7) 2 4664442471205157 (by norm_num) (by norm_num)
    (by norm_num) (by norm_num)]
  norm_num

/-- The `double` nearest to 29 / 7 is its own rounding. -/
theorem binary64_29_7_fix :
    binary64 (4664442471205157 / 1125899906842624 : ℚ)
      = 4664442471205157 / 1125899906842624 := by
  rw [binary64_eq_pos (4664442471205157 / 1125899906842624) 2
    4664442471205157 (by norm_num) (by norm_num)
    (by norm_num) (by norm_num)]
  norm_num

/-- Seven times the `double` nearest to 29 / 7, in `double`. -/
theorem binary64_29_7_mul :
    binary64 (4664442471205157 / 1125899906842624 * 7 : ℚ)
      = 8162774324609025 / 281474976710656 := by
  rw [binary64_eq_pos (4664442471205157 / 1125899906842624 * 7) 4
    8162774324609025 (by norm_num) (by norm_num)
    (by norm_num) (by norm_num)]
  norm_num

/-- Half of 800 in `double`. -/
theorem binary64_800_2 : binary64 (800 / 2 : ℚ) = 400 := by
  rw [binary64_eq_pos (800 / 2) 8 7036874417766400 (by norm_num) (by norm_num)
    (by norm_num) (by norm_num)]
  norm_num

/-- Half of 600 in `double`. -/
theorem binary64_600_2 : binary64 (600 / 2 : ℚ) = 300 := by
  rw [binary64_eq_pos (600 / 2) 8 5277655813324800 (by norm_num) (by norm_num)
    (by norm_num) (by norm_num)]
  norm_num

/-- The quotient 400 / 3 in `double`. -/
theorem binary64_400_3 : binary64 (400 / 3 : ℚ) = 4691249611844267 / 35184372088832 := by
  rw [binary64_eq_pos (400 / 3) 7 4691249611844267 (by norm_num) (by norm_num)
    (by norm_num) (by norm_num)]
  norm_num

/-- The `double` nearest to 400 / 3 is its own rounding. -/
theorem binary64_400_3_fix :
    binary64 (4691249611844267 / 35184372088832 : ℚ)
      = 4691249611844267 / 35184372088832 := by
  rw [binary64_eq_pos (4691249611844267 / 35184372088832) 7
    4691249611844267 (by norm_num) (by norm_num)
    (by norm_num) (by norm_num)]
  norm_num

/-- The quotient 300 / 3 in `double`. -/
theorem binary64_300_3 : binary64 (300 / 3 : ℚ) = 100 := by
  rw [binary64_eq_pos (300 / 3) 6 7036874417766400 (by norm_num) (by norm_num)
    (by norm_num) (by norm_num)]
  norm_num

/-- The number 100 in `double`. -/
theorem binary64_100 : binary64 (100 : ℚ) = 100 := by
  rw [binary64_eq_pos (100) 6 7036874417766400 (by norm_num) (by norm_num)
    (by norm_num) (by norm_num)]
  norm_num

/-- The quotient 400 / 1 in `double`. -/
theorem binary64_400_1 : binary64 (400 / 1 : ℚ) = 400 := by
  rw [binary64_eq_pos (400 / 1) 8 7036874417766400 (by norm_num) (by norm_num)
    (by norm_num) (by norm_num)]
  norm_num

/-- The quotient 300 / 1 in `double`. -/
theorem binary64_300_1 : binary64 (300 / 1 : ℚ) = 300 := by
  rw [binary64_eq_pos (300 / 1) 8 5277655813324800 (by norm_num) (by norm_num)
    (by norm_num) (by norm_num)]
  norm_num

/-- The new camera abscissa, in `double`; the exact difference lies halfway
between two neighbours. -/
theorem binary64_camera_x :
    binary64 (4691249611844267 / 35184372088832 - 400 : ℚ)
      = (-2345624805922133 / 8796093022208) := by
  rw [binary64_eq_tie_neg (4691249611844267 / 35184372088832 - 400) 8 (-4691249611844267)
    (by norm_num) (by norm_num) (by norm_num)]
  norm_num

/-- The new camera ordinate, in `double`. -/
theorem binary64_camera_y : binary64 (100 - 300 : ℚ) = (-200) := by
  rw [binary64_eq_neg (100 - 300) 7 (-7036874417766400) (by norm_num) (by norm_num)
    (by norm_num) (by norm_num)]
  norm_num

/-- The abscissa of the new center, in `double`. -/
theorem binary64_center_x :
    binary64 ((-2345624805922133 / 8796093022208) + 400 : ℚ)
      = 1172812402961067 / 8796093022208 := by
  rw [binary64_eq_pos ((-2345624805922133 / 8796093022208) + 400) 7
    4691249611844268 (by norm_num) (by norm_num)
    (by norm_num) (by norm_num)]
  norm_num

/-- The ordinate of the new center, in `double`. -/
theorem binary64_center_y : binary64 (-200 + 300 : ℚ) = 100 := by
  rw [binary64_eq_pos (-200 + 300) 6 7036874417766400 (by norm_num) (by norm_num)
    (by norm_num) (by norm_num)]
  norm_num

/-- The difference of the zooms 1 and 3 in `double`. -/
theorem binary64_zoom_diff : binary64 (1 - 3 : ℚ) = (-2) := by
  rw [binary64_eq_neg (1 - 3) 1 (-4503599627370496) (by norm_num) (by norm_num)
    (by norm_num) (by norm_num)]
  norm_num

/-- The literal `0.005` in `double`. -/
theorem binary64_tolerance : binary64 (5 / 1000 : ℚ) = 5764607523034235 / 1152921504606846976 := by
  rw [binary64_eq_pos (5 / 1000) (-8) 5764607523034235 (by norm_num) (by norm_num)
    (by norm_num) (by norm_num)]
  norm_num

/-- The product 49 * 2^-10 in `double`. -/
theorem binary64_49_1024 : binary64 (49 * (1 / 1024) : ℚ) = 49 / 1024 := by
  rw [binary64_eq_pos (49 * (1 / 1024)) (-5) 6896136929411072 (by norm_num) (by norm_num)
    (by norm_num) (by norm_num)]
  norm_num

/-- The quotient 1 / 49 in `double`. -/
theorem binary64_1_49 : binary64 (1 / 49 : ℚ) = 5882252574524729 / 288230376151711744 := by
  rw [binary64_eq_pos (1 / 49) (-6) 5882252574524729 (by norm_num) (by norm_num)
    (by norm_num) (by norm_num)]
  norm_num

/-- The product of 49 and the `double` nearest to 1 / 49, in `double`. -/
theorem binary64_49_inv :
    binary64 (49 * (5882252574524729 / 288230376151711744) : ℚ)
      = 9007199254740991 / 9007199254740992 := by
  rw [binary64_eq_pos (49 * (5882252574524729 / 288230376151711744)) (-1)
    9007199254740991 (by norm_num) (by norm_num)
    (by norm_num) (by norm_num)]
  norm_num

/-- The product 50 * 1 in `double`. -/
theorem binary64_50 : binary64 (50 * 1 : ℚ) = 50 := by
  rw [binary64_eq_pos (50 * 1) 5 7036874417766400 (by norm_num) (by norm_num)
    (by norm_num) (by norm_num)]
  norm_num

/-! ## Claim about translation -/

section LockClaims

variable {α : Type} [LinearOrderedField α] [FloorRing α]

end LockClaims

/-! ## The axis-locked translation of the delta (0.1, 0) -/

/-- The constant `Utils::PI` of `Libm.double` is the `double` nearest to π. -/
theorem Libm.double_PI (eps : ℝ) : binary64 Real.pi = (Libm.double eps).PI := by
  have h1 := Real.pi_gt_d20
  have h2 := Real.pi_lt_d20
  rw [binary64_eq_pos Real.pi 1 7074237752028440 (by norm_num; linarith)
    (by norm_num; linarith) (by norm_num; linarith) (by norm_num; linarith)]
  norm_num [Libm.double]

section RoundedClaims

variable {α : Type} [LinearOrderedField α] [FloorRing α]

/-- C8 (amended): for an original selection rectangle of non-zero width and
height and any computed scale pair, after the floor of the resize step the
scaled width and height are at least one unit in magnitude up to rounding: with
`u` the unit roundoff (`2^-53` for `double`), and the three operations of the
floor neither overflowing nor underflowing, the product of the extent and the
resulting factor is at least `1 - u` in magnitude, and at least `1 - 2 u` when
it is evaluated in the arithmetic of the program.  A factor is left as computed
unless the extent scaled by it, as the program evaluates it, is below one unit,
and it is then the rounded `1 / extent` or `-1 / extent`, positive when the
computed factor is non-negative.  The resize step applies this floor to the pair
computed for the marker. -/
theorem C8_resize_floor_one_unit_up_to_rounding (fl : α → α) (u : α) (rect : QRectF α)
    (scale : QPointF α) (hu0 : 0 ≤ u) (hu : u ≤ 1)
    (hw : rect.width ≠ 0) (hh : rect.height ≠ 0) :
    (floorAccurate fl u rect.width scale.x →
      1 - u ≤ |rect.width * (floorScaleFl fl rect scale).x| ∧
      1 - 2 * u ≤ |fl (rect.width * (floorScaleFl fl rect scale).x)|) ∧
    (floorAccurate fl u rect.height scale.y →
      1 - u ≤ |rect.height * (floorScaleFl fl rect scale).y| ∧
      1 - 2 * u ≤ |fl (rect.height * (floorScaleFl fl rect scale).y)|) ∧
    (1 ≤ |fl (rect.width * scale.x)| → (floorScaleFl fl rect scale).x = scale.x) ∧
    (1 ≤ |fl (rect.height * scale.y)| → (floorScaleFl fl rect scale).y = scale.y) ∧
    (|fl (rect.width * scale.x)| < 1 →
      (floorScaleFl fl rect scale).x = fl ((if 0 ≤ scale.x then 1 else -1) / rect.width)) ∧
    (|fl (rect.height * scale.y)| < 1 →
      (floorScaleFl fl rect scale).y = fl ((if 0 ≤ scale.y then 1 else -1) / rect.height)) ∧
    (∀ (fuel : Nat) (e : EditorWindow α) (pos : QPointF α) (shift : Bool) (res : ResizeResult α),
      mouseMoveStateResize fuel e pos shift = some res →
      ∃ r, markerScale fuel e pos (shift || e.mKeepProportions) = some r ∧
        res.scale = floorScaleFl (fun x => x) e.mOriginalRect r.scale) := by
  have hu2 : 1 - 2 * u ≤ (1 : α) := by linarith
  refine ⟨fun hx => ?_, fun hy => ?_, ?_, ?_, ?_, ?_, ?_⟩
  · obtain ⟨x1, x2, x3⟩ := floor_axis fl u rect.width scale.x hu0 hu hw hx
    by_cases h : |fl (rect.width * scale.x)| < 1
    · simp only [floorScaleFl, if_pos h]; exact ⟨x2, x3⟩
    · simp only [floorScaleFl, if_neg h]; exact ⟨x1 (not_lt.mp h), hu2.trans (not_lt.mp h)⟩
  · obtain ⟨y1, y2, y3⟩ := floor_axis fl u rect.height scale.y hu0 hu hh hy
    by_cases h : |fl (rect.height * scale.y)| < 1
    · simp only [floorScaleFl, if_pos h]; exact ⟨y2, y3⟩
    · simp only [floorScaleFl, if_neg h]; exact ⟨y1 (not_lt.mp h), hu2.trans (not_lt.mp h)⟩
  · intro h
    simp only [floorScaleFl, if_neg (not_lt.mpr h)]
  · intro h
    simp only [floorScaleFl, if_neg (not_lt.mpr h)]
  · intro h
    simp only [floorScaleFl, if_pos h, ge_iff_le]
  · intro h
    simp only [floorScaleFl, if_pos h, ge_iff_le]
  · intro fuel e pos shift res hres
    simp only [mouseMoveStateResize, Option.map_eq_some'] at hres
    obtain ⟨r, hr, hrr⟩ := hres
    exact ⟨r, hr, by rw [← hrr]; rfl⟩

end RoundedClaims

section RoundedCameraClaims

variable {α : Type} [LinearOrderedField α]

/-- C24 (amended): `setZoom` re-centers the camera on the viewport center up to
rounding.  When the new zoom differs from the current zoom by 0.005 or more, as
the program evaluates the test (`|zoom - mZoom| < 0.005` fails in its
arithmetic), `setZoom` stores it, and on each axis the world coordinate shown at
the viewport center, `windowToWorld` of (width/2, height/2), differs after the
call from the coordinate `c` shown before by at most `u ((1 + u) |c - t| + |c|)`,
where `u` is the unit roundoff (`2^-53` for `double`) and `t` the offset
`(width/2) / zoom` of the center from the camera at the new zoom, provided the
subtraction of `setZoom` and the addition of `windowToWorld` neither overflow nor
underflow; in exact arithmetic (`u = 0`) the point is the same.  When the test
succeeds, camera position and zoom are left unchanged. -/
theorem C24_setZoom_keeps_viewport_center_up_to_rounding (fl : α → α) (u : α)
    (e : EditorWindow α) (zoom : α) (hu0 : 0 ≤ u) :
    (fl (5 / 1000) ≤ |fl (zoom - e.mZoom)| →
      (setZoomFl fl e zoom).mZoom = zoom ∧
      (setZoomAccurate fl u e.mCameraPos.x (fl ((e.width : α) / 2)) e.mZoom zoom →
        |(windowToWorldFl fl (setZoomFl fl e zoom)
              (viewportCenterFl fl (setZoomFl fl e zoom))).x
            - (windowToWorldFl fl e (viewportCenterFl fl e)).x|
          ≤ u * ((1 + u) * |(windowToWorldFl fl e (viewportCenterFl fl e)).x
                - fl (fl ((e.width : α) / 2) / zoom)|
              + |(windowToWorldFl fl e (viewportCenterFl fl e)).x|)) ∧
      (setZoomAccurate fl u e.mCameraPos.y (fl ((e.height : α) / 2)) e.mZoom zoom →
        |(windowToWorldFl fl (setZoomFl fl e zoom)
              (viewportCenterFl fl (setZoomFl fl e zoom))).y
            - (windowToWorldFl fl e (viewportCenterFl fl e)).y|
          ≤ u * ((1 + u) * |(windowToWorldFl fl e (viewportCenterFl fl e)).y
                - fl (fl ((e.height : α) / 2) / zoom)|
              + |(windowToWorldFl fl e (viewportCenterFl fl e)).y|))) ∧
    (|fl (zoom - e.mZoom)| < fl (5 / 1000) →
      (setZoomFl fl e zoom).mCameraPos = e.mCameraPos ∧ (setZoomFl fl e zoom).mZoom = e.mZoom) := by
  constructor
  · intro h
    have hfar : ¬ |fl (zoom - e.mZoom)| < fl (5 / 1000) := not_lt.mpr h
    refine ⟨(setZoomFl_far fl e zoom hfar).1, ?_, ?_⟩
    · intro hacc
      rw [setZoomFl_center fl e zoom hfar]
      exact recenter fl u _ _ hu0 hacc.1 hacc.2
    · intro hacc
      rw [setZoomFl_center fl e zoom hfar]
      exact recenter fl u _ _ hu0 hacc.1 hacc.2
  · intro h
    rw [setZoomFl_near fl e zoom h]
    exact ⟨rfl, rfl⟩

/-- C30 (amended): for every camera position and every non-zero zoom,
`windowToWorld` and `worldToWindow` are mutually inverse up to rounding.  With
`u` the unit roundoff (`2^-53` for `double`, at most 1/8), and no operation of
the two round trips overflowing or underflowing, each coordinate of
`windowToWorld(worldToWindow(p))` differs from that of `p` by at most
`u (4 |p - camera| + |p|)`, and each coordinate of
`worldToWindow(windowToWorld(q))` from that of `q` by at most
`u (5 |q| + 2 |camera * zoom|)`; in exact arithmetic (`u = 0`) both round trips
return their argument. -/
theorem C30_window_world_inverse_up_to_rounding (fl : α → α) (u : α) (e : EditorWindow α)
    (p q : QPointF α) (hu0 : 0 ≤ u) (hu : u ≤ 1 / 8) (hz : e.mZoom ≠ 0) :
    (worldToWindowAccurate fl u e p →
      windowToWorldAccurate fl u e (worldToWindowFl fl e p) →
      |(windowToWorldFl fl e (worldToWindowFl fl e p)).x - p.x|
        ≤ u * (4 * |p.x - e.mCameraPos.x| + |p.x|) ∧
      |(windowToWorldFl fl e (worldToWindowFl fl e p)).y - p.y|
        ≤ u * (4 * |p.y - e.mCameraPos.y| + |p.y|)) ∧
    (windowToWorldAccurate fl u e q →
      worldToWindowAccurate fl u e (windowToWorldFl fl e q) →
      |(worldToWindowFl fl e (windowToWorldFl fl e q)).x - q.x|
        ≤ u * (5 * |q.x| + 2 * |e.mCameraPos.x * e.mZoom|) ∧
      |(worldToWindowFl fl e (windowToWorldFl fl e q)).y - q.y|
        ≤ u * (5 * |q.y| + 2 * |e.mCameraPos.y * e.mZoom|)) :=
  ⟨fun hp1 hp2 =>
      ⟨roundtrip_world fl u _ _ _ hu0 hu hz hp1.1 hp1.2.1 hp2.1 hp2.2.1,
        roundtrip_world fl u _ _ _ hu0 hu hz hp1.2.2.1 hp1.2.2.2 hp2.2.2.1 hp2.2.2.2⟩,
    fun hq1 hq2 =>
      ⟨roundtrip_window fl u _ _ _ hu0 hu hz hq1.1 hq1.2.1 hq2.1 hq2.2.1,
        roundtrip_window fl u _ _ _ hu0 hu hz hq1.2.2.1 hq1.2.2.2 hq2.2.2.1 hq2.2.2.2⟩⟩

end RoundedCameraClaims

/-- C8, at a concrete input: the frame `narrowRect` with the computed pair
(2^-10, 1) in the arithmetic of `double`. -/
theorem C8_resize_floor_one_unit_up_to_rounding_witness :
    (0 : ℚ) ≤ 1 / 2 ^ 53 ∧ (1 : ℚ) / 2 ^ 53 ≤ 1 ∧
    (narrowRect : QRectF ℚ).width ≠ 0 ∧ (narrowRect : QRectF ℚ).height ≠ 0 ∧
    floorAccurate binary64 (1 / 2 ^ 53) (narrowRect : QRectF ℚ).width (1 / 1024) ∧
    floorAccurate binary64 (1 / 2 ^ 53) (narrowRect : QRectF ℚ).height 1 ∧
    1 - 1 / 2 ^ 53 ≤ |(narrowRect : QRectF ℚ).width
      * (floorScaleFl binary64 narrowRect ⟨1 / 1024, 1⟩).x| ∧
    1 - 2 * (1 / 2 ^ 53) ≤ |binary64 ((narrowRect : QRectF ℚ).width
      * (floorScaleFl binary64 narrowRect ⟨1 / 1024, 1⟩).x)| :=
  have hw : (narrowRect : QRectF ℚ).width ≠ 0 := by norm_num [narrowRect, QRectF.width]
  have hh : (narrowRect : QRectF ℚ).height ≠ 0 := by norm_num [narrowRect, QRectF.height]
  have hx : floorAccurate binary64 (1 / 2 ^ 53) (narrowRect : QRectF ℚ).width (1 / 1024) :=
    ⟨binary64_accurate _, binary64_accurate _, binary64_accurate _⟩
  have hy : floorAccurate binary64 (1 / 2 ^ 53) (narrowRect : QRectF ℚ).height 1 :=
    ⟨binary64_accurate _, binary64_accurate _, binary64_accurate _⟩
  ⟨by norm_num, by norm_num, hw, hh, hx, hy,
    ((C8_resize_floor_one_unit_up_to_rounding binary64 (1 / 2 ^ 53) narrowRect ⟨1 / 1024, 1⟩
      (by norm_num) (by norm_num) hw hh).1 hx).1,
    ((C8_resize_floor_one_unit_up_to_rounding binary64 (1 / 2 ^ 53) narrowRect ⟨1 / 1024, 1⟩
      (by norm_num) (by norm_num) hw hh).1 hx).2⟩

/-- The floor of the frame `narrowRect` on the pair (2^-10, 1) in the arithmetic
of `double`. -/
theorem narrowRect_floor :
    floorScaleFl binary64 (narrowRect : QRectF ℚ) ⟨1 / 1024, 1⟩
      = ⟨5882252574524729 / 288230376151711744, 1⟩ := by
  have e : floorScaleFl binary64 (narrowRect : QRectF ℚ) ⟨1 / 1024, 1⟩
      = ⟨if |binary64 (49 * (1 / 1024) : ℚ)| < 1 then
          binary64 ((if (1 / 1024 : ℚ) ≥ 0 then 1 else -1) / 49) else 1 / 1024,
        if |binary64 (50 * 1 : ℚ)| < 1 then binary64 ((if (1 : ℚ) ≥ 0 then 1 else -1) / 50)
        else 1⟩ := rfl
  have c1 : |(49 : ℚ) / 1024| < 1 := by rw [abs_of_pos (by norm_num)]; norm_num
  have c2 : ¬ |(50 : ℚ)| < 1 := by rw [abs_of_pos (by norm_num)]; norm_num
  have c3 : (1 / 1024 : ℚ) ≥ 0 := by norm_num
  rw [e, binary64_49_1024, binary64_50, if_pos c1, if_neg c2, if_pos c3, binary64_1_49]

/-- C8 fails as stated: for a frame 49 units wide and the computed factor 2^-10
the floor stores the `double` nearest to 1/49, and 49 times it is less than 1,
both exactly and as the program evaluates the product (`1 - 2^-53`). -/
theorem C8_counterexample :
    (narrowRect : QRectF ℚ).width ≠ 0 ∧ (narrowRect : QRectF ℚ).height ≠ 0 ∧
    (floorScaleFl binary64 (narrowRect : QRectF ℚ) ⟨1 / 1024, 1⟩).x
      = 5882252574524729 / 288230376151711744 ∧
    |(narrowRect : QRectF ℚ).width * (floorScaleFl binary64 narrowRect ⟨1 / 1024, 1⟩).x|
      = 1 - 23 / 2 ^ 58 ∧
    binary64 ((narrowRect : QRectF ℚ).width * (floorScaleFl binary64 narrowRect ⟨1 / 1024, 1⟩).x)
      = 1 - 1 / 2 ^ 53 ∧
    ¬ 1 ≤ |(narrowRect : QRectF ℚ).width * (floorScaleFl binary64 narrowRect ⟨1 / 1024, 1⟩).x| ∧
    ¬ 1 ≤ |binary64 ((narrowRect : QRectF ℚ).width
      * (floorScaleFl binary64 narrowRect ⟨1 / 1024, 1⟩).x)| := by
  have hw : (narrowRect : QRectF ℚ).width = 49 := rfl
  have hp : |(narrowRect : QRectF ℚ).width * (floorScaleFl binary64 narrowRect ⟨1 / 1024, 1⟩).x|
      = 1 - 23 / 2 ^ 58 := by
    rw [narrowRect_floor, hw]
    norm_num [abs_of_pos]
  have hm : binary64 ((narrowRect : QRectF ℚ).width
      * (floorScaleFl binary64 narrowRect ⟨1 / 1024, 1⟩).x) = 1 - 1 / 2 ^ 53 := by
    rw [narrowRect_floor, hw]
    show binary64 (49 * (5882252574524729 / 288230376151711744)) = 1 - 1 / 2 ^ 53
    rw [binary64_49_inv]
    norm_num
  refine ⟨by rw [hw]; norm_num, by norm_num [narrowRect, QRectF.height], ?_, hp, hm, ?_, ?_⟩
  · rw [narrowRect_floor]
  · rw [hp]; norm_num
  · rw [hm]; norm_num [abs_of_pos]

/-- The viewport center of `tripleZoomEditor` in the arithmetic of `double`. -/
theorem tripleZoomEditor_center :
    windowToWorldFl binary64 (tripleZoomEditor : EditorWindow ℚ)
        (viewportCenterFl binary64 tripleZoomEditor)
      = ⟨4691249611844267 / 35184372088832, 100⟩ := by
  have e : windowToWorldFl binary64 (tripleZoomEditor : EditorWindow ℚ)
        (viewportCenterFl binary64 tripleZoomEditor)
      = ⟨binary64 (0 + binary64 (binary64 (((800 : Int) : ℚ) / 2) / 3)),
        binary64 (0 + binary64 (binary64 (((600 : Int) : ℚ) / 2) / 3))⟩ := rfl
  rw [e, Int.cast_ofNat, Int.cast_ofNat, binary64_800_2, binary64_600_2, binary64_400_3,
    binary64_300_3, zero_add, zero_add, binary64_400_3_fix, binary64_100]

/-- The zoom 1 is not within the tolerance of the zoom of `tripleZoomEditor`. -/
theorem tripleZoomEditor_far :
    binary64 (5 / 1000) ≤ |binary64 (1 - (tripleZoomEditor : EditorWindow ℚ).mZoom)| := by
  show binary64 (5 / 1000) ≤ |binary64 (1 - 3)|
  rw [binary64_zoom_diff, binary64_tolerance]
  norm_num [abs_of_pos]

/-- The viewport center of `tripleZoomEditor` after `setZoom` to 1, in the
arithmetic of `double`. -/
theorem tripleZoomEditor_recenter :
    windowToWorldFl binary64 (setZoomFl binary64 (tripleZoomEditor : EditorWindow ℚ) 1)
        (viewportCenterFl binary64 (setZoomFl binary64 tripleZoomEditor 1))
      = ⟨1172812402961067 / 8796093022208, 100⟩ := by
  rw [setZoomFl_center binary64 tripleZoomEditor 1 (not_lt.mpr tripleZoomEditor_far),
    tripleZoomEditor_center]
  have e : (tripleZoomEditor : EditorWindow ℚ).width = 800 := rfl
  have e2 : (tripleZoomEditor : EditorWindow ℚ).height = 600 := rfl
  rw [e, e2, Int.cast_ofNat, Int.cast_ofNat, binary64_800_2, binary64_600_2, binary64_400_1,
    binary64_300_1]
  show (⟨binary64 (binary64 (4691249611844267 / 35184372088832 - 400) + 400),
    binary64 (binary64 (100 - 300) + 300)⟩ : QPointF ℚ) = _
  rw [binary64_camera_x, binary64_camera_y, binary64_center_x, binary64_center_y]

/-- C24, at a concrete input: at zoom `3.0` with the camera at the origin in an
800 x 600 widget, `setZoom` to 1 in the arithmetic of `double`. -/
theorem C24_setZoom_keeps_viewport_center_up_to_rounding_witness :
    (0 : ℚ) ≤ 1 / 2 ^ 53 ∧
    binary64 (5 / 1000) ≤ |binary64 (1 - (tripleZoomEditor : EditorWindow ℚ).mZoom)| ∧
    (setZoomFl binary64 (tripleZoomEditor : EditorWindow ℚ) 1).mZoom = 1 ∧
    |(windowToWorldFl binary64 (setZoomFl binary64 (tripleZoomEditor : EditorWindow ℚ) 1)
          (viewportCenterFl binary64 (setZoomFl binary64 tripleZoomEditor 1))).x
        - (windowToWorldFl binary64 (tripleZoomEditor : EditorWindow ℚ)
          (viewportCenterFl binary64 tripleZoomEditor)).x|
      ≤ 1 / 2 ^ 53 * ((1 + 1 / 2 ^ 53)
          * |(windowToWorldFl binary64 (tripleZoomEditor : EditorWindow ℚ)
              (viewportCenterFl binary64 tripleZoomEditor)).x
            - binary64 (binary64 (((tripleZoomEditor : EditorWindow ℚ).width : ℚ) / 2) / 1)|
          + |(windowToWorldFl binary64 (tripleZoomEditor : EditorWindow ℚ)
              (viewportCenterFl binary64 tripleZoomEditor)).x|) :=
  ⟨by norm_num, tripleZoomEditor_far,
    ((C24_setZoom_keeps_viewport_center_up_to_rounding binary64 (1 / 2 ^ 53)
      (tripleZoomEditor : EditorWindow ℚ) 1 (by norm_num)).1 tripleZoomEditor_far).1,
    ((C24_setZoom_keeps_viewport_center_up_to_rounding binary64 (1 / 2 ^ 53)
      (tripleZoomEditor : EditorWindow ℚ) 1 (by norm_num)).1 tripleZoomEditor_far).2.1
      ⟨binary64_accurate _, binary64_accurate _⟩⟩

/-- C24 fails as stated: at zoom `3.0` with the camera at the origin in an
800 x 600 widget the viewport center shows the world abscissa
133.33333333333334, and after `setZoom` to 1 it shows 133.33333333333337. -/
theorem C24_counterexample :
    (0 : ℚ) < (tripleZoomEditor : EditorWindow ℚ).mZoom ∧
    (5 : ℚ) / 1000 ≤ |1 - (tripleZoomEditor : EditorWindow ℚ).mZoom| ∧
    (setZoomFl binary64 (tripleZoomEditor : EditorWindow ℚ) 1).mZoom = 1 ∧
    windowToWorldFl binary64 (tripleZoomEditor : EditorWindow ℚ)
        (viewportCenterFl binary64 tripleZoomEditor)
      = ⟨4691249611844267 / 35184372088832, 100⟩ ∧
    windowToWorldFl binary64 (setZoomFl binary64 (tripleZoomEditor : EditorWindow ℚ) 1)
        (viewportCenterFl binary64 (setZoomFl binary64 tripleZoomEditor 1))
      = ⟨4691249611844267 / 35184372088832 + 1 / 2 ^ 45, 100⟩ ∧
    windowToWorldFl binary64 (setZoomFl binary64 (tripleZoomEditor : EditorWindow ℚ) 1)
        (viewportCenterFl binary64 (setZoomFl binary64 tripleZoomEditor 1))
      ≠ windowToWorldFl binary64 (tripleZoomEditor : EditorWindow ℚ)
        (viewportCenterFl binary64 tripleZoomEditor) := by
  have h3 : (tripleZoomEditor : EditorWindow ℚ).mZoom = 3 := rfl
  refine ⟨by rw [h3]; norm_num, by rw [h3]; norm_num [abs_of_neg],
    (setZoomFl_far binary64 tripleZoomEditor 1 (not_lt.mpr tripleZoomEditor_far)).1,
    tripleZoomEditor_center, ?_, ?_⟩
  · rw [tripleZoomEditor_recenter]
    norm_num
  · rw [tripleZoomEditor_recenter, tripleZoomEditor_center]
    intro h
    have := congrArg QPointF.x h
    norm_num at this

/-- The window point (29, 0) in the world of `sevenfoldEditor`, in the arithmetic
of `double`. -/
theorem sevenfoldEditor_world :
    windowToWorldFl binary64 (sevenfoldEditor : EditorWindow ℚ) ⟨29, 0⟩
      = ⟨4664442471205157 / 1125899906842624, 0⟩ := by
  have e : windowToWorldFl binary64 (sevenfoldEditor : EditorWindow ℚ) ⟨29, 0⟩
      = ⟨binary64 (0 + binary64 (29 / 7)), binary64 (0 + binary64 (0 / 7))⟩ := rfl
  rw [e, binary64_29_7, zero_add, binary64_29_7_fix, zero_div, binary64_zero, zero_add,
    binary64_zero]

/-- The window point (29, 0) taken to the world of `sevenfoldEditor` and back,
in the arithmetic of `double`. -/
theorem sevenfoldEditor_back :
    worldToWindowFl binary64 (sevenfoldEditor : EditorWindow ℚ)
        (windowToWorldFl binary64 (sevenfoldEditor : EditorWindow ℚ) ⟨29, 0⟩)
      = ⟨8162774324609025 / 281474976710656, 0⟩ := by
  rw [sevenfoldEditor_world]
  have e : worldToWindowFl binary64 (sevenfoldEditor : EditorWindow ℚ)
        ⟨4664442471205157 / 1125899906842624, 0⟩
      = ⟨binary64 (binary64 (4664442471205157 / 1125899906842624 - 0) * 7),
        binary64 (binary64 (0 - 0) * 7)⟩ := rfl
  rw [e, sub_zero, sub_zero, binary64_29_7_fix, binary64_29_7_mul, binary64_zero, zero_mul,
    binary64_zero]

/-- C30, at a concrete input: at zoom `7.0` with the camera at the origin, the
point (29, 0) in the arithmetic of `double`. -/
theorem C30_window_world_inverse_up_to_rounding_witness :
    (0 : ℚ) ≤ 1 / 2 ^ 53 ∧ (1 : ℚ) / 2 ^ 53 ≤ 1 / 8 ∧
    (sevenfoldEditor : EditorWindow ℚ).mZoom ≠ 0 ∧
    worldToWindowAccurate binary64 (1 / 2 ^ 53) (sevenfoldEditor : EditorWindow ℚ) ⟨29, 0⟩ ∧
    windowToWorldAccurate binary64 (1 / 2 ^ 53) (sevenfoldEditor : EditorWindow ℚ)
      (worldToWindowFl binary64 sevenfoldEditor ⟨29, 0⟩) ∧
    windowToWorldAccurate binary64 (1 / 2 ^ 53) (sevenfoldEditor : EditorWindow ℚ) ⟨29, 0⟩ ∧
    worldToWindowAccurate binary64 (1 / 2 ^ 53) (sevenfoldEditor : EditorWindow ℚ)
      (windowToWorldFl binary64 sevenfoldEditor ⟨29, 0⟩) ∧
    |(worldToWindowFl binary64 (sevenfoldEditor : EditorWindow ℚ)
        (windowToWorldFl binary64 sevenfoldEditor ⟨29, 0⟩)).x - (⟨29, 0⟩ : QPointF ℚ).x|
      ≤ 1 / 2 ^ 53 * (5 * |(⟨29, 0⟩ : QPointF ℚ).x|
        + 2 * |(sevenfoldEditor : EditorWindow ℚ).mCameraPos.x
          * (sevenfoldEditor : EditorWindow ℚ).mZoom|) :=
  have hz : (sevenfoldEditor : EditorWindow ℚ).mZoom ≠ 0 := by
    norm_num [sevenfoldEditor, EditorWindow.init]
  have h1 : worldToWindowAccurate binary64 (1 / 2 ^ 53) (sevenfoldEditor : EditorWindow ℚ)
      ⟨29, 0⟩ :=
    ⟨binary64_accurate _, binary64_accurate _, binary64_accurate _, binary64_accurate _⟩
  have h2 : windowToWorldAccurate binary64 (1 / 2 ^ 53) (sevenfoldEditor : EditorWindow ℚ)
      (worldToWindowFl binary64 sevenfoldEditor ⟨29, 0⟩) :=
    ⟨binary64_accurate _, binary64_accurate _, binary64_accurate _, binary64_accurate _⟩
  have h3 : windowToWorldAccurate binary64 (1 / 2 ^ 53) (sevenfoldEditor : EditorWindow ℚ)
      ⟨29, 0⟩ :=
    ⟨binary64_accurate _, binary64_accurate _, binary64_accurate _, binary64_accurate _⟩
  have h4 : worldToWindowAccurate binary64 (1 / 2 ^ 53) (sevenfoldEditor : EditorWindow ℚ)
      (windowToWorldFl binary64 sevenfoldEditor ⟨29, 0⟩) :=
    ⟨binary64_accurate _, binary64_accurate _, binary64_accurate _, binary64_accurate _⟩
  ⟨by norm_num, by norm_num, hz, h1, h2, h3, h4,
    ((C30_window_world_inverse_up_to_rounding binary64 (1 / 2 ^ 53)
      (sevenfoldEditor : EditorWindow ℚ) ⟨29, 0⟩ ⟨29, 0⟩ (by norm_num) (by norm_num) hz).2
      h3 h4).1⟩

/-- C30 fails as stated: at zoom `7.0` with the camera at the origin the window
point (29, 0) is taken to the world point whose abscissa is the `double` nearest
to 29/7, and that point is taken back to the window point (29 + 2^-48, 0). -/
theorem C30_counterexample :
    (sevenfoldEditor : EditorWindow ℚ).mZoom ≠ 0 ∧
    worldToWindowFl binary64 (sevenfoldEditor : EditorWindow ℚ)
        (windowToWorldFl binary64 (sevenfoldEditor : EditorWindow ℚ) ⟨29, 0⟩)
      = ⟨29 + 1 / 2 ^ 48, 0⟩ ∧
    worldToWindowFl binary64 (sevenfoldEditor : EditorWindow ℚ)
        (windowToWorldFl binary64 (sevenfoldEditor : EditorWindow ℚ) ⟨29, 0⟩)
      ≠ ⟨29, 0⟩ := by
  refine ⟨by norm_num [sevenfoldEditor, EditorWindow.init], ?_, ?_⟩
  · rw [sevenfoldEditor_back]
    norm_num
  · rw [sevenfoldEditor_back]
    intro h
    have := congrArg QPointF.x h
    norm_num at this

end GuiCreator
